import Mathlib

/-!
Mass kernels of `fem/bilininteg_mass_pa_ndk.cpp`.

A shallow embedding of the two sum-factorised 3-D mass kernels
(`NDK_SmemPAMassApply3D`, `NDK_RegsPAMassApply3D`) and of their run-time
dispatcher `NDK_PAMassApply`, over an arbitrary commutative ring `R` standing
for exact arithmetic.  Device memory is a function from flat offsets to values,
loops are explicit state-passing folds, and every barrier-delimited stage of a
kernel is a separate definition.
-/

namespace Mfem

open Finset

/-! ## Execution model -/

/-- Sequential counted loop `for (int i = 0; i < n; ++i) body`: the state reached
after the iterations `0, 1, ..., n-1` ran in that order. -/
def forLoop {σ : Type} : Nat → (Nat → σ → σ) → σ → σ
  | 0, _, s => s
  | n + 1, body, s => body n (forLoop n body s)

/-- Modelled from the spec: the instantiation of `MFEM_FORALL_3D` and
`MFEM_FOREACH_THREAD` (macros of `general/forall.hpp`, not under src/), which
make one body either a sequential loop nest or a group of threads.  On the host the element loop and every
thread loop are ordinary `for` loops run by one thread, and `MFEM_SYNC_THREAD`
does nothing.  On the device an element is run by a `Q1D x Q1D` block, iteration
`(x, y)` of a pair of thread loops being executed by thread `(x, y)`; between two
barriers the threads are taken one after the other, in loop order, each with its
own registers. -/
inductive Exec where
  | host : Exec
  | device : Exec
  deriving DecidableEq

/-- Modelled from the spec: the register file that iteration `(x, y)` of a pair
of `MFEM_FOREACH_THREAD` loops works on, the one register file of the single host
thread or the private one of device thread `(x, y)`. -/
def Exec.lane : Exec → Nat → Nat → Nat × Nat
  | Exec.host, _, _ => (0, 0)
  | Exec.device, x, y => (x, y)

/-- Modelled from the spec: the accessor `Reshape(p, N1, N2)` of
`general/dtensor.hpp` (not under src/), whose tensors are stored with the first
index running fastest; the offset of entry `(i, j)`. -/
def Reshape2 (N1 i j : Nat) : Nat := i + N1 * j

/-- Modelled from the spec: the accessor `Reshape(p, N1, N2, N3, NE)` of
`general/dtensor.hpp` (not under src/), first index fastest; the offset of entry
`(i, j, k, l)`. -/
def Reshape4 (N1 N2 N3 i j k l : Nat) : Nat := i + N1 * (j + N2 * (k + N3 * l))

/-- Offset of `p[i][j]` for `p` of C type `double (*)[n2]`. -/
def view2 (n2 i j : Nat) : Nat := i * n2 + j

/-- Offset of `p[i][j][k]` for `p` of C type `double (*)[n2][n3]`. -/
def view3 (n2 n3 i j k : Nat) : Nat := (i * n2 + j) * n3 + k

/-- The sign-flip decode `gid >= 0 ? gid : -1 - gid` of an index-map entry. -/
def decode (gid : Int) : Int := if gid ≥ 0 then gid else -1 - gid

/-- Global slot of local degree of freedom `(dx, dy, dz)` of element `e`: the
decoded map entry when a map is given, the position in the element-exclusive
`D1D x D1D x D1D x NE` array otherwise. -/
def dofSlot (D1D : Nat) (map : Option (Nat → Int)) (dx dy dz e : Nat) : Nat :=
  match map with
  | some MAP => (decode (MAP (Reshape4 D1D D1D D1D dx dy dz e))).toNat
  | none => Reshape4 D1D D1D D1D dx dy dz e

section Kernels

variable {R : Type} [CommRing R]

/-- Thread-local accumulator array of a staged-kernel thread (`double u[K]`): it
is zeroed on `[0, K)`, then `u[k] += term r k` runs for `r` outer and `k` inner. -/
def threadSums (K N : Nat) (term : Nat → Nat → R) (u : Nat → R) : Nat → R :=
  forLoop N (fun r u => forLoop K (fun k u => Function.update u k (u k + term r k)) u)
    (forLoop K (fun k u => Function.update u k 0) u)

/-! ## The staged (shared-memory) kernel, lines 21-245 -/

/-- Lines 49-55: `B[dx][dy] = b(dx,dy)` into `sDQ` viewed as `double (*)[D1D]`. -/
def SmemLoadB (D1D Q1D : Nat) (b_ : Nat → R) (sDQ : Nat → R) : Nat → R :=
  forLoop D1D (fun dy sDQ => forLoop Q1D (fun dx sDQ =>
    Function.update sDQ (view2 D1D dx dy) (b_ (Reshape2 Q1D dx dy))) sDQ) sDQ

/-- Lines 57-91: `DDQ[dz][dy][qx] = sum over dx of X(dx,dy,dz) * B[qx][dx]`, the
degrees of freedom being read through the map when there is one; `DDQ` is `sm1`
viewed as `double (*)[D1D][Q1D]`. -/
def SmemStage1 (D1D Q1D : Nat) (map : Option (Nat → Int)) (x_ : Nat → R) (e : Nat)
    (junk sDQ sm1 : Nat → R) : Nat → R :=
  forLoop D1D (fun dy sm1 => forLoop Q1D (fun qx sm1 =>
    let u := threadSums D1D D1D
      (fun dx dz => x_ (dofSlot D1D map dx dy dz e) * sDQ (view2 D1D qx dx)) junk
    forLoop D1D (fun dz sm1 => Function.update sm1 (view3 D1D Q1D dz dy qx) (u dz)) sm1)
    sm1) sm1

/-- Lines 93-118: `DQQ[dz][qy][qx] = sum over dy of DDQ[dz][dy][qx] * B[qy][dy]`;
`DQQ` is `sm0` viewed as `double (*)[Q1D][Q1D]`. -/
def SmemStage2 (D1D Q1D : Nat) (junk sDQ sm1 sm0 : Nat → R) : Nat → R :=
  forLoop Q1D (fun qy sm0 => forLoop Q1D (fun qx sm0 =>
    let u := threadSums D1D D1D
      (fun dy dz => sm1 (view3 D1D Q1D dz dy qx) * sDQ (view2 D1D qy dy)) junk
    forLoop D1D (fun dz sm0 => Function.update sm0 (view3 Q1D Q1D dz qy qx) (u dz)) sm0)
    sm0) sm0

/-- Lines 120-145: `QQQ[qz][qy][qx] = (sum over dz of DQQ[dz][qy][qx] * B[qz][dz])
* D(qx,qy,qz,e)`; `QQQ` is `sm1` viewed as `double (*)[Q1D][Q1D]`. -/
def SmemStage3 (D1D Q1D : Nat) (d_ : Nat → R) (e : Nat)
    (junk sDQ sm0 sm1 : Nat → R) : Nat → R :=
  forLoop Q1D (fun qy sm1 => forLoop Q1D (fun qx sm1 =>
    let u := threadSums Q1D D1D
      (fun dz qz => sm0 (view3 Q1D Q1D dz qy qx) * sDQ (view2 D1D qz dz)) junk
    forLoop Q1D (fun qz sm1 => Function.update sm1 (view3 Q1D Q1D qz qy qx)
      (u qz * d_ (Reshape4 Q1D Q1D Q1D qx qy qz e))) sm1) sm1) sm1

/-- Lines 147-153: `Bt[d][q] = b(q,d)` into `sDQ` viewed as `double (*)[Q1D]`. -/
def SmemLoadBt (D1D Q1D : Nat) (b_ : Nat → R) (sDQ : Nat → R) : Nat → R :=
  forLoop D1D (fun d sDQ => forLoop Q1D (fun q sDQ =>
    Function.update sDQ (view2 Q1D d q) (b_ (Reshape2 Q1D q d))) sDQ) sDQ

/-- Lines 155-180: `QQD[qz][qy][dx] = sum over qx of QQQ[qz][qy][qx] * Bt[dx][qx]`;
`QQD` is `sm0` viewed as `double (*)[Q1D][D1D]`. -/
def SmemStage4 (D1D Q1D : Nat) (junk sDQ sm1 sm0 : Nat → R) : Nat → R :=
  forLoop Q1D (fun qy sm0 => forLoop D1D (fun dx sm0 =>
    let u := threadSums Q1D Q1D
      (fun qx qz => sm1 (view3 Q1D Q1D qz qy qx) * sDQ (view2 Q1D dx qx)) junk
    forLoop Q1D (fun qz sm0 => Function.update sm0 (view3 Q1D D1D qz qy dx) (u qz)) sm0)
    sm0) sm0

/-- Lines 182-207: `QDD[qz][dy][dx] = sum over qy of QQD[qz][qy][dx] * Bt[dy][qy]`;
`QDD` is `sm1` viewed as `double (*)[D1D][D1D]`. -/
def SmemStage5 (D1D Q1D : Nat) (junk sDQ sm0 sm1 : Nat → R) : Nat → R :=
  forLoop D1D (fun dy sm1 => forLoop D1D (fun dx sm1 =>
    let u := threadSums Q1D Q1D
      (fun qy qz => sm0 (view3 Q1D D1D qz qy dx) * sDQ (view2 Q1D dy qy)) junk
    forLoop Q1D (fun qz sm1 => Function.update sm1 (view3 D1D D1D qz dy dx) (u qz)) sm1)
    sm1) sm1

/-- Lines 209-243: `u[dz] = sum over qz of QDD[qz][dy][dx] * Bt[dz][qz]` is added to
the output slot of `(dx, dy, dz)`: `AtomicAdd(Y(idx), u[dz])` through the map, or
`Y1(dx,dy,dz,e) += u[dz]` without one. -/
def SmemStage6 (D1D Q1D : Nat) (map : Option (Nat → Int)) (e : Nat)
    (junk sDQ sm1 y : Nat → R) : Nat → R :=
  forLoop D1D (fun dy y => forLoop D1D (fun dx y =>
    let u := threadSums D1D Q1D
      (fun qz dz => sm1 (view3 D1D D1D qz dy dx) * sDQ (view2 Q1D dz qz)) junk
    forLoop D1D (fun dz y =>
      Function.update y (dofSlot D1D map dx dy dz e)
        (y (dofSlot D1D map dx dy dz e) + u dz)) y) y) y

/-- Body of `MFEM_FORALL_3D` in `NDK_SmemPAMassApply3D` for element `e`: the
scratch arrays `sDQ`, `sm0`, `sm1` start with unspecified content `junk`, and
the stages run one after the other (each `MFEM_SYNC_THREAD` separates two). -/
def SmemElement (D1D Q1D : Nat) (map : Option (Nat → Int)) (b_ d_ x_ junk : Nat → R)
    (e : Nat) (y : Nat → R) : Nat → R :=
  let sDQ := SmemLoadB D1D Q1D b_ junk
  let sm1 := SmemStage1 D1D Q1D map x_ e junk sDQ junk
  let sm0 := SmemStage2 D1D Q1D junk sDQ sm1 junk
  let sm1 := SmemStage3 D1D Q1D d_ e junk sDQ sm0 sm1
  let sDQ := SmemLoadBt D1D Q1D b_ sDQ
  let sm0 := SmemStage4 D1D Q1D junk sDQ sm1 sm0
  let sm1 := SmemStage5 D1D Q1D junk sDQ sm0 sm1
  SmemStage6 D1D Q1D map e junk sDQ sm1 y

/-- `NDK_SmemPAMassApply3D<D1D,Q1D>(ndofs, NE, map, b_, d_, x_, y_)`: the content of
`y_` after the call.  `map = none` is the null pointer.  The accumulators `u` of
this kernel are declared inside the thread loops, so the host and the device
instantiation of the loops are the same function. -/
def NDK_SmemPAMassApply3D (D1D Q1D : Nat) (_ndofs NE : Nat) (map : Option (Nat → Int))
    (b_ d_ x_ y_ junk : Nat → R) : Nat → R :=
  forLoop NE (fun e y => SmemElement D1D Q1D map b_ d_ x_ junk e y) y_

/-! ## The register-blocked kernel, lines 247-424 -/

/-- Scratch memory of one element of the register-blocked kernel: the shared
arrays `s_B[Q1D][D1D]` and `s_q[Q1D][Q1D][Q1D]`, and the register arrays
`r_wk[Q1D]`, one for every register file (see `Exec.lane`). -/
structure RegsState (R : Type) where
  s_B : Nat × Nat → R
  s_q : Nat × Nat × Nat → R
  r_wk : (Nat × Nat) × Nat → R

/-- Lines 270-296, iteration `(a, b)` of the thread loops (`b` over `y`, `a` over
`x`): load a row entry of `B`, zero `r_wk`, load the degrees of freedom
`s_q[c][b][a]`. -/
def RegsLoadThread (ex : Exec) (D1D Q1D : Nat) (map : Option (Nat → Int))
    (b_ x_ : Nat → R) (e a b : Nat) (s : RegsState R) : RegsState R :=
  { s_B := if a < D1D then Function.update s.s_B (b, a) (b_ (Reshape2 Q1D b a)) else s.s_B
    r_wk := forLoop Q1D (fun i r => Function.update r (ex.lane a b, i) 0) s.r_wk
    s_q :=
      if a < D1D ∧ b < D1D then
        forLoop D1D (fun c q => Function.update q (c, b, a) (x_ (dofSlot D1D map a b c e))) s.s_q
      else s.s_q }

/-- Lines 299-318, iteration `(b, c)` (`c` over `y`, `b` over `x`): contraction
along `a`, `s_q[c][b][i] = sum over a of s_B[i][a] * s_q[c][b][a]`, accumulated in
`r_wk`, which is zeroed afterwards. -/
def RegsStage1Thread (ex : Exec) (D1D Q1D : Nat) (b c : Nat) (s : RegsState R) :
    RegsState R :=
  let s1 : RegsState R :=
    if b < D1D ∧ c < D1D then
      let r := forLoop D1D (fun a r => forLoop Q1D (fun i r =>
        Function.update r (ex.lane b c, i)
          (r (ex.lane b c, i) + s.s_B (i, a) * s.s_q (c, b, a))) r) s.r_wk
      { s with
        r_wk := r
        s_q := forLoop Q1D (fun i q => Function.update q (c, b, i) (r (ex.lane b c, i))) s.s_q }
    else s
  { s1 with r_wk := forLoop Q1D (fun j r => Function.update r (ex.lane b c, j) 0) s1.r_wk }

/-- Lines 321-340, iteration `(i, c)` (`c` over `y`, `i` over `x`): contraction
along `b`, `s_q[c][j][i] = sum over b of s_B[j][b] * s_q[c][b][i]`, accumulated in
`r_wk`, which is zeroed afterwards. -/
def RegsStage2Thread (ex : Exec) (D1D Q1D : Nat) (i c : Nat) (s : RegsState R) :
    RegsState R :=
  let s1 : RegsState R :=
    if i < Q1D ∧ c < D1D then
      let r := forLoop D1D (fun b r => forLoop Q1D (fun j r =>
        Function.update r (ex.lane i c, j)
          (r (ex.lane i c, j) + s.s_B (j, b) * s.s_q (c, b, i))) r) s.r_wk
      { s with
        r_wk := r
        s_q := forLoop Q1D (fun j q => Function.update q (c, j, i) (r (ex.lane i c, j))) s.s_q }
    else s
  { s1 with r_wk := forLoop Q1D (fun k r => Function.update r (ex.lane i c, k) 0) s1.r_wk }

/-- Lines 343-364, iteration `(i, j)` (`j` over `y`, `i` over `x`): contraction
along `c` accumulated onto `r_wk` as it stands, multiplication by the coefficient
`D(i,j,k,e)`, and the transposed contraction back to `s_q[c][j][i]`. -/
def RegsStage4Thread (ex : Exec) (D1D Q1D : Nat) (d_ : Nat → R) (e i j : Nat)
    (s : RegsState R) : RegsState R :=
  let r := forLoop D1D (fun c r => forLoop Q1D (fun k r =>
    Function.update r (ex.lane i j, k)
      (r (ex.lane i j, k) + s.s_B (k, c) * s.s_q (c, j, i))) r) s.r_wk
  let r := forLoop Q1D (fun k r =>
    Function.update r (ex.lane i j, k)
      (r (ex.lane i j, k) * d_ (Reshape4 Q1D Q1D Q1D i j k e))) r
  { s with
    r_wk := r
    s_q := forLoop D1D (fun c q =>
      Function.update q (c, j, i)
        (forLoop Q1D (fun k q_cji => q_cji + s.s_B (k, c) * r (ex.lane i j, k)) 0)) s.s_q }

/-- Lines 367-381, iteration `(i, c)` (`c` over `y`, `i` over `x`): `r_wk` is
loaded from `s_q[c][.][i]` and `s_q[c][b][i] = sum over j of s_B[j][b] * r_wk[j]`. -/
def RegsStage5Thread (ex : Exec) (D1D Q1D : Nat) (i c : Nat) (s : RegsState R) :
    RegsState R :=
  let r := forLoop Q1D (fun j r => Function.update r (ex.lane i c, j) (s.s_q (c, j, i))) s.r_wk
  { s with
    r_wk := r
    s_q := forLoop D1D (fun b q =>
      Function.update q (c, b, i)
        (forLoop Q1D (fun j q_cbi => q_cbi + s.s_B (j, b) * r (ex.lane i c, j)) 0)) s.s_q }

/-- Lines 384-398, iteration `(b, c)` (`c` over `y`, `b` over `x`): `r_wk` is
loaded from `s_q[c][b][.]` and `s_q[c][b][a] = sum over i of s_B[i][a] * r_wk[i]`. -/
def RegsStage6Thread (ex : Exec) (D1D Q1D : Nat) (b c : Nat) (s : RegsState R) :
    RegsState R :=
  let r := forLoop Q1D (fun i r => Function.update r (ex.lane b c, i) (s.s_q (c, b, i))) s.r_wk
  { s with
    r_wk := r
    s_q := forLoop D1D (fun a q =>
      Function.update q (c, b, a)
        (forLoop Q1D (fun i q_cba => q_cba + s.s_B (i, a) * r (ex.lane b c, i)) 0)) s.s_q }

/-- Lines 401-421: `s_q[c][b][a]` is added to the output slot of `(a, b, c)`:
`AtomicAdd(Y(idx), q_cba)` through the map, `Y1(a,b,c,e) += q_cba` without one. -/
def RegsStage7 (D1D : Nat) (map : Option (Nat → Int)) (e : Nat)
    (s_q : Nat × Nat × Nat → R) (y : Nat → R) : Nat → R :=
  forLoop D1D (fun b y => forLoop D1D (fun a y => forLoop D1D (fun c y =>
    Function.update y (dofSlot D1D map a b c e)
      (y (dofSlot D1D map a b c e) + s_q (c, b, a))) y) y) y

/-- Scratch memory of element `e` after the stages of lines 270-399 of
`NDK_RegsPAMassApply3D`, started from the unspecified content `junk`. -/
def RegsScratch (ex : Exec) (D1D Q1D : Nat) (map : Option (Nat → Int))
    (b_ d_ x_ : Nat → R) (junk : RegsState R) (e : Nat) : RegsState R :=
  let s := forLoop Q1D (fun b s => forLoop Q1D (fun a s =>
    RegsLoadThread ex D1D Q1D map b_ x_ e a b s) s) junk
  let s := forLoop Q1D (fun c s => forLoop Q1D (fun b s =>
    RegsStage1Thread ex D1D Q1D b c s) s) s
  let s := forLoop D1D (fun c s => forLoop Q1D (fun i s =>
    RegsStage2Thread ex D1D Q1D i c s) s) s
  let s := forLoop Q1D (fun j s => forLoop Q1D (fun i s =>
    RegsStage4Thread ex D1D Q1D d_ e i j s) s) s
  let s := forLoop D1D (fun c s => forLoop Q1D (fun i s =>
    RegsStage5Thread ex D1D Q1D i c s) s) s
  forLoop D1D (fun c s => forLoop D1D (fun b s =>
    RegsStage6Thread ex D1D Q1D b c s) s) s

/-- Body of `MFEM_FORALL_3D` in `NDK_RegsPAMassApply3D` for element `e`. -/
def RegsElement (ex : Exec) (D1D Q1D : Nat) (map : Option (Nat → Int))
    (b_ d_ x_ : Nat → R) (junk : RegsState R) (e : Nat) (y : Nat → R) : Nat → R :=
  RegsStage7 D1D map e (RegsScratch ex D1D Q1D map b_ d_ x_ junk e).s_q y

/-- `NDK_RegsPAMassApply3D<D1D,Q1D>(ndofs, NE, map, b_, d_, x_, y_)` under the
instantiation `ex` of the thread loops: the content of `y_` after the call. -/
def NDK_RegsPAMassApply3D (ex : Exec) (D1D Q1D : Nat) (_ndofs NE : Nat)
    (map : Option (Nat → Int)) (b_ d_ x_ y_ : Nat → R) (junk : RegsState R) : Nat → R :=
  forLoop NE (fun e y => RegsElement ex D1D Q1D map b_ d_ x_ junk e y) y_

end Kernels

/-! ## The dispatcher `NDK_PAMassApply`, lines 426-479 -/

/-- A kernel instantiation: the template and its compile-time parameters. -/
inductive Kernel where
  | Smem (D1D Q1D : Nat) : Kernel
  | Regs (D1D Q1D : Nat) : Kernel
  deriving DecidableEq

/-- The ways `NDK_PAMassApply` stops without running a kernel. -/
inductive Abort where
  | assertDim : Abort
  | unknownKernel (id : Nat) : Abort
  deriving DecidableEq

/-- Line 448: `id = (ver << 8) | (D1D << 4) | Q1D`. -/
def kernelId (ver D1D Q1D : Nat) : Nat := (ver <<< 8) ||| (D1D <<< 4) ||| Q1D

/-- Lines 450-476: the `switch (id)`; `none` is the `default` label. -/
def selectKernel (id : Nat) : Option Kernel :=
  if id = 0x023 then some (Kernel.Smem 2 3)
  else if id = 0x024 then some (Kernel.Smem 2 4)
  else if id = 0x034 then some (Kernel.Smem 3 4)
  else if id = 0x036 then some (Kernel.Smem 3 6)
  else if id = 0x045 then some (Kernel.Smem 4 5)
  else if id = 0x046 then some (Kernel.Smem 4 6)
  else if id = 0x048 then some (Kernel.Smem 4 8)
  else if id = 0x056 then some (Kernel.Smem 5 6)
  else if id = 0x058 then some (Kernel.Smem 5 8)
  else if id = 0x067 then some (Kernel.Smem 6 7)
  else if id = 0x078 then some (Kernel.Smem 7 8)
  else if id = 0x123 then some (Kernel.Regs 2 3)
  else if id = 0x124 then some (Kernel.Regs 2 4)
  else if id = 0x134 then some (Kernel.Regs 3 4)
  else if id = 0x136 then some (Kernel.Regs 3 6)
  else if id = 0x145 then some (Kernel.Regs 4 5)
  else if id = 0x146 then some (Kernel.Regs 4 6)
  else if id = 0x148 then some (Kernel.Regs 4 8)
  else if id = 0x156 then some (Kernel.Regs 5 6)
  else if id = 0x158 then some (Kernel.Regs 5 8)
  else if id = 0x167 then some (Kernel.Regs 6 7)
  else if id = 0x178 then some (Kernel.Regs 7 8)
  else none

/-- The eleven `(D1D, Q1D)` pairs of the dispatch table. -/
def supportedPairs : List (Nat × Nat) :=
  [(2, 3), (2, 4), (3, 4), (3, 6), (4, 5), (4, 6), (4, 8), (5, 6), (5, 8), (6, 7), (7, 8)]

section Dispatch

variable {R : Type} [CommRing R]

/-- Unspecified initial content of the scratch memory of both kernels. -/
structure Junk (R : Type) where
  smem : Nat → R
  regs : RegsState R

/-- Run a kernel instantiation on the run-time arguments. -/
def Kernel.run (ex : Exec) (ndofs NE : Nat) (map : Option (Nat → Int))
    (b d x y : Nat → R) (junk : Junk R) : Kernel → (Nat → R)
  | Kernel.Smem D1D Q1D => NDK_SmemPAMassApply3D D1D Q1D ndofs NE map b d x y junk.smem
  | Kernel.Regs D1D Q1D => NDK_RegsPAMassApply3D ex D1D Q1D ndofs NE map b d x y junk.regs

/-- The kernel `NDK_PAMassApply` runs for `(ver, dim, D1D, Q1D)`, `ver` being the
value of `DeviceKernelsVersion()`, or the reason why it aborts. -/
def NDK_PAMassApply_kernel (ver dim D1D Q1D : Nat) : Except Abort Kernel :=
  if dim = 3 then
    match selectKernel (kernelId ver D1D Q1D) with
    | some k => Except.ok k
    | none => Except.error (Abort.unknownKernel (kernelId ver D1D Q1D))
  else Except.error Abort.assertDim

/-- `NDK_PAMassApply(dim, D1D, Q1D, NE, fes, maps, D, X, Y)`: the content of `Y`
after the call, or the abort.  `ndofs` is `fes->GetNDofs()`, `map` the gather map
of the element restriction (or none), `b`, `d`, `x`, `y` the data of `maps->B`,
`D`, `X`, `Y`. -/
def NDK_PAMassApply (ex : Exec) (ver dim D1D Q1D NE ndofs : Nat)
    (map : Option (Nat → Int)) (b d x y : Nat → R) (junk : Junk R) :
    Except Abort (Nat → R) :=
  match NDK_PAMassApply_kernel ver dim D1D Q1D with
  | Except.ok k => Except.ok (k.run ex ndofs NE map b d x y junk)
  | Except.error a => Except.error a

end Dispatch

/-! ## The operator as the specification writes it -/

section Reference

variable {R : Type} [CommRing R]

/-- Entry `B(q, d)` of the `Q1D x D1D` basis matrix stored in `b_`. -/
def Bmat (Q1D : Nat) (b_ : Nat → R) (q d : Nat) : R := b_ (Reshape2 Q1D q d)

/-- Entry `D(qx, qy, qz, e)` of the coefficient tensor stored in `d_`. -/
def Dcoef (Q1D : Nat) (d_ : Nat → R) (e qx qy qz : Nat) : R :=
  d_ (Reshape4 Q1D Q1D Q1D qx qy qz e)

/-- Local degree of freedom `(ax, ay, az)` of element `e`: the entry of `x_` in
the slot of that degree of freedom (gathered through the map when there is one). -/
def Xloc (D1D : Nat) (map : Option (Nat → Int)) (x_ : Nat → R) (e ax ay az : Nat) : R :=
  x_ (dofSlot D1D map ax ay az e)

/-- The element contraction `B^t B^t B^t diag(D) B B B X` of the specification,
entry `(dx, dy, dz)`: the sum over the quadrature points `(qx, qy, qz)` of
`B(qx,dx) B(qy,dy) B(qz,dz) D(qx,qy,qz)` times the interpolated value, the sum over
`(ax, ay, az)` of `B(qx,ax) B(qy,ay) B(qz,az) X(ax,ay,az)`. -/
def massAction (D1D Q1D : Nat) (B : Nat → Nat → R) (D : Nat → Nat → Nat → R)
    (X : Nat → Nat → Nat → R) (dx dy dz : Nat) : R :=
  ∑ qx in range Q1D, ∑ qy in range Q1D, ∑ qz in range Q1D,
    B qx dx * B qy dy * B qz dz * D qx qy qz *
      ∑ ax in range D1D, ∑ ay in range D1D, ∑ az in range D1D,
        B qx ax * B qy ay * B qz az * X ax ay az

/-- Scatter-add of the element values `v (dx, dy, dz)` read at global slot `g`:
the sum of the values whose slot is `g`. -/
def scatterSum (D1D : Nat) (slot : Nat → Nat → Nat → Nat) (v : Nat → Nat → Nat → R)
    (g : Nat) : R :=
  ∑ dy in range D1D, ∑ dx in range D1D, ∑ dz in range D1D,
    if slot dx dy dz = g then v dx dy dz else 0

/-- The operator of the specification applied to `X`, read at global slot `g`:
every element adds its contraction to the slots of its degrees of freedom. -/
def massOperator (D1D Q1D NE : Nat) (map : Option (Nat → Int)) (b_ d_ x_ : Nat → R)
    (g : Nat) : R :=
  ∑ e in range NE,
    scatterSum D1D (fun dx dy dz => dofSlot D1D map dx dy dz e)
      (massAction D1D Q1D (Bmat Q1D b_) (Dcoef Q1D d_ e) (Xloc D1D map x_ e)) g

/-- The specification of both kernels: `Y += operator(X)`. -/
def massApplySpec (D1D Q1D NE : Nat) (map : Option (Nat → Int)) (b_ d_ x_ y_ : Nat → R)
    (g : Nat) : R :=
  y_ g + massOperator D1D Q1D NE map b_ d_ x_ g

end Reference

/-! ## Common shape of the contraction threads (proof device) -/

section Templates

variable {R : Type} [CommRing R]

/-- Shape shared by the threads of lines 299-318 and 321-340: under `guard`, the
entries `s_q[rd a]`, `a < N`, are contracted with `s_B` into register file `L` and
stored to `s_q[wr i]`, `i < Q`; the registers are zeroed afterwards. -/
def regsFwdThread (guard : Prop) [Decidable guard] (L : Nat × Nat) (N Q : Nat)
    (rd wr : Nat → Nat × Nat × Nat) (s : RegsState R) : RegsState R :=
  let s1 : RegsState R :=
    if guard then
      let r := forLoop N (fun a r => forLoop Q (fun i r =>
        Function.update r (L, i) (r (L, i) + s.s_B (i, a) * s.s_q (rd a))) r) s.r_wk
      { s with
        r_wk := r
        s_q := forLoop Q (fun i q => Function.update q (wr i) (r (L, i))) s.s_q }
    else s
  { s1 with r_wk := forLoop Q (fun j r => Function.update r (L, j) 0) s1.r_wk }

/-- Shape shared by the threads of lines 367-381 and 384-398: register file `L` is
loaded from `s_q[rd j]`, `j < Q`, and its transposed contraction with `s_B` is
stored to `s_q[wr b]`, `b < N`. -/
def regsBwdThread (L : Nat × Nat) (N Q : Nat) (rd wr : Nat → Nat × Nat × Nat)
    (s : RegsState R) : RegsState R :=
  let r := forLoop Q (fun j r => Function.update r (L, j) (s.s_q (rd j))) s.r_wk
  { s with
    r_wk := r
    s_q := forLoop N (fun b q =>
      Function.update q (wr b)
        (forLoop Q (fun j acc => acc + s.s_B (j, b) * r (L, j)) 0)) s.s_q }

end Templates

section DenseReference

variable {R : Type} [CommRing R]

/-- The 1-D mass matrix `M = B^t B` of the specification: `M(i, j)` is the sum over
`q` of `B(q,i) B(q,j)`. -/
def massMatrix1D (Q1D : Nat) (b_ : Nat → R) (i j : Nat) : R :=
  ∑ q in range Q1D, Bmat Q1D b_ q i * Bmat Q1D b_ q j

end DenseReference

/-! ## Example inputs -/

/-- An index map of two `2 x 2 x 2` elements over twelve global slots: element 0
holds slots `0..7` in place, element 1 holds slots `4..11`, its first entry in the
sign-flipped encoding `-1 - 4`.  The slots `4..7` are shared. -/
def exampleSharedMap : Nat → Int :=
  fun p => if p < 8 then (p : Int) else if p = 8 then -5 else (p : Int) - 4

/-- The vector with every entry one. -/
def exampleOnes : Nat → Int := fun _ => 1

/-- The vector with every entry zero. -/
def exampleZeros : Nat → Int := fun _ => 0

/-- Scratch memory that starts zeroed. -/
def exampleJunk : Junk Int := ⟨fun _ => 0, ⟨fun _ => 0, fun _ => 0, fun _ => 0⟩⟩

/-- The index map `exampleSharedMap` with its two elements exchanged. -/
def exampleSwappedMap : Nat → Int :=
  fun q => exampleSharedMap (if q < 8 then q + 8 else q - 8)

/-- A coefficient array of two `3 x 3 x 3` elements with distinct entries. -/
def exampleCoef : Nat → Int := fun q => (q : Int) + 1

/-- The coefficient array `exampleCoef` with its two elements exchanged. -/
def exampleSwappedCoef : Nat → Int :=
  fun q => exampleCoef (if q < 27 then q + 27 else q - 27)

/-- The array `exampleCoef` with everything after its first `27` entries zeroed. -/
def exampleFirstOnly : Nat → Int := fun q => if q < 27 then exampleCoef q else 0

/-! ## The batched linear-algebra dispatcher, `linalg/batched/batched.cpp` -/

/-- Modelled from the spec: the enumeration `BatchedLinAlg::Backend` of
`linalg/batched/batched.hpp` (not under src/), the kinds of backend the constructor
registers: the portable baseline and the two accelerator backends. -/
inductive Backend where
  | NATIVE : Backend
  | GPU_BLAS : Backend
  | MAGMA : Backend
  deriving DecidableEq

/-- Modelled from the spec: the rank of a backend in the preference order
`NATIVE < GPU_BLAS < MAGMA`. -/
def Backend.rank : Backend → Nat
  | Backend.NATIVE => 0
  | Backend.GPU_BLAS => 1
  | Backend.MAGMA => 2

/-- What the constructor of the registry depends on: the value of
`Device::Allows(~mfem::Backend::CPU_MASK)` and whether `MFEM_USE_CUDA_OR_HIP` and
`MFEM_USE_MAGMA` are defined. -/
structure BuildConfig where
  deviceAllowsNonCPU : Bool
  useCudaOrHip : Bool
  useMagma : Bool

/-- Modelled from the spec: the interface `BatchedLinAlgBase` of
`linalg/batched/batched.hpp` (not under src/), the four operations of a backend
instance on a batch tensor (`T`), vectors (`V`) and pivot arrays (`P`); each
operation returns the content of its output arguments. -/
structure BatchedLinAlgBase (T V P : Type) where
  Mult : T → V → V → V
  Invert : T → T
  LUFactor : T → P → T × P
  LUSolve : T → P → V → V

/-- The registry `BatchedLinAlg`: the array `backends` of owning pointers (`none` is
the null pointer) and the member `preferred_backend`. -/
structure BatchedLinAlg (T V P : Type) where
  backends : Backend → Option (BatchedLinAlgBase T V P)
  preferred_backend : Backend

/-- The message of the two `MFEM_VERIFY` checks. -/
def notSupported : String := "Requested backend not supported."

section Dispatcher

variable {T V P : Type}

/-- Lines 20-46, the constructor `BatchedLinAlg::BatchedLinAlg()`, which builds the
registry `Instance()` at first use; `native`, `gpuBlas` and `magma` are the
instances the three `new` expressions create. -/
def BatchedLinAlg.construct (cfg : BuildConfig)
    (native gpuBlas magma : BatchedLinAlgBase T V P) : BatchedLinAlg T V P :=
  let backends : Backend → Option (BatchedLinAlgBase T V P) :=
    Function.update (fun _ => none) Backend.NATIVE (some native)
  if cfg.deviceAllowsNonCPU then
    let backends :=
      if cfg.useCudaOrHip then Function.update backends Backend.GPU_BLAS (some gpuBlas)
      else backends
    let backends :=
      if cfg.useMagma then Function.update backends Backend.MAGMA (some magma)
      else backends
    { backends := backends
      preferred_backend :=
        if cfg.useMagma then Backend.MAGMA
        else if cfg.useCudaOrHip then Backend.GPU_BLAS
        else Backend.NATIVE }
  else
    { backends := backends, preferred_backend := Backend.NATIVE }

/-- Lines 75-78, `IsAvailable(backend)`, on the registry `Instance()`. -/
def BatchedLinAlg.IsAvailable (s : BatchedLinAlg T V P) (backend : Backend) : Bool :=
  (s.backends backend).isSome

/-- Lines 91-96, `Get(backend)`: the registered instance, or the failure of the
`MFEM_VERIFY` with its message. -/
def BatchedLinAlg.Get (s : BatchedLinAlg T V P) (backend : Backend) :
    Except String (BatchedLinAlgBase T V P) :=
  match s.backends backend with
  | some backend_ptr => Except.ok backend_ptr
  | none => Except.error notSupported

/-- Lines 80-84, `SetPreferredBackend(backend)`: the outcome and the registry after
the call; when the `MFEM_VERIFY` fails the assignment of line 83 is not reached. -/
def BatchedLinAlg.SetPreferredBackend (s : BatchedLinAlg T V P) (backend : Backend) :
    Except String Unit × BatchedLinAlg T V P :=
  if s.IsAvailable backend then
    (Except.ok (), { s with preferred_backend := backend })
  else
    (Except.error notSupported, s)

/-- Lines 86-89, `GetPreferredBackend()`. -/
def BatchedLinAlg.GetPreferredBackend (s : BatchedLinAlg T V P) : Backend :=
  s.preferred_backend

/-- Lines 54-57, `Mult(A, x, y)`: the content of `y` after the call. -/
def BatchedLinAlg.Mult (s : BatchedLinAlg T V P) (A : T) (x y : V) : Except String V :=
  match s.Get s.preferred_backend with
  | Except.ok backend => Except.ok (backend.Mult A x y)
  | Except.error msg => Except.error msg

/-- Lines 59-62, `Invert(A)`: the content of `A` after the call. -/
def BatchedLinAlg.Invert (s : BatchedLinAlg T V P) (A : T) : Except String T :=
  match s.Get s.preferred_backend with
  | Except.ok backend => Except.ok (backend.Invert A)
  | Except.error msg => Except.error msg

/-- Lines 64-67, `LUFactor(A, P)`: the content of `A` and `P` after the call. -/
def BatchedLinAlg.LUFactor (s : BatchedLinAlg T V P) (A : T) (piv : P) :
    Except String (T × P) :=
  match s.Get s.preferred_backend with
  | Except.ok backend => Except.ok (backend.LUFactor A piv)
  | Except.error msg => Except.error msg

/-- Lines 69-73, `LUSolve(A, P, x)`: the content of `x` after the call. -/
def BatchedLinAlg.LUSolve (s : BatchedLinAlg T V P) (A : T) (piv : P) (x : V) :
    Except String V :=
  match s.Get s.preferred_backend with
  | Except.ok backend => Except.ok (backend.LUSolve A piv x)
  | Except.error msg => Except.error msg

/-- A call of the public interface of `BatchedLinAlg`, with its arguments. -/
inductive Call (T V P : Type) where
  | Mult (A : T) (x y : V) : Call T V P
  | Invert (A : T) : Call T V P
  | LUFactor (A : T) (piv : P) : Call T V P
  | LUSolve (A : T) (piv : P) (x : V) : Call T V P
  | IsAvailable (backend : Backend) : Call T V P
  | SetPreferredBackend (backend : Backend) : Call T V P
  | GetPreferredBackend : Call T V P
  | Get (backend : Backend) : Call T V P

/-- The registry after a call: only `SetPreferredBackend` assigns to a member of
`Instance()`; the other functions read the registry and call `const` methods of a
backend instance. -/
def BatchedLinAlg.call (s : BatchedLinAlg T V P) : Call T V P → BatchedLinAlg T V P
  | Call.SetPreferredBackend backend => (s.SetPreferredBackend backend).2
  | _ => s

/-- The registry after a sequence of calls. -/
def BatchedLinAlg.calls (s : BatchedLinAlg T V P) (cs : List (Call T V P)) :
    BatchedLinAlg T V P :=
  cs.foldl BatchedLinAlg.call s

end Dispatcher

/-- A backend instance on natural numbers, tagged by `n`. -/
def exampleBackend (n : Nat) : BatchedLinAlgBase Nat Nat Nat :=
  { Mult := fun A x y => n + A * x + y
    Invert := fun A => n + A
    LUFactor := fun A piv => (n + A, piv)
    LUSolve := fun A piv x => n + A + piv + x }

/-- The registry built on a device that allows accelerator backends, with CUDA or
HIP support and without MAGMA. -/
def exampleRegistry : BatchedLinAlg Nat Nat Nat :=
  BatchedLinAlg.construct ⟨true, true, false⟩ (exampleBackend 0) (exampleBackend 1)
    (exampleBackend 2)

/-! ## `ArraysByName`, as exercised by `tests/unit/general/test_arrays_by_name.cpp` -/

/-- Modelled from the spec: the class template `ArraysByName<T>` of
`general/arrays_by_name.hpp` (not under src/), a container of arrays looked up by
name and iterated in increasing order of the names.  It is held as the list of its
entries `(name, array)` in iteration order, an `Array<T>` being the list of its
elements. -/
structure ArraysByName (T : Type) where
  data : List (String × List T)

section ArraysByNameModel

variable {T U : Type}

/-- Modelled from the spec: `Size()`, the number of named arrays. -/
def ArraysByName.Size (a : ArraysByName T) : Nat := a.data.length

/-- Modelled from the spec: `EntryExists(name)`. -/
def ArraysByName.EntryExists (a : ArraysByName T) (name : String) : Bool :=
  a.data.any (fun entry => entry.1 == name)

/-- Modelled from the spec: `operator[](name)`, the array stored under `name` (the
empty array when there is none). -/
def ArraysByName.get (a : ArraysByName T) (name : String) : List T :=
  (a.data.lookup name).getD []

/-- Modelled from the spec: the names of the container, in iteration order. -/
def ArraysByName.names (a : ArraysByName T) : List String := a.data.map Prod.fst

/-- Modelled from the spec: the order of the names, the lexicographic order of their
characters (the order of `std::string`). -/
def ArraysByName.nameLt (a b : String) : Bool := decide (a.data < b.data)

/-- Modelled from the spec: insertion of an entry at its place in the order of the
names; an entry of the same name is replaced. -/
def ArraysByName.insertEntry (name : String) (arr : List T) :
    List (String × List T) → List (String × List T)
  | [] => [(name, arr)]
  | entry :: rest =>
    if ArraysByName.nameLt name entry.1 then (name, arr) :: entry :: rest
    else if name = entry.1 then (name, arr) :: rest
    else entry :: ArraysByName.insertEntry name arr rest

/-- Modelled from the spec: `CreateArray(name)`, a new empty array under `name`. -/
def ArraysByName.CreateArray (a : ArraysByName T) (name : String) : ArraysByName T :=
  ⟨ArraysByName.insertEntry name [] a.data⟩

/-- Modelled from the spec: an update `abn[name] = ...` or `abn[name].f(...)` of the
array stored under `name`. -/
def ArraysByName.modify (a : ArraysByName T) (name : String) (f : List T → List T) :
    ArraysByName T :=
  ⟨a.data.map (fun entry => if entry.1 = name then (entry.1, f entry.2) else entry)⟩

/-- Modelled from the spec: `Array<T>::operator==`, equal sizes and equal entries. -/
def ArraysByName.arrayEq [DecidableEq T] (a b : List T) : Bool :=
  a.length == b.length && (List.zip a b).all (fun p => decide (p.1 = p.2))

/-- Modelled from the spec: the entry-by-entry loop of `operator==` over two
containers iterated together: the names and the arrays of the entries agree. -/
def ArraysByName.eqLoop [DecidableEq T] :
    List (String × List T) → List (String × List T) → Bool
  | e1 :: r1, e2 :: r2 =>
    if e1.1 ≠ e2.1 then false
    else if ArraysByName.arrayEq e1.2 e2.2 = false then false
    else ArraysByName.eqLoop r1 r2
  | _, _ => true

/-- Modelled from the spec: `operator==` of two containers, equal sizes and equal
entries in iteration order. -/
def ArraysByName.operatorEq [DecidableEq T] (LHS RHS : ArraysByName T) : Bool :=
  if LHS.Size ≠ RHS.Size then false else ArraysByName.eqLoop LHS.data RHS.data

/-- Modelled from the spec: the copy constructor, a container with a copy of every
entry of `src`. -/
def ArraysByName.copy (src : ArraysByName T) : ArraysByName T := ⟨src.data⟩

/-- Modelled from the spec: copy assignment `dst = src`; the content of `dst` after
the assignment. -/
def ArraysByName.copyAssign (_dst src : ArraysByName T) : ArraysByName T := ⟨src.data⟩

/-- Modelled from the spec: the move constructor; the new container, which takes
over the entries, and the source after the move, left empty. -/
def ArraysByName.moveConstruct (src : ArraysByName T) : ArraysByName T × ArraysByName T :=
  (⟨src.data⟩, ⟨[]⟩)

/-- Modelled from the spec: move assignment `dst = std::move(src)`; the content of
`dst` after the assignment, and the source after the move, left empty. -/
def ArraysByName.moveAssign (_dst src : ArraysByName T) : ArraysByName T × ArraysByName T :=
  (⟨src.data⟩, ⟨[]⟩)

/-- Modelled from the spec: the converting constructor from a container of a
convertible element type: every array of `src` under its name, its elements
converted by `cast`. -/
def ArraysByName.convert (cast : T → U) (src : ArraysByName T) : ArraysByName U :=
  ⟨src.data.map (fun entry => (entry.1, entry.2.map cast))⟩

/-- Modelled from the spec: converting assignment `dst = src`. -/
def ArraysByName.convertAssign (cast : T → U) (_dst : ArraysByName U)
    (src : ArraysByName T) : ArraysByName U :=
  ArraysByName.convert cast src

end ArraysByNameModel

/-- Modelled from the spec: the conversion of an `int` to `long`, which keeps the
value. -/
def intToLong (v : Int) : Int := v

/-- Lines 17-32 of the test, `FillArraysByName(abn)`: the container after the
call. -/
def FillArraysByName (abn : ArraysByName Int) : ArraysByName Int :=
  let abn := abn.CreateArray "1 potato"
  let abn := abn.CreateArray "2 potato"
  let abn := abn.CreateArray "3 potato"
  let abn := abn.CreateArray "four"
  let a3 : List Int := [2, 4, 6]
  let a4 : List Int := [4, 3, 2, 1]
  let abn := abn.modify "1 potato" (fun a => (a ++ List.replicate 1 0).take 1)
  let abn := abn.modify "1 potato" (fun a => a.set 0 100)
  let abn := abn.modify "2 potato" (fun a => a ++ [5])
  let abn := abn.modify "2 potato" (fun a => a ++ [10])
  let abn := abn.modify "3 potato" (fun _ => a3)
  abn.modify "four" (fun _ => a4)

/-- Lines 96-107 and 113-124 of the test: the `REQUIRE`s of the loop over the
entries of the converted container `abn_copy`, for the entry `name`: the entry
exists in `abn`, the two arrays have the same size, and the count (`matches`) of the
positions `i` with `(long)abn[name][i] == abn_copy[name][i]` is that size. -/
def convertedEntryRequires (abn abn_copy : ArraysByName Int) (name : String) : Bool :=
  let count := forLoop (abn.get name).length (fun i count =>
    if intToLong ((abn.get name).getD i 0) = (abn_copy.get name).getD i 0
    then count + 1 else count) 0
  abn.EntryExists name
    && decide ((abn.get name).length = (abn_copy.get name).length)
    && decide (count = (abn.get name).length)

/-- Lines 64-124 of the test `ArraysByName Copy Methods`, for a container `abn`: the
conjunction of its `REQUIRE`s. -/
def CopyMethodsRequires (abn : ArraysByName Int) : Bool :=
  let abn_copy1 := abn.copy
  let abn_copy2 := abn.copy
  let abn_copy3 := ArraysByName.copyAssign ⟨[]⟩ abn
  let abn_copy4a := abn.copy
  let abn_copy4b := abn_copy4a.moveConstruct.1
  let abn_copy5a := abn.copy
  let abn_copy5b := abn_copy5a.moveConstruct.1
  let abn_copy6a := abn.copy
  let abn_copy6b := (ArraysByName.moveAssign ⟨[]⟩ abn_copy6a).1
  let abn_copy7 := ArraysByName.convert intToLong abn
  let abn_copy8 := ArraysByName.convertAssign intToLong ⟨[]⟩ abn
  abn.operatorEq abn_copy1 && abn.operatorEq abn_copy2 && abn.operatorEq abn_copy3
    && abn.operatorEq abn_copy4b && abn.operatorEq abn_copy5b
    && abn.operatorEq abn_copy6b
    && decide (abn.Size = abn_copy7.Size)
    && abn_copy7.data.all (fun entry7 => convertedEntryRequires abn abn_copy7 entry7.1)
    && decide (abn.Size = abn_copy8.Size)
    && abn_copy8.data.all (fun entry8 => convertedEntryRequires abn abn_copy8 entry8.1)

/-! ## Machine integers -/

/-- Largest value of the C type `int` (32 bits, two's complement). -/
def INT_MAX : Int := 2147483647

/-- Smallest value of the C type `int`. -/
def INT_MIN : Int := -2147483648

/-- The values an `int` holds. -/
def fitsInt (v : Int) : Prop := INT_MIN ≤ v ∧ v ≤ INT_MAX

instance fitsInt.decidable (v : Int) : Decidable (fitsInt v) := by
  unfold fitsInt
  exact inferInstance

/-- The decode `gid >= 0 ? gid : -1 - gid` of lines 75-76 and 411-412 (and of lines
121-122 and 155-156 of `fem/tfe.hpp`) in `int` arithmetic: `none` when the
subtraction leaves the range of `int` (signed overflow). -/
def decode32 (gid : Int) : Option Int :=
  if gid ≥ 0 then some gid
  else if fitsInt (-1 - gid) then some (-1 - gid) else none

/-- The value of the C type `int` with the low 32 bits of `v`: what an `int`
operation whose exact result is `v` leaves when it wraps around. -/
def wrapInt (v : Int) : Int := (v + 2147483648) % 4294967296 - 2147483648

/-- Line 448 in `int` arithmetic, for non-negative `ver`, `D1D`, `Q1D`: the value of
`const int id`, the low 32 bits of the exact key. -/
def kernelId32 (ver D1D Q1D : Nat) : Int := wrapInt (kernelId ver D1D Q1D)

/-! ## Scratch-array references of the two kernels -/

/-- One reference to a scratch array of a kernel, by the name and the indices the
source writes: the views `B`, `Bt` of `sDQ` and `DDQ`, `DQQ`, `QQQ`, `QQD`, `QDD` of
`sm0` and `sm1` in the staged kernel (lines 39-48), the arrays `s_B`, `s_q`, `r_wk`
of the register-blocked kernel (lines 266-268). -/
inductive Access where
  | B (i j : Nat) : Access
  | Bt (i j : Nat) : Access
  | DDQ (i j k : Nat) : Access
  | DQQ (i j k : Nat) : Access
  | QQQ (i j k : Nat) : Access
  | QQD (i j k : Nat) : Access
  | QDD (i j k : Nat) : Access
  | s_B (i j : Nat) : Access
  | s_q (i j k : Nat) : Access
  | r_wk (i : Nat) : Access
  deriving DecidableEq

/-- Whether a reference stays inside the array it refers to.  A view of `sDQ`
(`Q1D*Q1D` entries), `sm0` or `sm1` (`Q1D*Q1D*Q1D` entries) is a pointer cast, so
the offset it computes must be below the size of the array; `s_B[Q1D][D1D]`,
`s_q[Q1D][Q1D][Q1D]` and `r_wk[Q1D]` are arrays, so every index must be below its
dimension. -/
def Access.inBounds (D1D Q1D : Nat) : Access → Bool
  | Access.B i j => decide (view2 D1D i j < Q1D * Q1D)
  | Access.Bt i j => decide (view2 Q1D i j < Q1D * Q1D)
  | Access.DDQ i j k => decide (view3 D1D Q1D i j k < Q1D * Q1D * Q1D)
  | Access.DQQ i j k => decide (view3 Q1D Q1D i j k < Q1D * Q1D * Q1D)
  | Access.QQQ i j k => decide (view3 Q1D Q1D i j k < Q1D * Q1D * Q1D)
  | Access.QQD i j k => decide (view3 Q1D D1D i j k < Q1D * Q1D * Q1D)
  | Access.QDD i j k => decide (view3 D1D D1D i j k < Q1D * Q1D * Q1D)
  | Access.s_B i j => decide (i < Q1D ∧ j < D1D)
  | Access.s_q i j k => decide (i < Q1D ∧ j < Q1D ∧ k < Q1D)
  | Access.r_wk i => decide (i < Q1D)

/-- The references made by a counted loop: those of its iterations, in order. -/
def loopAccesses (n : Nat) (body : Nat → List Access) : List Access :=
  (List.range n).flatMap body

/-- Lines 49-243: the references to `sDQ`, `sm0` and `sm1` that the body of
`NDK_SmemPAMassApply3D<D1D,Q1D>` makes for one element, stage by stage. -/
def SmemAccesses (D1D Q1D : Nat) : List Access :=
  loopAccesses D1D (fun dy => loopAccesses Q1D (fun dx => [Access.B dx dy]))
  ++ loopAccesses D1D (fun dy => loopAccesses Q1D (fun qx =>
      loopAccesses D1D (fun dx => loopAccesses D1D (fun _dz => [Access.B qx dx]))
      ++ loopAccesses D1D (fun dz => [Access.DDQ dz dy qx])))
  ++ loopAccesses Q1D (fun qy => loopAccesses Q1D (fun qx =>
      loopAccesses D1D (fun dy => loopAccesses D1D (fun dz =>
        [Access.DDQ dz dy qx, Access.B qy dy]))
      ++ loopAccesses D1D (fun dz => [Access.DQQ dz qy qx])))
  ++ loopAccesses Q1D (fun qy => loopAccesses Q1D (fun qx =>
      loopAccesses D1D (fun dz => loopAccesses Q1D (fun qz =>
        [Access.DQQ dz qy qx, Access.B qz dz]))
      ++ loopAccesses Q1D (fun qz => [Access.QQQ qz qy qx])))
  ++ loopAccesses D1D (fun d => loopAccesses Q1D (fun q => [Access.Bt d q]))
  ++ loopAccesses Q1D (fun qy => loopAccesses D1D (fun dx =>
      loopAccesses Q1D (fun qx => loopAccesses Q1D (fun qz =>
        [Access.QQQ qz qy qx, Access.Bt dx qx]))
      ++ loopAccesses Q1D (fun qz => [Access.QQD qz qy dx])))
  ++ loopAccesses D1D (fun dy => loopAccesses D1D (fun dx =>
      loopAccesses Q1D (fun qy => loopAccesses Q1D (fun qz =>
        [Access.QQD qz qy dx, Access.Bt dy qy]))
      ++ loopAccesses Q1D (fun qz => [Access.QDD qz dy dx])))
  ++ loopAccesses D1D (fun dy => loopAccesses D1D (fun dx =>
      loopAccesses Q1D (fun qz => loopAccesses D1D (fun dz =>
        [Access.QDD qz dy dx, Access.Bt dz qz]))))

/-- Lines 270-421: the references to `s_B`, `s_q` and `r_wk` that the body of
`NDK_RegsPAMassApply3D<D1D,Q1D>` makes for one element, stage by stage. -/
def RegsAccesses (D1D Q1D : Nat) : List Access :=
  loopAccesses Q1D (fun b => loopAccesses Q1D (fun a =>
      (if a < D1D then [Access.s_B b a] else [])
      ++ loopAccesses Q1D (fun i => [Access.r_wk i])
      ++ (if a < D1D ∧ b < D1D then loopAccesses D1D (fun c => [Access.s_q c b a]) else [])))
  ++ loopAccesses Q1D (fun c => loopAccesses Q1D (fun b =>
      (if b < D1D ∧ c < D1D then
        loopAccesses D1D (fun a => Access.s_q c b a ::
          loopAccesses Q1D (fun i => [Access.r_wk i, Access.s_B i a]))
        ++ loopAccesses Q1D (fun i => [Access.s_q c b i, Access.r_wk i])
      else [])
      ++ loopAccesses Q1D (fun j => [Access.r_wk j])))
  ++ loopAccesses D1D (fun c => loopAccesses Q1D (fun i =>
      (if i < Q1D ∧ c < D1D then
        loopAccesses D1D (fun b => Access.s_q c b i ::
          loopAccesses Q1D (fun j => [Access.r_wk j, Access.s_B j b]))
        ++ loopAccesses Q1D (fun j => [Access.s_q c j i, Access.r_wk j])
      else [])
      ++ loopAccesses Q1D (fun k => [Access.r_wk k])))
  ++ loopAccesses Q1D (fun j => loopAccesses Q1D (fun i =>
      loopAccesses D1D (fun c => Access.s_q c j i ::
        loopAccesses Q1D (fun k => [Access.r_wk k, Access.s_B k c]))
      ++ loopAccesses Q1D (fun k => [Access.r_wk k])
      ++ loopAccesses D1D (fun c =>
        loopAccesses Q1D (fun k => [Access.s_B k c, Access.r_wk k])
        ++ [Access.s_q c j i])))
  ++ loopAccesses D1D (fun c => loopAccesses Q1D (fun i =>
      loopAccesses Q1D (fun j => [Access.r_wk j, Access.s_q c j i])
      ++ loopAccesses D1D (fun b =>
        loopAccesses Q1D (fun j => [Access.s_B j b, Access.r_wk j])
        ++ [Access.s_q c b i])))
  ++ loopAccesses D1D (fun c => loopAccesses D1D (fun b =>
      loopAccesses Q1D (fun i => [Access.r_wk i, Access.s_q c b i])
      ++ loopAccesses D1D (fun a =>
        loopAccesses Q1D (fun i => [Access.s_B i a, Access.r_wk i])
        ++ [Access.s_q c b a])))
  ++ loopAccesses D1D (fun b => loopAccesses D1D (fun a =>
      loopAccesses D1D (fun c => [Access.s_q c b a])))

/-- The scratch-array references of a kernel instantiation, for one element. -/
def Kernel.accesses : Kernel → List Access
  | Kernel.Smem D1D Q1D => SmemAccesses D1D Q1D
  | Kernel.Regs D1D Q1D => RegsAccesses D1D Q1D

/-- Whether every scratch-array reference of a kernel instantiation is in bounds. -/
def Kernel.inBounds : Kernel → Bool
  | Kernel.Smem D1D Q1D => (SmemAccesses D1D Q1D).all (Access.inBounds D1D Q1D)
  | Kernel.Regs D1D Q1D => (RegsAccesses D1D Q1D).all (Access.inBounds D1D Q1D)

/-! ## Intermediate arrays of the staged kernel -/

section Intermediates

variable {R : Type} [CommRing R]

/-- Lines 49-145 of the body of `NDK_SmemPAMassApply3D` for element `e`: the array
`sm1`, viewed as `QQQ`, after the third contraction stage. -/
def SmemAfterStage3 (D1D Q1D : Nat) (map : Option (Nat → Int)) (b_ d_ x_ junk : Nat → R)
    (e : Nat) : Nat → R :=
  let sDQ := SmemLoadB D1D Q1D b_ junk
  let sm1 := SmemStage1 D1D Q1D map x_ e junk sDQ junk
  let sm0 := SmemStage2 D1D Q1D junk sDQ sm1 junk
  SmemStage3 D1D Q1D d_ e junk sDQ sm0 sm1

/-- Lines 49-180 of the body of `NDK_SmemPAMassApply3D` for element `e`: the array
`sm0`, viewed as `QQD`, after the fourth contraction stage. -/
def SmemAfterStage4 (D1D Q1D : Nat) (map : Option (Nat → Int)) (b_ d_ x_ junk : Nat → R)
    (e : Nat) : Nat → R :=
  let sDQ := SmemLoadB D1D Q1D b_ junk
  let sm1 := SmemStage1 D1D Q1D map x_ e junk sDQ junk
  let sm0 := SmemStage2 D1D Q1D junk sDQ sm1 junk
  let sm1 := SmemStage3 D1D Q1D d_ e junk sDQ sm0 sm1
  let sDQ := SmemLoadBt D1D Q1D b_ sDQ
  SmemStage4 D1D Q1D junk sDQ sm1 sm0

/-- The fourth contraction as the claim words it: the sum over the `z` quadrature
index `qz` of `QQQ[qz][qy][qx] * B(qz, dz)`, an intermediate indexed `(qx, qy, dz)`. -/
def claimedFourthContraction (Q1D : Nat) (b_ QQQ : Nat → R) (qx qy dz : Nat) : R :=
  ∑ qz in range Q1D, QQQ (view3 Q1D Q1D qz qy qx) * Bmat Q1D b_ qz dz

/-- The interpolated value at quadrature point `(qx, qy, qz)`, contracted along `x`
first, then `y`, then `z`, times the coefficient: the entry `QQQ[qz][qy][qx]`. -/
def forwardValue (D1D : Nat) (B : Nat → Nat → R) (D X : Nat → Nat → Nat → R)
    (qx qy qz : Nat) : R :=
  (∑ az in range D1D, (∑ ay in range D1D, (∑ ax in range D1D,
      X ax ay az * B qx ax) * B qy ay) * B qz az) * D qx qy qz

end Intermediates

/-- A coefficient array of one `3 x 3 x 3` element that depends on `qz` only:
`1` for `qz = 0`, `-1` for `qz = 1`, `0` for `qz = 2`. -/
def exampleZProfile : Nat → Int := fun p => if p < 9 then 1 else if p < 18 then -1 else 0

section Symmetry

variable {R : Type} [CommRing R]

/-- The interpolated value of the specification at quadrature point `(qx, qy, qz)`:
the sum over `(ax, ay, az)` of `B(qx,ax) B(qy,ay) B(qz,az) X(ax,ay,az)`. -/
def interpolate (D1D : Nat) (B : Nat → Nat → R) (X : Nat → Nat → Nat → R)
    (qx qy qz : Nat) : R :=
  ∑ ax in range D1D, ∑ ay in range D1D, ∑ az in range D1D,
    B qx ax * B qy ay * B qz az * X ax ay az

/-- The inner product of two vectors over the `D1D^3 * NE` entries of the
element-exclusive layout. -/
def innerProduct (D1D NE : Nat) (u v : Nat → R) : R :=
  ∑ g in range (D1D * D1D * D1D * NE), u g * v g

end Symmetry

/-- A vector with distinct entries. -/
def exampleRamp : Nat → Int := fun p => (p : Int) * (p : Int) - 3

/-! ## `Static1dThreadLayout`, `linalg/tensor/layouts/static_1dthread_layout.hpp` -/

/-- Modelled from the spec: the thread block a kernel runs in, as
`MFEM_THREAD_SIZE(x)` and `MFEM_THREAD_SIZE(z)` (macros of `general/forall.hpp`,
not under src/) report it. -/
structure ThreadBlock where
  sizeX : Int
  sizeZ : Int

/-- Modelled from the spec: `MFEM_ASSERT_KERNEL(cond, msg)` and `static_assert(cond,
msg)` (the macro is of `general/error.hpp`, not under src/): a check that passes,
or stops with its message. -/
def assertKernel (cond : Bool) (msg : String) : Except String Unit :=
  if cond then Except.ok () else Except.error msg

/-- Message of lines 35, 49, 98 and 113. -/
def msgExceeds : String := "The first dimension exceeds the number of x threads."

/-- Message of lines 38, 52, 101 and 116. -/
def msgBatch : String := "The batchsize is not equal to the number of z threads."

/-- Message of lines 46 and 110. -/
def msgRuntime : String :=
  "The runtime first dimension is different to the compilation one."

/-- Message of lines 60 and 124. -/
def msgRank : String := "Can\x27t copy-construct a layout of different rank."

/-- Message of lines 63 and 127. -/
def msgSizes : String := "Layouts sizes don\x27t match."

/-- Lines 30-39 and 93-102, the default constructor of
`Static1dThreadLayout<BatchSize, DimX, Dims...>` (the same two checks in the class
of rank one and in the class of higher rank). -/
def Static1dThreadLayout.construct (tb : ThreadBlock) (BatchSize DimX : Int)
    (_Dims : List Int) : Except String Unit := do
  assertKernel (decide (DimX < tb.sizeX)) msgExceeds
  assertKernel (decide (BatchSize = tb.sizeZ)) msgBatch

/-- Lines 41-53 and 104-117, the constructor from run-time sizes
`Static1dThreadLayout(size0, sizes...)`; the member `layout(sizes...)` of the class
of higher rank is a `StaticLayout<Dims...>` (not under src/), whose construction
is taken to succeed. -/
def Static1dThreadLayout.constructSized (tb : ThreadBlock) (BatchSize DimX : Int)
    (_Dims : List Int) (size0 : Int) : Except String Unit := do
  assertKernel (decide (size0 = DimX)) msgRuntime
  assertKernel (decide (DimX < tb.sizeX)) msgExceeds
  assertKernel (decide (BatchSize = tb.sizeZ)) msgBatch

/-- Lines 151-156, `get_layout_rank_v<Static1dThreadLayout<BatchSize, Dims...>>`:
the number of dimensions, the first one included. -/
def Static1dThreadLayout.rank (_DimX : Int) (Dims : List Int) : Nat := 1 + Dims.length

/-- Lines 55-64 and 119-128, the converting constructor
`Static1dThreadLayout(const Layout& rhs)` of
`Static1dThreadLayout<BatchSize, DimX, Dims...>`: `rhsRank` is
`get_layout_rank<Layout>` and `rhsSize0` is `rhs.Size<0>()`.  Both classes write
the same `static_assert(1 == get_layout_rank<Layout>, ...)`. -/
def Static1dThreadLayout.constructFrom (DimX : Int) (_Dims : List Int) (rhsRank : Nat)
    (rhsSize0 : Int) : Except String Unit := do
  assertKernel (decide (1 = rhsRank)) msgRank
  assertKernel (decide (rhsSize0 = DimX)) msgSizes

/-! ## `CalcCurlTensor`, `fem/tfe.hpp` -/

section TensorBasis

variable {R : Type}

/-- Line 147, the number of curl components `dimc = (dim == 3) ? 3 : 1`. -/
def curlDim (dim : Nat) : Nat := if dim = 3 then 3 else 1

/-- Lines 155-156, the row of `cshape` read for the local degree of freedom `id`:
the entry of `dof_map` (or `id` without a map), sign-flip decoded. -/
def curlOrigId (dof_map : Option (Nat → Int)) (id : Nat) : Nat :=
  let orig_id : Int := match dof_map with
    | some m => m id
    | none => (id : Int)
  (decode orig_id).toNat

/-- Lines 140-163, `CalcCurlTensor(fe, ir, C, dof_map)`: the content of `C` after
the call.  `dim` is `fe.GetDim()`, `nip` is `ir.GetNPoints()`, `dof` is
`fe.GetDof()`, `curlShape ip` is the matrix `cshape` that
`fe.CalcCurlShape(ir.IntPoint(ip), cshape)` fills, and `dof_map = none` is the null
pointer. -/
def CalcCurlTensor (dim nip dof : Nat) (curlShape : Nat → Nat → Nat → R)
    (dof_map : Option (Nat → Int)) (C : Nat → R) : Nat → R :=
  forLoop nip (fun ip C => forLoop dof (fun id C => forLoop (curlDim dim) (fun d C =>
    Function.update C (ip + nip * (d + dim * id)) (curlShape ip (curlOrigId dof_map id) d))
    C) C) C

/-- The offset of entry `(ip, d, id)` in a `nip x dimc x dof` array with column major
storage, as the comment of lines 135-138 and the claim write it. -/
def curlOffset (dim nip ip d id : Nat) : Nat := ip + nip * (d + curlDim dim * id)

end TensorBasis

/-- Curl-shape values that tell the degrees of freedom apart: the entry of row
`id` is `id + 1` at every point and in every column. -/
def exampleCurlShape : Nat → Nat → Nat → Int := fun _ id _ => (id : Int) + 1

/-! ## Flux functions of `fem/hyperbolic.cpp` -/

/-- The ways a flux evaluation stops: a failed `MFEM_ASSERT` (debug build), or a
division whose divisor is zero. -/
inductive FluxError where
  | assertion (msg : String) : FluxError
  | zeroDivisor : FluxError
  deriving DecidableEq

/-- Message of lines 527 and 556. -/
def msgNegativeHeight : String := "Negative Height"

/-- Message of line 585. -/
def msgNegativeDensity : String := "Negative Density"

/-- Message of line 586. -/
def msgNegativePressure : String := "Negative Pressure"

/-- Message of line 587. -/
def msgNegativeEnergy : String := "Negative Energy"

/-- Modelled from the spec: `MFEM_ASSERT(cond, msg)` (macro of `general/error.hpp`,
not under src/) in a debug build: a precondition that holds, or stops the call with
its message. -/
def mfemAssert (cond : Bool) (msg : String) : Except FluxError Unit :=
  if cond then Except.ok () else Except.error (FluxError.assertion msg)

/-- Counted loop `for (int i = 0; i < n; i++) body` whose body may stop. -/
def forLoopE {σ ε : Type} : Nat → (Nat → σ → Except ε σ) → σ → Except ε σ
  | 0, _, s => Except.ok s
  | n + 1, body, s =>
    match forLoopE n body s with
    | Except.ok t => body n t
    | Except.error err => Except.error err

section Flux

variable {K : Type} [LinearOrderedField K]

/-- A division `a / b` of the source, in exact arithmetic: a zero divisor is
reported. -/
def divide (a b : K) : Except FluxError K :=
  if b = 0 then Except.error FluxError.zeroDivisor else Except.ok (a / b)

/-- Modelled from the spec: `Vector::operator*` (of `linalg/vector.hpp`, not under
src/), the dot product of two vectors of size `dim`. -/
def dot (dim : Nat) (u v : Nat → K) : K := ∑ i in range dim, u i * v i

/-- Lines 518-543, `ShallowWaterFlux::ComputeFlux(U, Tr, FU)`: the returned speed
and the content of `FU` after the call.  `sqrt` is `std::sqrt`, `g` the member `g`,
`dim` the member `dim`. -/
def ShallowWaterFlux.ComputeFlux (sqrt : K → K) (dim : Nat) (g : K) (U : Nat → K)
    (FU : Nat × Nat → K) : Except FluxError (K × (Nat × Nat → K)) := do
  let height := U 0
  let h_vel : Nat → K := fun d => U (1 + d)
  let energy := 0.5 * g * (height * height)
  mfemAssert (decide (height ≥ 0)) msgNegativeHeight
  let FU ← forLoopE dim (fun d FU => do
    let FU := Function.update FU (0, d) (h_vel d)
    let FU ← forLoopE dim (fun i FU => do
      let q ← divide (h_vel i * h_vel d) height
      pure (Function.update FU (1 + i, d) q)) FU
    pure (Function.update FU (1 + d, d) (FU (1 + d, d) + energy))) FU
  let sound := sqrt (g * height)
  let vel ← divide (sqrt (dot dim h_vel h_vel)) height
  pure (vel + sound, FU)

/-- Lines 546-568, `ShallowWaterFlux::ComputeFluxDotN(U, normal, Tr, FUdotN)`: the
returned speed and the content of `FUdotN` after the call. -/
def ShallowWaterFlux.ComputeFluxDotN (sqrt : K → K) (dim : Nat) (g : K) (U normal : Nat → K)
    (FUdotN : Nat → K) : Except FluxError (K × (Nat → K)) := do
  let height := U 0
  let h_vel : Nat → K := fun d => U (1 + d)
  let energy := 0.5 * g * (height * height)
  mfemAssert (decide (height ≥ 0)) msgNegativeHeight
  let FUdotN := Function.update FUdotN 0 (dot dim h_vel normal)
  let normal_vel ← divide (FUdotN 0) height
  let FUdotN := forLoop dim (fun i FUdotN =>
    Function.update FUdotN (1 + i) (normal_vel * h_vel i + energy * normal i)) FUdotN
  let sound := sqrt (g * height)
  let vel ← divide |normal_vel| (sqrt (dot dim normal normal))
  pure (vel + sound, FUdotN)

/-- Lines 571-617, `EulerFlux::ComputeFlux(U, Tr, FU)`: the returned speed and the
content of `FU` after the call; `specific_heat_ratio` is the member of that name. -/
def EulerFlux.ComputeFlux (sqrt : K → K) (dim : Nat) (specific_heat_ratio : K)
    (U : Nat → K) (FU : Nat × Nat → K) : Except FluxError (K × (Nat × Nat → K)) := do
  let density := U 0
  let momentum : Nat → K := fun d => U (1 + d)
  let energy := U (1 + dim)
  let kinetic_energy ← divide (0.5 * dot dim momentum momentum) density
  let pressure := (specific_heat_ratio - 1.0) * (energy - kinetic_energy)
  mfemAssert (decide (density ≥ 0)) msgNegativeDensity
  mfemAssert (decide (pressure ≥ 0)) msgNegativePressure
  mfemAssert (decide (energy ≥ 0)) msgNegativeEnergy
  let FU ← forLoopE dim (fun d FU => do
    let FU := Function.update FU (0, d) (momentum d)
    let FU ← forLoopE dim (fun i FU => do
      let q ← divide (momentum i * momentum d) density
      pure (Function.update FU (1 + i, d) q)) FU
    pure (Function.update FU (1 + d, d) (FU (1 + d, d) + pressure))) FU
  let H ← divide (energy + pressure) density
  let FU := forLoop dim (fun d FU => Function.update FU (1 + dim, d) (momentum d * H)) FU
  let q ← divide (specific_heat_ratio * pressure) density
  let sound := sqrt q
  let q ← divide (2.0 * kinetic_energy) density
  let speed := sqrt q
  pure (speed + sound, FU)

/-- The pressure `(specific_heat_ratio - 1) (E - (rho u . rho u) / (2 rho))` of lines
579-582. -/
def EulerFlux.pressure (dim : Nat) (specific_heat_ratio : K) (U : Nat → K) : K :=
  (specific_heat_ratio - 1.0)
    * (U (1 + dim) - 0.5 * dot dim (fun d => U (1 + d)) (fun d => U (1 + d)) / U 0)

end Flux

section ArraysByNameMethods

variable {T : Type}

/-- Modelled from the spec: `DeleteArray(name)`, the container without the entry of
that name. -/
def ArraysByName.DeleteArray (a : ArraysByName T) (name : String) : ArraysByName T :=
  ⟨a.data.filter (fun entry => !(entry.1 == name))⟩

/-- Modelled from the spec: `DeleteAll()`, the container without any entry. -/
def ArraysByName.DeleteAll (_a : ArraysByName T) : ArraysByName T := ⟨[]⟩

/-- Modelled from the spec: `std::set<std::string>::insert`, the set being held as
the list of its elements in increasing order; a value already in the set is not
inserted again. -/
def ArraysByName.setInsert (name : String) : List String → List String
  | [] => [name]
  | s :: rest =>
    if ArraysByName.nameLt name s then name :: s :: rest
    else if name = s then s :: rest
    else s :: ArraysByName.setInsert name rest

/-- Modelled from the spec: `GetNames(std::set<std::string> &names)`: `names` is
cleared and receives the name of every entry; the content of `names` after the
call. -/
def ArraysByName.GetNamesInto (a : ArraysByName T) (_names : List String) : List String :=
  a.data.foldl (fun names entry => ArraysByName.setInsert entry.1 names) []

/-- Modelled from the spec: `GetNames()`, which returns the set that
`GetNames(names)` fills. -/
def ArraysByName.GetNames (a : ArraysByName T) : List String := a.GetNamesInto []

/-- Modelled from the spec: the entries of a container are kept in a `std::map`, so
no two entries have the same name. -/
def ArraysByName.WellFormed (a : ArraysByName T) : Prop := a.names.Nodup

instance ArraysByName.WellFormed.decidable (a : ArraysByName T) : Decidable a.WellFormed := by
  unfold ArraysByName.WellFormed
  exact inferInstance

end ArraysByNameMethods

/-- Lines 133-173 of the test `ArraysByName Various Methods`, for the container
`abn` that `FillArraysByName` has filled: the conjunction of its `REQUIRE`s. -/
def VariousMethodsRequires (abn : ArraysByName Int) : Bool :=
  let names1 := abn.GetNamesInto []
  let names2 := abn.GetNames
  let sizes := decide (names1.length = 4) && decide (names1.length = names2.length)
  let same := (List.zip names1 names2).all (fun it => it.1 == it.2)
  let names := abn.GetNames
  let count := decide (abn.Size = names.length)
  let valid := names.all (fun name => abn.EntryExists name)
  let present := abn.EntryExists "1 potato" && abn.EntryExists "2 potato"
    && abn.EntryExists "3 potato" && abn.EntryExists "four"
    && !abn.EntryExists "5 potato"
  let abn := abn.CreateArray "5 potato"
  let created := abn.EntryExists "5 potato"
  let abn := abn.DeleteArray "5 potato"
  let deleted := !abn.EntryExists "5 potato"
  let abn := abn.DeleteAll
  let emptied := !abn.EntryExists "1 potato" && !abn.EntryExists "2 potato"
    && !abn.EntryExists "3 potato" && !abn.EntryExists "four"
    && !abn.EntryExists "5 potato" && decide (abn.Size = 0)
  sizes && same && count && valid && present && created && deleted && emptied

section FluxFunctions

variable {K : Type} [LinearOrderedField K]

/-- Modelled from the spec: `DenseMatrix::operator=(real_t c)` (of
`linalg/densemat.hpp`, not under src/): every entry of the `height x width` matrix
becomes `c`. -/
def DenseMatrix.assign (height width : Nat) (c : K) (A : Nat × Nat → K) : Nat × Nat → K :=
  fun ij => if ij.1 < height ∧ ij.2 < width then c else A ij

/-- Modelled from the spec: `DenseMatrix::Mult(x, y)` (of `linalg/densemat.hpp`, not
under src/), `y = A x` for the `height x width` matrix `A`: the content of `y` after
the call. -/
def DenseMatrix.Mult (height width : Nat) (A : Nat × Nat → K) (x y : Nat → K) : Nat → K :=
  fun i => if i < height then ∑ j in range width, A (i, j) * x j else y i

/-- Modelled from the spec: `Vector::Sum()` (of `linalg/vector.hpp`, not under
src/), the sum of the entries of a vector of size `dim`. -/
def vectorSum (dim : Nat) (v : Nat → K) : K := ∑ i in range dim, v i

/-- Modelled from the spec: `Vector::Norml2()` (of `linalg/vector.hpp`, not under
src/), the Euclidean norm of a vector of size `dim`. -/
def Norml2 (sqrt : K → K) (dim : Nat) (v : Nat → K) : K := sqrt (dot dim v v)

/-- Modelled from the spec: `MFEM_ASSERT(cond, msg)` in either build: checked in a
debug build, absent from a release build. -/
def mfemAssertIn (debug : Bool) (cond : Bool) (msg : String) : Except FluxError Unit :=
  if debug then mfemAssert cond msg else Except.ok ()

/-- Lines 463-469, `BurgersFlux::ComputeFlux(U, Tr, FU)`: the returned speed and the
content of the `1 x dim` matrix `FU` after the call. -/
def BurgersFlux.ComputeFlux (dim : Nat) (U : Nat → K) (FU : Nat × Nat → K) :
    K × (Nat × Nat → K) :=
  (|U 0|, DenseMatrix.assign 1 dim (U 0 * U 0 * 0.5) FU)

/-- Lines 471-478, `BurgersFlux::ComputeFluxDotN(U, normal, Tr, FDotN)`. -/
def BurgersFlux.ComputeFluxDotN (dim : Nat) (U normal FDotN : Nat → K) : K × (Nat → K) :=
  (|U 0|, Function.update FDotN 0 (U 0 * U 0 * 0.5 * vectorSum dim normal))

/-- Lines 480-487, `BurgersFlux::ComputeAvgFlux(U1, U2, Tr, FU)`. -/
def BurgersFlux.ComputeAvgFlux (dim : Nat) (U1 U2 : Nat → K) (FU : Nat × Nat → K) :
    K × (Nat × Nat → K) :=
  (max |U1 0| |U2 0|,
    DenseMatrix.assign 1 dim ((U1 0 * U1 0 + U1 0 * U2 0 + U2 0 * U2 0) / 6) FU)

/-- Lines 489-497, `BurgersFlux::ComputeAvgFluxDotN(U1, U2, normal, Tr, FDotN)`. -/
def BurgersFlux.ComputeAvgFluxDotN (dim : Nat) (U1 U2 normal FDotN : Nat → K) :
    K × (Nat → K) :=
  (max |U1 0| |U2 0|,
    Function.update FDotN 0
      ((U1 0 * U1 0 + U1 0 * U2 0 + U2 0 * U2 0) / 6 * vectorSum dim normal))

/-- Lines 310-328, `RusanovFlux::Eval(state1, state2, nor, Tr, flux)`: the returned
value and the content of `flux` after the call.  `ComputeFluxDotN` is the virtual
`fluxFunction.ComputeFluxDotN` (state, normal, buffer), `fluxN1` and `fluxN2` the
content of the two buffers before the call. -/
def RusanovFlux.Eval (sqrt : K → K) (num_equations dim : Nat)
    (ComputeFluxDotN : (Nat → K) → (Nat → K) → (Nat → K) → Except FluxError (K × (Nat → K)))
    (state1 state2 nor fluxN1 fluxN2 flux : Nat → K) : Except FluxError (K × (Nat → K)) := do
  let (speed1, fluxN1) ← ComputeFluxDotN state1 nor fluxN1
  let (speed2, fluxN2) ← ComputeFluxDotN state2 nor fluxN2
  let maxE := max speed1 speed2
  let scaledMaxE := maxE * Norml2 sqrt dim nor
  let flux := forLoop num_equations (fun i flux =>
    Function.update flux i
      (0.5 * (scaledMaxE * (state1 i - state2 i) + (fluxN1 i + fluxN2 i)))) flux
  pure (maxE, flux)

/-- Lines 571-617, `EulerFlux::ComputeFlux(U, Tr, FU)` in either build (the three
`MFEM_ASSERT`s are checked in a debug build only). -/
def EulerFlux.ComputeFluxIn (debug : Bool) (sqrt : K → K) (dim : Nat)
    (specific_heat_ratio : K) (U : Nat → K) (FU : Nat × Nat → K) :
    Except FluxError (K × (Nat × Nat → K)) := do
  let density := U 0
  let momentum : Nat → K := fun d => U (1 + d)
  let energy := U (1 + dim)
  let kinetic_energy ← divide (0.5 * dot dim momentum momentum) density
  let pressure := (specific_heat_ratio - 1.0) * (energy - kinetic_energy)
  mfemAssertIn debug (decide (density ≥ 0)) msgNegativeDensity
  mfemAssertIn debug (decide (pressure ≥ 0)) msgNegativePressure
  mfemAssertIn debug (decide (energy ≥ 0)) msgNegativeEnergy
  let FU ← forLoopE dim (fun d FU => do
    let FU := Function.update FU (0, d) (momentum d)
    let FU ← forLoopE dim (fun i FU => do
      let q ← divide (momentum i * momentum d) density
      pure (Function.update FU (1 + i, d) q)) FU
    pure (Function.update FU (1 + d, d) (FU (1 + d, d) + pressure))) FU
  let H ← divide (energy + pressure) density
  let FU := forLoop dim (fun d FU => Function.update FU (1 + dim, d) (momentum d * H)) FU
  let q ← divide (specific_heat_ratio * pressure) density
  let sound := sqrt q
  let q ← divide (2.0 * kinetic_energy) density
  let speed := sqrt q
  pure (speed + sound, FU)

/-- Lines 620-660, `EulerFlux::ComputeFluxDotN(x, normal, Tr, FUdotN)` in either
build: the content of `FUdotN` when the call ends, and the returned speed or the
reason why the call stops. -/
def EulerFlux.ComputeFluxDotN (debug : Bool) (sqrt : K → K) (dim : Nat)
    (specific_heat_ratio : K) (x normal FUdotN : Nat → K) :
    (Nat → K) × Except FluxError K :=
  let density := x 0
  let momentum : Nat → K := fun d => x (1 + d)
  let energy := x (1 + dim)
  match divide (0.5 * dot dim momentum momentum) density with
  | Except.error err => (FUdotN, Except.error err)
  | Except.ok kinetic_energy =>
    let pressure := (specific_heat_ratio - 1.0) * (energy - kinetic_energy)
    let checks : Except FluxError Unit := do
      mfemAssertIn debug (decide (density ≥ 0)) msgNegativeDensity
      mfemAssertIn debug (decide (pressure ≥ 0)) msgNegativePressure
      mfemAssertIn debug (decide (energy ≥ 0)) msgNegativeEnergy
    match checks with
    | Except.error err => (FUdotN, Except.error err)
    | Except.ok _ =>
      let FUdotN := Function.update FUdotN 0 (dot dim momentum normal)
      match divide (FUdotN 0) density with
      | Except.error err => (FUdotN, Except.error err)
      | Except.ok normal_velocity =>
        let FUdotN := forLoop dim (fun d FUdotN =>
          Function.update FUdotN (1 + d)
            (normal_velocity * momentum d + pressure * normal d)) FUdotN
        let FUdotN := Function.update FUdotN (1 + dim) (normal_velocity * (energy + pressure))
        (FUdotN, do
          let q ← divide (specific_heat_ratio * pressure) density
          let sound := sqrt q
          let speed ← divide |normal_velocity| (sqrt (dot dim normal normal))
          pure (speed + sound))

/-- Lines 262-275, `FluxFunction::ComputeFluxDotN(U, normal, Tr, FUdotN)`, the
generic normal flux: `ComputeFlux` is the virtual `ComputeFlux` (state, matrix
buffer), `flux` the content of the `num_equations x dim` buffer before the call.
The result is the content of `FUdotN` when the call ends, and the returned value or
the reason why the call stops. -/
def FluxFunction.ComputeFluxDotN (num_equations dim : Nat)
    (ComputeFlux : (Nat → K) → (Nat × Nat → K) → Except FluxError (K × (Nat × Nat → K)))
    (U normal FUdotN : Nat → K) (flux : Nat × Nat → K) : (Nat → K) × Except FluxError K :=
  match ComputeFlux U flux with
  | Except.ok (val, flux) =>
    (DenseMatrix.Mult num_equations dim flux normal FUdotN, Except.ok val)
  | Except.error err => (FUdotN, Except.error err)

/-- Whether the three `MFEM_ASSERT`s of the Euler flux functions let a state
through: always in a release build, for density, pressure and energy `>= 0` in a
debug build. -/
def EulerFlux.admits (debug : Bool) (dim : Nat) (specific_heat_ratio : K) (U : Nat → K) :
    Prop :=
  debug = true → 0 ≤ U 0 ∧ 0 ≤ EulerFlux.pressure dim specific_heat_ratio U ∧ 0 ≤ U (1 + dim)

/-- An Euler state in two space dimensions: density `1`, momentum `(1, 1)`, energy
`2`. -/
def exampleEulerState : Nat → K := fun i => if i = 3 then 2 else 1

end FluxFunctions

/-! ## Element constants, `fem/tfe.hpp` -/

/-- An integer constant expression of type `int` with the exact value `v`: the value,
or `none` when it leaves the range of `int` (the expression is then not a constant
expression, and the class that holds it cannot be instantiated). -/
def constInt (v : Int) : Option Int := if fitsInt v then some v else none

/-- The constant expression `a + b`. -/
def constAdd (a b : Option Int) : Option Int := do
  let x ← a
  let y ← b
  constInt (x + y)

/-- The constant expression `a * b`. -/
def constMul (a b : Option Int) : Option Int := do
  let x ← a
  let y ← b
  constInt (x * y)

/-- The constant expression `a / b` (the quotient is rounded towards zero). -/
def constDiv (a b : Option Int) : Option Int := do
  let x ← a
  let y ← b
  if y = 0 then none else constInt (Int.tdiv x y)

/-- Modelled from the spec: the geometries `Geometry::Type` (enumeration of
`fem/geom.hpp`, not under src/) for which `fem/tfe.hpp` has `H1` and `L2`
element classes. -/
inductive Geometry where
  | SEGMENT : Geometry
  | TRIANGLE : Geometry
  | SQUARE : Geometry
  | TETRAHEDRON : Geometry
  | CUBE : Geometry
  deriving DecidableEq

/-- Modelled from the spec: `Geometry::Constants<G>::Dimension` (of `fem/geom.hpp`,
not under src/), the dimension of the reference element. -/
def Geometry.Dimension : Geometry → Nat
  | Geometry.SEGMENT => 1
  | Geometry.TRIANGLE => 2
  | Geometry.SQUARE => 2
  | Geometry.TETRAHEDRON => 3
  | Geometry.CUBE => 3

/-- Lines 233, 297, 350, 416 and 469, `H1_FiniteElement<G, P>::dim`. -/
def H1_FiniteElement.dim : Geometry → Nat
  | Geometry.SEGMENT => 1
  | Geometry.TRIANGLE => 2
  | Geometry.SQUARE => 2
  | Geometry.TETRAHEDRON => 3
  | Geometry.CUBE => 3

/-- Line 540, `L2_FiniteElement_base<G, P, ..., DOFS, TP>::dim`.  The members of the
base class exist when its template argument `DOFS` is a constant expression; when
it is not (`none`), the class cannot be instantiated and has no member. -/
def L2_FiniteElement_base.dim (G : Geometry) (DOFS : Option Int) : Option Nat := do
  let _ ← DOFS
  pure (Geometry.Dimension G)

/-- Lines 607, 624, 641, 658 and 675: the template argument `DOFS` that
`L2_FiniteElement<G, P>` passes to its base class. -/
def L2_FiniteElement.DOFS (G : Geometry) (P : Int) : Option Int :=
  let c : Int → Option Int := constInt
  let P := constInt P
  match G with
  | Geometry.SEGMENT => constAdd P (c 1)
  | Geometry.TRIANGLE => constDiv (constMul (constAdd P (c 1)) (constAdd P (c 2))) (c 2)
  | Geometry.SQUARE => constMul (constAdd P (c 1)) (constAdd P (c 1))
  | Geometry.TETRAHEDRON =>
    constDiv (constMul (constMul (constAdd P (c 1)) (constAdd P (c 2))) (constAdd P (c 3)))
      (c 6)
  | Geometry.CUBE =>
    constMul (constMul (constAdd P (c 1)) (constAdd P (c 1))) (constAdd P (c 1))

/-- Lines 604-687, `L2_FiniteElement<G, P>::dim`, inherited from the base class. -/
def L2_FiniteElement.dim (G : Geometry) (P : Int) : Option Nat :=
  L2_FiniteElement_base.dim G (L2_FiniteElement.DOFS G P)

/-- Message of lines 71-73 and 135-137. -/
def msgFirstIndex : String :=
  "The first index must be equal to the x thread index when using Dynamic1dThreadLayout. Use shared memory to access values stored in a different thread."

/-- Message of lines 82 and 146. -/
def msgAccessed : String := "Accessed size is higher than the rank of the Tensor."

/-- Modelled from the spec: `rank<Dims...>` (of the tensor utilities, not under
src/), the number of entries of a parameter pack. -/
def packRank (Dims : List Int) : Int := Dims.length

/-- Modelled from the spec: `get_value<N, Dims...>` (of the tensor utilities, not
under src/), the entry `N` of a parameter pack. -/
def get_value (N : Int) (Dims : List Int) : Int := Dims.getD N.toNat 0

/-- Modelled from the spec: `prod(Dims...)` (of the tensor utilities, not under
src/), the product of its arguments. -/
def packProd (Dims : List Int) : Int := Dims.prod

/-- Lines 66-75 and 130-139, `index(idx0, idx...)` of
`Static1dThreadLayout<BatchSize, DimX, Dims...>`: `threadIdX` is `MFEM_THREAD_ID(x)`
and `layoutIndex` the function `index` of the member `StaticLayout<Dims...> layout`
(not under src/).  The class of rank one (no `Dims`) takes `idx0` alone and returns
`0`. -/
def Static1dThreadLayout.index (threadIdX : Int) (Dims : List Int)
    (layoutIndex : List Int → Except String Int) (idx0 : Int) (idx : List Int) :
    Except String Int :=
  match Dims with
  | [] => do
    assertKernel (decide (idx0 = threadIdX)) msgFirstIndex
    pure 0
  | _ :: _ => do
    assertKernel (decide (idx0 = threadIdX)) msgFirstIndex
    layoutIndex idx

/-- Lines 77-84 and 141-148, `Size<N>()` of
`Static1dThreadLayout<BatchSize, DimX, Dims...>`. -/
def Static1dThreadLayout.Size (DimX : Int) (Dims : List Int) (N : Int) : Except String Int :=
  match Dims with
  | [] => do
    assertKernel (decide (N = 0)) msgAccessed
    pure DimX
  | _ :: _ => do
    assertKernel (decide (N ≥ 0 ∧ N < packRank (DimX :: Dims))) msgAccessed
    pure (get_value N (DimX :: Dims))

/-- Lines 207-218, `get_layout_capacity_v<Static1dThreadLayout<BatchSize, DimX,
Dims...>>`, a constant expression of type `int`. -/
def Static1dThreadLayout.get_layout_capacity (BatchSize _DimX : Int) (Dims : List Int) :
    Option Int :=
  match Dims with
  | [] => constInt BatchSize
  | _ :: _ => constMul (constInt BatchSize) (constInt (packProd Dims))

/-! ## Loop lemmas -/

section Loops

variable {σ α : Type}

theorem forLoop_succ (n : Nat) (body : Nat → σ → σ) (s : σ) :
    forLoop (n + 1) body s = body n (forLoop n body s) := rfl

/-- A property kept by every iteration is kept by the loop. -/
theorem forLoop_inv (I : σ → Prop) (n : Nat) (body : Nat → σ → σ) (s : σ)
    (h0 : I s) (hstep : ∀ i, i < n → ∀ t, I t → I (body i t)) :
    I (forLoop n body s) := by
  induction n with
  | zero => exact h0
  | succ n ih =>
    rw [forLoop_succ]
    exact hstep n (Nat.lt_succ_self n) _
      (ih (fun i hi t ht => hstep i (Nat.lt_succ_of_lt hi) t ht))

/-- An observation no iteration changes is the same after the loop. -/
theorem forLoop_frame (obs : σ → α) (n : Nat) (body : Nat → σ → σ) (s : σ)
    (h : ∀ i, i < n → ∀ t, obs (body i t) = obs t) :
    obs (forLoop n body s) = obs s :=
  forLoop_inv (fun t => obs t = obs s) n body s rfl
    (fun i hi t ht => (h i hi t).trans ht)

/-- An observation that iteration `i0` sets to `v` and that no iteration moves
away from `v` is `v` after the loop. -/
theorem forLoop_hit (obs : σ → α) (v : α) (n : Nat) (body : Nat → σ → σ) (s : σ)
    (i0 : Nat) (hi0 : i0 < n) (hset : ∀ t, obs (body i0 t) = v)
    (hkeep : ∀ i, i < n → ∀ t, obs t = v → obs (body i t) = v) :
    obs (forLoop n body s) = v := by
  induction n with
  | zero => exact absurd hi0 (Nat.not_lt_zero _)
  | succ n ih =>
    rw [forLoop_succ]
    rcases Nat.lt_succ_iff_lt_or_eq.mp hi0 with hlt | heq
    · exact hkeep n (Nat.lt_succ_self n) _
        (ih hlt (fun i hi t ht => hkeep i (Nat.lt_succ_of_lt hi) t ht))
    · subst heq
      exact hset _

/-- When only iteration `i0` changes an observation, its value after the loop is
the one iteration `i0` produced, from a state that the other iterations made:
a state with every property the other iterations keep. -/
theorem forLoop_select (obs : σ → α) (n : Nat) (body : Nat → σ → σ) (s : σ)
    (i0 : Nat) (hi0 : i0 < n)
    (hframe : ∀ i, i < n → i ≠ i0 → ∀ t, obs (body i t) = obs t) :
    ∃ t, obs (forLoop n body s) = obs (body i0 t) ∧
      ∀ Q : σ → Prop, Q s → (∀ i, i < n → i ≠ i0 → ∀ u, Q u → Q (body i u)) → Q t := by
  induction n with
  | zero => exact absurd hi0 (Nat.not_lt_zero _)
  | succ n ih =>
    rcases Nat.lt_succ_iff_lt_or_eq.mp hi0 with hlt | heq
    · obtain ⟨t, ht, hQ⟩ := ih hlt (fun i hi hne u => hframe i (Nat.lt_succ_of_lt hi) hne u)
      refine ⟨t, ?_, fun Q hs hstep => hQ Q hs
        (fun i hi hne u hu => hstep i (Nat.lt_succ_of_lt hi) hne u hu)⟩
      rw [forLoop_succ, hframe n (Nat.lt_succ_self n) (by omega)]
      exact ht
    · subst heq
      refine ⟨forLoop i0 body s, rfl, fun Q hs hstep => ?_⟩
      exact forLoop_inv Q i0 body s hs
        (fun i hi u hu => hstep i (Nat.lt_succ_of_lt hi) (by omega) u hu)

/-- Invariant of a pair of nested thread loops. -/
theorem forLoop2_inv (I : σ → Prop) (Ny Nx : Nat) (body : Nat → Nat → σ → σ) (s : σ)
    (h0 : I s) (hstep : ∀ y x, y < Ny → x < Nx → ∀ t, I t → I (body y x t)) :
    I (forLoop Ny (fun y s => forLoop Nx (fun x s => body y x s) s) s) :=
  forLoop_inv I Ny _ s h0 (fun y hy t ht =>
    forLoop_inv I Nx _ t ht (fun x hx u hu => hstep y x hy hx u hu))

/-- Frame rule of a pair of nested thread loops. -/
theorem forLoop2_frame (obs : σ → α) (Ny Nx : Nat) (body : Nat → Nat → σ → σ) (s : σ)
    (h : ∀ y x, y < Ny → x < Nx → ∀ t, obs (body y x t) = obs t) :
    obs (forLoop Ny (fun y s => forLoop Nx (fun x s => body y x s) s) s) = obs s :=
  forLoop2_inv (fun t => obs t = obs s) Ny Nx body s rfl
    (fun y x hy hx t ht => (h y x hy hx t).trans ht)

/-- The `forLoop_hit` rule for a pair of nested thread loops. -/
theorem forLoop2_hit (obs : σ → α) (v : α) (Ny Nx : Nat) (body : Nat → Nat → σ → σ)
    (s : σ) (y0 x0 : Nat) (hy0 : y0 < Ny) (hx0 : x0 < Nx)
    (hset : ∀ t, obs (body y0 x0 t) = v)
    (hkeep : ∀ y x, y < Ny → x < Nx → ∀ t, obs t = v → obs (body y x t) = v) :
    obs (forLoop Ny (fun y s => forLoop Nx (fun x s => body y x s) s) s) = v :=
  forLoop_hit obs v Ny _ s y0 hy0
    (fun t => forLoop_hit obs v Nx _ t x0 hx0 hset (fun x hx u hu => hkeep y0 x hy0 hx u hu))
    (fun y hy t ht => forLoop_inv (fun u => obs u = v) Nx _ t ht
      (fun x hx u hu => hkeep y x hy hx u hu))

/-- The `forLoop_select` rule for a pair of nested thread loops. -/
theorem forLoop2_select (obs : σ → α) (Ny Nx : Nat) (body : Nat → Nat → σ → σ) (s : σ)
    (y0 x0 : Nat) (hy0 : y0 < Ny) (hx0 : x0 < Nx)
    (hframe : ∀ y x, y < Ny → x < Nx → ¬ (y = y0 ∧ x = x0) → ∀ t, obs (body y x t) = obs t) :
    ∃ t, obs (forLoop Ny (fun y s => forLoop Nx (fun x s => body y x s) s) s)
        = obs (body y0 x0 t) ∧
      ∀ Q : σ → Prop, Q s →
        (∀ y x, y < Ny → x < Nx → ¬ (y = y0 ∧ x = x0) → ∀ u, Q u → Q (body y x u)) → Q t := by
  obtain ⟨t1, h1, hQ1⟩ := forLoop_select obs Ny
    (fun y s => forLoop Nx (fun x s => body y x s) s) s y0 hy0
    (fun y hy hne t => forLoop_frame obs Nx _ t
      (fun x hx u => hframe y x hy hx (fun h => hne h.1) u))
  obtain ⟨t2, h2, hQ2⟩ := forLoop_select obs Nx (fun x s => body y0 x s) t1 x0 hx0
    (fun x hx hne t => hframe y0 x hy0 hx (fun h => hne h.2) t)
  refine ⟨t2, h1.trans h2, fun Q hs hstep => ?_⟩
  apply hQ2 Q
  · apply hQ1 Q hs
    intro y hy hne u hu
    exact forLoop_inv Q Nx _ u hu
      (fun x hx w hw => hstep y x hy hx (fun h => hne h.1) w hw)
  · intro x hx hne u hu
    exact hstep y0 x hy0 hx (fun h => hne h.2) u hu

end Loops

/-! ## Array lemmas -/

section Arrays

variable {κ ρ : Type} [DecidableEq κ]

/-- A loop of stores `A[key k] = g k (A[key k])` over distinct keys: the entry of
key `k0`. -/
theorem forLoop_update_at (key : Nat → κ) (g : Nat → ρ → ρ) (K : Nat) (A : κ → ρ)
    (hinj : ∀ i j, i < K → j < K → key i = key j → i = j) (k0 : Nat) (hk0 : k0 < K) :
    forLoop K (fun k A => Function.update A (key k) (g k (A (key k)))) A (key k0)
      = g k0 (A (key k0)) := by
  obtain ⟨t, ht, hQ⟩ := forLoop_select (fun A : κ → ρ => A (key k0)) K
    (fun k A => Function.update A (key k) (g k (A (key k)))) A k0 hk0
    (fun i hi hne t => by
      have : key k0 ≠ key i := fun h => hne (hinj i k0 hi hk0 h.symm)
      simp [Function.update_noteq this])
  rw [ht]
  have hk : t (key k0) = A (key k0) :=
    hQ (fun u => u (key k0) = A (key k0)) rfl (fun i hi hne u hu => by
      have : key k0 ≠ key i := fun h => hne (hinj i k0 hi hk0 h.symm)
      simpa [Function.update_noteq this] using hu)
  simp [hk]

/-- A loop of stores leaves every entry outside its keys alone. -/
theorem forLoop_update_off (key : Nat → κ) (g : Nat → (κ → ρ) → ρ) (K : Nat) (A : κ → ρ)
    (k : κ) (hoff : ∀ i, i < K → key i ≠ k) :
    forLoop K (fun i A => Function.update A (key i) (g i A)) A k = A k :=
  forLoop_frame (fun A : κ → ρ => A k) K _ A
    (fun i hi t => by simp [Function.update_noteq (hoff i hi).symm])

/-- A loop of stores `A[key k] = val k` of values that do not depend on `A`: an
entry all of whose writers store `v`, and that has a writer, holds `v`. -/
theorem forLoop_store_hit (key : Nat → κ) (val : Nat → ρ) (K : Nat) (A : κ → ρ)
    (k : κ) (v : ρ) (k0 : Nat) (hk0 : k0 < K) (hkey : key k0 = k)
    (hval : ∀ i, i < K → key i = k → val i = v) :
    forLoop K (fun i A => Function.update A (key i) (val i)) A k = v := by
  refine forLoop_hit (fun A : κ → ρ => A k) v K _ A k0 hk0 (fun t => ?_) (fun i hi t ht => ?_)
  · show Function.update t (key k0) (val k0) k = v
    rw [hkey, Function.update_same]
    exact hval k0 hk0 hkey
  · show Function.update t (key i) (val i) k = v
    by_cases h : key i = k
    · rw [h, Function.update_same]
      exact hval i hi h
    · rw [Function.update_noteq (Ne.symm h)]
      exact ht

/-- A loop of stores of state-independent values keeps an entry equal to `v` when
every writer of that entry stores `v`. -/
theorem forLoop_store_keep (key : Nat → κ) (val : Nat → ρ) (K : Nat) (A : κ → ρ)
    (k : κ) (v : ρ) (hA : A k = v) (hval : ∀ i, i < K → key i = k → val i = v) :
    forLoop K (fun i A => Function.update A (key i) (val i)) A k = v := by
  refine forLoop_inv (fun A : κ → ρ => A k = v) K _ A hA (fun i hi t ht => ?_)
  show Function.update t (key i) (val i) k = v
  by_cases h : key i = k
  · rw [h, Function.update_same]
    exact hval i hi h
  · rw [Function.update_noteq (Ne.symm h)]
    exact ht

end Arrays

theorem mulAdd_inj {n a b a' b' : Nat} (hb : b < n) (hb' : b' < n)
    (h : a * n + b = a' * n + b') : a = a' ∧ b = b' := by
  have hn : 0 < n := by omega
  have h1 : (a * n + b) / n = a := by
    rw [Nat.add_comm, Nat.add_mul_div_right _ _ hn, Nat.div_eq_of_lt hb, Nat.zero_add]
  have h2 : (a' * n + b') / n = a' := by
    rw [Nat.add_comm, Nat.add_mul_div_right _ _ hn, Nat.div_eq_of_lt hb', Nat.zero_add]
  have ha : a = a' := by rw [← h1, ← h2, h]
  subst ha
  exact ⟨rfl, by omega⟩

theorem addMul_inj {n a b a' b' : Nat} (ha : a < n) (ha' : a' < n)
    (h : a + n * b = a' + n * b') : a = a' ∧ b = b' := by
  have h' : b * n + a = b' * n + a' := by
    rw [Nat.mul_comm b n, Nat.mul_comm b' n]; omega
  have := mulAdd_inj ha ha' h'
  exact ⟨this.2, this.1⟩

theorem view2_inj {n i j i' j' : Nat} (hj : j < n) (hj' : j' < n)
    (h : view2 n i j = view2 n i' j') : i = i' ∧ j = j' :=
  mulAdd_inj hj hj' h

theorem view3_inj {n2 n3 i j k i' j' k' : Nat} (hj : j < n2) (hj' : j' < n2)
    (hk : k < n3) (hk' : k' < n3)
    (h : view3 n2 n3 i j k = view3 n2 n3 i' j' k') : i = i' ∧ j = j' ∧ k = k' := by
  obtain ⟨h1, h2⟩ := mulAdd_inj hk hk' h
  obtain ⟨h3, h4⟩ := mulAdd_inj hj hj' h1
  exact ⟨h3, h4, h2⟩

theorem Reshape4_inj {N1 N2 N3 i j k l i' j' k' l' : Nat} (hi : i < N1) (hi' : i' < N1)
    (hj : j < N2) (hj' : j' < N2) (hk : k < N3) (hk' : k' < N3)
    (h : Reshape4 N1 N2 N3 i j k l = Reshape4 N1 N2 N3 i' j' k' l') :
    i = i' ∧ j = j' ∧ k = k' ∧ l = l' := by
  obtain ⟨h1, h2⟩ := addMul_inj hi hi' h
  obtain ⟨h3, h4⟩ := addMul_inj hj hj' h2
  obtain ⟨h5, h6⟩ := addMul_inj hk hk' h4
  exact ⟨h1, h3, h5, h6⟩

section
variable {κ ρ : Type} [DecidableEq κ]

theorem grid2_store (key : Nat → Nat → κ) (val : Nat → Nat → ρ) (Ny Nx : Nat) (A : κ → ρ)
    (y0 x0 : Nat) (hy0 : y0 < Ny) (hx0 : x0 < Nx)
    (hval : ∀ y x, y < Ny → x < Nx → key y x = key y0 x0 → val y x = val y0 x0) :
    forLoop Ny (fun y A => forLoop Nx (fun x A =>
      Function.update A (key y x) (val y x)) A) A (key y0 x0) = val y0 x0 := by
  refine forLoop2_hit (fun A : κ → ρ => A (key y0 x0)) (val y0 x0) Ny Nx
    (fun y x A => Function.update A (key y x) (val y x)) A y0 x0 hy0 hx0
    (fun t => by simp) (fun y x hy hx t ht => ?_)
  show Function.update t (key y x) (val y x) (key y0 x0) = val y0 x0
  by_cases h : key y x = key y0 x0
  · rw [← h, Function.update_same]
    exact hval y x hy hx h
  · rw [Function.update_noteq (Ne.symm h)]
    exact ht

theorem grid3_store (key : Nat → Nat → Nat → κ) (val : Nat → Nat → Nat → ρ)
    (Ny Nx K : Nat) (A : κ → ρ) (y0 x0 k0 : Nat) (hy0 : y0 < Ny) (hx0 : x0 < Nx)
    (hk0 : k0 < K)
    (hval : ∀ y x k, y < Ny → x < Nx → k < K → key y x k = key y0 x0 k0 →
      val y x k = val y0 x0 k0) :
    forLoop Ny (fun y A => forLoop Nx (fun x A => forLoop K (fun k A =>
      Function.update A (key y x k) (val y x k)) A) A) A (key y0 x0 k0) = val y0 x0 k0 :=
  forLoop2_hit (fun A : κ → ρ => A (key y0 x0 k0)) (val y0 x0 k0) Ny Nx
    (fun y x A => forLoop K (fun k A => Function.update A (key y x k) (val y x k)) A)
    A y0 x0 hy0 hx0
    (fun t => forLoop_store_hit (key y0 x0) (val y0 x0) K t _ _ k0 hk0 rfl
      (fun k hk h => hval y0 x0 k hy0 hx0 hk h))
    (fun y x hy hx t ht => forLoop_store_keep (key y x) (val y x) K t _ _ ht
      (fun k hk h => hval y x k hy hx hk h))
end

section
variable {R : Type} [CommRing R]

theorem forLoop_sum (N : Nat) (f : Nat → R) :
    forLoop N (fun k acc => acc + f k) 0 = ∑ k in range N, f k := by
  induction N with
  | zero => rfl
  | succ N ih => rw [forLoop_succ, ih, Finset.sum_range_succ]

theorem threadSums_eq (K N : Nat) (term : Nat → Nat → R) (u : Nat → R) (k : Nat)
    (hk : k < K) : threadSums K N term u k = ∑ r in range N, term r k := by
  unfold threadSums
  induction N with
  | zero =>
    exact forLoop_update_at (fun k => k) (fun _ _ => (0 : R)) K u
      (fun i j _ _ h => h) k hk
  | succ N ih =>
    rw [forLoop_succ, Finset.sum_range_succ, ← ih]
    exact forLoop_update_at (fun k => k) (fun k v => v + term N k) K _
      (fun i j _ _ h => h) k hk
end

/-! ## Stages of the staged kernel -/

section SmemStages

theorem SmemLoadB_at {R : Type} (D1D Q1D : Nat) (b_ A : Nat → R) (q d : Nat) (hq : q < Q1D)
    (hd : d < D1D) :
    SmemLoadB D1D Q1D b_ A (view2 D1D q d) = b_ (Reshape2 Q1D q d) :=
  grid2_store (fun dy dx => view2 D1D dx dy) (fun dy dx => b_ (Reshape2 Q1D dx dy))
    D1D Q1D A d q hd hq
    (fun y x hy _ h => by
      obtain ⟨h1, h2⟩ := view2_inj hy hd h
      subst h1 h2; rfl)

theorem SmemLoadBt_at {R : Type} (D1D Q1D : Nat) (b_ A : Nat → R) (q d : Nat) (hq : q < Q1D)
    (hd : d < D1D) :
    SmemLoadBt D1D Q1D b_ A (view2 Q1D d q) = b_ (Reshape2 Q1D q d) :=
  grid2_store (fun d q => view2 Q1D d q) (fun d q => b_ (Reshape2 Q1D q d))
    D1D Q1D A d q hd hq
    (fun y x _ hx h => by
      obtain ⟨h1, h2⟩ := view2_inj hx hq h
      subst h1 h2; rfl)

variable {R : Type} [CommRing R]

theorem SmemStage1_at (D1D Q1D : Nat) (map : Option (Nat → Int)) (x_ : Nat → R) (e : Nat)
    (junk sDQ sm1 : Nat → R) (dz dy qx : Nat) (hdz : dz < D1D) (hdy : dy < D1D)
    (hqx : qx < Q1D) :
    SmemStage1 D1D Q1D map x_ e junk sDQ sm1 (view3 D1D Q1D dz dy qx)
      = ∑ dx in range D1D, x_ (dofSlot D1D map dx dy dz e) * sDQ (view2 D1D qx dx) := by
  rw [← threadSums_eq D1D D1D
    (fun dx dz => x_ (dofSlot D1D map dx dy dz e) * sDQ (view2 D1D qx dx)) junk dz hdz]
  exact grid3_store (fun dy qx dz => view3 D1D Q1D dz dy qx)
    (fun dy qx dz => threadSums D1D D1D
      (fun dx dz => x_ (dofSlot D1D map dx dy dz e) * sDQ (view2 D1D qx dx)) junk dz)
    D1D Q1D D1D sm1 dy qx dz hdy hqx hdz
    (fun y x k hy hx _ h => by
      obtain ⟨h1, h2, h3⟩ := view3_inj hy hdy hx hqx h
      subst h1 h2 h3; rfl)

theorem SmemStage2_at (D1D Q1D : Nat) (junk sDQ sm1 sm0 : Nat → R) (dz qy qx : Nat)
    (hdz : dz < D1D) (hqy : qy < Q1D) (hqx : qx < Q1D) :
    SmemStage2 D1D Q1D junk sDQ sm1 sm0 (view3 Q1D Q1D dz qy qx)
      = ∑ dy in range D1D, sm1 (view3 D1D Q1D dz dy qx) * sDQ (view2 D1D qy dy) := by
  rw [← threadSums_eq D1D D1D
    (fun dy dz => sm1 (view3 D1D Q1D dz dy qx) * sDQ (view2 D1D qy dy)) junk dz hdz]
  exact grid3_store (fun qy qx dz => view3 Q1D Q1D dz qy qx)
    (fun qy qx dz => threadSums D1D D1D
      (fun dy dz => sm1 (view3 D1D Q1D dz dy qx) * sDQ (view2 D1D qy dy)) junk dz)
    Q1D Q1D D1D sm0 qy qx dz hqy hqx hdz
    (fun y x k hy hx _ h => by
      obtain ⟨h1, h2, h3⟩ := view3_inj hy hqy hx hqx h
      subst h1 h2 h3; rfl)

theorem SmemStage3_at (D1D Q1D : Nat) (d_ : Nat → R) (e : Nat) (junk sDQ sm0 sm1 : Nat → R)
    (qz qy qx : Nat) (hqz : qz < Q1D) (hqy : qy < Q1D) (hqx : qx < Q1D) :
    SmemStage3 D1D Q1D d_ e junk sDQ sm0 sm1 (view3 Q1D Q1D qz qy qx)
      = (∑ dz in range D1D, sm0 (view3 Q1D Q1D dz qy qx) * sDQ (view2 D1D qz dz))
          * d_ (Reshape4 Q1D Q1D Q1D qx qy qz e) := by
  rw [← threadSums_eq Q1D D1D
    (fun dz qz => sm0 (view3 Q1D Q1D dz qy qx) * sDQ (view2 D1D qz dz)) junk qz hqz]
  exact grid3_store (fun qy qx qz => view3 Q1D Q1D qz qy qx)
    (fun qy qx qz => threadSums Q1D D1D
      (fun dz qz => sm0 (view3 Q1D Q1D dz qy qx) * sDQ (view2 D1D qz dz)) junk qz
        * d_ (Reshape4 Q1D Q1D Q1D qx qy qz e))
    Q1D Q1D Q1D sm1 qy qx qz hqy hqx hqz
    (fun y x k hy hx _ h => by
      obtain ⟨h1, h2, h3⟩ := view3_inj hy hqy hx hqx h
      subst h1 h2 h3; rfl)

theorem SmemStage4_at (D1D Q1D : Nat) (junk sDQ sm1 sm0 : Nat → R) (qz qy dx : Nat)
    (hqz : qz < Q1D) (hqy : qy < Q1D) (hdx : dx < D1D) :
    SmemStage4 D1D Q1D junk sDQ sm1 sm0 (view3 Q1D D1D qz qy dx)
      = ∑ qx in range Q1D, sm1 (view3 Q1D Q1D qz qy qx) * sDQ (view2 Q1D dx qx) := by
  rw [← threadSums_eq Q1D Q1D
    (fun qx qz => sm1 (view3 Q1D Q1D qz qy qx) * sDQ (view2 Q1D dx qx)) junk qz hqz]
  exact grid3_store (fun qy dx qz => view3 Q1D D1D qz qy dx)
    (fun qy dx qz => threadSums Q1D Q1D
      (fun qx qz => sm1 (view3 Q1D Q1D qz qy qx) * sDQ (view2 Q1D dx qx)) junk qz)
    Q1D D1D Q1D sm0 qy dx qz hqy hdx hqz
    (fun y x k hy hx _ h => by
      obtain ⟨h1, h2, h3⟩ := view3_inj hy hqy hx hdx h
      subst h1 h2 h3; rfl)

theorem SmemStage5_at (D1D Q1D : Nat) (junk sDQ sm0 sm1 : Nat → R) (qz dy dx : Nat)
    (hqz : qz < Q1D) (hdy : dy < D1D) (hdx : dx < D1D) :
    SmemStage5 D1D Q1D junk sDQ sm0 sm1 (view3 D1D D1D qz dy dx)
      = ∑ qy in range Q1D, sm0 (view3 Q1D D1D qz qy dx) * sDQ (view2 Q1D dy qy) := by
  rw [← threadSums_eq Q1D Q1D
    (fun qy qz => sm0 (view3 Q1D D1D qz qy dx) * sDQ (view2 Q1D dy qy)) junk qz hqz]
  exact grid3_store (fun dy dx qz => view3 D1D D1D qz dy dx)
    (fun dy dx qz => threadSums Q1D Q1D
      (fun qy qz => sm0 (view3 Q1D D1D qz qy dx) * sDQ (view2 Q1D dy qy)) junk qz)
    D1D D1D Q1D sm1 dy dx qz hdy hdx hqz
    (fun y x k hy hx _ h => by
      obtain ⟨h1, h2, h3⟩ := view3_inj hy hdy hx hdx h
      subst h1 h2 h3; rfl)

end SmemStages

/-! ## Sum factorisation -/

section SumFactorisation

variable {R : Type} [CommRing R]

/-- A loop that adds `w i` to an observed entry in iteration `i` adds their sum. -/
theorem forLoop_add {σ : Type} (obs : σ → R) (w : Nat → R) (n : Nat)
    (body : Nat → σ → σ) (s : σ) (h : ∀ i, i < n → ∀ t, obs (body i t) = obs t + w i) :
    obs (forLoop n body s) = obs s + ∑ i in range n, w i := by
  induction n with
  | zero => simp [forLoop]
  | succ n ih =>
    rw [forLoop_succ, h n (Nat.lt_succ_self n), ih (fun i hi t => h i (Nat.lt_succ_of_lt hi) t),
      Finset.sum_range_succ, add_assoc]

/-- The scatter loops of both kernels: every `(dx, dy, dz)` adds its value to its
slot. -/
theorem scatter_loops (N : Nat) (slot : Nat → Nat → Nat → Nat) (v : Nat → Nat → Nat → R)
    (y : Nat → R) (g : Nat) :
    forLoop N (fun dy y => forLoop N (fun dx y => forLoop N (fun dz y =>
      Function.update y (slot dx dy dz) (y (slot dx dy dz) + v dx dy dz)) y) y) y g
      = y g + scatterSum N slot v g := by
  unfold scatterSum
  refine forLoop_add (fun y : Nat → R => y g) _ N _ y (fun dy _ t => ?_)
  refine forLoop_add (fun y : Nat → R => y g) _ N _ t (fun dx _ t => ?_)
  refine forLoop_add (fun y : Nat → R => y g) _ N _ t (fun dz _ t => ?_)
  show Function.update t (slot dx dy dz) (t (slot dx dy dz) + v dx dy dz) g = _
  by_cases h : slot dx dy dz = g
  · rw [h, Function.update_same, if_pos rfl]
  · rw [Function.update_noteq (Ne.symm h), if_neg h, add_zero]

theorem sum3_rev (A B C : Finset Nat) (f : Nat → Nat → Nat → R) :
    ∑ a in A, ∑ b in B, ∑ c in C, f a b c = ∑ c in C, ∑ b in B, ∑ a in A, f a b c := by
  calc ∑ a in A, ∑ b in B, ∑ c in C, f a b c
      = ∑ a in A, ∑ c in C, ∑ b in B, f a b c :=
        Finset.sum_congr rfl (fun a _ => Finset.sum_comm)
    _ = ∑ c in C, ∑ a in A, ∑ b in B, f a b c := Finset.sum_comm
    _ = ∑ c in C, ∑ b in B, ∑ a in A, f a b c :=
        Finset.sum_congr rfl (fun c _ => Finset.sum_comm)

/-- Three successive 1-D contractions (the accumulations multiply on the right)
are one triple sum. -/
theorem contract3_right (A B C : Finset Nat) (f : Nat → Nat → Nat → R) (u v w : Nat → R) :
    ∑ c in C, (∑ b in B, (∑ a in A, f a b c * u a) * v b) * w c
      = ∑ a in A, ∑ b in B, ∑ c in C, u a * v b * w c * f a b c := by
  rw [sum3_rev]
  simp only [Finset.sum_mul]
  refine Finset.sum_congr rfl (fun c _ => Finset.sum_congr rfl (fun b _ =>
    Finset.sum_congr rfl (fun a _ => ?_)))
  ring

/-- Three successive 1-D contractions (the accumulations multiply on the left)
are one triple sum. -/
theorem contract3_left (A B C : Finset Nat) (f : Nat → Nat → Nat → R) (u v w : Nat → R) :
    ∑ a in A, u a * ∑ b in B, v b * ∑ c in C, w c * f a b c
      = ∑ a in A, ∑ b in B, ∑ c in C, u a * v b * w c * f a b c := by
  simp only [Finset.mul_sum]
  refine Finset.sum_congr rfl (fun a _ => Finset.sum_congr rfl (fun b _ =>
    Finset.sum_congr rfl (fun c _ => ?_)))
  ring

/-- The staged kernel's six contractions compute the element contraction. -/
theorem sumfact_smem (D1D Q1D : Nat) (B : Nat → Nat → R) (D X : Nat → Nat → Nat → R)
    (dx dy dz : Nat) :
    ∑ qz in range Q1D, (∑ qy in range Q1D, (∑ qx in range Q1D,
      ((∑ az in range D1D, (∑ ay in range D1D, (∑ ax in range D1D,
          X ax ay az * B qx ax) * B qy ay) * B qz az) * D qx qy qz) * B qx dx)
        * B qy dy) * B qz dz
      = massAction D1D Q1D B D X dx dy dz := by
  unfold massAction
  rw [contract3_right]
  refine Finset.sum_congr rfl (fun qx _ => Finset.sum_congr rfl (fun qy _ =>
    Finset.sum_congr rfl (fun qz _ => ?_)))
  rw [contract3_right]
  ring

/-- The register-blocked kernel's six contractions compute the element
contraction. -/
theorem sumfact_regs (D1D Q1D : Nat) (B : Nat → Nat → R) (D X : Nat → Nat → Nat → R)
    (a b c : Nat) :
    ∑ i in range Q1D, B i a * ∑ j in range Q1D, B j b * ∑ k in range Q1D, B k c *
      ((∑ c' in range D1D, B k c' * ∑ b' in range D1D, B j b' *
          ∑ a' in range D1D, B i a' * X a' b' c') * D i j k)
      = massAction D1D Q1D B D X a b c := by
  unfold massAction
  rw [contract3_left]
  refine Finset.sum_congr rfl (fun qx _ => Finset.sum_congr rfl (fun qy _ =>
    Finset.sum_congr rfl (fun qz _ => ?_)))
  rw [contract3_left _ _ _ (fun c' b' a' => X a' b' c'), sum3_rev]
  have : ∀ a' b' c', B qz c' * B qy b' * B qx a' * X a' b' c'
      = B qx a' * B qy b' * B qz c' * X a' b' c' := fun _ _ _ => by ring
  simp only [this]
  ring

end SumFactorisation

/-! ## The staged kernel computes the specification -/

section SmemCorrect

variable {R : Type} [CommRing R]

theorem scatterSum_congr (N : Nat) (slot slot' : Nat → Nat → Nat → Nat)
    (v v' : Nat → Nat → Nat → R) (g : Nat)
    (hs : ∀ dx dy dz, dx < N → dy < N → dz < N → slot dx dy dz = slot' dx dy dz)
    (hv : ∀ dx dy dz, dx < N → dy < N → dz < N → v dx dy dz = v' dx dy dz) :
    scatterSum N slot v g = scatterSum N slot' v' g := by
  unfold scatterSum
  refine Finset.sum_congr rfl (fun dy hdy => Finset.sum_congr rfl (fun dx hdx =>
    Finset.sum_congr rfl (fun dz hdz => ?_)))
  rw [hs dx dy dz (mem_range.1 hdx) (mem_range.1 hdy) (mem_range.1 hdz),
    hv dx dy dz (mem_range.1 hdx) (mem_range.1 hdy) (mem_range.1 hdz)]

/-- The value a thread of the last stage of the staged kernel adds for
`(dx, dy, dz)` is the element contraction. -/
theorem SmemElement_value (D1D Q1D : Nat) (map : Option (Nat → Int))
    (b_ d_ x_ junk : Nat → R) (e dx dy dz : Nat) (hdx : dx < D1D) (hdy : dy < D1D)
    (hdz : dz < D1D) :
    threadSums D1D Q1D
      (fun qz dz =>
        SmemStage5 D1D Q1D junk (SmemLoadBt D1D Q1D b_ (SmemLoadB D1D Q1D b_ junk))
          (SmemStage4 D1D Q1D junk (SmemLoadBt D1D Q1D b_ (SmemLoadB D1D Q1D b_ junk))
            (SmemStage3 D1D Q1D d_ e junk (SmemLoadB D1D Q1D b_ junk)
              (SmemStage2 D1D Q1D junk (SmemLoadB D1D Q1D b_ junk)
                (SmemStage1 D1D Q1D map x_ e junk (SmemLoadB D1D Q1D b_ junk) junk) junk)
              (SmemStage1 D1D Q1D map x_ e junk (SmemLoadB D1D Q1D b_ junk) junk))
            (SmemStage2 D1D Q1D junk (SmemLoadB D1D Q1D b_ junk)
              (SmemStage1 D1D Q1D map x_ e junk (SmemLoadB D1D Q1D b_ junk) junk) junk))
          (SmemStage3 D1D Q1D d_ e junk (SmemLoadB D1D Q1D b_ junk)
            (SmemStage2 D1D Q1D junk (SmemLoadB D1D Q1D b_ junk)
              (SmemStage1 D1D Q1D map x_ e junk (SmemLoadB D1D Q1D b_ junk) junk) junk)
            (SmemStage1 D1D Q1D map x_ e junk (SmemLoadB D1D Q1D b_ junk) junk))
          (view3 D1D D1D qz dy dx)
        * SmemLoadBt D1D Q1D b_ (SmemLoadB D1D Q1D b_ junk) (view2 Q1D dz qz)) junk dz
      = massAction D1D Q1D (Bmat Q1D b_) (Dcoef Q1D d_ e) (Xloc D1D map x_ e) dx dy dz := by
  rw [threadSums_eq _ _ _ _ _ hdz, ← sumfact_smem]
  refine Finset.sum_congr rfl (fun qz hqz => ?_)
  have hqz := mem_range.1 hqz
  rw [SmemStage5_at _ _ _ _ _ _ qz dy dx hqz hdy hdx, SmemLoadBt_at _ _ _ _ qz dz hqz hdz]
  refine congrArg (· * Bmat Q1D b_ qz dz) (Finset.sum_congr rfl (fun qy hqy => ?_))
  have hqy := mem_range.1 hqy
  rw [SmemStage4_at _ _ _ _ _ _ qz qy dx hqz hqy hdx, SmemLoadBt_at _ _ _ _ qy dy hqy hdy]
  refine congrArg (· * Bmat Q1D b_ qy dy) (Finset.sum_congr rfl (fun qx hqx => ?_))
  have hqx := mem_range.1 hqx
  rw [SmemStage3_at _ _ _ _ _ _ _ _ qz qy qx hqz hqy hqx, SmemLoadBt_at _ _ _ _ qx dx hqx hdx]
  refine congrArg (· * Bmat Q1D b_ qx dx) ?_
  refine congrArg (· * Dcoef Q1D d_ e qx qy qz) (Finset.sum_congr rfl (fun az haz => ?_))
  have haz := mem_range.1 haz
  rw [SmemStage2_at _ _ _ _ _ _ az qy qx haz hqy hqx, SmemLoadB_at _ _ _ _ qz az hqz haz]
  refine congrArg (· * Bmat Q1D b_ qz az) (Finset.sum_congr rfl (fun ay hay => ?_))
  have hay := mem_range.1 hay
  rw [SmemStage1_at _ _ _ _ _ _ _ _ az ay qx haz hay hqx, SmemLoadB_at _ _ _ _ qy ay hqy hay]
  refine congrArg (· * Bmat Q1D b_ qy ay) (Finset.sum_congr rfl (fun ax hax => ?_))
  have hax := mem_range.1 hax
  rw [SmemLoadB_at _ _ _ _ qx ax hqx hax]
  rfl

/-- One element of the staged kernel adds its contraction to the slots of its
degrees of freedom. -/
theorem SmemElement_apply (D1D Q1D : Nat) (map : Option (Nat → Int))
    (b_ d_ x_ junk : Nat → R) (e : Nat) (y : Nat → R) (g : Nat) :
    SmemElement D1D Q1D map b_ d_ x_ junk e y g
      = y g + scatterSum D1D (fun dx dy dz => dofSlot D1D map dx dy dz e)
          (massAction D1D Q1D (Bmat Q1D b_) (Dcoef Q1D d_ e) (Xloc D1D map x_ e)) g := by
  unfold SmemElement SmemStage6
  rw [scatter_loops D1D (fun dx dy dz => dofSlot D1D map dx dy dz e)]
  refine congrArg (y g + ·) (scatterSum_congr D1D _ _ _ _ g (fun _ _ _ _ _ _ => rfl)
    (fun dx dy dz hdx hdy hdz => ?_))
  exact SmemElement_value D1D Q1D map b_ d_ x_ junk e dx dy dz hdx hdy hdz

/-- The staged kernel meets the specification `Y += operator(X)` in every slot. -/
theorem NDK_SmemPAMassApply3D_eq_spec (D1D Q1D ndofs NE : Nat) (map : Option (Nat → Int))
    (b_ d_ x_ y_ junk : Nat → R) (g : Nat) :
    NDK_SmemPAMassApply3D D1D Q1D ndofs NE map b_ d_ x_ y_ junk g
      = massApplySpec D1D Q1D NE map b_ d_ x_ y_ g := by
  unfold NDK_SmemPAMassApply3D massApplySpec massOperator
  exact forLoop_add (fun y : Nat → R => y g) _ NE _ y_
    (fun e _ t => SmemElement_apply D1D Q1D map b_ d_ x_ junk e t g)

end SmemCorrect

/-! ## Threads of the register-blocked kernel -/

section RegsThreads

variable {R : Type} [CommRing R]

/-- The accumulation loops `A[key k] += f a k` (`a` outer, `k` inner): the entry
of key `k0`. -/
theorem forLoop_accum_at {κ : Type} [DecidableEq κ] (key : Nat → κ) (f : Nat → Nat → R)
    (N K : Nat) (A : κ → R) (hinj : ∀ i j, i < K → j < K → key i = key j → i = j)
    (k0 : Nat) (hk0 : k0 < K) :
    forLoop N (fun a A => forLoop K (fun k A =>
      Function.update A (key k) (A (key k) + f a k)) A) A (key k0)
      = A (key k0) + ∑ a in range N, f a k0 := by
  refine forLoop_add (fun A : κ → R => A (key k0)) (fun a => f a k0) N _ A (fun a _ t => ?_)
  exact forLoop_update_at key (fun k v => v + f a k) K t hinj k0 hk0

/-- The accumulation loops leave every entry outside their keys alone. -/
theorem forLoop_accum_off {κ : Type} [DecidableEq κ] (key : Nat → κ) (f : Nat → Nat → R)
    (N K : Nat) (A : κ → R) (k : κ) (hoff : ∀ i, i < K → key i ≠ k) :
    forLoop N (fun a A => forLoop K (fun i A =>
      Function.update A (key i) (A (key i) + f a i)) A) A k = A k :=
  forLoop_frame (fun A : κ → R => A k) N _ A (fun a _ t =>
    forLoop_update_off key (fun i A => A (key i) + f a i) K t k hoff)

theorem lane_key_inj (L : Nat × Nat) (K : Nat) :
    ∀ i j, i < K → j < K → ((L, i) : (Nat × Nat) × Nat) = (L, j) → i = j :=
  fun _ _ _ _ h => (Prod.mk.inj h).2

/-! ### Load stage -/

theorem RegsLoadThread_s_B_keep (ex : Exec) (D1D Q1D : Nat) (map : Option (Nat → Int))
    (b_ x_ : Nat → R) (e a b : Nat) (s : RegsState R) (i a0 : Nat)
    (h : s.s_B (i, a0) = b_ (Reshape2 Q1D i a0)) :
    (RegsLoadThread ex D1D Q1D map b_ x_ e a b s).s_B (i, a0) = b_ (Reshape2 Q1D i a0) := by
  unfold RegsLoadThread
  dsimp only
  split
  · by_cases hk : (i, a0) = (b, a)
    · obtain ⟨h1, h2⟩ := Prod.mk.inj hk
      subst h1 h2
      rw [Function.update_same]
    · rw [Function.update_noteq hk]
      exact h
  · exact h

theorem RegsLoadThread_s_B_set (ex : Exec) (D1D Q1D : Nat) (map : Option (Nat → Int))
    (b_ x_ : Nat → R) (e a b : Nat) (s : RegsState R) (ha : a < D1D) :
    (RegsLoadThread ex D1D Q1D map b_ x_ e a b s).s_B (b, a) = b_ (Reshape2 Q1D b a) := by
  unfold RegsLoadThread
  dsimp only
  rw [if_pos ha, Function.update_same]

theorem RegsLoadThread_s_q_keep (ex : Exec) (D1D Q1D : Nat) (map : Option (Nat → Int))
    (b_ x_ : Nat → R) (e a b : Nat) (s : RegsState R) (c0 b0 a0 : Nat)
    (h : s.s_q (c0, b0, a0) = x_ (dofSlot D1D map a0 b0 c0 e)) :
    (RegsLoadThread ex D1D Q1D map b_ x_ e a b s).s_q (c0, b0, a0)
      = x_ (dofSlot D1D map a0 b0 c0 e) := by
  unfold RegsLoadThread
  dsimp only
  split
  · refine forLoop_store_keep (fun c => (c, b, a)) (fun c => x_ (dofSlot D1D map a b c e))
      D1D s.s_q _ _ h (fun c _ hk => ?_)
    simp only [Prod.mk.injEq] at hk
    obtain ⟨h1, h2, h3⟩ := hk
    subst h1 h2 h3; rfl
  · exact h

theorem RegsLoadThread_s_q_set (ex : Exec) (D1D Q1D : Nat) (map : Option (Nat → Int))
    (b_ x_ : Nat → R) (e a b : Nat) (s : RegsState R) (c : Nat) (ha : a < D1D)
    (hb : b < D1D) (hc : c < D1D) :
    (RegsLoadThread ex D1D Q1D map b_ x_ e a b s).s_q (c, b, a)
      = x_ (dofSlot D1D map a b c e) := by
  unfold RegsLoadThread
  dsimp only
  rw [if_pos ⟨ha, hb⟩]
  refine forLoop_store_hit (fun c => (c, b, a)) (fun c => x_ (dofSlot D1D map a b c e))
    D1D s.s_q _ _ c hc rfl (fun c' _ hk => ?_)
  simp only [Prod.mk.injEq] at hk
  obtain ⟨h1, -, -⟩ := hk
  subst h1; rfl

theorem RegsLoadThread_r_wk_keep (ex : Exec) (D1D Q1D : Nat) (map : Option (Nat → Int))
    (b_ x_ : Nat → R) (e a b : Nat) (s : RegsState R) (k : (Nat × Nat) × Nat)
    (h : s.r_wk k = 0) :
    (RegsLoadThread ex D1D Q1D map b_ x_ e a b s).r_wk k = 0 :=
  forLoop_store_keep (fun i => (ex.lane a b, i)) (fun _ => (0 : R)) Q1D s.r_wk k 0 h
    (fun _ _ _ => rfl)

theorem RegsLoadThread_r_wk_set (ex : Exec) (D1D Q1D : Nat) (map : Option (Nat → Int))
    (b_ x_ : Nat → R) (e a b : Nat) (s : RegsState R) (i : Nat) (hi : i < Q1D) :
    (RegsLoadThread ex D1D Q1D map b_ x_ e a b s).r_wk (ex.lane a b, i) = 0 :=
  forLoop_store_hit (fun i => (ex.lane a b, i)) (fun _ => (0 : R)) Q1D s.r_wk _ 0 i hi rfl
    (fun _ _ _ => rfl)

end RegsThreads

section RegsThreads2

variable {R : Type} [CommRing R]

theorem RegsStage1Thread_eq (ex : Exec) (D1D Q1D b c : Nat) (s : RegsState R) :
    RegsStage1Thread ex D1D Q1D b c s
      = regsFwdThread (b < D1D ∧ c < D1D) (ex.lane b c) D1D Q1D
          (fun a => (c, b, a)) (fun i => (c, b, i)) s := rfl

theorem RegsStage2Thread_eq (ex : Exec) (D1D Q1D i c : Nat) (s : RegsState R) :
    RegsStage2Thread ex D1D Q1D i c s
      = regsFwdThread (i < Q1D ∧ c < D1D) (ex.lane i c) D1D Q1D
          (fun b => (c, b, i)) (fun j => (c, j, i)) s := rfl

theorem RegsStage5Thread_eq (ex : Exec) (D1D Q1D i c : Nat) (s : RegsState R) :
    RegsStage5Thread ex D1D Q1D i c s
      = regsBwdThread (ex.lane i c) D1D Q1D (fun j => (c, j, i)) (fun b => (c, b, i)) s := rfl

theorem RegsStage6Thread_eq (ex : Exec) (D1D Q1D b c : Nat) (s : RegsState R) :
    RegsStage6Thread ex D1D Q1D b c s
      = regsBwdThread (ex.lane b c) D1D Q1D (fun i => (c, b, i)) (fun a => (c, b, a)) s := rfl

/-! ### Forward contraction threads -/

theorem regsFwdThread_s_B (guard : Prop) [Decidable guard] (L : Nat × Nat) (N Q : Nat)
    (rd wr : Nat → Nat × Nat × Nat) (s : RegsState R) :
    (regsFwdThread guard L N Q rd wr s).s_B = s.s_B := by
  unfold regsFwdThread
  dsimp only
  split <;> rfl

theorem regsFwdThread_s_q_off (guard : Prop) [Decidable guard] (L : Nat × Nat) (N Q : Nat)
    (rd wr : Nat → Nat × Nat × Nat) (s : RegsState R) (k : Nat × Nat × Nat)
    (hoff : ∀ i, i < Q → wr i ≠ k) :
    (regsFwdThread guard L N Q rd wr s).s_q k = s.s_q k := by
  unfold regsFwdThread
  dsimp only
  split
  · exact forLoop_update_off wr _ Q s.s_q k hoff
  · rfl

theorem regsFwdThread_r_wk_zero (guard : Prop) [Decidable guard] (L : Nat × Nat) (N Q : Nat)
    (rd wr : Nat → Nat × Nat × Nat) (s : RegsState R) (k : (Nat × Nat) × Nat)
    (h : s.r_wk k = 0) :
    (regsFwdThread guard L N Q rd wr s).r_wk k = 0 := by
  unfold regsFwdThread
  dsimp only
  by_cases hk : ∃ i, i < Q ∧ ((L, i) : (Nat × Nat) × Nat) = k
  · obtain ⟨i, hi, hik⟩ := hk
    exact forLoop_store_hit (fun j => (L, j)) (fun _ => (0 : R)) Q _ k 0 i hi hik
      (fun _ _ _ => rfl)
  · have hoff : ∀ i, i < Q → ((L, i) : (Nat × Nat) × Nat) ≠ k :=
      fun i hi hik => hk ⟨i, hi, hik⟩
    refine forLoop_store_keep (fun j => (L, j)) (fun _ => (0 : R)) Q _ k 0 ?_
      (fun _ _ _ => rfl)
    split
    · exact (forLoop_accum_off (fun i => (L, i)) _ N Q s.r_wk k hoff).trans h
    · exact h

theorem regsFwdThread_s_q_at (guard : Prop) [Decidable guard] (L : Nat × Nat) (N Q : Nat)
    (rd wr : Nat → Nat × Nat × Nat) (s : RegsState R) (hg : guard)
    (hinj : ∀ i j, i < Q → j < Q → wr i = wr j → i = j)
    (hz : ∀ i, i < Q → s.r_wk (L, i) = 0) (i : Nat) (hi : i < Q) :
    (regsFwdThread guard L N Q rd wr s).s_q (wr i)
      = ∑ a in range N, s.s_B (i, a) * s.s_q (rd a) := by
  unfold regsFwdThread
  dsimp only
  rw [if_pos hg]
  dsimp only
  rw [forLoop_store_hit wr _ Q s.s_q (wr i) _ i hi rfl
    (fun j hj h => by rw [hinj j i hj hi h])]
  rw [forLoop_accum_at (fun i => (L, i)) (fun a i => s.s_B (i, a) * s.s_q (rd a)) N Q
    s.r_wk (lane_key_inj L Q) i hi, hz i hi, zero_add]

/-! ### Backward contraction threads -/

theorem regsBwdThread_s_B (L : Nat × Nat) (N Q : Nat) (rd wr : Nat → Nat × Nat × Nat)
    (s : RegsState R) : (regsBwdThread L N Q rd wr s).s_B = s.s_B := rfl

theorem regsBwdThread_s_q_off (L : Nat × Nat) (N Q : Nat) (rd wr : Nat → Nat × Nat × Nat)
    (s : RegsState R) (k : Nat × Nat × Nat) (hoff : ∀ b, b < N → wr b ≠ k) :
    (regsBwdThread L N Q rd wr s).s_q k = s.s_q k :=
  forLoop_update_off wr _ N s.s_q k hoff

theorem regsBwdThread_s_q_at (L : Nat × Nat) (N Q : Nat) (rd wr : Nat → Nat × Nat × Nat)
    (s : RegsState R) (hinj : ∀ i j, i < N → j < N → wr i = wr j → i = j)
    (b : Nat) (hb : b < N) :
    (regsBwdThread L N Q rd wr s).s_q (wr b)
      = ∑ j in range Q, s.s_B (j, b) * s.s_q (rd j) := by
  unfold regsBwdThread
  dsimp only
  rw [forLoop_store_hit wr _ N s.s_q (wr b) _ b hb rfl
    (fun j hj h => by rw [hinj j b hj hb h])]
  rw [forLoop_sum]
  refine Finset.sum_congr rfl (fun j hj => ?_)
  rw [forLoop_store_hit (fun j => (L, j)) (fun j => s.s_q (rd j)) Q s.r_wk (L, j) _ j
    (mem_range.1 hj) rfl (fun j' _ h => by rw [(Prod.mk.inj h).2])]

/-! ### The coefficient thread, lines 343-364 -/

theorem RegsStage4Thread_s_B (ex : Exec) (D1D Q1D : Nat) (d_ : Nat → R) (e i j : Nat)
    (s : RegsState R) : (RegsStage4Thread ex D1D Q1D d_ e i j s).s_B = s.s_B := rfl

theorem RegsStage4Thread_s_q_off (ex : Exec) (D1D Q1D : Nat) (d_ : Nat → R) (e i j : Nat)
    (s : RegsState R) (k : Nat × Nat × Nat) (hoff : ∀ c, c < D1D → (c, j, i) ≠ k) :
    (RegsStage4Thread ex D1D Q1D d_ e i j s).s_q k = s.s_q k :=
  forLoop_update_off (fun c => (c, j, i)) _ D1D s.s_q k hoff

theorem RegsStage4Thread_r_wk_off (ex : Exec) (D1D Q1D : Nat) (d_ : Nat → R) (e i j : Nat)
    (s : RegsState R) (k : (Nat × Nat) × Nat) (hoff : ∀ n, n < Q1D → (ex.lane i j, n) ≠ k) :
    (RegsStage4Thread ex D1D Q1D d_ e i j s).r_wk k = s.r_wk k := by
  unfold RegsStage4Thread
  dsimp only
  rw [forLoop_update_off (fun n => (ex.lane i j, n)) _ Q1D _ k hoff]
  exact forLoop_accum_off (fun n => (ex.lane i j, n)) _ D1D Q1D s.r_wk k hoff

theorem RegsStage4Thread_s_q_at (ex : Exec) (D1D Q1D : Nat) (d_ : Nat → R) (e i j : Nat)
    (s : RegsState R) (hz : ∀ k, k < Q1D → s.r_wk (ex.lane i j, k) = 0)
    (c : Nat) (hc : c < D1D) :
    (RegsStage4Thread ex D1D Q1D d_ e i j s).s_q (c, j, i)
      = ∑ k in range Q1D, s.s_B (k, c) *
          ((∑ c' in range D1D, s.s_B (k, c') * s.s_q (c', j, i))
            * d_ (Reshape4 Q1D Q1D Q1D i j k e)) := by
  unfold RegsStage4Thread
  dsimp only
  rw [forLoop_store_hit (fun c => (c, j, i)) _ D1D s.s_q (c, j, i) _ c hc rfl
    (fun c' _ h => by rw [(Prod.mk.inj h).1])]
  rw [forLoop_sum]
  refine Finset.sum_congr rfl (fun k hk => ?_)
  have hk := mem_range.1 hk
  rw [forLoop_update_at (fun k => (ex.lane i j, k))
    (fun k v => v * d_ (Reshape4 Q1D Q1D Q1D i j k e)) Q1D _ (lane_key_inj _ Q1D) k hk]
  rw [forLoop_accum_at (fun k => (ex.lane i j, k)) (fun c k => s.s_B (k, c) * s.s_q (c, j, i))
    D1D Q1D s.r_wk (lane_key_inj _ Q1D) k hk, hz k hk, zero_add]

end RegsThreads2

/-! ## Stages of the register-blocked kernel -/

section RegsStages

variable {R : Type} [CommRing R]

/-! ### Load stage, lines 270-296 -/

theorem RegsLoad_s_B (ex : Exec) (D1D Q1D : Nat) (hDQ : D1D ≤ Q1D)
    (map : Option (Nat → Int)) (b_ x_ : Nat → R) (e : Nat) (s : RegsState R)
    (i a : Nat) (hi : i < Q1D) (ha : a < D1D) :
    (forLoop Q1D (fun b s => forLoop Q1D (fun a s =>
      RegsLoadThread ex D1D Q1D map b_ x_ e a b s) s) s).s_B (i, a)
      = b_ (Reshape2 Q1D i a) :=
  forLoop2_hit (fun s : RegsState R => s.s_B (i, a)) _ Q1D Q1D
    (fun b a s => RegsLoadThread ex D1D Q1D map b_ x_ e a b s) s i a hi (by omega)
    (fun t => RegsLoadThread_s_B_set ex D1D Q1D map b_ x_ e a i t ha)
    (fun y x _ _ t ht => RegsLoadThread_s_B_keep ex D1D Q1D map b_ x_ e x y t i a ht)

theorem RegsLoad_s_q (ex : Exec) (D1D Q1D : Nat) (hDQ : D1D ≤ Q1D)
    (map : Option (Nat → Int)) (b_ x_ : Nat → R) (e : Nat) (s : RegsState R)
    (c b a : Nat) (hc : c < D1D) (hb : b < D1D) (ha : a < D1D) :
    (forLoop Q1D (fun b s => forLoop Q1D (fun a s =>
      RegsLoadThread ex D1D Q1D map b_ x_ e a b s) s) s).s_q (c, b, a)
      = x_ (dofSlot D1D map a b c e) :=
  forLoop2_hit (fun s : RegsState R => s.s_q (c, b, a)) _ Q1D Q1D
    (fun b a s => RegsLoadThread ex D1D Q1D map b_ x_ e a b s) s b a (by omega) (by omega)
    (fun t => RegsLoadThread_s_q_set ex D1D Q1D map b_ x_ e a b t c ha hb hc)
    (fun y x _ _ t ht => RegsLoadThread_s_q_keep ex D1D Q1D map b_ x_ e x y t c b a ht)

theorem RegsLoad_r_wk (ex : Exec) (D1D Q1D : Nat)
    (map : Option (Nat → Int)) (b_ x_ : Nat → R) (e : Nat) (s : RegsState R)
    (x y i : Nat) (hx : x < Q1D) (hy : y < Q1D) (hi : i < Q1D) :
    (forLoop Q1D (fun b s => forLoop Q1D (fun a s =>
      RegsLoadThread ex D1D Q1D map b_ x_ e a b s) s) s).r_wk (ex.lane x y, i) = 0 :=
  forLoop2_hit (fun s : RegsState R => s.r_wk (ex.lane x y, i)) _ Q1D Q1D
    (fun b a s => RegsLoadThread ex D1D Q1D map b_ x_ e a b s) s y x hy hx
    (fun t => RegsLoadThread_r_wk_set ex D1D Q1D map b_ x_ e x y t i hi)
    (fun y' x' _ _ t ht => RegsLoadThread_r_wk_keep ex D1D Q1D map b_ x_ e x' y' t _ ht)

/-! ### Contraction along `a`, lines 299-318 -/

theorem RegsStage1_s_B (ex : Exec) (D1D Q1D : Nat) (s : RegsState R) :
    (forLoop Q1D (fun c s => forLoop Q1D (fun b s =>
      RegsStage1Thread ex D1D Q1D b c s) s) s).s_B = s.s_B :=
  forLoop2_frame (fun s : RegsState R => s.s_B) Q1D Q1D
    (fun c b s => RegsStage1Thread ex D1D Q1D b c s) s
    (fun _ _ _ _ t => regsFwdThread_s_B _ _ _ _ _ _ t)

theorem RegsStage1_r_wk (ex : Exec) (D1D Q1D : Nat) (s : RegsState R)
    (k : (Nat × Nat) × Nat) (h : s.r_wk k = 0) :
    (forLoop Q1D (fun c s => forLoop Q1D (fun b s =>
      RegsStage1Thread ex D1D Q1D b c s) s) s).r_wk k = 0 :=
  forLoop2_inv (fun s : RegsState R => s.r_wk k = 0) Q1D Q1D
    (fun c b s => RegsStage1Thread ex D1D Q1D b c s) s h
    (fun _ _ _ _ t ht => regsFwdThread_r_wk_zero _ _ _ _ _ _ t k ht)

theorem RegsStage1_s_q (ex : Exec) (D1D Q1D : Nat) (hDQ : D1D ≤ Q1D) (s : RegsState R)
    (hz : ∀ x y i, x < Q1D → y < Q1D → i < Q1D → s.r_wk (ex.lane x y, i) = 0)
    (c b i : Nat) (hc : c < D1D) (hb : b < D1D) (hi : i < Q1D) :
    (forLoop Q1D (fun c s => forLoop Q1D (fun b s =>
      RegsStage1Thread ex D1D Q1D b c s) s) s).s_q (c, b, i)
      = ∑ a in range D1D, s.s_B (i, a) * s.s_q (c, b, a) := by
  have hoff : ∀ y x, ¬ (y = c ∧ x = b) → ∀ (t : RegsState R) (n : Nat),
      (RegsStage1Thread ex D1D Q1D x y t).s_q (c, b, n) = t.s_q (c, b, n) := by
    intro y x hne t n
    refine regsFwdThread_s_q_off _ _ _ _ _ _ t _ (fun i' _ h => hne ?_)
    simp only [Prod.mk.injEq] at h
    exact ⟨h.1, h.2.1⟩
  obtain ⟨t, ht, hQ⟩ := forLoop2_select (fun s : RegsState R => s.s_q (c, b, i)) Q1D Q1D
    (fun c b s => RegsStage1Thread ex D1D Q1D b c s) s c b (by omega) (by omega)
    (fun y x _ _ hne t => hoff y x hne t i)
  obtain ⟨h1, h2, h3⟩ := hQ
    (fun t => t.s_B = s.s_B ∧ (∀ a, t.s_q (c, b, a) = s.s_q (c, b, a))
      ∧ ∀ n, n < Q1D → t.r_wk (ex.lane b c, n) = 0)
    ⟨rfl, fun _ => rfl, fun n hn => hz b c n (by omega) (by omega) hn⟩
    (fun y x _ _ hne u hu =>
      ⟨(regsFwdThread_s_B _ _ _ _ _ _ u).trans hu.1,
        fun a => (hoff y x hne u a).trans (hu.2.1 a),
        fun n hn => regsFwdThread_r_wk_zero _ _ _ _ _ _ u _ (hu.2.2 n hn)⟩)
  rw [ht]
  show (RegsStage1Thread ex D1D Q1D b c t).s_q (c, b, i) = _
  rw [RegsStage1Thread_eq]
  rw [regsFwdThread_s_q_at (b < D1D ∧ c < D1D) (ex.lane b c) D1D Q1D (fun a => (c, b, a))
    (fun i => (c, b, i)) t ⟨hb, hc⟩ (fun i j _ _ h => by simpa using h) h3 i hi]
  simp only [h1, h2]

end RegsStages

section RegsStages2

variable {R : Type} [CommRing R]

/-! ### Contraction along `b`, lines 321-340 -/

theorem RegsStage2_s_B (ex : Exec) (D1D Q1D : Nat) (s : RegsState R) :
    (forLoop D1D (fun c s => forLoop Q1D (fun i s =>
      RegsStage2Thread ex D1D Q1D i c s) s) s).s_B = s.s_B :=
  forLoop2_frame (fun s : RegsState R => s.s_B) D1D Q1D
    (fun c i s => RegsStage2Thread ex D1D Q1D i c s) s
    (fun _ _ _ _ t => regsFwdThread_s_B _ _ _ _ _ _ t)

theorem RegsStage2_r_wk (ex : Exec) (D1D Q1D : Nat) (s : RegsState R)
    (k : (Nat × Nat) × Nat) (h : s.r_wk k = 0) :
    (forLoop D1D (fun c s => forLoop Q1D (fun i s =>
      RegsStage2Thread ex D1D Q1D i c s) s) s).r_wk k = 0 :=
  forLoop2_inv (fun s : RegsState R => s.r_wk k = 0) D1D Q1D
    (fun c i s => RegsStage2Thread ex D1D Q1D i c s) s h
    (fun _ _ _ _ t ht => regsFwdThread_r_wk_zero _ _ _ _ _ _ t k ht)

theorem RegsStage2_s_q (ex : Exec) (D1D Q1D : Nat) (hDQ : D1D ≤ Q1D) (s : RegsState R)
    (hz : ∀ x y i, x < Q1D → y < Q1D → i < Q1D → s.r_wk (ex.lane x y, i) = 0)
    (c j i : Nat) (hc : c < D1D) (hj : j < Q1D) (hi : i < Q1D) :
    (forLoop D1D (fun c s => forLoop Q1D (fun i s =>
      RegsStage2Thread ex D1D Q1D i c s) s) s).s_q (c, j, i)
      = ∑ b in range D1D, s.s_B (j, b) * s.s_q (c, b, i) := by
  have hoff : ∀ y x, ¬ (y = c ∧ x = i) → ∀ (t : RegsState R) (n : Nat),
      (RegsStage2Thread ex D1D Q1D x y t).s_q (c, n, i) = t.s_q (c, n, i) := by
    intro y x hne t n
    refine regsFwdThread_s_q_off _ _ _ _ _ _ t _ (fun i' _ h => hne ?_)
    simp only [Prod.mk.injEq] at h
    exact ⟨h.1, h.2.2⟩
  obtain ⟨t, ht, hQ⟩ := forLoop2_select (fun s : RegsState R => s.s_q (c, j, i)) D1D Q1D
    (fun c i s => RegsStage2Thread ex D1D Q1D i c s) s c i hc hi
    (fun y x _ _ hne t => hoff y x hne t j)
  obtain ⟨h1, h2, h3⟩ := hQ
    (fun t => t.s_B = s.s_B ∧ (∀ b, t.s_q (c, b, i) = s.s_q (c, b, i))
      ∧ ∀ n, n < Q1D → t.r_wk (ex.lane i c, n) = 0)
    ⟨rfl, fun _ => rfl, fun n hn => hz i c n hi (by omega) hn⟩
    (fun y x _ _ hne u hu =>
      ⟨(regsFwdThread_s_B _ _ _ _ _ _ u).trans hu.1,
        fun b => (hoff y x hne u b).trans (hu.2.1 b),
        fun n hn => regsFwdThread_r_wk_zero _ _ _ _ _ _ u _ (hu.2.2 n hn)⟩)
  rw [ht]
  show (RegsStage2Thread ex D1D Q1D i c t).s_q (c, j, i) = _
  rw [RegsStage2Thread_eq]
  rw [regsFwdThread_s_q_at (i < Q1D ∧ c < D1D) (ex.lane i c) D1D Q1D (fun b => (c, b, i))
    (fun j => (c, j, i)) t ⟨hi, hc⟩ (fun i j _ _ h => by simpa using h) h3 j hj]
  simp only [h1, h2]

/-! ### Coefficient stage, lines 343-364, device execution -/

theorem RegsStage4_s_B (ex : Exec) (D1D Q1D : Nat) (d_ : Nat → R) (e : Nat)
    (s : RegsState R) :
    (forLoop Q1D (fun j s => forLoop Q1D (fun i s =>
      RegsStage4Thread ex D1D Q1D d_ e i j s) s) s).s_B = s.s_B :=
  forLoop2_frame (fun s : RegsState R => s.s_B) Q1D Q1D
    (fun j i s => RegsStage4Thread ex D1D Q1D d_ e i j s) s
    (fun _ _ _ _ _ => rfl)

theorem RegsStage4_s_q (D1D Q1D : Nat) (d_ : Nat → R) (e : Nat) (s : RegsState R)
    (hz : ∀ x y i, x < Q1D → y < Q1D → i < Q1D → s.r_wk (Exec.device.lane x y, i) = 0)
    (c j i : Nat) (hc : c < D1D) (hj : j < Q1D) (hi : i < Q1D) :
    (forLoop Q1D (fun j s => forLoop Q1D (fun i s =>
      RegsStage4Thread Exec.device D1D Q1D d_ e i j s) s) s).s_q (c, j, i)
      = ∑ k in range Q1D, s.s_B (k, c) *
          ((∑ c' in range D1D, s.s_B (k, c') * s.s_q (c', j, i))
            * d_ (Reshape4 Q1D Q1D Q1D i j k e)) := by
  have hoff : ∀ y x, ¬ (y = j ∧ x = i) → ∀ (t : RegsState R) (n : Nat),
      (RegsStage4Thread Exec.device D1D Q1D d_ e x y t).s_q (n, j, i) = t.s_q (n, j, i) := by
    intro y x hne t n
    refine RegsStage4Thread_s_q_off _ _ _ _ _ _ _ t _ (fun c' _ h => hne ?_)
    simp only [Prod.mk.injEq] at h
    exact ⟨h.2.1, h.2.2⟩
  have hoffr : ∀ y x, ¬ (y = j ∧ x = i) → ∀ (t : RegsState R) (n : Nat),
      (RegsStage4Thread Exec.device D1D Q1D d_ e x y t).r_wk (Exec.device.lane i j, n)
        = t.r_wk (Exec.device.lane i j, n) := by
    intro y x hne t n
    refine RegsStage4Thread_r_wk_off _ _ _ _ _ _ _ t _ (fun n' _ h => hne ?_)
    simp only [Exec.lane, Prod.mk.injEq] at h
    exact ⟨h.1.2, h.1.1⟩
  obtain ⟨t, ht, hQ⟩ := forLoop2_select (fun s : RegsState R => s.s_q (c, j, i)) Q1D Q1D
    (fun j i s => RegsStage4Thread Exec.device D1D Q1D d_ e i j s) s j i hj hi
    (fun y x _ _ hne t => hoff y x hne t c)
  obtain ⟨h1, h2, h3⟩ := hQ
    (fun t => t.s_B = s.s_B ∧ (∀ n, t.s_q (n, j, i) = s.s_q (n, j, i))
      ∧ ∀ n, n < Q1D → t.r_wk (Exec.device.lane i j, n) = 0)
    ⟨rfl, fun _ => rfl, fun n hn => hz i j n hi hj hn⟩
    (fun y x _ _ hne u hu =>
      ⟨hu.1, fun n => (hoff y x hne u n).trans (hu.2.1 n),
        fun n hn => (hoffr y x hne u n).trans (hu.2.2 n hn)⟩)
  rw [ht]
  show (RegsStage4Thread Exec.device D1D Q1D d_ e i j t).s_q (c, j, i) = _
  rw [RegsStage4Thread_s_q_at Exec.device D1D Q1D d_ e i j t h3 c hc]
  simp only [h1, h2]

/-! ### Transposed contractions, lines 367-399 -/

theorem RegsStage5_s_B (ex : Exec) (D1D Q1D : Nat) (s : RegsState R) :
    (forLoop D1D (fun c s => forLoop Q1D (fun i s =>
      RegsStage5Thread ex D1D Q1D i c s) s) s).s_B = s.s_B :=
  forLoop2_frame (fun s : RegsState R => s.s_B) D1D Q1D
    (fun c i s => RegsStage5Thread ex D1D Q1D i c s) s
    (fun _ _ _ _ _ => rfl)

theorem RegsStage5_s_q (ex : Exec) (D1D Q1D : Nat) (s : RegsState R)
    (c b i : Nat) (hc : c < D1D) (hb : b < D1D) (hi : i < Q1D) :
    (forLoop D1D (fun c s => forLoop Q1D (fun i s =>
      RegsStage5Thread ex D1D Q1D i c s) s) s).s_q (c, b, i)
      = ∑ j in range Q1D, s.s_B (j, b) * s.s_q (c, j, i) := by
  have hoff : ∀ y x, ¬ (y = c ∧ x = i) → ∀ (t : RegsState R) (n : Nat),
      (RegsStage5Thread ex D1D Q1D x y t).s_q (c, n, i) = t.s_q (c, n, i) := by
    intro y x hne t n
    refine regsBwdThread_s_q_off _ _ _ _ _ t _ (fun b' _ h => hne ?_)
    simp only [Prod.mk.injEq] at h
    exact ⟨h.1, h.2.2⟩
  obtain ⟨t, ht, hQ⟩ := forLoop2_select (fun s : RegsState R => s.s_q (c, b, i)) D1D Q1D
    (fun c i s => RegsStage5Thread ex D1D Q1D i c s) s c i hc hi
    (fun y x _ _ hne t => hoff y x hne t b)
  obtain ⟨h1, h2⟩ := hQ
    (fun t => t.s_B = s.s_B ∧ ∀ n, t.s_q (c, n, i) = s.s_q (c, n, i))
    ⟨rfl, fun _ => rfl⟩
    (fun y x _ _ hne u hu => ⟨hu.1, fun n => (hoff y x hne u n).trans (hu.2 n)⟩)
  rw [ht]
  show (RegsStage5Thread ex D1D Q1D i c t).s_q (c, b, i) = _
  rw [RegsStage5Thread_eq]
  rw [regsBwdThread_s_q_at (ex.lane i c) D1D Q1D (fun j => (c, j, i)) (fun b => (c, b, i)) t
    (fun i j _ _ h => by simpa using h) b hb]
  simp only [h1, h2]

theorem RegsStage6_s_q (ex : Exec) (D1D Q1D : Nat) (s : RegsState R)
    (c b a : Nat) (hc : c < D1D) (hb : b < D1D) (ha : a < D1D) :
    (forLoop D1D (fun c s => forLoop D1D (fun b s =>
      RegsStage6Thread ex D1D Q1D b c s) s) s).s_q (c, b, a)
      = ∑ i in range Q1D, s.s_B (i, a) * s.s_q (c, b, i) := by
  have hoff : ∀ y x, ¬ (y = c ∧ x = b) → ∀ (t : RegsState R) (n : Nat),
      (RegsStage6Thread ex D1D Q1D x y t).s_q (c, b, n) = t.s_q (c, b, n) := by
    intro y x hne t n
    refine regsBwdThread_s_q_off _ _ _ _ _ t _ (fun a' _ h => hne ?_)
    simp only [Prod.mk.injEq] at h
    exact ⟨h.1, h.2.1⟩
  obtain ⟨t, ht, hQ⟩ := forLoop2_select (fun s : RegsState R => s.s_q (c, b, a)) D1D D1D
    (fun c b s => RegsStage6Thread ex D1D Q1D b c s) s c b hc hb
    (fun y x _ _ hne t => hoff y x hne t a)
  obtain ⟨h1, h2⟩ := hQ
    (fun t => t.s_B = s.s_B ∧ ∀ n, t.s_q (c, b, n) = s.s_q (c, b, n))
    ⟨rfl, fun _ => rfl⟩
    (fun y x _ _ hne u hu => ⟨hu.1, fun n => (hoff y x hne u n).trans (hu.2 n)⟩)
  rw [ht]
  show (RegsStage6Thread ex D1D Q1D b c t).s_q (c, b, a) = _
  rw [RegsStage6Thread_eq]
  rw [regsBwdThread_s_q_at (ex.lane b c) D1D Q1D (fun i => (c, b, i)) (fun a => (c, b, a)) t
    (fun i j _ _ h => by simpa using h) a ha]
  simp only [h1, h2]

end RegsStages2

/-! ## The register-blocked kernel computes the specification on the device -/

section RegsCorrect

variable {R : Type} [CommRing R]

/-- On the device, the scratch array `s_q` holds the element contraction after the
six contraction stages. -/
theorem RegsScratch_s_q (D1D Q1D : Nat) (hDQ : D1D ≤ Q1D) (map : Option (Nat → Int))
    (b_ d_ x_ : Nat → R) (junk : RegsState R) (e a b c : Nat) (ha : a < D1D)
    (hb : b < D1D) (hc : c < D1D) :
    (RegsScratch Exec.device D1D Q1D map b_ d_ x_ junk e).s_q (c, b, a)
      = massAction D1D Q1D (Bmat Q1D b_) (Dcoef Q1D d_ e) (Xloc D1D map x_ e) a b c := by
  unfold RegsScratch
  dsimp only
  generalize hS0 : forLoop Q1D (fun b s => forLoop Q1D (fun a s =>
    RegsLoadThread Exec.device D1D Q1D map b_ x_ e a b s) s) junk = S0
  generalize hS1 : forLoop Q1D (fun c s => forLoop Q1D (fun b s =>
    RegsStage1Thread Exec.device D1D Q1D b c s) s) S0 = S1
  generalize hS2 : forLoop D1D (fun c s => forLoop Q1D (fun i s =>
    RegsStage2Thread Exec.device D1D Q1D i c s) s) S1 = S2
  generalize hS4 : forLoop Q1D (fun j s => forLoop Q1D (fun i s =>
    RegsStage4Thread Exec.device D1D Q1D d_ e i j s) s) S2 = S4
  generalize hS5 : forLoop D1D (fun c s => forLoop Q1D (fun i s =>
    RegsStage5Thread Exec.device D1D Q1D i c s) s) S4 = S5
  have hz0 : ∀ x y i, x < Q1D → y < Q1D → i < Q1D →
      S0.r_wk (Exec.device.lane x y, i) = 0 := fun x y i hx hy hi => by
    rw [← hS0]; exact RegsLoad_r_wk _ D1D Q1D map b_ x_ e junk x y i hx hy hi
  have hz1 : ∀ x y i, x < Q1D → y < Q1D → i < Q1D →
      S1.r_wk (Exec.device.lane x y, i) = 0 := fun x y i hx hy hi => by
    rw [← hS1]; exact RegsStage1_r_wk _ D1D Q1D S0 _ (hz0 x y i hx hy hi)
  have hz2 : ∀ x y i, x < Q1D → y < Q1D → i < Q1D →
      S2.r_wk (Exec.device.lane x y, i) = 0 := fun x y i hx hy hi => by
    rw [← hS2]; exact RegsStage2_r_wk _ D1D Q1D S1 _ (hz1 x y i hx hy hi)
  have hB1 : S1.s_B = S0.s_B := by rw [← hS1]; exact RegsStage1_s_B _ _ _ _
  have hB2 : S2.s_B = S0.s_B := by rw [← hS2, RegsStage2_s_B]; exact hB1
  have hB4 : S4.s_B = S0.s_B := by rw [← hS4, RegsStage4_s_B]; exact hB2
  have hB5 : S5.s_B = S0.s_B := by rw [← hS5, RegsStage5_s_B]; exact hB4
  have hB : ∀ i a, i < Q1D → a < D1D → S0.s_B (i, a) = Bmat Q1D b_ i a :=
    fun i a hi ha => by
      rw [← hS0]; exact RegsLoad_s_B _ D1D Q1D hDQ map b_ x_ e junk i a hi ha
  rw [RegsStage6_s_q _ _ _ _ c b a hc hb ha, ← sumfact_regs]
  refine Finset.sum_congr rfl (fun i hi => ?_)
  have hi := mem_range.1 hi
  rw [hB5, hB i a hi ha, ← hS5, RegsStage5_s_q _ _ _ _ c b i hc hb hi]
  refine congrArg (Bmat Q1D b_ i a * ·) (Finset.sum_congr rfl (fun j hj => ?_))
  have hj := mem_range.1 hj
  rw [hB4, hB j b hj hb, ← hS4, RegsStage4_s_q _ _ _ _ _ hz2 c j i hc hj hi]
  refine congrArg (Bmat Q1D b_ j b * ·) (Finset.sum_congr rfl (fun k hk => ?_))
  have hk := mem_range.1 hk
  rw [hB2, hB k c hk hc]
  refine congrArg (Bmat Q1D b_ k c * ·) ?_
  refine congrArg (· * Dcoef Q1D d_ e i j k) (Finset.sum_congr rfl (fun c' hc' => ?_))
  have hc' := mem_range.1 hc'
  rw [hB k c' hk hc', ← hS2, RegsStage2_s_q _ _ _ hDQ _ hz1 c' j i hc' hj hi]
  refine congrArg (Bmat Q1D b_ k c' * ·) (Finset.sum_congr rfl (fun b' hb' => ?_))
  have hb' := mem_range.1 hb'
  rw [hB1, hB j b' hj hb', ← hS1, RegsStage1_s_q _ _ _ hDQ _ hz0 c' b' i hc' hb' hi]
  refine congrArg (Bmat Q1D b_ j b' * ·) (Finset.sum_congr rfl (fun a' ha' => ?_))
  have ha' := mem_range.1 ha'
  rw [hB i a' hi ha', ← hS0, RegsLoad_s_q _ _ _ hDQ map b_ x_ e junk c' b' a' hc' hb' ha']
  rfl

/-- On the device, one element of the register-blocked kernel adds its contraction
to the slots of its degrees of freedom. -/
theorem RegsElement_apply (D1D Q1D : Nat) (hDQ : D1D ≤ Q1D) (map : Option (Nat → Int))
    (b_ d_ x_ : Nat → R) (junk : RegsState R) (e : Nat) (y : Nat → R) (g : Nat) :
    RegsElement Exec.device D1D Q1D map b_ d_ x_ junk e y g
      = y g + scatterSum D1D (fun dx dy dz => dofSlot D1D map dx dy dz e)
          (massAction D1D Q1D (Bmat Q1D b_) (Dcoef Q1D d_ e) (Xloc D1D map x_ e)) g := by
  unfold RegsElement RegsStage7
  rw [scatter_loops D1D (fun a b c => dofSlot D1D map a b c e)
    (fun a b c => (RegsScratch Exec.device D1D Q1D map b_ d_ x_ junk e).s_q (c, b, a))]
  refine congrArg (y g + ·) (scatterSum_congr D1D _ _ _ _ g (fun _ _ _ _ _ _ => rfl)
    (fun a b c ha hb hc => ?_))
  exact RegsScratch_s_q D1D Q1D hDQ map b_ d_ x_ junk e a b c ha hb hc

/-- On the device, the register-blocked kernel meets the specification
`Y += operator(X)` in every slot. -/
theorem NDK_RegsPAMassApply3D_eq_spec (D1D Q1D : Nat) (hDQ : D1D ≤ Q1D) (ndofs NE : Nat)
    (map : Option (Nat → Int)) (b_ d_ x_ y_ : Nat → R) (junk : RegsState R) (g : Nat) :
    NDK_RegsPAMassApply3D Exec.device D1D Q1D ndofs NE map b_ d_ x_ y_ junk g
      = massApplySpec D1D Q1D NE map b_ d_ x_ y_ g := by
  unfold NDK_RegsPAMassApply3D massApplySpec massOperator
  exact forLoop_add (fun y : Nat → R => y g) _ NE _ y_
    (fun e _ t => RegsElement_apply D1D Q1D hDQ map b_ d_ x_ junk e t g)

theorem supportedPairs_le (D1D Q1D : Nat) (h : (D1D, Q1D) ∈ supportedPairs) :
    2 ≤ D1D ∧ D1D < Q1D ∧ Q1D ≤ 8 := by
  simp only [supportedPairs, List.mem_cons, Prod.mk.injEq, List.mem_singleton,
    List.not_mem_nil, or_false] at h
  omega

end RegsCorrect

/-! ## Both kernels against the specification -/

section KernelSpec

variable {R : Type} [CommRing R]

/-- On the device both kernel instantiations for `(D1D, Q1D)` meet the
specification. -/
theorem Kernel_run_eq_spec (D1D Q1D : Nat) (hDQ : D1D ≤ Q1D) (k : Kernel)
    (hk : k = Kernel.Smem D1D Q1D ∨ k = Kernel.Regs D1D Q1D) (ndofs NE : Nat)
    (map : Option (Nat → Int)) (b d x y : Nat → R) (junk : Junk R) (g : Nat) :
    k.run Exec.device ndofs NE map b d x y junk g
      = massApplySpec D1D Q1D NE map b d x y g := by
  rcases hk with rfl | rfl
  · exact NDK_SmemPAMassApply3D_eq_spec D1D Q1D ndofs NE map b d x y junk.smem g
  · exact NDK_RegsPAMassApply3D_eq_spec D1D Q1D hDQ ndofs NE map b d x y junk.regs g

/-- Whatever the instantiation of the thread loops, the register-blocked kernel
adds to every slot an amount that does not depend on the content of `y_`. -/
theorem NDK_RegsPAMassApply3D_additive (ex : Exec) (D1D Q1D ndofs NE : Nat)
    (map : Option (Nat → Int)) (b_ d_ x_ y_ : Nat → R) (junk : RegsState R) (g : Nat) :
    NDK_RegsPAMassApply3D ex D1D Q1D ndofs NE map b_ d_ x_ y_ junk g
      = y_ g + ∑ e in range NE,
          scatterSum D1D (fun a b c => dofSlot D1D map a b c e)
            (fun a b c => (RegsScratch ex D1D Q1D map b_ d_ x_ junk e).s_q (c, b, a)) g := by
  unfold NDK_RegsPAMassApply3D
  refine forLoop_add (fun y : Nat → R => y g) _ NE _ y_ (fun e _ t => ?_)
  unfold RegsElement RegsStage7
  exact scatter_loops D1D (fun a b c => dofSlot D1D map a b c e)
    (fun a b c => (RegsScratch ex D1D Q1D map b_ d_ x_ junk e).s_q (c, b, a)) t g

/-- Whatever the instantiation of the thread loops, the amount a kernel adds to a
slot does not depend on the content of `y`. -/
theorem Kernel_run_additive (ex : Exec) (k : Kernel) (ndofs NE : Nat)
    (map : Option (Nat → Int)) (b d x y y' : Nat → R) (junk : Junk R) (g : Nat) :
    k.run ex ndofs NE map b d x y junk g - y g
      = k.run ex ndofs NE map b d x y' junk g - y' g := by
  cases k with
  | Smem D1D Q1D =>
    simp only [Kernel.run, NDK_SmemPAMassApply3D_eq_spec, massApplySpec, add_sub_cancel_left]
  | Regs D1D Q1D =>
    simp only [Kernel.run, NDK_RegsPAMassApply3D_additive, add_sub_cancel_left]

/-- A scatter sum to which only `(a0, b0, c0)` contributes. -/
theorem scatterSum_single (N : Nat) (slot : Nat → Nat → Nat → Nat)
    (v : Nat → Nat → Nat → R) (g a0 b0 c0 : Nat) (ha : a0 < N) (hb : b0 < N) (hc : c0 < N)
    (hg : slot a0 b0 c0 = g)
    (hne : ∀ a b c, a < N → b < N → c < N → slot a b c = g → a = a0 ∧ b = b0 ∧ c = c0) :
    scatterSum N slot v g = v a0 b0 c0 := by
  unfold scatterSum
  rw [Finset.sum_eq_single b0, Finset.sum_eq_single a0, Finset.sum_eq_single c0, if_pos hg]
  · intro c hcm hcne
    exact if_neg (fun h => hcne (hne a0 b0 c ha hb (mem_range.1 hcm) h).2.2)
  · intro h; exact absurd (mem_range.2 hc) h
  · intro a ham hane
    exact Finset.sum_eq_zero (fun c hcm =>
      if_neg (fun h => hane (hne a b0 c (mem_range.1 ham) hb (mem_range.1 hcm) h).1))
  · intro h; exact absurd (mem_range.2 ha) h
  · intro b hbm hbne
    exact Finset.sum_eq_zero (fun a ham => Finset.sum_eq_zero (fun c hcm =>
      if_neg (fun h => hbne
        (hne a b c (mem_range.1 ham) (mem_range.1 hbm) (mem_range.1 hcm) h).2.1)))
  · intro h; exact absurd (mem_range.2 hb) h

/-- A scatter sum to which nothing contributes. -/
theorem scatterSum_none (N : Nat) (slot : Nat → Nat → Nat → Nat)
    (v : Nat → Nat → Nat → R) (g : Nat)
    (hne : ∀ a b c, a < N → b < N → c < N → slot a b c ≠ g) :
    scatterSum N slot v g = 0 := by
  unfold scatterSum
  exact Finset.sum_eq_zero (fun b hbm => Finset.sum_eq_zero (fun a ham =>
    Finset.sum_eq_zero (fun c hcm =>
      if_neg (hne a b c (mem_range.1 ham) (mem_range.1 hbm) (mem_range.1 hcm)))))

/-- Without a map, the operator of the specification read at the slot of
`(dx, dy, dz)` of element `e` is that element's contraction. -/
theorem massOperator_none_at (D1D Q1D NE : Nat) (b_ d_ x_ : Nat → R) (e dx dy dz : Nat)
    (he : e < NE) (hdx : dx < D1D) (hdy : dy < D1D) (hdz : dz < D1D) :
    massOperator D1D Q1D NE none b_ d_ x_ (Reshape4 D1D D1D D1D dx dy dz e)
      = massAction D1D Q1D (Bmat Q1D b_) (Dcoef Q1D d_ e) (Xloc D1D none x_ e) dx dy dz := by
  unfold massOperator
  rw [Finset.sum_eq_single e]
  · exact scatterSum_single D1D _ _ _ dx dy dz hdx hdy hdz rfl
      (fun a b c ha hb hc h => by
        obtain ⟨h1, h2, h3, -⟩ := Reshape4_inj ha hdx hb hdy hc hdz h
        exact ⟨h1, h2, h3⟩)
  · intro e' _ hne
    exact scatterSum_none D1D _ _ _ (fun a b c ha hb hc h =>
      hne (Reshape4_inj ha hdx hb hdy hc hdz h).2.2.2)
  · intro h; exact absurd (mem_range.2 he) h

end KernelSpec

/-! ## Dispatch and map lemmas -/

theorem NDK_PAMassApply_kernel_supported (ver D1D Q1D : Nat) (hver : ver = 0 ∨ ver = 1)
    (hsup : (D1D, Q1D) ∈ supportedPairs) :
    NDK_PAMassApply_kernel ver 3 D1D Q1D
      = Except.ok (if ver = 0 then Kernel.Smem D1D Q1D else Kernel.Regs D1D Q1D) := by
  simp only [supportedPairs, List.mem_cons, Prod.mk.injEq, List.mem_singleton,
    List.not_mem_nil, or_false] at hsup
  rcases hver with rfl | rfl <;>
    rcases hsup with h | h | h | h | h | h | h | h | h | h | h <;>
    obtain ⟨rfl, rfl⟩ := h <;> rfl

section ClaimLemmas

variable {R : Type} [CommRing R]

theorem decode_flip (k : Int) (hk : 0 ≤ k) : decode (-1 - k) = k := by
  unfold decode
  rw [if_neg (by omega)]
  omega

theorem decode_nonneg (k : Int) (hk : 0 ≤ k) : decode k = k := by
  unfold decode
  rw [if_pos hk]

/-- Replacing a non-negative map entry by its sign-flipped encoding changes no
slot. -/
theorem dofSlot_flip (D1D : Nat) (m : Nat → Int) (p : Nat) (hp : 0 ≤ m p) :
    dofSlot D1D (some (Function.update m p (-1 - m p))) = dofSlot D1D (some m) := by
  funext dx dy dz e
  unfold dofSlot
  dsimp only
  by_cases h : Reshape4 D1D D1D D1D dx dy dz e = p
  · rw [h, Function.update_same, decode_flip _ hp, decode_nonneg _ hp]
  · rw [Function.update_noteq h]

/-- A kernel depends on the map only through the slots it gives. -/
theorem Kernel_run_congr_slot (ex : Exec) (D1D Q1D : Nat) (k : Kernel)
    (hk : k = Kernel.Smem D1D Q1D ∨ k = Kernel.Regs D1D Q1D) (ndofs NE : Nat)
    (map map' : Option (Nat → Int)) (hslot : dofSlot D1D map = dofSlot D1D map')
    (b d x y : Nat → R) (junk : Junk R) :
    k.run ex ndofs NE map b d x y junk = k.run ex ndofs NE map' b d x y junk := by
  rcases hk with rfl | rfl
  · simp only [Kernel.run, NDK_SmemPAMassApply3D, SmemElement, SmemStage1, SmemStage6, hslot]
  · simp only [Kernel.run, NDK_RegsPAMassApply3D, RegsElement, RegsScratch, RegsLoadThread,
      RegsStage7, hslot]

theorem massAction_congr (D1D Q1D : Nat) (B : Nat → Nat → R) (D D' X X' : Nat → Nat → Nat → R)
    (hD : ∀ qx qy qz, qx < Q1D → qy < Q1D → qz < Q1D → D qx qy qz = D' qx qy qz)
    (hX : ∀ ax ay az, ax < D1D → ay < D1D → az < D1D → X ax ay az = X' ax ay az)
    (dx dy dz : Nat) :
    massAction D1D Q1D B D X dx dy dz = massAction D1D Q1D B D' X' dx dy dz := by
  unfold massAction
  refine Finset.sum_congr rfl (fun qx hqx => Finset.sum_congr rfl (fun qy hqy =>
    Finset.sum_congr rfl (fun qz hqz => ?_)))
  rw [hD qx qy qz (mem_range.1 hqx) (mem_range.1 hqy) (mem_range.1 hqz)]
  refine congrArg (_ * ·) (Finset.sum_congr rfl (fun ax hax => Finset.sum_congr rfl
    (fun ay hay => Finset.sum_congr rfl (fun az haz => ?_))))
  rw [hX ax ay az (mem_range.1 hax) (mem_range.1 hay) (mem_range.1 haz)]

theorem sum_out3 (X Y Z A : Finset Nat) (F : Nat → Nat → Nat → Nat → R) :
    ∑ x in X, ∑ y in Y, ∑ z in Z, ∑ a in A, F x y z a
      = ∑ a in A, ∑ x in X, ∑ y in Y, ∑ z in Z, F x y z a := by
  calc ∑ x in X, ∑ y in Y, ∑ z in Z, ∑ a in A, F x y z a
      = ∑ x in X, ∑ y in Y, ∑ a in A, ∑ z in Z, F x y z a :=
        Finset.sum_congr rfl (fun x _ => Finset.sum_congr rfl (fun y _ => Finset.sum_comm))
    _ = ∑ x in X, ∑ a in A, ∑ y in Y, ∑ z in Z, F x y z a :=
        Finset.sum_congr rfl (fun x _ => Finset.sum_comm)
    _ = ∑ a in A, ∑ x in X, ∑ y in Y, ∑ z in Z, F x y z a := Finset.sum_comm

theorem sum3_sum3_comm (X Y Z A B C : Finset Nat)
    (f : Nat → Nat → Nat → Nat → Nat → Nat → R) :
    ∑ x in X, ∑ y in Y, ∑ z in Z, ∑ a in A, ∑ b in B, ∑ c in C, f x y z a b c
      = ∑ a in A, ∑ b in B, ∑ c in C, ∑ x in X, ∑ y in Y, ∑ z in Z, f x y z a b c := by
  rw [sum_out3 X Y Z A (fun x y z a => ∑ b in B, ∑ c in C, f x y z a b c)]
  refine Finset.sum_congr rfl (fun a _ => ?_)
  rw [sum_out3 X Y Z B (fun x y z b => ∑ c in C, f x y z a b c)]
  refine Finset.sum_congr rfl (fun b _ => ?_)
  rw [sum_out3 X Y Z C (fun x y z c => f x y z a b c)]

theorem prod3_sums (A B C : Finset Nat) (f g h : Nat → R) :
    (∑ x in A, f x) * (∑ y in B, g y) * (∑ z in C, h z)
      = ∑ x in A, ∑ y in B, ∑ z in C, f x * g y * h z := by
  rw [Finset.sum_mul_sum, Finset.sum_mul]
  refine Finset.sum_congr rfl (fun x _ => ?_)
  rw [Finset.sum_mul_sum]

/-- With the coefficient identically one, the element contraction is the dense
tensor-product action of the 1-D mass matrix `M = B^t B`. -/
theorem massAction_one_dense (D1D Q1D : Nat) (B : Nat → Nat → R) (X : Nat → Nat → Nat → R)
    (a b c : Nat) :
    massAction D1D Q1D B (fun _ _ _ => 1) X a b c
      = ∑ a' in range D1D, ∑ b' in range D1D, ∑ c' in range D1D,
          (∑ q in range Q1D, B q a * B q a') * (∑ q in range Q1D, B q b * B q b')
            * (∑ q in range Q1D, B q c * B q c') * X a' b' c' := by
  unfold massAction
  calc ∑ qx in range Q1D, ∑ qy in range Q1D, ∑ qz in range Q1D,
        B qx a * B qy b * B qz c * 1 *
          ∑ ax in range D1D, ∑ ay in range D1D, ∑ az in range D1D,
            B qx ax * B qy ay * B qz az * X ax ay az
      = ∑ qx in range Q1D, ∑ qy in range Q1D, ∑ qz in range Q1D,
          ∑ ax in range D1D, ∑ ay in range D1D, ∑ az in range D1D,
            B qx a * B qy b * B qz c * 1 * (B qx ax * B qy ay * B qz az * X ax ay az) := by
        refine Finset.sum_congr rfl (fun qx _ => Finset.sum_congr rfl (fun qy _ =>
          Finset.sum_congr rfl (fun qz _ => ?_)))
        rw [Finset.mul_sum]
        refine Finset.sum_congr rfl (fun ax _ => ?_)
        rw [Finset.mul_sum]
        refine Finset.sum_congr rfl (fun ay _ => ?_)
        rw [Finset.mul_sum]
    _ = ∑ ax in range D1D, ∑ ay in range D1D, ∑ az in range D1D,
          ∑ qx in range Q1D, ∑ qy in range Q1D, ∑ qz in range Q1D,
            B qx a * B qy b * B qz c * 1 * (B qx ax * B qy ay * B qz az * X ax ay az) :=
        sum3_sum3_comm _ _ _ _ _ _ _
    _ = _ := by
        refine Finset.sum_congr rfl (fun a' _ => Finset.sum_congr rfl (fun b' _ =>
          Finset.sum_congr rfl (fun c' _ => ?_)))
        rw [prod3_sums, Finset.sum_mul]
        refine Finset.sum_congr rfl (fun qx _ => ?_)
        rw [Finset.sum_mul]
        refine Finset.sum_congr rfl (fun qy _ => ?_)
        rw [Finset.sum_mul]
        refine Finset.sum_congr rfl (fun qz _ => ?_)
        ring

/-- The map-less kernel applied to the gathered local vector, started from zero,
holds the element contraction of the mapped run in every local slot. -/
theorem Kernel_run_gathered_at (D1D Q1D : Nat) (hDQ : D1D ≤ Q1D) (k : Kernel)
    (hk : k = Kernel.Smem D1D Q1D ∨ k = Kernel.Regs D1D Q1D) (ndofs NE : Nat)
    (m : Nat → Int) (b_ d_ x_ : Nat → R) (junk : Junk R) (e a b c : Nat) (he : e < NE)
    (ha : a < D1D) (hb : b < D1D) (hc : c < D1D) :
    k.run Exec.device ndofs NE none b_ d_ (fun p => x_ (decode (m p)).toNat) (fun _ => 0)
        junk (Reshape4 D1D D1D D1D a b c e)
      = massAction D1D Q1D (Bmat Q1D b_) (Dcoef Q1D d_ e) (Xloc D1D (some m) x_ e) a b c := by
  rw [Kernel_run_eq_spec D1D Q1D hDQ k hk, massApplySpec, zero_add,
    massOperator_none_at D1D Q1D NE b_ d_ _ e a b c he ha hb hc]
  rfl

/-- The mapped kernel run as gather, map-less apply, scatter-add. -/
theorem Kernel_run_map_scatter (D1D Q1D : Nat) (hDQ : D1D ≤ Q1D) (k : Kernel)
    (hk : k = Kernel.Smem D1D Q1D ∨ k = Kernel.Regs D1D Q1D) (ndofs NE : Nat)
    (m : Nat → Int) (b_ d_ x_ y_ : Nat → R) (junk junk' : Junk R) (g : Nat) :
    k.run Exec.device ndofs NE (some m) b_ d_ x_ y_ junk g
      = y_ g + ∑ e in range NE,
          scatterSum D1D (fun a b c => dofSlot D1D (some m) a b c e)
            (fun a b c => k.run Exec.device ndofs NE none b_ d_
              (fun p => x_ (decode (m p)).toNat) (fun _ => 0) junk'
              (Reshape4 D1D D1D D1D a b c e)) g := by
  rw [Kernel_run_eq_spec D1D Q1D hDQ k hk, massApplySpec, massOperator]
  refine congrArg (y_ g + ·) (Finset.sum_congr rfl (fun e he => ?_))
  refine scatterSum_congr D1D _ _ _ _ g (fun _ _ _ _ _ _ => rfl) (fun a b c ha hb hc => ?_)
  exact (Kernel_run_gathered_at D1D Q1D hDQ k hk ndofs NE m b_ d_ x_ junk' e a b c
    (mem_range.1 he) ha hb hc).symm

theorem Reshape4_zero (N1 N2 N3 i j k : Nat) :
    Reshape4 N1 N2 N3 i j k 0 = i + N1 * (j + N2 * k) := by
  simp [Reshape4]

/-- A map that is the identity on the single element gives the slots of the
element-exclusive layout. -/
theorem dofSlot_identity (D1D : Nat) (m : Nat → Int)
    (hm : ∀ a, a < D1D → ∀ b, b < D1D → ∀ c, c < D1D →
      m (Reshape4 D1D D1D D1D a b c 0) = ((a + D1D * (b + D1D * c) : Nat) : Int))
    (a b c : Nat) (ha : a < D1D) (hb : b < D1D) (hc : c < D1D) :
    dofSlot D1D (some m) a b c 0 = dofSlot D1D none a b c 0 := by
  unfold dofSlot
  dsimp only
  rw [hm a ha b hb c hc, decode_nonneg _ (Int.natCast_nonneg _), Int.toNat_natCast,
    Reshape4_zero]

/-- A sum over the elements taken in the order given by a permutation. -/
theorem sum_range_perm (NE : Nat) (p : Nat → Nat) (hp : ∀ e, e < NE → p e < NE)
    (hinj : ∀ e, e < NE → ∀ e', e' < NE → p e = p e' → e = e') (F : Nat → R) :
    ∑ e in range NE, F (p e) = ∑ e in range NE, F e := by
  refine Finset.sum_bij (fun e _ => p e) (fun e he => mem_range.2 (hp e (mem_range.1 he)))
    (fun e he e' he' h => hinj e (mem_range.1 he) e' (mem_range.1 he') h) ?_ (fun _ _ => rfl)
  intro b hb
  obtain ⟨a, ha, h⟩ := Finset.surj_on_of_inj_on_of_card_le (fun e _ => p e)
    (fun e he => mem_range.2 (hp e (mem_range.1 he)))
    (fun e e' he he' h => hinj e (mem_range.1 he) e' (mem_range.1 he') h) (le_refl _) b hb
  exact ⟨a, ha, h.symm⟩

/-- The operator of the specification on inputs whose element axis (of the map and
of the coefficient) is permuted. -/
theorem massOperator_perm (D1D Q1D NE : Nat) (p : Nat → Nat) (hp : ∀ e, e < NE → p e < NE)
    (hinj : ∀ e, e < NE → ∀ e', e' < NE → p e = p e' → e = e') (m m' : Nat → Int)
    (hm : ∀ e, e < NE → ∀ a, a < D1D → ∀ b, b < D1D → ∀ c, c < D1D →
      m' (Reshape4 D1D D1D D1D a b c e) = m (Reshape4 D1D D1D D1D a b c (p e)))
    (b_ d_ d_' x_ : Nat → R)
    (hd : ∀ e, e < NE → ∀ qx, qx < Q1D → ∀ qy, qy < Q1D → ∀ qz, qz < Q1D →
      d_' (Reshape4 Q1D Q1D Q1D qx qy qz e) = d_ (Reshape4 Q1D Q1D Q1D qx qy qz (p e)))
    (g : Nat) :
    massOperator D1D Q1D NE (some m') b_ d_' x_ g = massOperator D1D Q1D NE (some m) b_ d_ x_ g := by
  unfold massOperator
  rw [← sum_range_perm NE p hp hinj (fun e =>
    scatterSum D1D (fun dx dy dz => dofSlot D1D (some m) dx dy dz e)
      (massAction D1D Q1D (Bmat Q1D b_) (Dcoef Q1D d_ e) (Xloc D1D (some m) x_ e)) g)]
  refine Finset.sum_congr rfl (fun e he => ?_)
  have he := mem_range.1 he
  have hslot : ∀ a b c, a < D1D → b < D1D → c < D1D →
      dofSlot D1D (some m') a b c e = dofSlot D1D (some m) a b c (p e) := by
    intro a b c ha hb hc
    unfold dofSlot
    dsimp only
    rw [hm e he a ha b hb c hc]
  refine scatterSum_congr D1D _ _ _ _ g hslot (fun a b c _ _ _ => ?_)
  refine massAction_congr D1D Q1D _ _ _ _ _
    (fun qx qy qz hqx hqy hqz => hd e he qx hqx qy hqy qz hqz)
    (fun ax ay az hax hay haz => ?_) a b c
  unfold Xloc
  rw [hslot ax ay az hax hay haz]

/-! ### The registry -/

theorem BatchedLinAlg.call_backends {T V P : Type} (s : BatchedLinAlg T V P)
    (c : Call T V P) : (s.call c).backends = s.backends := by
  cases c <;> try rfl
  unfold BatchedLinAlg.call BatchedLinAlg.SetPreferredBackend
  dsimp only
  split <;> rfl

theorem BatchedLinAlg.call_IsAvailable {T V P : Type} (s : BatchedLinAlg T V P)
    (c : Call T V P) (b : Backend) : (s.call c).IsAvailable b = s.IsAvailable b := by
  unfold BatchedLinAlg.IsAvailable
  rw [BatchedLinAlg.call_backends]

theorem BatchedLinAlg.calls_IsAvailable {T V P : Type} (s : BatchedLinAlg T V P)
    (cs : List (Call T V P)) (b : Backend) :
    (s.calls cs).IsAvailable b = s.IsAvailable b := by
  unfold BatchedLinAlg.calls
  induction cs generalizing s with
  | nil => rfl
  | cons c cs ih => rw [List.foldl_cons, ih, BatchedLinAlg.call_IsAvailable]

/-- A call keeps the preferred backend available. -/
theorem BatchedLinAlg.call_preferred_available {T V P : Type} (s : BatchedLinAlg T V P)
    (c : Call T V P) (h : s.IsAvailable s.preferred_backend = true) :
    (s.call c).IsAvailable (s.call c).preferred_backend = true := by
  rw [BatchedLinAlg.call_IsAvailable]
  cases c <;> try exact h
  rename_i b
  unfold BatchedLinAlg.call BatchedLinAlg.SetPreferredBackend
  dsimp only
  split
  · assumption
  · exact h

theorem BatchedLinAlg.calls_preferred_available {T V P : Type} (s : BatchedLinAlg T V P)
    (cs : List (Call T V P)) (h : s.IsAvailable s.preferred_backend = true) :
    (s.calls cs).IsAvailable (s.calls cs).preferred_backend = true := by
  unfold BatchedLinAlg.calls
  induction cs generalizing s with
  | nil => exact h
  | cons c cs ih =>
    rw [List.foldl_cons]
    exact ih (s.call c) (BatchedLinAlg.call_preferred_available s c h)

/-- A sequence of calls whose `SetPreferredBackend` calls name the preferred backend
or an unavailable one leaves the registry as it is. -/
theorem BatchedLinAlg.calls_of_keep {T V P : Type} (s : BatchedLinAlg T V P)
    (cs : List (Call T V P))
    (hcs : ∀ b, Call.SetPreferredBackend b ∈ cs →
      b = s.preferred_backend ∨ s.IsAvailable b = false) :
    s.calls cs = s := by
  unfold BatchedLinAlg.calls
  induction cs with
  | nil => rfl
  | cons c cs ih =>
    rw [List.foldl_cons]
    have hc : s.call c = s := by
      cases c <;> try rfl
      rename_i b
      show (s.SetPreferredBackend b).2 = s
      unfold BatchedLinAlg.SetPreferredBackend
      rcases hcs b (List.mem_cons_self _ _) with h | h
      · subst h
        split <;> rfl
      · rw [h]
        rfl
    rw [hc]
    exact ih (fun b hb => hcs b (List.mem_cons_of_mem _ hb))

/-- Calls other than `SetPreferredBackend` keep the registry. -/
theorem BatchedLinAlg.calls_of_no_set {T V P : Type} (s : BatchedLinAlg T V P)
    (cs : List (Call T V P)) (hcs : ∀ c, c ∈ cs → ∀ b, c ≠ Call.SetPreferredBackend b) :
    s.calls cs = s := by
  unfold BatchedLinAlg.calls
  induction cs generalizing s with
  | nil => rfl
  | cons c cs ih =>
    rw [List.foldl_cons]
    have hc : s.call c = s := by
      cases c <;> first | rfl | exact absurd rfl (hcs _ (List.mem_cons_self _ _) _)
    rw [hc]
    exact ih s (fun c' hc' => hcs c' (List.mem_cons_of_mem _ hc'))

theorem BatchedLinAlg.Get_of_backends {T V P : Type} (s : BatchedLinAlg T V P)
    (b : Backend) (inst : BatchedLinAlgBase T V P) (h : s.backends b = some inst) :
    s.Get b = Except.ok inst := by
  unfold BatchedLinAlg.Get
  rw [h]

theorem BatchedLinAlg.backends_of_IsAvailable {T V P : Type} (s : BatchedLinAlg T V P)
    (b : Backend) (h : s.IsAvailable b = true) : ∃ inst, s.backends b = some inst :=
  Option.isSome_iff_exists.mp h

/-- The constructor makes the highest-ranked available backend the preferred one. -/
theorem BatchedLinAlg.construct_preferred_available {T V P : Type} (cfg : BuildConfig)
    (native gpuBlas magma : BatchedLinAlgBase T V P) :
    (BatchedLinAlg.construct cfg native gpuBlas magma).IsAvailable
      (BatchedLinAlg.construct cfg native gpuBlas magma).preferred_backend = true := by
  obtain ⟨a, c, m⟩ := cfg
  cases a <;> cases c <;> cases m <;> rfl


/-- What the constructor registers. -/
theorem BatchedLinAlg.construct_IsAvailable {T V P : Type} (cfg : BuildConfig)
    (native gpuBlas magma : BatchedLinAlgBase T V P) (b : Backend) :
    (BatchedLinAlg.construct cfg native gpuBlas magma).IsAvailable b
      = (match b with
        | Backend.NATIVE => true
        | Backend.GPU_BLAS => cfg.deviceAllowsNonCPU && cfg.useCudaOrHip
        | Backend.MAGMA => cfg.deviceAllowsNonCPU && cfg.useMagma) := by
  obtain ⟨a, c, m⟩ := cfg
  cases a <;> cases c <;> cases m <;> cases b <;> rfl

/-- What the constructor prefers. -/
theorem BatchedLinAlg.construct_GetPreferredBackend {T V P : Type} (cfg : BuildConfig)
    (native gpuBlas magma : BatchedLinAlgBase T V P) :
    (BatchedLinAlg.construct cfg native gpuBlas magma).GetPreferredBackend
      = (if cfg.deviceAllowsNonCPU && cfg.useMagma then Backend.MAGMA
        else if cfg.deviceAllowsNonCPU && cfg.useCudaOrHip then Backend.GPU_BLAS
        else Backend.NATIVE) := by
  obtain ⟨a, c, m⟩ := cfg
  cases a <;> cases c <;> cases m <;> rfl

/-! ### Named arrays -/

theorem ArraysByName.arrayEq_self {T : Type} [DecidableEq T] (a : List T) :
    ArraysByName.arrayEq a a = true := by
  unfold ArraysByName.arrayEq
  induction a with
  | nil => rfl
  | cons x xs ih =>
    simp only [List.length_cons, beq_self_eq_true, Bool.true_and, List.zip_cons_cons,
      List.all_cons, decide_True] at ih ⊢
    exact ih

theorem ArraysByName.eqLoop_self {T : Type} [DecidableEq T] (l : List (String × List T)) :
    ArraysByName.eqLoop l l = true := by
  induction l with
  | nil => rfl
  | cons e r ih =>
    unfold ArraysByName.eqLoop
    rw [if_neg (fun h => h rfl), ArraysByName.arrayEq_self, if_neg (by simp)]
    exact ih

/-- The modelled `operator==` holds between a container and one with the same
entries. -/
theorem ArraysByName.operatorEq_same {T : Type} [DecidableEq T] (a : ArraysByName T) :
    a.operatorEq ⟨a.data⟩ = true := by
  unfold ArraysByName.operatorEq ArraysByName.Size
  rw [if_neg (fun h => h rfl)]
  exact ArraysByName.eqLoop_self a.data

theorem ArraysByName.lookup_convert {T U : Type} (cast : T → U)
    (l : List (String × List T)) (name : String) :
    (l.map (fun entry => (entry.1, entry.2.map cast))).lookup name
      = (l.lookup name).map (List.map cast) := by
  induction l with
  | nil => rfl
  | cons e r ih =>
    obtain ⟨n, arr⟩ := e
    simp only [List.map_cons, List.lookup_cons]
    cases name == n
    · exact ih
    · rfl

theorem ArraysByName.get_convert {T U : Type} (cast : T → U) (a : ArraysByName T)
    (name : String) :
    (ArraysByName.convert cast a).get name = (a.get name).map cast := by
  unfold ArraysByName.get ArraysByName.convert
  dsimp only
  rw [ArraysByName.lookup_convert]
  cases List.lookup name a.data <;> rfl

theorem ArraysByName.EntryExists_convert {T U : Type} (cast : T → U) (a : ArraysByName T)
    (name : String) :
    (ArraysByName.convert cast a).EntryExists name = a.EntryExists name := by
  unfold ArraysByName.EntryExists ArraysByName.convert
  dsimp only
  induction a.data with
  | nil => rfl
  | cons e r ih => simp only [List.map_cons, List.any_cons, ih]

theorem ArraysByName.EntryExists_of_mem {T : Type} (a : ArraysByName T)
    (entry : String × List T) (h : entry ∈ a.data) : a.EntryExists entry.1 = true := by
  unfold ArraysByName.EntryExists
  exact List.any_eq_true.mpr ⟨entry, h, beq_self_eq_true _⟩

/-- A counting loop all of whose iterations count ends at the number of
iterations. -/
theorem forLoop_count (n : Nat) (p : Nat → Prop) [DecidablePred p] (hp : ∀ i, i < n → p i) :
    forLoop n (fun i count => if p i then count + 1 else count) 0 = n := by
  induction n with
  | zero => rfl
  | succ n ih =>
    rw [forLoop_succ, ih (fun i hi => hp i (Nat.lt_succ_of_lt hi)),
      if_pos (hp n (Nat.lt_succ_self n))]

theorem getD_map_intToLong (l : List Int) (i : Nat) :
    (l.map intToLong).getD i 0 = intToLong (l.getD i 0) := by
  induction l generalizing i with
  | nil => rfl
  | cons x xs ih =>
    cases i with
    | zero => rfl
    | succ i => simpa using ih i

/-- The `REQUIRE`s of the test on an entry of the converted container hold. -/
theorem convertedEntryRequires_convert (abn : ArraysByName Int) (name : String)
    (h : abn.EntryExists name = true) :
    convertedEntryRequires abn (ArraysByName.convert intToLong abn) name = true := by
  unfold convertedEntryRequires
  dsimp only
  rw [h, ArraysByName.get_convert, List.length_map,
    forLoop_count _ (fun i => intToLong ((abn.get name).getD i 0)
      = ((abn.get name).map intToLong).getD i 0)
      (fun i _ => (getD_map_intToLong _ i).symm)]
  simp

theorem convertedEntries_require (abn : ArraysByName Int) :
    (ArraysByName.convert intToLong abn).data.all
      (fun entry => convertedEntryRequires abn (ArraysByName.convert intToLong abn) entry.1)
      = true := by
  rw [List.all_eq_true]
  intro entry hentry
  refine convertedEntryRequires_convert abn entry.1 ?_
  rw [← ArraysByName.EntryExists_convert intToLong]
  exact ArraysByName.EntryExists_of_mem _ entry hentry

/-! ### Dispatch key and decode -/

/-- With both sizes below sixteen the key is `256 ver + 16 D1D + Q1D`. -/
theorem kernelId_eq_add (ver D1D Q1D : Nat) (hD : D1D ≤ 15) (hQ : Q1D ≤ 15) :
    kernelId ver D1D Q1D = 256 * ver + 16 * D1D + Q1D := by
  have h1 : ∀ d, d ≤ 15 → ∀ q, q ≤ 15 → (d <<< 4) ||| q = 16 * d + q := by decide
  unfold kernelId
  rw [Nat.or_assoc, h1 D1D hD Q1D hQ]
  have hlt : 16 * D1D + Q1D < 2 ^ 8 := by omega
  rw [Nat.shiftLeft_eq, Nat.mul_comm ver, ← Nat.mul_add_lt_is_or hlt ver]
  omega

/-! ### Bounds of the scratch-array references -/

theorem view2_bound (n1 n2 i j Q : Nat) (hi : i < n1) (hj : j < n2) (h : n1 * n2 ≤ Q) :
    view2 n2 i j < Q := by
  unfold view2
  have h1 : (i + 1) * n2 ≤ n1 * n2 := Nat.mul_le_mul_right _ hi
  have h2 : (i + 1) * n2 = i * n2 + n2 := by ring
  omega

theorem view3_bound (n1 n2 n3 i j k Q : Nat) (hi : i < n1) (hj : j < n2) (hk : k < n3)
    (h : n1 * n2 * n3 ≤ Q) : view3 n2 n3 i j k < Q := by
  unfold view3
  have h0 : i * n2 + j < n1 * n2 := view2_bound n1 n2 i j _ hi hj (Nat.le_refl _)
  have h1 : (i * n2 + j + 1) * n3 ≤ n1 * n2 * n3 := Nat.mul_le_mul_right _ h0
  have h2 : (i * n2 + j + 1) * n3 = (i * n2 + j) * n3 + n3 := by ring
  omega

theorem mem_loopAccesses (n : Nat) (body : Nat → List Access) (a : Access) :
    a ∈ loopAccesses n body ↔ ∃ i, i < n ∧ a ∈ body i := by
  unfold loopAccesses
  simp [List.mem_flatMap, List.mem_range]

/-- With `D1D <= Q1D` every scratch-array reference of the staged kernel is in
bounds. -/
theorem SmemAccesses_inBounds (D1D Q1D : Nat) (hDQ : D1D ≤ Q1D) (a : Access)
    (ha : a ∈ SmemAccesses D1D Q1D) : a.inBounds D1D Q1D = true := by
  have hDD : D1D * D1D ≤ Q1D * Q1D := Nat.mul_le_mul hDQ hDQ
  have hDQ2 : D1D * Q1D ≤ Q1D * Q1D := Nat.mul_le_mul_right _ hDQ
  have hQD2 : Q1D * D1D ≤ Q1D * Q1D := Nat.mul_le_mul_left _ hDQ
  have hDDQ : D1D * D1D * Q1D ≤ Q1D * Q1D * Q1D := Nat.mul_le_mul hDD (Nat.le_refl _)
  have hDQQ : D1D * Q1D * Q1D ≤ Q1D * Q1D * Q1D := Nat.mul_le_mul hDQ2 (Nat.le_refl _)
  have hQQD : Q1D * Q1D * D1D ≤ Q1D * Q1D * Q1D := Nat.mul_le_mul (Nat.le_refl _) hDQ
  have hQDD : Q1D * D1D * D1D ≤ Q1D * Q1D * Q1D := Nat.mul_le_mul hQD2 hDQ
  simp only [SmemAccesses, List.mem_append, mem_loopAccesses, List.mem_cons,
    List.mem_singleton, List.not_mem_nil, or_false] at ha
  casesm* _ ∨ _, ∃ _, _, _ ∧ _
  all_goals subst a
  all_goals simp only [Access.inBounds, decide_eq_true_eq]
  all_goals first
    | exact view2_bound _ _ _ _ _ ‹_› ‹_› (Nat.le_refl _)
    | exact view3_bound _ _ _ _ _ _ _ ‹_› ‹_› ‹_› (Nat.le_refl _)
    | exact view2_bound _ _ _ _ _ ‹_› ‹_› (by assumption)
    | exact view3_bound _ _ _ _ _ _ _ ‹_› ‹_› ‹_› (by assumption)

/-- With `D1D <= Q1D` every scratch-array reference of the register-blocked kernel
is in bounds. -/
theorem RegsAccesses_inBounds (D1D Q1D : Nat) (hDQ : D1D ≤ Q1D) (a : Access)
    (ha : a ∈ RegsAccesses D1D Q1D) : a.inBounds D1D Q1D = true := by
  simp only [RegsAccesses, List.mem_append, mem_loopAccesses, List.mem_cons,
    List.mem_singleton, List.not_mem_nil, or_false, List.mem_ite_nil_right] at ha
  casesm* _ ∨ _, ∃ _, _, _ ∧ _
  all_goals subst a
  all_goals simp only [Access.inBounds, decide_eq_true_eq]
  all_goals omega

theorem ite_some_cases {α : Type} {c : Prop} [Decidable c] {a k : α} {r : Option α}
    (h : (if c then some a else r) = some k) : k = a ∨ r = some k := by
  split at h
  · exact Or.inl (Option.some.inj h).symm
  · exact Or.inr h

/-- The instantiations of the `switch` have their template parameters in the table. -/
theorem selectKernel_supported (id : Nat) (k : Kernel) (h : selectKernel id = some k) :
    ∃ D1D Q1D, (D1D, Q1D) ∈ supportedPairs
      ∧ (k = Kernel.Smem D1D Q1D ∨ k = Kernel.Regs D1D Q1D) := by
  unfold selectKernel at h
  iterate 22
    replace h := ite_some_cases h
    rcases h with rfl | h
    · first
        | (refine ⟨_, _, ?_, Or.inl rfl⟩; decide)
        | (refine ⟨_, _, ?_, Or.inr rfl⟩; decide)
  cases h

/-- With `D1D <= Q1D` the check `Kernel.inBounds` succeeds. -/
theorem Kernel_inBounds_of_le (D1D Q1D : Nat) (hDQ : D1D ≤ Q1D) (k : Kernel)
    (hk : k = Kernel.Smem D1D Q1D ∨ k = Kernel.Regs D1D Q1D) : k.inBounds = true := by
  rcases hk with rfl | rfl
  · exact List.all_eq_true.2 (fun a ha => SmemAccesses_inBounds D1D Q1D hDQ a ha)
  · exact List.all_eq_true.2 (fun a ha => RegsAccesses_inBounds D1D Q1D hDQ a ha)

/-- The staged kernel writes the last entry of `sm1` (through `QQQ`, lines 140-144). -/
theorem SmemAccesses_last (D1D Q1D : Nat) (hQ : 0 < Q1D) :
    Access.QQQ (Q1D - 1) (Q1D - 1) (Q1D - 1) ∈ SmemAccesses D1D Q1D := by
  have h : Q1D - 1 < Q1D := by omega
  unfold SmemAccesses
  refine List.mem_append_left _ (List.mem_append_left _ (List.mem_append_left _
    (List.mem_append_left _ (List.mem_append_right _ ?_))))
  exact (mem_loopAccesses _ _ _).2 ⟨_, h, (mem_loopAccesses _ _ _).2 ⟨_, h,
    List.mem_append_right _ ((mem_loopAccesses _ _ _).2 ⟨_, h, List.mem_singleton.2 rfl⟩)⟩⟩

/-- The register-blocked kernel reads the last entry of `s_q` (line 350). -/
theorem RegsAccesses_last (D1D Q1D : Nat) (hD : 0 < D1D) (hQ : 0 < Q1D) :
    Access.s_q (D1D - 1) (Q1D - 1) (Q1D - 1) ∈ RegsAccesses D1D Q1D := by
  have h : Q1D - 1 < Q1D := by omega
  have h' : D1D - 1 < D1D := by omega
  unfold RegsAccesses
  refine List.mem_append_left _ (List.mem_append_left _ (List.mem_append_left _
    (List.mem_append_right _ ?_)))
  exact (mem_loopAccesses _ _ _).2 ⟨_, h, (mem_loopAccesses _ _ _).2 ⟨_, h,
    List.mem_append_left _ (List.mem_append_left _
      ((mem_loopAccesses _ _ _).2 ⟨_, h', List.mem_cons_self _ _⟩))⟩⟩

/-! ### Order of the contractions -/

/-- After the third stage `QQQ[qz][qy][qx]` is the forward value at `(qx, qy, qz)`. -/
theorem SmemAfterStage3_at (D1D Q1D : Nat) (map : Option (Nat → Int))
    (b_ d_ x_ junk : Nat → R) (e qz qy qx : Nat) (hqz : qz < Q1D) (hqy : qy < Q1D)
    (hqx : qx < Q1D) :
    SmemAfterStage3 D1D Q1D map b_ d_ x_ junk e (view3 Q1D Q1D qz qy qx)
      = forwardValue D1D (Bmat Q1D b_) (Dcoef Q1D d_ e) (Xloc D1D map x_ e) qx qy qz := by
  unfold SmemAfterStage3 forwardValue
  rw [SmemStage3_at _ _ _ _ _ _ _ _ qz qy qx hqz hqy hqx]
  refine congrArg (· * Dcoef Q1D d_ e qx qy qz) (Finset.sum_congr rfl (fun az haz => ?_))
  have haz := mem_range.1 haz
  rw [SmemStage2_at _ _ _ _ _ _ az qy qx haz hqy hqx, SmemLoadB_at _ _ _ _ qz az hqz haz]
  refine congrArg (· * Bmat Q1D b_ qz az) (Finset.sum_congr rfl (fun ay hay => ?_))
  have hay := mem_range.1 hay
  rw [SmemStage1_at _ _ _ _ _ _ _ _ az ay qx haz hay hqx, SmemLoadB_at _ _ _ _ qy ay hqy hay]
  refine congrArg (· * Bmat Q1D b_ qy ay) (Finset.sum_congr rfl (fun ax hax => ?_))
  have hax := mem_range.1 hax
  rw [SmemLoadB_at _ _ _ _ qx ax hqx hax]
  rfl

/-- After the fourth stage `QQD[qz][qy][dx]` is the sum over `qx` of
`QQQ[qz][qy][qx] * B(qx, dx)`. -/
theorem SmemAfterStage4_at (D1D Q1D : Nat) (map : Option (Nat → Int))
    (b_ d_ x_ junk : Nat → R) (e qz qy dx : Nat) (hqz : qz < Q1D) (hqy : qy < Q1D)
    (hdx : dx < D1D) :
    SmemAfterStage4 D1D Q1D map b_ d_ x_ junk e (view3 Q1D D1D qz qy dx)
      = ∑ qx in range Q1D,
          SmemAfterStage3 D1D Q1D map b_ d_ x_ junk e (view3 Q1D Q1D qz qy qx)
            * Bmat Q1D b_ qx dx := by
  unfold SmemAfterStage4 SmemAfterStage3
  rw [SmemStage4_at _ _ _ _ _ _ qz qy dx hqz hqy hdx]
  refine Finset.sum_congr rfl (fun qx hqx => ?_)
  rw [SmemLoadBt_at _ _ _ _ qx dx (mem_range.1 hqx) hdx]
  rfl

/-- The last stage of the staged kernel adds, for `(dx, dy, dz)`, the sum over `qz`
of `QDD[qz][dy][dx] * Bt[dz][qz]`. -/
theorem SmemStage6_apply (D1D Q1D : Nat) (map : Option (Nat → Int)) (e : Nat)
    (junk sDQ sm1 y : Nat → R) (g : Nat) :
    SmemStage6 D1D Q1D map e junk sDQ sm1 y g
      = y g + scatterSum D1D (fun dx dy dz => dofSlot D1D map dx dy dz e)
          (fun dx dy dz =>
            ∑ qz in range Q1D, sm1 (view3 D1D D1D qz dy dx) * sDQ (view2 Q1D dz qz)) g := by
  unfold SmemStage6
  rw [scatter_loops D1D (fun dx dy dz => dofSlot D1D map dx dy dz e)]
  refine congrArg (y g + ·) (scatterSum_congr D1D _ _ _ _ g (fun _ _ _ _ _ _ => rfl)
    (fun dx dy dz _ _ hdz => ?_))
  exact threadSums_eq _ _ _ _ _ hdz

/-! ### Symmetry of the operator -/

theorem sum_range_mul (n m : Nat) (f : Nat → R) :
    ∑ g in range (n * m), f g = ∑ j in range m, ∑ i in range n, f (i + n * j) := by
  induction m with
  | zero => simp
  | succ m ih =>
    rw [Nat.mul_succ, Finset.sum_range_add, ih, Finset.sum_range_succ]
    refine congrArg (_ + ·) (Finset.sum_congr rfl (fun i _ => ?_))
    rw [Nat.add_comm]

/-- A sum over the entries of a `n1 x n2 x n3 x n4` array, index by index. -/
theorem sum_range_Reshape4 (n1 n2 n3 n4 : Nat) (f : Nat → R) :
    ∑ g in range (n1 * n2 * n3 * n4), f g
      = ∑ l in range n4, ∑ k in range n3, ∑ j in range n2, ∑ i in range n1,
          f (Reshape4 n1 n2 n3 i j k l) := by
  rw [Nat.mul_assoc, Nat.mul_assoc, sum_range_mul, sum_range_mul, sum_range_mul]
  rfl

/-- The pairing of `Z` with the element contraction of `X` is the sum over the
quadrature points of `D` times the interpolated values of `X` and of `Z`. -/
theorem massAction_pairing (D1D Q1D : Nat) (B : Nat → Nat → R) (D X Z : Nat → Nat → Nat → R) :
    ∑ dx in range D1D, ∑ dy in range D1D, ∑ dz in range D1D,
        Z dx dy dz * massAction D1D Q1D B D X dx dy dz
      = ∑ qx in range Q1D, ∑ qy in range Q1D, ∑ qz in range Q1D,
          D qx qy qz * interpolate D1D B X qx qy qz * interpolate D1D B Z qx qy qz := by
  have h1 : ∀ dx dy dz, Z dx dy dz * massAction D1D Q1D B D X dx dy dz
      = ∑ qx in range Q1D, ∑ qy in range Q1D, ∑ qz in range Q1D,
          (D qx qy qz * interpolate D1D B X qx qy qz)
            * (B qx dx * B qy dy * B qz dz * Z dx dy dz) := by
    intro dx dy dz
    unfold massAction
    rw [Finset.mul_sum]
    refine Finset.sum_congr rfl (fun qx _ => ?_)
    rw [Finset.mul_sum]
    refine Finset.sum_congr rfl (fun qy _ => ?_)
    rw [Finset.mul_sum]
    refine Finset.sum_congr rfl (fun qz _ => ?_)
    unfold interpolate
    ring
  simp only [h1]
  rw [sum3_sum3_comm]
  refine Finset.sum_congr rfl (fun qx _ => Finset.sum_congr rfl (fun qy _ =>
    Finset.sum_congr rfl (fun qz _ => ?_)))
  unfold interpolate
  simp only [Finset.mul_sum]

/-- The element contraction is symmetric. -/
theorem massAction_symm (D1D Q1D : Nat) (B : Nat → Nat → R) (D X Z : Nat → Nat → Nat → R) :
    ∑ dx in range D1D, ∑ dy in range D1D, ∑ dz in range D1D,
        Z dx dy dz * massAction D1D Q1D B D X dx dy dz
      = ∑ dx in range D1D, ∑ dy in range D1D, ∑ dz in range D1D,
          X dx dy dz * massAction D1D Q1D B D Z dx dy dz := by
  rw [massAction_pairing, massAction_pairing]
  refine Finset.sum_congr rfl (fun qx _ => Finset.sum_congr rfl (fun qy _ =>
    Finset.sum_congr rfl (fun qz _ => ?_)))
  ring

/-- The inner product of `z` with the map-less output of a kernel started from
`Y = 0`, element by element. -/
theorem innerProduct_run (D1D Q1D : Nat) (hDQ : D1D ≤ Q1D) (k : Kernel)
    (hk : k = Kernel.Smem D1D Q1D ∨ k = Kernel.Regs D1D Q1D) (ndofs NE : Nat)
    (b_ d_ x_ z_ : Nat → R) (junk : Junk R) :
    innerProduct D1D NE z_ (k.run Exec.device ndofs NE none b_ d_ x_ (fun _ => 0) junk)
      = ∑ e in range NE, ∑ dx in range D1D, ∑ dy in range D1D, ∑ dz in range D1D,
          Xloc D1D none z_ e dx dy dz
            * massAction D1D Q1D (Bmat Q1D b_) (Dcoef Q1D d_ e) (Xloc D1D none x_ e)
                dx dy dz := by
  unfold innerProduct
  rw [sum_range_Reshape4]
  refine Finset.sum_congr rfl (fun e he => ?_)
  rw [sum3_rev]
  refine Finset.sum_congr rfl (fun dx hdx => Finset.sum_congr rfl (fun dy hdy =>
    Finset.sum_congr rfl (fun dz hdz => ?_)))
  rw [Kernel_run_eq_spec D1D Q1D hDQ k hk, massApplySpec,
    massOperator_none_at D1D Q1D NE b_ d_ x_ e dx dy dz (mem_range.1 he) (mem_range.1 hdx)
      (mem_range.1 hdy) (mem_range.1 hdz), zero_add]
  rfl

/-! ### Layout constructors and the curl tensor -/

theorem assertKernel_ok_iff (cond : Bool) (msg : String) :
    assertKernel cond msg = Except.ok () ↔ cond = true := by
  unfold assertKernel
  cases cond <;> simp

/-- The converting constructor accepts exactly the sources of rank one whose first
size is `DimX`. -/
theorem Static1dThreadLayout.constructFrom_ok_iff (DimX : Int) (Dims : List Int)
    (rhsRank : Nat) (rhsSize0 : Int) :
    Static1dThreadLayout.constructFrom DimX Dims rhsRank rhsSize0 = Except.ok ()
      ↔ rhsRank = 1 ∧ rhsSize0 = DimX := by
  unfold Static1dThreadLayout.constructFrom assertKernel
  by_cases h1 : 1 = rhsRank <;> by_cases h2 : rhsSize0 = DimX <;>
    (simp [h1, h2, bind, Except.bind]; try omega)

/-- The default constructor accepts exactly when `DimX` is strictly below the number
of `x` threads and the batch size is the number of `z` threads. -/
theorem Static1dThreadLayout.construct_ok_iff (tb : ThreadBlock) (BatchSize DimX : Int)
    (Dims : List Int) :
    Static1dThreadLayout.construct tb BatchSize DimX Dims = Except.ok ()
      ↔ DimX < tb.sizeX ∧ BatchSize = tb.sizeZ := by
  unfold Static1dThreadLayout.construct assertKernel
  by_cases h1 : DimX < tb.sizeX <;> by_cases h2 : BatchSize = tb.sizeZ <;>
    simp [h1, h2, bind, Except.bind]

/-- The constructor from run-time sizes accepts exactly when moreover the run-time
first size is `DimX`. -/
theorem Static1dThreadLayout.constructSized_ok_iff (tb : ThreadBlock) (BatchSize DimX : Int)
    (Dims : List Int) (size0 : Int) :
    Static1dThreadLayout.constructSized tb BatchSize DimX Dims size0 = Except.ok ()
      ↔ size0 = DimX ∧ DimX < tb.sizeX ∧ BatchSize = tb.sizeZ := by
  unfold Static1dThreadLayout.constructSized assertKernel
  by_cases h0 : size0 = DimX <;> by_cases h1 : DimX < tb.sizeX <;>
    by_cases h2 : BatchSize = tb.sizeZ <;> simp [h0, h1, h2, bind, Except.bind]

/-- What `CalcCurlTensor` stores: the value of `(ip, d, id)` is at offset
`ip + nip * (d + dim * id)`. -/
theorem CalcCurlTensor_at {R : Type} (dim nip dof : Nat) (hdim : curlDim dim ≤ dim)
    (curlShape : Nat → Nat → Nat → R) (dof_map : Option (Nat → Int)) (C : Nat → R)
    (ip id d : Nat) (hip : ip < nip) (hid : id < dof) (hd : d < curlDim dim) :
    CalcCurlTensor dim nip dof curlShape dof_map C (ip + nip * (d + dim * id))
      = curlShape ip (curlOrigId dof_map id) d := by
  unfold CalcCurlTensor
  refine grid3_store (fun ip id d => ip + nip * (d + dim * id))
    (fun ip id d => curlShape ip (curlOrigId dof_map id) d) nip dof (curlDim dim) C ip id d
    hip hid hd (fun y x k hy _ hk h => ?_)
  obtain ⟨h1, h2⟩ := addMul_inj hy hip h
  obtain ⟨h3, h4⟩ := addMul_inj (Nat.lt_of_lt_of_le hk hdim) (Nat.lt_of_lt_of_le hd hdim) h2
  subst h1 h3 h4
  rfl

/-- An offset that is no `ip + nip * (d + dim * id)` keeps its content. -/
theorem CalcCurlTensor_off {R : Type} (dim nip dof : Nat)
    (curlShape : Nat → Nat → Nat → R) (dof_map : Option (Nat → Int)) (C : Nat → R)
    (p : Nat)
    (hp : ∀ ip id d, ip < nip → id < dof → d < curlDim dim → ip + nip * (d + dim * id) ≠ p) :
    CalcCurlTensor dim nip dof curlShape dof_map C p = C p := by
  unfold CalcCurlTensor
  refine forLoop2_frame (fun A : Nat → R => A p) nip dof _ C (fun ip id hip hid t => ?_)
  exact forLoop_update_off (fun d => ip + nip * (d + dim * id)) _ (curlDim dim) t p
    (fun d hd => hp ip id d hip hid hd)

/-! ### Divisors of the flux functions -/

theorem forLoopE_ok {σ ε : Type} (n : Nat) (body : Nat → σ → Except ε σ) (f : Nat → σ → σ)
    (s : σ) (h : ∀ i, i < n → ∀ t, body i t = Except.ok (f i t)) :
    forLoopE n body s = Except.ok (forLoop n f s) := by
  induction n with
  | zero => rfl
  | succ n ih =>
    unfold forLoopE forLoop
    rw [ih (fun i hi t => h i (Nat.lt_succ_of_lt hi) t)]
    exact h n (Nat.lt_succ_self n) _

theorem forLoopE_error {σ ε : Type} (n : Nat) (body : Nat → σ → Except ε σ) (err : ε)
    (s : σ) (h : ∀ i t, body i t = Except.error err) :
    forLoopE (n + 1) body s = Except.error err := by
  induction n with
  | zero => exact h 0 s
  | succ n ih =>
    unfold forLoopE
    rw [ih]

theorem divide_ok {K : Type} [LinearOrderedField K] (a b : K) (hb : b ≠ 0) :
    divide a b = Except.ok (a / b) := by
  unfold divide
  rw [if_neg hb]

theorem divide_zero {K : Type} [LinearOrderedField K] (a : K) :
    divide a 0 = Except.error FluxError.zeroDivisor := by
  unfold divide
  rw [if_pos rfl]

theorem mfemAssert_ok (cond : Prop) [Decidable cond] (msg : String) (h : cond) :
    mfemAssert (decide cond) msg = Except.ok () := by
  unfold mfemAssert
  rw [decide_eq_true h]
  rfl

/-- With a zero height `ShallowWaterFlux::ComputeFlux` passes its assertion and
divides by zero. -/
theorem ShallowWaterFlux.ComputeFlux_zero_height {K : Type} [LinearOrderedField K]
    (sqrt : K → K) (dim : Nat) (g : K) (U : Nat → K) (FU : Nat × Nat → K) (h : U 0 = 0) :
    ShallowWaterFlux.ComputeFlux sqrt dim g U FU = Except.error FluxError.zeroDivisor := by
  unfold ShallowWaterFlux.ComputeFlux
  simp only [h, mfemAssert_ok _ _ (le_refl (0 : K)), divide_zero, bind, Except.bind]
  cases dim with
  | zero => rfl
  | succ n =>
    rw [forLoopE_error n _ FluxError.zeroDivisor FU (fun d t => ?_)]
    rw [forLoopE_error n _ FluxError.zeroDivisor _ (fun i t => rfl)]

theorem forLoopE_pure {σ ε : Type} (n : Nat) (f : Nat → σ → σ) (s : σ) :
    forLoopE n (fun i t => (Except.ok (f i t) : Except ε σ)) s = Except.ok (forLoop n f s) :=
  forLoopE_ok n _ f s (fun _ _ _ => rfl)

/-- With a positive height `ShallowWaterFlux::ComputeFlux` returns. -/
theorem ShallowWaterFlux.ComputeFlux_ok {K : Type} [LinearOrderedField K]
    (sqrt : K → K) (dim : Nat) (g : K) (U : Nat → K) (FU : Nat × Nat → K) (h : 0 < U 0) :
    ∃ r, ShallowWaterFlux.ComputeFlux sqrt dim g U FU = Except.ok r := by
  unfold ShallowWaterFlux.ComputeFlux
  simp only [mfemAssert_ok _ _ (le_of_lt h), divide_ok _ _ (ne_of_gt h), bind, Except.bind,
    pure, Except.pure, forLoopE_pure]
  exact ⟨_, rfl⟩

/-- The dot product of a non-zero vector with itself is positive. -/
theorem dot_self_pos {K : Type} [LinearOrderedField K] (dim : Nat) (v : Nat → K)
    (h : ∃ i, i < dim ∧ v i ≠ 0) : 0 < dot dim v v := by
  obtain ⟨i, hi, hv⟩ := h
  unfold dot
  exact Finset.sum_pos' (fun j _ => mul_self_nonneg (v j))
    ⟨i, mem_range.2 hi, mul_self_pos.2 hv⟩

/-- With a positive height and a non-zero normal `ShallowWaterFlux::ComputeFluxDotN`
returns. -/
theorem ShallowWaterFlux.ComputeFluxDotN_ok {K : Type} [LinearOrderedField K]
    (sqrt : K → K) (hsqrt : ∀ x, 0 < x → sqrt x ≠ 0) (dim : Nat) (g : K)
    (U normal : Nat → K) (FUdotN : Nat → K) (h : 0 < U 0)
    (hn : ∃ i, i < dim ∧ normal i ≠ 0) :
    ∃ r, ShallowWaterFlux.ComputeFluxDotN sqrt dim g U normal FUdotN = Except.ok r := by
  unfold ShallowWaterFlux.ComputeFluxDotN
  simp only [mfemAssert_ok _ _ (le_of_lt h), divide_ok _ _ (ne_of_gt h),
    divide_ok _ _ (hsqrt _ (dot_self_pos dim normal hn)), bind, Except.bind, pure, Except.pure]
  exact ⟨_, rfl⟩

/-- With a zero height `ShallowWaterFlux::ComputeFluxDotN` passes its assertion and
divides by zero. -/
theorem ShallowWaterFlux.ComputeFluxDotN_zero_height {K : Type} [LinearOrderedField K]
    (sqrt : K → K) (dim : Nat) (g : K) (U normal : Nat → K) (FUdotN : Nat → K)
    (h : U 0 = 0) :
    ShallowWaterFlux.ComputeFluxDotN sqrt dim g U normal FUdotN
      = Except.error FluxError.zeroDivisor := by
  unfold ShallowWaterFlux.ComputeFluxDotN
  simp only [h, mfemAssert_ok _ _ (le_refl (0 : K)), divide_zero, bind, Except.bind]

/-- With a positive density and the asserted preconditions `EulerFlux::ComputeFlux`
returns. -/
theorem EulerFlux.ComputeFlux_returns {K : Type} [LinearOrderedField K]
    (sqrt : K → K) (dim : Nat) (specific_heat_ratio : K) (U : Nat → K) (FU : Nat × Nat → K)
    (h : 0 < U 0) (hp : 0 ≤ EulerFlux.pressure dim specific_heat_ratio U)
    (he : 0 ≤ U (1 + dim)) :
    ∃ r, EulerFlux.ComputeFlux sqrt dim specific_heat_ratio U FU = Except.ok r := by
  unfold EulerFlux.pressure at hp
  unfold EulerFlux.ComputeFlux
  simp only [mfemAssert_ok _ _ (le_of_lt h), mfemAssert_ok _ _ hp, mfemAssert_ok _ _ he,
    divide_ok _ _ (ne_of_gt h), bind, Except.bind, pure, Except.pure, forLoopE_pure]
  exact ⟨_, rfl⟩

/-- With a zero density the first division of `EulerFlux::ComputeFlux` (line 579,
before the assertions) has a zero divisor. -/
theorem EulerFlux.ComputeFlux_zero_density {K : Type} [LinearOrderedField K]
    (sqrt : K → K) (dim : Nat) (specific_heat_ratio : K) (U : Nat → K) (FU : Nat × Nat → K)
    (h : U 0 = 0) :
    EulerFlux.ComputeFlux sqrt dim specific_heat_ratio U FU
      = Except.error FluxError.zeroDivisor := by
  unfold EulerFlux.ComputeFlux
  simp only [h, divide_zero, bind, Except.bind]

/-! ### Names of a container -/

theorem ArraysByName.EntryExists_iff {T : Type} (a : ArraysByName T) (name : String) :
    a.EntryExists name = true ↔ name ∈ a.names := by
  unfold ArraysByName.EntryExists ArraysByName.names
  simp only [List.any_eq_true, beq_iff_eq, List.mem_map]

theorem ArraysByName.EntryExists_eq_false_iff {T : Type} (a : ArraysByName T) (name : String) :
    a.EntryExists name = false ↔ name ∉ a.names := by
  rw [← ArraysByName.EntryExists_iff, Bool.not_eq_true]

theorem ArraysByName.mem_insertEntry {T : Type} (name m : String) (arr : List T)
    (l : List (String × List T)) :
    m ∈ (ArraysByName.insertEntry name arr l).map Prod.fst ↔ m = name ∨ m ∈ l.map Prod.fst := by
  induction l with
  | nil => simp [ArraysByName.insertEntry]
  | cons e r ih =>
    unfold ArraysByName.insertEntry
    split
    · simp
    · split
      · rename_i h
        simp [h]
      · simp only [List.map_cons, List.mem_cons, ih]
        tauto

theorem ArraysByName.insertEntry_perm {T : Type} (name : String) (arr : List T)
    (l : List (String × List T)) (h : name ∉ l.map Prod.fst) :
    ((ArraysByName.insertEntry name arr l).map Prod.fst).Perm (name :: l.map Prod.fst) := by
  induction l with
  | nil => exact List.Perm.refl _
  | cons e r ih =>
    unfold ArraysByName.insertEntry
    split
    · exact List.Perm.refl _
    · split
      · rename_i hne
        exact absurd (by simp [hne]) h
      · have hr : name ∉ r.map Prod.fst := fun hm => h (by simp [hm])
        exact ((ih hr).cons e.1).trans (List.Perm.swap _ _ _)

theorem ArraysByName.mem_setInsert (name m : String) (l : List String) :
    m ∈ ArraysByName.setInsert name l ↔ m = name ∨ m ∈ l := by
  induction l with
  | nil => simp [ArraysByName.setInsert]
  | cons s r ih =>
    unfold ArraysByName.setInsert
    split
    · simp
    · split
      · rename_i h
        simp [h]
      · simp only [List.mem_cons, ih]
        tauto

theorem ArraysByName.length_setInsert (name : String) (l : List String) (h : name ∉ l) :
    (ArraysByName.setInsert name l).length = l.length + 1 := by
  induction l with
  | nil => rfl
  | cons s r ih =>
    unfold ArraysByName.setInsert
    split
    · rfl
    · split
      · rename_i hne
        exact absurd (by simp [hne]) h
      · have hr : name ∉ r := fun hm => h (List.mem_cons_of_mem _ hm)
        simp [ih hr]

theorem ArraysByName.mem_foldl_setInsert {T : Type} (l : List (String × List T))
    (acc : List String) (m : String) :
    m ∈ l.foldl (fun names entry => ArraysByName.setInsert entry.1 names) acc
      ↔ m ∈ acc ∨ m ∈ l.map Prod.fst := by
  induction l generalizing acc with
  | nil => simp
  | cons e r ih =>
    simp only [List.foldl_cons, ih, ArraysByName.mem_setInsert, List.map_cons, List.mem_cons]
    tauto

theorem ArraysByName.length_foldl_setInsert {T : Type} (l : List (String × List T))
    (acc : List String) (hn : (l.map Prod.fst).Nodup)
    (hd : ∀ m, m ∈ l.map Prod.fst → m ∉ acc) :
    (l.foldl (fun names entry => ArraysByName.setInsert entry.1 names) acc).length
      = acc.length + l.length := by
  induction l generalizing acc with
  | nil => rfl
  | cons e r ih =>
    simp only [List.map_cons, List.nodup_cons] at hn
    simp only [List.foldl_cons]
    rw [ih _ hn.2, ArraysByName.length_setInsert _ _ (hd e.1 (by simp))]
    · simp only [List.length_cons]
      omega
    · intro m hm hmem
      rcases (ArraysByName.mem_setInsert _ _ _).1 hmem with h | h
      · exact hn.1 (h ▸ hm)
      · exact hd m (by simp [hm]) h

/-- The set `GetNames()` returns holds exactly the names of the entries. -/
theorem ArraysByName.mem_GetNames {T : Type} (a : ArraysByName T) (m : String) :
    m ∈ a.GetNames ↔ a.EntryExists m = true := by
  rw [ArraysByName.EntryExists_iff]
  unfold ArraysByName.GetNames ArraysByName.GetNamesInto ArraysByName.names
  rw [ArraysByName.mem_foldl_setInsert]
  simp

/-- The set `GetNames()` returns has `Size()` elements. -/
theorem ArraysByName.length_GetNames {T : Type} (a : ArraysByName T) (h : a.WellFormed) :
    a.GetNames.length = a.Size := by
  unfold ArraysByName.GetNames ArraysByName.GetNamesInto ArraysByName.Size
  rw [ArraysByName.length_foldl_setInsert a.data [] h (fun _ _ => List.not_mem_nil _)]
  simp

theorem ArraysByName.EntryExists_CreateArray {T : Type} (a : ArraysByName T)
    (name m : String) :
    (a.CreateArray name).EntryExists m = true ↔ m = name ∨ a.EntryExists m = true := by
  rw [ArraysByName.EntryExists_iff, ArraysByName.EntryExists_iff]
  exact ArraysByName.mem_insertEntry name m [] a.data

theorem ArraysByName.WellFormed_CreateArray {T : Type} (a : ArraysByName T)
    (name : String) (h : a.WellFormed) (hn : a.EntryExists name = false) :
    (a.CreateArray name).WellFormed ∧ (a.CreateArray name).Size = a.Size + 1 := by
  have hn' := (ArraysByName.EntryExists_eq_false_iff a name).1 hn
  have hp := ArraysByName.insertEntry_perm name ([] : List T) a.data hn'
  refine ⟨(hp.nodup_iff).2 (List.nodup_cons.2 ⟨hn', h⟩), ?_⟩
  have := hp.length_eq
  simpa [ArraysByName.CreateArray, ArraysByName.Size] using this

theorem ArraysByName.EntryExists_DeleteArray {T : Type} (a : ArraysByName T)
    (name m : String) :
    (a.DeleteArray name).EntryExists m = true ↔ m ≠ name ∧ a.EntryExists m = true := by
  unfold ArraysByName.DeleteArray ArraysByName.EntryExists
  simp only [List.any_eq_true, List.mem_filter, beq_iff_eq, Bool.not_eq_true',
    beq_eq_false_iff_ne, ne_eq]
  constructor
  · rintro ⟨e, ⟨he, hne⟩, rfl⟩
    exact ⟨hne, e, he, rfl⟩
  · rintro ⟨hne, e, he, rfl⟩
    exact ⟨e, ⟨he, hne⟩, rfl⟩

theorem ArraysByName.WellFormed_DeleteArray {T : Type} (a : ArraysByName T)
    (name : String) (h : a.WellFormed) : (a.DeleteArray name).WellFormed := by
  unfold ArraysByName.WellFormed ArraysByName.names ArraysByName.DeleteArray at *
  exact h.sublist ((List.filter_sublist _).map _)

/-! ### Definiteness, table and linearity -/

theorem sum3_linear (A B C : Finset Nat) (s t : R) (f g : Nat → Nat → Nat → R) :
    ∑ a in A, ∑ b in B, ∑ c in C, (s * f a b c + t * g a b c)
      = s * (∑ a in A, ∑ b in B, ∑ c in C, f a b c)
        + t * ∑ a in A, ∑ b in B, ∑ c in C, g a b c := by
  simp only [Finset.sum_add_distrib, Finset.mul_sum]

/-- The element contraction is linear in the degrees of freedom. -/
theorem massAction_linear_X (D1D Q1D : Nat) (B : Nat → Nat → R)
    (D X X' : Nat → Nat → Nat → R) (s t : R) (dx dy dz : Nat) :
    massAction D1D Q1D B D (fun a b c => s * X a b c + t * X' a b c) dx dy dz
      = s * massAction D1D Q1D B D X dx dy dz + t * massAction D1D Q1D B D X' dx dy dz := by
  unfold massAction
  rw [← sum3_linear]
  refine Finset.sum_congr rfl (fun qx _ => Finset.sum_congr rfl (fun qy _ =>
    Finset.sum_congr rfl (fun qz _ => ?_)))
  have h : ∑ ax in range D1D, ∑ ay in range D1D, ∑ az in range D1D,
        B qx ax * B qy ay * B qz az * (s * X ax ay az + t * X' ax ay az)
      = s * (∑ ax in range D1D, ∑ ay in range D1D, ∑ az in range D1D,
          B qx ax * B qy ay * B qz az * X ax ay az)
        + t * ∑ ax in range D1D, ∑ ay in range D1D, ∑ az in range D1D,
          B qx ax * B qy ay * B qz az * X' ax ay az := by
    rw [← sum3_linear]
    refine Finset.sum_congr rfl (fun ax _ => Finset.sum_congr rfl (fun ay _ =>
      Finset.sum_congr rfl (fun az _ => ?_)))
    ring
  rw [h]
  ring

/-- The element contraction is linear in the coefficient. -/
theorem massAction_linear_D (D1D Q1D : Nat) (B : Nat → Nat → R)
    (D D' X : Nat → Nat → Nat → R) (s t : R) (dx dy dz : Nat) :
    massAction D1D Q1D B (fun a b c => s * D a b c + t * D' a b c) X dx dy dz
      = s * massAction D1D Q1D B D X dx dy dz + t * massAction D1D Q1D B D' X dx dy dz := by
  unfold massAction
  rw [← sum3_linear]
  refine Finset.sum_congr rfl (fun qx _ => Finset.sum_congr rfl (fun qy _ =>
    Finset.sum_congr rfl (fun qz _ => ?_)))
  ring

/-- The scatter-add is linear in the element values. -/
theorem scatterSum_linear (N : Nat) (slot : Nat → Nat → Nat → Nat)
    (v v' : Nat → Nat → Nat → R) (s t : R) (g : Nat) :
    scatterSum N slot (fun a b c => s * v a b c + t * v' a b c) g
      = s * scatterSum N slot v g + t * scatterSum N slot v' g := by
  unfold scatterSum
  rw [← sum3_linear]
  refine Finset.sum_congr rfl (fun dy _ => Finset.sum_congr rfl (fun dx _ =>
    Finset.sum_congr rfl (fun dz _ => ?_)))
  split <;> simp

/-- The operator is linear in the input vector. -/
theorem massOperator_linear_X (D1D Q1D NE : Nat) (map : Option (Nat → Int))
    (b_ d_ x_ x_' : Nat → R) (s t : R) (g : Nat) :
    massOperator D1D Q1D NE map b_ d_ (fun i => s * x_ i + t * x_' i) g
      = s * massOperator D1D Q1D NE map b_ d_ x_ g
        + t * massOperator D1D Q1D NE map b_ d_ x_' g := by
  unfold massOperator
  rw [Finset.mul_sum, Finset.mul_sum, ← Finset.sum_add_distrib]
  refine Finset.sum_congr rfl (fun e _ => ?_)
  rw [← scatterSum_linear]
  refine scatterSum_congr D1D _ _ _ _ g (fun _ _ _ _ _ _ => rfl) (fun dx dy dz _ _ _ => ?_)
  rw [← massAction_linear_X]
  rfl

/-- The operator is linear in the coefficient tensor. -/
theorem massOperator_linear_D (D1D Q1D NE : Nat) (map : Option (Nat → Int))
    (b_ d_ d_' x_ : Nat → R) (s t : R) (g : Nat) :
    massOperator D1D Q1D NE map b_ (fun i => s * d_ i + t * d_' i) x_ g
      = s * massOperator D1D Q1D NE map b_ d_ x_ g
        + t * massOperator D1D Q1D NE map b_ d_' x_ g := by
  unfold massOperator
  rw [Finset.mul_sum, Finset.mul_sum, ← Finset.sum_add_distrib]
  refine Finset.sum_congr rfl (fun e _ => ?_)
  rw [← scatterSum_linear]
  refine scatterSum_congr D1D _ _ _ _ g (fun _ _ _ _ _ _ => rfl) (fun dx dy dz _ _ _ => ?_)
  rw [← massAction_linear_D]
  rfl

theorem ite_some_inv {α : Type} {c : Prop} [Decidable c] {a k : α} {r : Option α}
    (h : (if c then some a else r) = some k) : (c ∧ k = a) ∨ r = some k := by
  split at h
  · rename_i hc
    exact Or.inl ⟨hc, (Option.some.inj h).symm⟩
  · exact Or.inr h

/-- The case labels of the `switch`: an instantiation is selected exactly by the
key of its variant and template parameters, and only for a pair of the table. -/
theorem selectKernel_eq_some_iff (id : Nat) (k : Kernel) :
    selectKernel id = some k ↔
      ∃ D1D Q1D, (D1D, Q1D) ∈ supportedPairs
        ∧ ((k = Kernel.Smem D1D Q1D ∧ id = kernelId 0 D1D Q1D)
          ∨ (k = Kernel.Regs D1D Q1D ∧ id = kernelId 1 D1D Q1D)) := by
  constructor
  · intro h
    unfold selectKernel at h
    iterate 22
      replace h := ite_some_inv h
      rcases h with ⟨rfl, rfl⟩ | h
      · first
          | (refine ⟨_, _, ?_, Or.inl ⟨rfl, ?_⟩⟩ <;> decide)
          | (refine ⟨_, _, ?_, Or.inr ⟨rfl, ?_⟩⟩ <;> decide)
    cases h
  · rintro ⟨D1D, Q1D, hsup, h⟩
    simp only [supportedPairs, List.mem_cons, Prod.mk.injEq, List.mem_singleton,
      List.not_mem_nil, or_false] at hsup
    rcases hsup with h' | h' | h' | h' | h' | h' | h' | h' | h' | h' | h' <;>
      obtain ⟨rfl, rfl⟩ := h' <;>
      rcases h with ⟨rfl, rfl⟩ | ⟨rfl, rfl⟩ <;> rfl

/-! ### Burgers, Rusanov and Euler fluxes -/

theorem EulerFlux.ComputeFluxIn_debug {K : Type} [LinearOrderedField K] (sqrt : K → K)
    (dim : Nat) (specific_heat_ratio : K) (U : Nat → K) (FU : Nat × Nat → K) :
    EulerFlux.ComputeFluxIn true sqrt dim specific_heat_ratio U FU
      = EulerFlux.ComputeFlux sqrt dim specific_heat_ratio U FU := rfl

/-- A loop of stores `flux[i] = val i`: the entries below `n` hold their value, the
others are kept. -/
theorem forLoop_fill {ρ : Type} (n : Nat) (val : Nat → ρ) (A : Nat → ρ) (i : Nat) :
    forLoop n (fun i A => Function.update A i (val i)) A i = if i < n then val i else A i := by
  by_cases h : i < n
  · rw [if_pos h]
    exact forLoop_update_at (fun i => i) (fun i _ => val i) n A (fun _ _ _ _ h => h) i h
  · rw [if_neg h]
    exact forLoop_update_off (fun i => i) (fun i _ => val i) n A i
      (fun j hj hji => h (hji ▸ hj))

/-- What `RusanovFlux::Eval` returns and writes when the two calls of
`ComputeFluxDotN` return. -/
theorem RusanovFlux.Eval_eq {K : Type} [LinearOrderedField K] (sqrt : K → K)
    (num_equations dim : Nat)
    (ComputeFluxDotN : (Nat → K) → (Nat → K) → (Nat → K) → Except FluxError (K × (Nat → K)))
    (state1 state2 nor fluxN1 fluxN2 flux : Nat → K) (s1 s2 : K) (F1n F2n : Nat → K)
    (h1 : ComputeFluxDotN state1 nor fluxN1 = Except.ok (s1, F1n))
    (h2 : ComputeFluxDotN state2 nor fluxN2 = Except.ok (s2, F2n)) :
    RusanovFlux.Eval sqrt num_equations dim ComputeFluxDotN state1 state2 nor fluxN1 fluxN2 flux
      = Except.ok (max s1 s2,
          fun i => if i < num_equations then
            0.5 * (max s1 s2 * Norml2 sqrt dim nor * (state1 i - state2 i) + (F1n i + F2n i))
          else flux i) := by
  unfold RusanovFlux.Eval
  simp only [h1, h2, bind, Except.bind, pure, Except.pure]
  congr 2
  funext i
  exact forLoop_fill num_equations _ flux i

theorem mfemAssertIn_cases (debug cond : Bool) (msg : String) :
    mfemAssertIn debug cond msg = Except.ok ()
      ∨ (debug = true ∧ cond = false
        ∧ mfemAssertIn debug cond msg = Except.error (FluxError.assertion msg)) := by
  cases debug <;> cases cond <;> simp [mfemAssertIn, mfemAssert]

theorem mfemAssertIn_ok (debug : Bool) (cond : Prop) [Decidable cond] (msg : String)
    (h : debug = true → cond) : mfemAssertIn debug (decide cond) msg = Except.ok () := by
  unfold mfemAssertIn
  cases debug
  · rfl
  · exact mfemAssert_ok cond msg (h rfl)

/-- Column `d0` of the flux matrix after the loop nest of lines 590-600: row `0`
holds `m d0`, row `1 + i` holds `q i d0`, plus `p` on the diagonal. -/
theorem eulerFlux_columns {K : Type} [LinearOrderedField K] (dim : Nat) (m : Nat → K)
    (q : Nat → Nat → K) (p : K) (FU : Nat × Nat → K) (r d0 : Nat) (hd0 : d0 < dim) :
    forLoop dim (fun d FU =>
        Function.update
          (forLoop dim (fun i FU => Function.update FU (1 + i, d) (q i d))
            (Function.update FU (0, d) (m d)))
          (1 + d, d)
          (forLoop dim (fun i FU => Function.update FU (1 + i, d) (q i d))
            (Function.update FU (0, d) (m d)) (1 + d, d) + p)) FU (r, d0)
      = if r = 0 then m d0
        else if r < 1 + dim then q (r - 1) d0 + (if r - 1 = d0 then p else 0)
        else FU (r, d0) := by
  have hinner : ∀ (d : Nat) (A : Nat × Nat → K) (i : Nat), i < dim →
      forLoop dim (fun i FU => Function.update FU (1 + i, d) (q i d)) A (1 + i, d) = q i d := by
    intro d A i hi
    exact forLoop_store_hit (fun i => (1 + i, d)) (fun i => q i d) dim A _ _ i hi rfl
      (fun j _ hj => by
        have : j = i := by simpa using hj
        rw [this])
  have hinner_off : ∀ (d : Nat) (A : Nat × Nat → K) (key : Nat × Nat),
      (∀ i, i < dim → (1 + i, d) ≠ key) →
      forLoop dim (fun i FU => Function.update FU (1 + i, d) (q i d)) A key = A key := by
    intro d A key hk
    exact forLoop_update_off (fun i => (1 + i, d)) (fun i _ => q i d) dim A key hk
  by_cases hr : r < 1 + dim
  · refine forLoop_hit (fun F : Nat × Nat → K => F (r, d0)) _ dim _ FU d0 hd0 (fun t => ?_)
      (fun d _ t ht => ?_)
    · dsimp only
      by_cases hr0 : r = 0
      · subst hr0
        rw [if_pos rfl, Function.update_noteq (by rw [Ne, Prod.mk.injEq]; omega), hinner_off d0 _ _ (fun i _ => by rw [Ne, Prod.mk.injEq]; omega),
          Function.update_same]
      · rw [if_neg hr0, if_pos hr]
        obtain ⟨i, rfl⟩ : ∃ i, r = 1 + i := ⟨r - 1, by omega⟩
        have hi : i < dim := by omega
        rw [Nat.add_sub_cancel_left]
        by_cases hid : i = d0
        · subst hid
          rw [if_pos rfl, Function.update_same, hinner i _ i hi]
        · rw [if_neg hid, Function.update_noteq (by rw [Ne, Prod.mk.injEq]; omega), hinner d0 _ i hi, add_zero]
    · dsimp only at ht ⊢
      by_cases hd : d = d0
      · subst hd
        by_cases hr0 : r = 0
        · subst hr0
          rw [if_pos rfl, Function.update_noteq (by rw [Ne, Prod.mk.injEq]; omega), hinner_off d _ _ (fun i _ => by rw [Ne, Prod.mk.injEq]; omega),
            Function.update_same]
        · rw [if_neg hr0, if_pos hr]
          obtain ⟨i, rfl⟩ : ∃ i, r = 1 + i := ⟨r - 1, by omega⟩
          have hi : i < dim := by omega
          rw [Nat.add_sub_cancel_left]
          by_cases hid : i = d
          · subst hid
            rw [if_pos rfl, Function.update_same, hinner i _ i hi]
          · rw [if_neg hid, Function.update_noteq (by rw [Ne, Prod.mk.injEq]; omega), hinner d _ i hi, add_zero]
      · rw [Function.update_noteq (by rw [Ne, Prod.mk.injEq]; omega),
          hinner_off d _ _ (fun i _ => by rw [Ne, Prod.mk.injEq]; omega),
          Function.update_noteq (by rw [Ne, Prod.mk.injEq]; omega)]
        exact ht
  · rw [if_neg (by omega), if_neg hr]
    refine forLoop_frame (fun F : Nat × Nat → K => F (r, d0)) dim _ FU (fun d hd t => ?_)
    dsimp only
    rw [Function.update_noteq (by rw [Ne, Prod.mk.injEq]; omega),
      hinner_off d _ _ (fun i hi => by rw [Ne, Prod.mk.injEq]; omega),
      Function.update_noteq (by rw [Ne, Prod.mk.injEq]; omega)]

/-- The loop of lines 603-607 writes row `1 + dim` of the columns below `dim`. -/
theorem eulerFlux_last_row {K : Type} [LinearOrderedField K] (dim : Nat) (m : Nat → K)
    (H : K) (A : Nat × Nat → K) (r d0 : Nat) (hd0 : d0 < dim) :
    forLoop dim (fun d FU => Function.update FU (1 + dim, d) (m d * H)) A (r, d0)
      = if r = 1 + dim then m d0 * H else A (r, d0) := by
  by_cases hr : r = 1 + dim
  · subst hr
    rw [if_pos rfl]
    exact forLoop_store_hit (fun d => (1 + dim, d)) (fun d => m d * H) dim A _ _ d0 hd0 rfl
      (fun j _ hj => by
        have : j = d0 := by simpa using hj
        rw [this])
  · rw [if_neg hr]
    exact forLoop_update_off (fun d => (1 + dim, d)) (fun d _ => m d * H) dim A (r, d0)
      (fun i _ => by rw [Ne, Prod.mk.injEq]; omega)

/-- The three assertions of the Euler flux functions either all pass, or the build
is a debug build and one of them stops the call. -/
theorem eulerFlux_checks {K : Type} [LinearOrderedField K] (debug : Bool) (a b c : K) :
    (mfemAssertIn debug (decide (a ≥ 0)) msgNegativeDensity = Except.ok ()
      ∧ mfemAssertIn debug (decide (b ≥ 0)) msgNegativePressure = Except.ok ()
      ∧ mfemAssertIn debug (decide (c ≥ 0)) msgNegativeEnergy = Except.ok ())
    ∨ (debug = true ∧ ¬ (0 ≤ a ∧ 0 ≤ b ∧ 0 ≤ c)
      ∧ ∃ err, (do
          mfemAssertIn debug (decide (a ≥ 0)) msgNegativeDensity
          mfemAssertIn debug (decide (b ≥ 0)) msgNegativePressure
          mfemAssertIn debug (decide (c ≥ 0)) msgNegativeEnergy : Except FluxError Unit)
        = Except.error err) := by
  rcases mfemAssertIn_cases debug (decide (a ≥ 0)) msgNegativeDensity with h1 | ⟨hd, hc, h1⟩
  · rcases mfemAssertIn_cases debug (decide (b ≥ 0)) msgNegativePressure with h2 | ⟨hd, hc, h2⟩
    · rcases mfemAssertIn_cases debug (decide (c ≥ 0)) msgNegativeEnergy with h3 | ⟨hd, hc, h3⟩
      · exact Or.inl ⟨h1, h2, h3⟩
      · refine Or.inr ⟨hd, fun h => ?_, ?_⟩
        · simp [h.2.2] at hc
        · rw [h1, h2, h3]
          exact ⟨_, rfl⟩
    · refine Or.inr ⟨hd, fun h => ?_, ?_⟩
      · simp [h.2.1] at hc
      · rw [h1, h2]
        exact ⟨_, rfl⟩
  · refine Or.inr ⟨hd, fun h => ?_, ?_⟩
    · simp [h.1] at hc
    · rw [h1]
      exact ⟨_, rfl⟩

/-- What the specialised `EulerFlux::ComputeFluxDotN` leaves in `FUdotN` when the
density is not zero and the assertions pass. -/
theorem EulerFlux.ComputeFluxDotN_written {K : Type} [LinearOrderedField K] (debug : Bool)
    (sqrt : K → K) (dim : Nat) (γ : K) (U normal FUdotN : Nat → K) (hρ : U 0 ≠ 0)
    (h1 : mfemAssertIn debug (decide (U 0 ≥ 0)) msgNegativeDensity = Except.ok ())
    (h2 : mfemAssertIn debug (decide (EulerFlux.pressure dim γ U ≥ 0)) msgNegativePressure
      = Except.ok ())
    (h3 : mfemAssertIn debug (decide (U (1 + dim) ≥ 0)) msgNegativeEnergy = Except.ok ())
    (r : Nat) :
    (EulerFlux.ComputeFluxDotN debug sqrt dim γ U normal FUdotN).1 r
      = if r = 0 then dot dim (fun d => U (1 + d)) normal
        else if r < 1 + dim then
          dot dim (fun d => U (1 + d)) normal / U 0 * U (1 + (r - 1))
            + EulerFlux.pressure dim γ U * normal (r - 1)
        else if r = 1 + dim then
          dot dim (fun d => U (1 + d)) normal / U 0
            * (U (1 + dim) + EulerFlux.pressure dim γ U)
        else FUdotN r := by
  unfold EulerFlux.pressure at h2 ⊢
  unfold EulerFlux.ComputeFluxDotN
  simp only [divide_ok _ _ hρ, h1, h2, h3, bind, Except.bind, Function.update_same]
  by_cases hr0 : r = 0
  · subst hr0
    rw [if_pos rfl, Function.update_noteq (by omega)]
    rw [forLoop_update_off (fun d => 1 + d) _ dim _ 0 (fun i _ => by dsimp only; omega),
      Function.update_same]
  · rw [if_neg hr0]
    by_cases hr : r < 1 + dim
    · rw [if_pos hr, Function.update_noteq (by omega)]
      obtain ⟨i, rfl⟩ : ∃ i, r = 1 + i := ⟨r - 1, by omega⟩
      rw [Nat.add_sub_cancel_left]
      exact forLoop_store_hit (fun d => 1 + d) _ dim _ (1 + i) _ i (by omega) rfl
        (fun j _ hj => by
          have : j = i := by dsimp only at hj; omega
          rw [this])
    · rw [if_neg hr]
      by_cases hr1 : r = 1 + dim
      · subst hr1
        rw [if_pos rfl, Function.update_same]
      · rw [if_neg hr1, Function.update_noteq hr1,
          forLoop_update_off (fun d => 1 + d) _ dim _ r (fun i _ => by dsimp only; omega),
          Function.update_noteq hr0]

/-- When an assertion stops the specialised `EulerFlux::ComputeFluxDotN`, `FUdotN` is
as before the call. -/
theorem EulerFlux.ComputeFluxDotN_stopped {K : Type} [LinearOrderedField K] (debug : Bool)
    (sqrt : K → K) (dim : Nat) (γ : K) (U normal FUdotN : Nat → K) (hρ : U 0 ≠ 0)
    (err : FluxError)
    (h : (do
        mfemAssertIn debug (decide (U 0 ≥ 0)) msgNegativeDensity
        mfemAssertIn debug (decide (EulerFlux.pressure dim γ U ≥ 0)) msgNegativePressure
        mfemAssertIn debug (decide (U (1 + dim) ≥ 0)) msgNegativeEnergy :
          Except FluxError Unit) = Except.error err) :
    (EulerFlux.ComputeFluxDotN debug sqrt dim γ U normal FUdotN).1 = FUdotN := by
  unfold EulerFlux.pressure at h
  unfold EulerFlux.ComputeFluxDotN
  simp only [divide_ok _ _ hρ]
  rw [h]

/-- When an assertion stops `EulerFlux::ComputeFlux`, the call returns nothing. -/
theorem EulerFlux.ComputeFluxIn_stopped {K : Type} [LinearOrderedField K] (debug : Bool)
    (sqrt : K → K) (dim : Nat) (γ : K) (U : Nat → K) (FU : Nat × Nat → K) (hρ : U 0 ≠ 0)
    (err : FluxError)
    (h : (do
        mfemAssertIn debug (decide (U 0 ≥ 0)) msgNegativeDensity
        mfemAssertIn debug (decide (EulerFlux.pressure dim γ U ≥ 0)) msgNegativePressure
        mfemAssertIn debug (decide (U (1 + dim) ≥ 0)) msgNegativeEnergy :
          Except FluxError Unit) = Except.error err) :
    EulerFlux.ComputeFluxIn debug sqrt dim γ U FU = Except.error err := by
  unfold EulerFlux.pressure at h
  unfold EulerFlux.ComputeFluxIn
  simp only [divide_ok _ _ hρ, bind, Except.bind] at h ⊢
  rcases mfemAssertIn_cases debug (decide (U 0 ≥ 0)) msgNegativeDensity with h1 | ⟨_, _, h1⟩
  · rw [h1] at h ⊢
    simp only at h ⊢
    rcases mfemAssertIn_cases debug
      (decide ((γ - 1.0) * (U (1 + dim)
        - 0.5 * dot dim (fun d => U (1 + d)) (fun d => U (1 + d)) / U 0) ≥ 0))
      msgNegativePressure with h2 | ⟨_, _, h2⟩
    · rw [h2] at h ⊢
      simp only at h ⊢
      rcases mfemAssertIn_cases debug (decide (U (1 + dim) ≥ 0)) msgNegativeEnergy
        with h3 | ⟨_, _, h3⟩
      · rw [h3] at h
        cases h
      · rw [h3] at h ⊢
        have h' : (Except.error (FluxError.assertion msgNegativeEnergy) :
            Except FluxError Unit) = Except.error err := h
        cases h'
        rfl
    · rw [h2] at h ⊢
      have h' : (Except.error (FluxError.assertion msgNegativePressure) :
          Except FluxError Unit) = Except.error err := h
      cases h'
      rfl
  · rw [h1] at h ⊢
    have h' : (Except.error (FluxError.assertion msgNegativeDensity) :
        Except FluxError Unit) = Except.error err := h
    cases h'
    rfl

/-- What `EulerFlux::ComputeFlux` leaves in the columns below `dim` of `FU` when the
density is not zero and the assertions pass. -/
theorem EulerFlux.ComputeFluxIn_written {K : Type} [LinearOrderedField K] (debug : Bool)
    (sqrt : K → K) (dim : Nat) (γ : K) (U : Nat → K) (FU : Nat × Nat → K) (hρ : U 0 ≠ 0)
    (h1 : mfemAssertIn debug (decide (U 0 ≥ 0)) msgNegativeDensity = Except.ok ())
    (h2 : mfemAssertIn debug (decide (EulerFlux.pressure dim γ U ≥ 0)) msgNegativePressure
      = Except.ok ())
    (h3 : mfemAssertIn debug (decide (U (1 + dim) ≥ 0)) msgNegativeEnergy = Except.ok ()) :
    ∃ (val : K) (out : Nat × Nat → K),
      EulerFlux.ComputeFluxIn debug sqrt dim γ U FU = Except.ok (val, out)
      ∧ ∀ r d, d < dim → out (r, d)
        = if r = 0 then U (1 + d)
          else if r < 1 + dim then
            U (1 + (r - 1)) * U (1 + d) / U 0
              + (if r - 1 = d then EulerFlux.pressure dim γ U else 0)
          else if r = 1 + dim then
            U (1 + d) * ((U (1 + dim) + EulerFlux.pressure dim γ U) / U 0)
          else FU (r, d) := by
  unfold EulerFlux.pressure at h2 ⊢
  unfold EulerFlux.ComputeFluxIn
  simp only [divide_ok _ _ hρ, h1, h2, h3, bind, Except.bind, pure, Except.pure, forLoopE_pure]
  refine ⟨_, _, rfl, fun r d hd => ?_⟩
  rw [eulerFlux_last_row dim (fun d => U (1 + d)) _ _ r d hd,
    eulerFlux_columns dim (fun d => U (1 + d)) (fun i d => U (1 + i) * U (1 + d) / U 0) _ FU r d hd]
  by_cases hr0 : r = 0
  · subst hr0
    rw [if_neg (by omega), if_pos rfl, if_pos rfl]
  · by_cases hr : r < 1 + dim
    · rw [if_neg (by omega), if_neg hr0, if_pos hr, if_neg hr0, if_pos hr]
    · by_cases hr1 : r = 1 + dim
      · rw [if_pos hr1, if_neg hr0, if_neg hr, if_pos hr1]
      · rw [if_neg hr1, if_neg hr0, if_neg hr, if_neg hr0, if_neg hr, if_neg hr1]

/-- The flux matrix of `EulerFlux::ComputeFlux` times the normal is the vector that
the specialised `EulerFlux::ComputeFluxDotN` writes. -/
theorem eulerFlux_mult {K : Type} [LinearOrderedField K] (dim : Nat) (U normal FUdotN : Nat → K)
    (p : K) (FU out : Nat × Nat → K)
    (hent : ∀ r d, d < dim → out (r, d)
        = if r = 0 then U (1 + d)
          else if r < 1 + dim then
            U (1 + (r - 1)) * U (1 + d) / U 0 + (if r - 1 = d then p else 0)
          else if r = 1 + dim then U (1 + d) * ((U (1 + dim) + p) / U 0)
          else FU (r, d)) (r : Nat) :
    DenseMatrix.Mult (dim + 2) dim out normal FUdotN r
      = if r = 0 then dot dim (fun d => U (1 + d)) normal
        else if r < 1 + dim then
          dot dim (fun d => U (1 + d)) normal / U 0 * U (1 + (r - 1)) + p * normal (r - 1)
        else if r = 1 + dim then dot dim (fun d => U (1 + d)) normal / U 0 * (U (1 + dim) + p)
        else FUdotN r := by
  unfold DenseMatrix.Mult dot
  by_cases hr0 : r = 0
  · subst hr0
    rw [if_pos (by omega), if_pos rfl]
    exact Finset.sum_congr rfl (fun j hj => by rw [hent 0 j (Finset.mem_range.1 hj), if_pos rfl])
  · rw [if_neg hr0]
    by_cases hr : r < 1 + dim
    · rw [if_pos (by omega), if_pos hr]
      have hi : r - 1 < dim := by omega
      rw [Finset.sum_congr rfl (fun j hj => by
        rw [hent r j (Finset.mem_range.1 hj), if_neg hr0, if_pos hr])]
      simp only [add_mul, Finset.sum_add_distrib, ite_mul, zero_mul, Finset.sum_ite_eq,
        Finset.mem_range, if_pos hi]
      congr 1
      rw [Finset.sum_div, Finset.sum_mul]
      exact Finset.sum_congr rfl (fun j _ => by ring)
    · rw [if_neg hr]
      by_cases hr1 : r = 1 + dim
      · rw [if_pos (by omega), if_pos hr1]
        rw [Finset.sum_congr rfl (fun j hj => by
          rw [hent r j (Finset.mem_range.1 hj), if_neg hr0, if_neg hr, if_pos hr1])]
        rw [Finset.sum_div, Finset.sum_mul]
        exact Finset.sum_congr rfl (fun j _ => by ring)
      · rw [if_neg (by omega), if_neg hr1]

/-! ### Constant expressions of type `int` -/

end ClaimLemmas

/-! ## Claims -/

set_option maxRecDepth 1000000

section Claims

variable {R : Type} [CommRing R]

/-- C1: for every supported pair `(D1D, Q1D)`, every `NE` and all `B`, `D`, `X`,
`Y_in`, the staged kernel called without an index map leaves, for every element
`e < NE` and every `(dx, dy, dz)`, `Y(dx,dy,dz,e) = Y_in(dx,dy,dz,e)` plus the sum
over `(qx,qy,qz)` of `B(qx,dx) B(qy,dy) B(qz,dz) D(qx,qy,qz,e)` times the sum over
`(ax,ay,az)` of `B(qx,ax) B(qy,ay) B(qz,az) X(ax,ay,az,e)`. -/
theorem C1_staged_kernel_contraction (D1D Q1D : Nat) (_hsup : (D1D, Q1D) ∈ supportedPairs)
    (ndofs NE : Nat) (b_ d_ x_ y_ junk : Nat → R) (e dx dy dz : Nat) (he : e < NE)
    (hdx : dx < D1D) (hdy : dy < D1D) (hdz : dz < D1D) :
    NDK_SmemPAMassApply3D D1D Q1D ndofs NE none b_ d_ x_ y_ junk
        (Reshape4 D1D D1D D1D dx dy dz e)
      = y_ (Reshape4 D1D D1D D1D dx dy dz e)
        + ∑ qx in range Q1D, ∑ qy in range Q1D, ∑ qz in range Q1D,
            Bmat Q1D b_ qx dx * Bmat Q1D b_ qy dy * Bmat Q1D b_ qz dz
              * Dcoef Q1D d_ e qx qy qz
              * ∑ ax in range D1D, ∑ ay in range D1D, ∑ az in range D1D,
                  Bmat Q1D b_ qx ax * Bmat Q1D b_ qy ay * Bmat Q1D b_ qz az
                    * x_ (Reshape4 D1D D1D D1D ax ay az e) := by
  rw [NDK_SmemPAMassApply3D_eq_spec, massApplySpec,
    massOperator_none_at D1D Q1D NE b_ d_ x_ e dx dy dz he hdx hdy hdz]
  rfl

theorem C1_staged_kernel_contraction_witness :
    (2, 3) ∈ supportedPairs ∧
    NDK_SmemPAMassApply3D 2 3 8 1 none exampleOnes exampleOnes exampleOnes
        exampleZeros exampleZeros (Reshape4 2 2 2 1 0 1 0)
      = exampleZeros (Reshape4 2 2 2 1 0 1 0)
        + ∑ qx in range 3, ∑ qy in range 3, ∑ qz in range 3,
            Bmat 3 exampleOnes qx 1 * Bmat 3 exampleOnes qy 0
              * Bmat 3 exampleOnes qz 1
              * Dcoef 3 exampleOnes 0 qx qy qz
              * ∑ ax in range 2, ∑ ay in range 2, ∑ az in range 2,
                  Bmat 3 exampleOnes qx ax * Bmat 3 exampleOnes qy ay
                    * Bmat 3 exampleOnes qz az
                    * exampleOnes (Reshape4 2 2 2 ax ay az 0) :=
  ⟨by decide, C1_staged_kernel_contraction 2 3 (by decide) 8 1 _ _ _ _ _ 0 1 0 1
    (by decide) (by decide) (by decide) (by decide)⟩

/-- C2: for every supported pair, every `NE`, `ndofs` and every index map whose
decoded entries are all below `ndofs`, running a kernel with the map equals
gather, map-less apply, scatter-add: with `X_loc = X (dec (map ..))` and `Z` the
output of the map-less kernel applied to `X_loc` from zero, every global slot
`g` ends as `Y_in(g)` plus the sum of `Z(a,b,c,e)` over the entries with
`dec (map (a,b,c,e)) = g`.  A slot no map entry refers to is unchanged, and a slot
that exactly one entry of element `e1` and one entry of another element `e2` refer
to ends as `Y_in` plus the two contributions. -/
theorem C2_map_gather_scatter (D1D Q1D : Nat) (hsup : (D1D, Q1D) ∈ supportedPairs)
    (k : Kernel) (hk : k = Kernel.Smem D1D Q1D ∨ k = Kernel.Regs D1D Q1D)
    (ndofs NE : Nat) (m : Nat → Int)
    (_hmap : ∀ e, e < NE → ∀ a, a < D1D → ∀ b, b < D1D → ∀ c, c < D1D →
      (decode (m (Reshape4 D1D D1D D1D a b c e))).toNat < ndofs)
    (b_ d_ x_ y_ : Nat → R) (junk junk' : Junk R) (g e1 a1 b1 c1 e2 a2 b2 c2 : Nat) :
    (k.run Exec.device ndofs NE (some m) b_ d_ x_ y_ junk g
        = y_ g + ∑ e in range NE, ∑ b in range D1D, ∑ a in range D1D, ∑ c in range D1D,
            if (decode (m (Reshape4 D1D D1D D1D a b c e))).toNat = g then
              k.run Exec.device ndofs NE none b_ d_ (fun p => x_ (decode (m p)).toNat)
                (fun _ => 0) junk' (Reshape4 D1D D1D D1D a b c e)
            else 0)
    ∧ ((∀ e a b c, e < NE → a < D1D → b < D1D → c < D1D →
          (decode (m (Reshape4 D1D D1D D1D a b c e))).toNat ≠ g) →
        k.run Exec.device ndofs NE (some m) b_ d_ x_ y_ junk g = y_ g)
    ∧ (e1 < NE → e2 < NE → e1 ≠ e2 → a1 < D1D → b1 < D1D → c1 < D1D →
        a2 < D1D → b2 < D1D → c2 < D1D →
        (decode (m (Reshape4 D1D D1D D1D a1 b1 c1 e1))).toNat = g →
        (decode (m (Reshape4 D1D D1D D1D a2 b2 c2 e2))).toNat = g →
        (∀ e a b c, e < NE → a < D1D → b < D1D → c < D1D →
          (decode (m (Reshape4 D1D D1D D1D a b c e))).toNat = g →
          (e = e1 ∧ a = a1 ∧ b = b1 ∧ c = c1) ∨ (e = e2 ∧ a = a2 ∧ b = b2 ∧ c = c2)) →
        k.run Exec.device ndofs NE (some m) b_ d_ x_ y_ junk g
          = y_ g
            + k.run Exec.device ndofs NE none b_ d_ (fun p => x_ (decode (m p)).toNat)
                (fun _ => 0) junk' (Reshape4 D1D D1D D1D a1 b1 c1 e1)
            + k.run Exec.device ndofs NE none b_ d_ (fun p => x_ (decode (m p)).toNat)
                (fun _ => 0) junk' (Reshape4 D1D D1D D1D a2 b2 c2 e2)) := by
  have hDQ : D1D ≤ Q1D := by have := supportedPairs_le D1D Q1D hsup; omega
  have hspec := Kernel_run_map_scatter D1D Q1D hDQ k hk ndofs NE m b_ d_ x_ y_ junk junk' g
  refine ⟨hspec, fun hnone => ?_, ?_⟩
  · rw [hspec, Finset.sum_eq_zero, add_zero]
    intro e he
    exact scatterSum_none D1D _ _ g (fun a b c ha hb hc =>
      hnone e a b c (mem_range.1 he) ha hb hc)
  · intro he1 he2 hne ha1 hb1 hc1 ha2 hb2 hc2 hg1 hg2 honly
    rw [hspec, Finset.sum_eq_add_of_mem e1 e2 (mem_range.2 he1) (mem_range.2 he2) hne,
      scatterSum_single D1D _ _ g a1 b1 c1 ha1 hb1 hc1 hg1,
      scatterSum_single D1D _ _ g a2 b2 c2 ha2 hb2 hc2 hg2, add_assoc]
    · intro a b c ha hb hc h
      rcases honly e2 a b c he2 ha hb hc h with h1 | h1
      · exact absurd h1.1.symm hne
      · exact h1.2
    · intro a b c ha hb hc h
      rcases honly e1 a b c he1 ha hb hc h with h1 | h1
      · exact h1.2
      · exact absurd h1.1 hne
    · intro e he hee
      refine scatterSum_none D1D _ _ g (fun a b c ha hb hc h => ?_)
      rcases honly e a b c (mem_range.1 he) ha hb hc h with h1 | h1
      · exact hee.1 h1.1
      · exact hee.2 h1.1

theorem C2_map_gather_scatter_witness :
    (2, 3) ∈ supportedPairs
    ∧ (Kernel.Smem 2 3 = Kernel.Smem 2 3 ∨ Kernel.Smem 2 3 = Kernel.Regs 2 3)
    ∧ (∀ e, e < 2 → ∀ a, a < 2 → ∀ b, b < 2 → ∀ c, c < 2 →
        (decode (exampleSharedMap (Reshape4 2 2 2 a b c e))).toNat < 12)
    ∧ (((Kernel.Smem 2 3).run Exec.device 12 2 (some exampleSharedMap) exampleOnes
          exampleOnes exampleOnes exampleZeros exampleJunk 4
        = exampleZeros 4 + ∑ e in range 2, ∑ b in range 2, ∑ a in range 2, ∑ c in range 2,
            if (decode (exampleSharedMap (Reshape4 2 2 2 a b c e))).toNat = 4 then
              (Kernel.Smem 2 3).run Exec.device 12 2 none exampleOnes exampleOnes
                (fun p => exampleOnes (decode (exampleSharedMap p)).toNat)
                exampleZeros exampleJunk (Reshape4 2 2 2 a b c e)
            else 0)
      ∧ ((∀ e a b c, e < 2 → a < 2 → b < 2 → c < 2 →
            (decode (exampleSharedMap (Reshape4 2 2 2 a b c e))).toNat ≠ 4) →
          (Kernel.Smem 2 3).run Exec.device 12 2 (some exampleSharedMap) exampleOnes
            exampleOnes exampleOnes exampleZeros exampleJunk 4 = exampleZeros 4)
      ∧ (0 < 2 → 1 < 2 → 0 ≠ 1 → 0 < 2 → 0 < 2 → 1 < 2 → 0 < 2 → 0 < 2 → 0 < 2 →
          (decode (exampleSharedMap (Reshape4 2 2 2 0 0 1 0))).toNat = 4 →
          (decode (exampleSharedMap (Reshape4 2 2 2 0 0 0 1))).toNat = 4 →
          (∀ e a b c, e < 2 → a < 2 → b < 2 → c < 2 →
            (decode (exampleSharedMap (Reshape4 2 2 2 a b c e))).toNat = 4 →
            (e = 0 ∧ a = 0 ∧ b = 0 ∧ c = 1) ∨ (e = 1 ∧ a = 0 ∧ b = 0 ∧ c = 0)) →
          (Kernel.Smem 2 3).run Exec.device 12 2 (some exampleSharedMap) exampleOnes
              exampleOnes exampleOnes exampleZeros exampleJunk 4
            = exampleZeros 4
              + (Kernel.Smem 2 3).run Exec.device 12 2 none exampleOnes exampleOnes
                  (fun p => exampleOnes (decode (exampleSharedMap p)).toNat)
                  exampleZeros exampleJunk (Reshape4 2 2 2 0 0 1 0)
              + (Kernel.Smem 2 3).run Exec.device 12 2 none exampleOnes exampleOnes
                  (fun p => exampleOnes (decode (exampleSharedMap p)).toNat)
                  exampleZeros exampleJunk (Reshape4 2 2 2 0 0 0 1))) :=
  ⟨by decide, by decide, by decide,
    C2_map_gather_scatter 2 3 (by decide) (Kernel.Smem 2 3) (by decide) 12 2
      exampleSharedMap (by decide) exampleOnes exampleOnes exampleOnes exampleZeros
      exampleJunk exampleJunk 4 0 0 0 1 1 0 0 0⟩

/-- C3: for every supported pair and identical inputs (`NE`, `ndofs`, the map or
none, `B`, `D`, `X`, `Y_in`), the staged kernel and the register-blocked kernel
executed on the device (every thread of the block owning its register array
`r_wk`) produce the same output vector. -/
theorem C3_staged_eq_register_blocked (D1D Q1D : Nat) (hsup : (D1D, Q1D) ∈ supportedPairs)
    (ndofs NE : Nat) (map : Option (Nat → Int)) (b_ d_ x_ y_ junk : Nat → R)
    (junk' : RegsState R) :
    NDK_SmemPAMassApply3D D1D Q1D ndofs NE map b_ d_ x_ y_ junk
      = NDK_RegsPAMassApply3D Exec.device D1D Q1D ndofs NE map b_ d_ x_ y_ junk' := by
  funext g
  rw [NDK_SmemPAMassApply3D_eq_spec, NDK_RegsPAMassApply3D_eq_spec D1D Q1D
    (by have := supportedPairs_le D1D Q1D hsup; omega)]

theorem C3_staged_eq_register_blocked_witness :
    (2, 3) ∈ supportedPairs ∧
    NDK_SmemPAMassApply3D 2 3 8 1 none exampleOnes exampleOnes exampleOnes
        exampleZeros exampleZeros
      = NDK_RegsPAMassApply3D Exec.device 2 3 8 1 none exampleOnes exampleOnes
          exampleOnes exampleZeros exampleJunk.regs :=
  ⟨by decide, C3_staged_eq_register_blocked 2 3 (by decide) 8 1 none _ _ _ _ _ _⟩

/-- C4: executed on the host, where the single array `r_wk` is shared by all
iterations of the thread loops of an element, the register-blocked kernel for
`(D1D, Q1D) = (2, 3)`, one element, no map, `B`, `D`, `X` identically one and
`Y_in = 0` leaves `1080` in slot `0`, whereas executed on the device it leaves
`216` there, as the staged kernel does. -/
theorem C4_host_register_blocked_differs :
    NDK_RegsPAMassApply3D Exec.host 2 3 8 1 none exampleOnes exampleOnes
        exampleOnes exampleZeros exampleJunk.regs 0 = 1080
    ∧ NDK_RegsPAMassApply3D Exec.device 2 3 8 1 none exampleOnes exampleOnes
        exampleOnes exampleZeros exampleJunk.regs 0 = 216
    ∧ NDK_SmemPAMassApply3D 2 3 8 1 none exampleOnes exampleOnes exampleOnes
        exampleZeros exampleZeros 0 = 216 := by
  refine ⟨?_, ?_, ?_⟩ <;> decide

/-- C5: for `ver = 0`, `D1D = 2`, `Q1D = 35`, which is not a supported triple,
`NDK_PAMassApply` does not abort: the key is `0x023` and the staged kernel
instantiated for `(2, 3)` is run. -/
theorem C5_unsupported_key_collision :
    (2, 35) ∉ supportedPairs ∧ kernelId 0 2 35 = 0x023
    ∧ NDK_PAMassApply_kernel 0 3 2 35 = Except.ok (Kernel.Smem 2 3) :=
  ⟨by decide, by decide, rfl⟩

/-- C6: for `ver` in `{0, 1}` and every pair `(D1D, Q1D)` of the table,
`NDK_PAMassApply` (called with `dim = 3`) does not abort and runs one kernel
instantiation, whose compile-time parameters are the run-time `D1D` and `Q1D`:
the staged kernel when `ver = 0`, the register-blocked kernel when `ver = 1`. -/
theorem C6_dispatch_supported (ver D1D Q1D : Nat) (hver : ver = 0 ∨ ver = 1)
    (hsup : (D1D, Q1D) ∈ supportedPairs) (ex : Exec) (NE ndofs : Nat)
    (map : Option (Nat → Int)) (b d x y : Nat → R) (junk : Junk R) :
    NDK_PAMassApply_kernel ver 3 D1D Q1D
      = Except.ok (if ver = 0 then Kernel.Smem D1D Q1D else Kernel.Regs D1D Q1D)
    ∧ NDK_PAMassApply ex ver 3 D1D Q1D NE ndofs map b d x y junk
      = Except.ok (if ver = 0
          then NDK_SmemPAMassApply3D D1D Q1D ndofs NE map b d x y junk.smem
          else NDK_RegsPAMassApply3D ex D1D Q1D ndofs NE map b d x y junk.regs) := by
  refine ⟨NDK_PAMassApply_kernel_supported ver D1D Q1D hver hsup, ?_⟩
  unfold NDK_PAMassApply
  rw [NDK_PAMassApply_kernel_supported ver D1D Q1D hver hsup]
  rcases hver with rfl | rfl <;> rfl

theorem C6_dispatch_supported_witness :
    (1 = 0 ∨ 1 = 1) ∧ (4, 6) ∈ supportedPairs ∧
    (NDK_PAMassApply_kernel 1 3 4 6
      = Except.ok (if 1 = 0 then Kernel.Smem 4 6 else Kernel.Regs 4 6)
    ∧ NDK_PAMassApply Exec.device 1 3 4 6 1 64 none exampleOnes exampleOnes
        exampleOnes exampleZeros exampleJunk
      = Except.ok (if 1 = 0
          then NDK_SmemPAMassApply3D 4 6 64 1 none exampleOnes exampleOnes
            exampleOnes exampleZeros
            exampleJunk.smem
          else NDK_RegsPAMassApply3D Exec.device 4 6 64 1 none exampleOnes
            exampleOnes exampleOnes exampleZeros
            exampleJunk.regs)) :=
  ⟨by decide, by decide,
    C6_dispatch_supported 1 4 6 (by decide) (by decide) Exec.device 1 64 none _ _ _ _ _⟩

/-- C7: both kernels accumulate and never overwrite.  For every supported pair,
every input and every two initial output vectors the increment `Y_out - Y_in` is
the same, with or without an index map (and on host and device alike); on the
device, starting from `Y_in = 0` the output is exactly `operator(X)`, and applying
the kernel twice to the same `X` adds `operator(X)` twice. -/
theorem C7_additive_accumulation (D1D Q1D : Nat) (hsup : (D1D, Q1D) ∈ supportedPairs)
    (k : Kernel) (hk : k = Kernel.Smem D1D Q1D ∨ k = Kernel.Regs D1D Q1D) (ex : Exec)
    (ndofs NE : Nat) (map : Option (Nat → Int)) (b d x y y' : Nat → R) (junk : Junk R)
    (g : Nat) :
    k.run ex ndofs NE map b d x y junk g - y g
        = k.run ex ndofs NE map b d x y' junk g - y' g
    ∧ k.run Exec.device ndofs NE map b d x (fun _ => 0) junk g
        = massOperator D1D Q1D NE map b d x g
    ∧ k.run Exec.device ndofs NE map b d x
          (k.run Exec.device ndofs NE map b d x y junk) junk g
        = y g + massOperator D1D Q1D NE map b d x g + massOperator D1D Q1D NE map b d x g := by
  have hDQ : D1D ≤ Q1D := by have := supportedPairs_le D1D Q1D hsup; omega
  refine ⟨Kernel_run_additive ex k ndofs NE map b d x y y' junk g, ?_, ?_⟩
  · rw [Kernel_run_eq_spec D1D Q1D hDQ k hk, massApplySpec, zero_add]
  · rw [Kernel_run_eq_spec D1D Q1D hDQ k hk, massApplySpec,
      Kernel_run_eq_spec D1D Q1D hDQ k hk, massApplySpec]

theorem C7_additive_accumulation_witness :
    (3, 4) ∈ supportedPairs ∧ (Kernel.Regs 3 4 = Kernel.Smem 3 4 ∨ Kernel.Regs 3 4 = Kernel.Regs 3 4)
    ∧ ((Kernel.Regs 3 4).run Exec.host 27 1 (some (fun p : Nat => (p : Int)))
          exampleOnes exampleOnes exampleOnes (fun _ => 5)
          exampleJunk 2 - (fun _ => (5 : Int)) 2
        = (Kernel.Regs 3 4).run Exec.host 27 1 (some (fun p : Nat => (p : Int)))
          exampleOnes exampleOnes exampleOnes (fun _ => 7)
          exampleJunk 2 - (fun _ => (7 : Int)) 2
      ∧ (Kernel.Regs 3 4).run Exec.device 27 1 (some (fun p : Nat => (p : Int)))
          exampleOnes exampleOnes exampleOnes exampleZeros
          exampleJunk 2
        = massOperator 3 4 1 (some (fun p : Nat => (p : Int)))
            exampleOnes exampleOnes exampleOnes 2
      ∧ (Kernel.Regs 3 4).run Exec.device 27 1 (some (fun p : Nat => (p : Int)))
          exampleOnes exampleOnes exampleOnes
          ((Kernel.Regs 3 4).run Exec.device 27 1 (some (fun p : Nat => (p : Int)))
            exampleOnes exampleOnes exampleOnes (fun _ => 5)
            exampleJunk)
          exampleJunk 2
        = (fun _ => (5 : Int)) 2
          + massOperator 3 4 1 (some (fun p : Nat => (p : Int)))
              exampleOnes exampleOnes exampleOnes 2
          + massOperator 3 4 1 (some (fun p : Nat => (p : Int)))
              exampleOnes exampleOnes exampleOnes 2) :=
  ⟨by decide, by decide,
    C7_additive_accumulation 3 4 (by decide) (Kernel.Regs 3 4) (by decide) Exec.host 27 1
      _ _ _ _ (fun _ => 5) (fun _ => 7) _ 2⟩

/-- C8: for every index map and every entry of it that holds `k >= 0`, replacing
that entry by the sign-flipped encoding `-1 - k` changes nothing: the encoding
decodes to `k`, every slot the map gives is the same, and the final output vector
of both kernels is identical to the one obtained with the direct encoding. -/
theorem C8_sign_flip_encoding (D1D Q1D : Nat) (_hsup : (D1D, Q1D) ∈ supportedPairs)
    (k : Kernel) (hk : k = Kernel.Smem D1D Q1D ∨ k = Kernel.Regs D1D Q1D) (ex : Exec)
    (ndofs NE : Nat) (m : Nat → Int) (p : Nat) (hp : 0 ≤ m p) (b d x y : Nat → R)
    (junk : Junk R) :
    decode (-1 - m p) = m p
    ∧ dofSlot D1D (some (Function.update m p (-1 - m p))) = dofSlot D1D (some m)
    ∧ k.run ex ndofs NE (some (Function.update m p (-1 - m p))) b d x y junk
        = k.run ex ndofs NE (some m) b d x y junk :=
  ⟨decode_flip _ hp, dofSlot_flip D1D m p hp,
    Kernel_run_congr_slot ex D1D Q1D k hk ndofs NE _ _ (dofSlot_flip D1D m p hp) b d x y junk⟩

theorem C8_sign_flip_encoding_witness :
    (2, 3) ∈ supportedPairs
    ∧ (Kernel.Smem 2 3 = Kernel.Smem 2 3 ∨ Kernel.Smem 2 3 = Kernel.Regs 2 3)
    ∧ 0 ≤ (fun q : Nat => (q : Int)) 5
    ∧ (decode (-1 - (fun q : Nat => (q : Int)) 5) = (fun q : Nat => (q : Int)) 5
      ∧ dofSlot 2 (some (Function.update (fun q : Nat => (q : Int)) 5
            (-1 - (fun q : Nat => (q : Int)) 5)))
          = dofSlot 2 (some (fun q : Nat => (q : Int)))
      ∧ (Kernel.Smem 2 3).run Exec.device 8 1
            (some (Function.update (fun q : Nat => (q : Int)) 5
              (-1 - (fun q : Nat => (q : Int)) 5)))
            exampleOnes exampleOnes (fun q : Nat => (q : Int)) exampleZeros
            exampleJunk
          = (Kernel.Smem 2 3).run Exec.device 8 1 (some (fun q : Nat => (q : Int)))
            exampleOnes exampleOnes (fun q : Nat => (q : Int)) exampleZeros
            exampleJunk) :=
  ⟨by decide, by decide, by decide,
    C8_sign_flip_encoding 2 3 (by decide) (Kernel.Smem 2 3) (by decide) Exec.device 8 1
      (fun q : Nat => (q : Int)) 5 (by decide) _ _ _ _ _⟩

/-- Executed on the device (a private `r_wk` per thread), for every supported pair,
with `NE = 1`, `ndofs = D1D^3`, coefficient `D` identically one, `Y_in = 0` and the
identity index map `map(a,b,c,0) = a + D1D*(b + D1D*c)`, each kernel returns the
dense tensor-product mass-matrix action `Y(a,b,c) = sum over (a',b',c') of M(a,a')
M(b,b') M(c,c') X(a',b',c')` with `M = B^t B`; and the result with the identity
map equals the result with no map. -/
theorem identity_map_dense_action_device (D1D Q1D : Nat) (hsup : (D1D, Q1D) ∈ supportedPairs)
    (k : Kernel) (hk : k = Kernel.Smem D1D Q1D ∨ k = Kernel.Regs D1D Q1D) (m : Nat → Int)
    (hm : ∀ a, a < D1D → ∀ b, b < D1D → ∀ c, c < D1D →
      m (Reshape4 D1D D1D D1D a b c 0) = ((a + D1D * (b + D1D * c) : Nat) : Int))
    (b_ d_ x_ : Nat → R)
    (hd : ∀ qx, qx < Q1D → ∀ qy, qy < Q1D → ∀ qz, qz < Q1D → Dcoef Q1D d_ 0 qx qy qz = 1)
    (junk : Junk R) (a b c : Nat) (ha : a < D1D) (hb : b < D1D) (hc : c < D1D) :
    k.run Exec.device (D1D ^ 3) 1 (some m) b_ d_ x_ (fun _ => 0) junk
        (a + D1D * (b + D1D * c))
      = ∑ a' in range D1D, ∑ b' in range D1D, ∑ c' in range D1D,
          massMatrix1D Q1D b_ a a' * massMatrix1D Q1D b_ b b' * massMatrix1D Q1D b_ c c'
            * x_ (a' + D1D * (b' + D1D * c'))
    ∧ k.run Exec.device (D1D ^ 3) 1 (some m) b_ d_ x_ (fun _ => 0) junk
      = k.run Exec.device (D1D ^ 3) 1 none b_ d_ x_ (fun _ => 0) junk := by
  have hDQ : D1D ≤ Q1D := by have := supportedPairs_le D1D Q1D hsup; omega
  have hsame : k.run Exec.device (D1D ^ 3) 1 (some m) b_ d_ x_ (fun _ => 0) junk
      = k.run Exec.device (D1D ^ 3) 1 none b_ d_ x_ (fun _ => 0) junk := by
    funext g
    rw [Kernel_run_eq_spec D1D Q1D hDQ k hk, Kernel_run_eq_spec D1D Q1D hDQ k hk,
      massApplySpec, massApplySpec, massOperator, massOperator, Finset.sum_range_one,
      Finset.sum_range_one]
    refine congrArg (0 + ·) (scatterSum_congr D1D _ _ _ _ g
      (fun a b c ha hb hc => dofSlot_identity D1D m hm a b c ha hb hc)
      (fun a b c _ _ _ => ?_))
    refine massAction_congr D1D Q1D _ _ _ _ _ (fun _ _ _ _ _ _ => rfl)
      (fun ax ay az hax hay haz => ?_) a b c
    unfold Xloc
    rw [dofSlot_identity D1D m hm ax ay az hax hay haz]
  refine ⟨?_, hsame⟩
  rw [hsame, ← Reshape4_zero D1D D1D D1D a b c, Kernel_run_eq_spec D1D Q1D hDQ k hk,
    massApplySpec, zero_add, massOperator_none_at D1D Q1D 1 b_ d_ x_ 0 a b c
      Nat.zero_lt_one ha hb hc,
    massAction_congr D1D Q1D (Bmat Q1D b_) (Dcoef Q1D d_ 0) (fun _ _ _ => 1)
      (Xloc D1D none x_ 0) (Xloc D1D none x_ 0)
      (fun qx qy qz hqx hqy hqz => hd qx hqx qy hqy qz hqz) (fun _ _ _ _ _ _ => rfl),
    massAction_one_dense]
  refine Finset.sum_congr rfl (fun a' _ => Finset.sum_congr rfl (fun b' _ =>
    Finset.sum_congr rfl (fun c' _ => ?_)))
  unfold Xloc dofSlot massMatrix1D
  dsimp only
  rw [Reshape4_zero]

theorem identity_map_dense_action_device_example :
    (2, 3) ∈ supportedPairs
    ∧ (Kernel.Regs 2 3 = Kernel.Smem 2 3 ∨ Kernel.Regs 2 3 = Kernel.Regs 2 3)
    ∧ (∀ a, a < 2 → ∀ b, b < 2 → ∀ c, c < 2 →
        (fun p : Nat => (p : Int)) (Reshape4 2 2 2 a b c 0)
          = ((a + 2 * (b + 2 * c) : Nat) : Int))
    ∧ (∀ qx, qx < 3 → ∀ qy, qy < 3 → ∀ qz, qz < 3 → Dcoef 3 exampleOnes 0 qx qy qz = 1)
    ∧ 1 < 2 ∧ 0 < 2 ∧ 1 < 2
    ∧ ((Kernel.Regs 2 3).run Exec.device (2 ^ 3) 1 (some (fun p : Nat => (p : Int)))
          exampleOnes exampleOnes exampleOnes exampleZeros exampleJunk (1 + 2 * (0 + 2 * 1))
        = ∑ a' in range 2, ∑ b' in range 2, ∑ c' in range 2,
            massMatrix1D 3 exampleOnes 1 a' * massMatrix1D 3 exampleOnes 0 b'
              * massMatrix1D 3 exampleOnes 1 c' * exampleOnes (a' + 2 * (b' + 2 * c'))
      ∧ (Kernel.Regs 2 3).run Exec.device (2 ^ 3) 1 (some (fun p : Nat => (p : Int)))
          exampleOnes exampleOnes exampleOnes exampleZeros exampleJunk
        = (Kernel.Regs 2 3).run Exec.device (2 ^ 3) 1 none exampleOnes exampleOnes
            exampleOnes exampleZeros exampleJunk) :=
  ⟨by decide, by decide, by decide, by decide, by decide, by decide, by decide,
    identity_map_dense_action_device 2 3 (by decide) (Kernel.Regs 2 3) (by decide)
      (fun p : Nat => (p : Int)) (by decide) exampleOnes exampleOnes exampleOnes
      (by decide) exampleJunk 1 0 1 (by decide) (by decide) (by decide)⟩

/-- C9: executed on the host, where the single array `r_wk` is shared by all
iterations of the thread loops of an element, the register-blocked kernel does not
return the dense mass-matrix action.  For `(D1D, Q1D) = (2, 3)`, `NE = 1`,
`ndofs = 8`, the identity index map, `B`, `D`, `X` identically one and `Y_in = 0`
the dense action `sum over (a',b',c') of M(a,a') M(b,b') M(c,c') X(a',b',c')` at
`(a, b, c) = (1, 0, 1)` is `216`, and the host run leaves `1080` in that slot; the
device run and the staged kernel (also on the host) leave `216`. -/
theorem C9_host_identity_map_not_dense :
    (∑ a' in range 2, ∑ b' in range 2, ∑ c' in range 2,
        massMatrix1D 3 exampleOnes 1 a' * massMatrix1D 3 exampleOnes 0 b'
          * massMatrix1D 3 exampleOnes 1 c' * exampleOnes (a' + 2 * (b' + 2 * c'))) = 216
    ∧ (Kernel.Regs 2 3).run Exec.host (2 ^ 3) 1 (some (fun p : Nat => (p : Int)))
        exampleOnes exampleOnes exampleOnes exampleZeros exampleJunk (1 + 2 * (0 + 2 * 1))
      = 1080
    ∧ (Kernel.Regs 2 3).run Exec.device (2 ^ 3) 1 (some (fun p : Nat => (p : Int)))
        exampleOnes exampleOnes exampleOnes exampleZeros exampleJunk (1 + 2 * (0 + 2 * 1))
      = 216
    ∧ (Kernel.Smem 2 3).run Exec.host (2 ^ 3) 1 (some (fun p : Nat => (p : Int)))
        exampleOnes exampleOnes exampleOnes exampleZeros exampleJunk (1 + 2 * (0 + 2 * 1))
      = 216 := by
  refine ⟨?_, ?_, ?_, ?_⟩ <;> decide

/-- C10: for every supported `(ver, D1D, Q1D)`, with `NE = 0` the dispatcher
`NDK_PAMassApply` (called with `dim = 3`) does not abort and returns the output
vector unchanged, with or without an index map and on host and device alike. -/
theorem C10_empty_batch_noop (ver D1D Q1D : Nat) (hver : ver = 0 ∨ ver = 1)
    (hsup : (D1D, Q1D) ∈ supportedPairs) (ex : Exec) (ndofs : Nat)
    (map : Option (Nat → Int)) (b d x y : Nat → R) (junk : Junk R) :
    NDK_PAMassApply ex ver 3 D1D Q1D 0 ndofs map b d x y junk = Except.ok y := by
  unfold NDK_PAMassApply
  rw [NDK_PAMassApply_kernel_supported ver D1D Q1D hver hsup]
  rcases hver with rfl | rfl <;> rfl

theorem C10_empty_batch_noop_witness :
    (0 = 0 ∨ 0 = 1) ∧ (7, 8) ∈ supportedPairs ∧
    NDK_PAMassApply Exec.host 0 3 7 8 0 343 (some (fun p : Nat => (p : Int)))
        exampleOnes exampleOnes exampleOnes (fun p : Nat => (p : Int))
        exampleJunk
      = Except.ok (fun p : Nat => (p : Int)) :=
  ⟨by decide, by decide,
    C10_empty_batch_noop 0 7 8 (by decide) (by decide) Exec.host 343 _ _ _ _ _ _⟩

/-- C11: the result does not depend on the order in which the elements are
processed.  For every permutation `p` of the `NE` elements, a kernel applied to the
inputs whose index map and coefficient tensor have their element axis permuted by
`p` (same global `X` and `Y_in`) yields the same final global `Y`. -/
theorem C11_element_order_independent (D1D Q1D : Nat) (hsup : (D1D, Q1D) ∈ supportedPairs)
    (k : Kernel) (hk : k = Kernel.Smem D1D Q1D ∨ k = Kernel.Regs D1D Q1D)
    (ndofs NE : Nat) (p : Nat → Nat) (hp : ∀ e, e < NE → p e < NE)
    (hinj : ∀ e, e < NE → ∀ e', e' < NE → p e = p e' → e = e') (m m' : Nat → Int)
    (hm : ∀ e, e < NE → ∀ a, a < D1D → ∀ b, b < D1D → ∀ c, c < D1D →
      m' (Reshape4 D1D D1D D1D a b c e) = m (Reshape4 D1D D1D D1D a b c (p e)))
    (b_ d_ d_' x_ y_ : Nat → R)
    (hd : ∀ e, e < NE → ∀ qx, qx < Q1D → ∀ qy, qy < Q1D → ∀ qz, qz < Q1D →
      d_' (Reshape4 Q1D Q1D Q1D qx qy qz e) = d_ (Reshape4 Q1D Q1D Q1D qx qy qz (p e)))
    (junk : Junk R) :
    k.run Exec.device ndofs NE (some m') b_ d_' x_ y_ junk
      = k.run Exec.device ndofs NE (some m) b_ d_ x_ y_ junk := by
  have hDQ : D1D ≤ Q1D := by have := supportedPairs_le D1D Q1D hsup; omega
  funext g
  rw [Kernel_run_eq_spec D1D Q1D hDQ k hk, Kernel_run_eq_spec D1D Q1D hDQ k hk,
    massApplySpec, massApplySpec,
    massOperator_perm D1D Q1D NE p hp hinj m m' hm b_ d_ d_' x_ hd g]

theorem C11_element_order_independent_witness :
    (2, 3) ∈ supportedPairs
    ∧ (Kernel.Regs 2 3 = Kernel.Smem 2 3 ∨ Kernel.Regs 2 3 = Kernel.Regs 2 3)
    ∧ (∀ e, e < 2 → (fun e => 1 - e) e < 2)
    ∧ (∀ e, e < 2 → ∀ e', e' < 2 → (fun e => 1 - e) e = (fun e => 1 - e) e' → e = e')
    ∧ (∀ e, e < 2 → ∀ a, a < 2 → ∀ b, b < 2 → ∀ c, c < 2 →
        exampleSwappedMap (Reshape4 2 2 2 a b c e)
          = exampleSharedMap (Reshape4 2 2 2 a b c ((fun e => 1 - e) e)))
    ∧ (∀ e, e < 2 → ∀ qx, qx < 3 → ∀ qy, qy < 3 → ∀ qz, qz < 3 →
        exampleSwappedCoef (Reshape4 3 3 3 qx qy qz e)
          = exampleCoef (Reshape4 3 3 3 qx qy qz ((fun e => 1 - e) e)))
    ∧ (Kernel.Regs 2 3).run Exec.device 12 2 (some exampleSwappedMap) exampleOnes
          exampleSwappedCoef exampleOnes exampleZeros exampleJunk
        = (Kernel.Regs 2 3).run Exec.device 12 2 (some exampleSharedMap) exampleOnes
          exampleCoef exampleOnes exampleZeros exampleJunk :=
  ⟨by decide, by decide, by decide, by decide, by decide, by decide,
    C11_element_order_independent 2 3 (by decide) (Kernel.Regs 2 3) (by decide) 12 2
      (fun e => 1 - e) (by decide) (by decide) exampleSharedMap exampleSwappedMap (by decide)
      exampleOnes exampleCoef exampleSwappedCoef exampleOnes exampleZeros (by decide)
      exampleJunk⟩

/-- C12: without an index map, elements do not influence each other.  For every
element `e`, the output entries `Y(.,.,.,e)` depend only on `B`, `D(.,.,.,e)`,
`X(.,.,.,e)` and `Y_in(.,.,.,e)`: two runs whose inputs agree on those and differ
arbitrarily on every other element (and in the number of elements) give the same
`Y(.,.,.,e)`. -/
theorem C12_elements_independent (D1D Q1D : Nat) (hsup : (D1D, Q1D) ∈ supportedPairs)
    (k : Kernel) (hk : k = Kernel.Smem D1D Q1D ∨ k = Kernel.Regs D1D Q1D)
    (ndofs ndofs' NE NE' : Nat) (b_ d_ d_' x_ x_' y_ y_' : Nat → R) (junk junk' : Junk R)
    (e : Nat) (he : e < NE) (he' : e < NE')
    (hd : ∀ qx, qx < Q1D → ∀ qy, qy < Q1D → ∀ qz, qz < Q1D →
      d_ (Reshape4 Q1D Q1D Q1D qx qy qz e) = d_' (Reshape4 Q1D Q1D Q1D qx qy qz e))
    (hx : ∀ a, a < D1D → ∀ b, b < D1D → ∀ c, c < D1D →
      x_ (Reshape4 D1D D1D D1D a b c e) = x_' (Reshape4 D1D D1D D1D a b c e))
    (hy : ∀ a, a < D1D → ∀ b, b < D1D → ∀ c, c < D1D →
      y_ (Reshape4 D1D D1D D1D a b c e) = y_' (Reshape4 D1D D1D D1D a b c e))
    (a b c : Nat) (ha : a < D1D) (hb : b < D1D) (hc : c < D1D) :
    k.run Exec.device ndofs NE none b_ d_ x_ y_ junk (Reshape4 D1D D1D D1D a b c e)
      = k.run Exec.device ndofs' NE' none b_ d_' x_' y_' junk'
          (Reshape4 D1D D1D D1D a b c e) := by
  have hDQ : D1D ≤ Q1D := by have := supportedPairs_le D1D Q1D hsup; omega
  rw [Kernel_run_eq_spec D1D Q1D hDQ k hk, Kernel_run_eq_spec D1D Q1D hDQ k hk,
    massApplySpec, massApplySpec,
    massOperator_none_at D1D Q1D NE b_ d_ x_ e a b c he ha hb hc,
    massOperator_none_at D1D Q1D NE' b_ d_' x_' e a b c he' ha hb hc, hy a ha b hb c hc]
  refine congrArg (_ + ·) (massAction_congr D1D Q1D _ _ _ _ _
    (fun qx qy qz hqx hqy hqz => hd qx hqx qy hqy qz hqz)
    (fun ax ay az hax hay haz => hx ax hax ay hay az haz) a b c)


theorem C12_elements_independent_witness :
    (2, 3) ∈ supportedPairs
    ∧ (Kernel.Smem 2 3 = Kernel.Smem 2 3 ∨ Kernel.Smem 2 3 = Kernel.Regs 2 3)
    ∧ 0 < 2 ∧ 0 < 1
    ∧ (∀ qx, qx < 3 → ∀ qy, qy < 3 → ∀ qz, qz < 3 →
        exampleCoef (Reshape4 3 3 3 qx qy qz 0) = exampleFirstOnly (Reshape4 3 3 3 qx qy qz 0))
    ∧ (∀ a, a < 2 → ∀ b, b < 2 → ∀ c, c < 2 →
        exampleCoef (Reshape4 2 2 2 a b c 0) = exampleFirstOnly (Reshape4 2 2 2 a b c 0))
    ∧ (∀ a, a < 2 → ∀ b, b < 2 → ∀ c, c < 2 →
        exampleCoef (Reshape4 2 2 2 a b c 0) = exampleFirstOnly (Reshape4 2 2 2 a b c 0))
    ∧ 1 < 2 ∧ 0 < 2 ∧ 1 < 2
    ∧ (Kernel.Smem 2 3).run Exec.device 16 2 none exampleOnes exampleCoef exampleCoef
          exampleCoef exampleJunk (Reshape4 2 2 2 1 0 1 0)
        = (Kernel.Smem 2 3).run Exec.device 8 1 none exampleOnes exampleFirstOnly
          exampleFirstOnly exampleFirstOnly exampleJunk (Reshape4 2 2 2 1 0 1 0) :=
  ⟨by decide, by decide, by decide, by decide, by decide, by decide, by decide, by decide,
    by decide, by decide,
    C12_elements_independent 2 3 (by decide) (Kernel.Smem 2 3) (by decide) 16 8 2 1
      exampleOnes exampleCoef exampleFirstOnly exampleCoef exampleFirstOnly exampleCoef
      exampleFirstOnly exampleJunk exampleJunk 0 (by decide) (by decide) (by decide)
      (by decide) (by decide) 1 0 1 (by decide) (by decide) (by decide)⟩

/-- C13: for every registry state and every backend `b` with `IsAvailable(b)`
false, `SetPreferredBackend(b)` fails with the configuration error
`Requested backend not supported.` and leaves the registry, hence the value of
`GetPreferredBackend()`, as it was. -/
theorem C13_set_unavailable_fails {T V P : Type} (s : BatchedLinAlg T V P) (b : Backend)
    (h : s.IsAvailable b = false) :
    (s.SetPreferredBackend b).1 = Except.error notSupported
    ∧ (s.SetPreferredBackend b).2 = s
    ∧ (s.SetPreferredBackend b).2.GetPreferredBackend = s.GetPreferredBackend
    ∧ (s.call (Call.SetPreferredBackend b)).GetPreferredBackend = s.GetPreferredBackend := by
  have hs : s.SetPreferredBackend b = (Except.error notSupported, s) := by
    unfold BatchedLinAlg.SetPreferredBackend
    rw [h]
    rfl
  refine ⟨by rw [hs], by rw [hs], by rw [hs], ?_⟩
  show (s.SetPreferredBackend b).2.GetPreferredBackend = s.GetPreferredBackend
  rw [hs]

theorem C13_set_unavailable_fails_witness :
    exampleRegistry.IsAvailable Backend.MAGMA = false
    ∧ ((exampleRegistry.SetPreferredBackend Backend.MAGMA).1 = Except.error notSupported
      ∧ (exampleRegistry.SetPreferredBackend Backend.MAGMA).2 = exampleRegistry
      ∧ (exampleRegistry.SetPreferredBackend Backend.MAGMA).2.GetPreferredBackend
          = exampleRegistry.GetPreferredBackend
      ∧ (exampleRegistry.call (Call.SetPreferredBackend Backend.MAGMA)).GetPreferredBackend
          = exampleRegistry.GetPreferredBackend) :=
  ⟨by decide, C13_set_unavailable_fails exampleRegistry Backend.MAGMA (by decide)⟩

/-- C14: for every backend `b` with `IsAvailable(b)` true, `SetPreferredBackend(b)`
succeeds, afterwards `GetPreferredBackend()` is `b`, and every subsequent `Mult`,
`Invert`, `LUFactor` and `LUSolve` (after any further calls that do not successfully
set another preferred backend) is executed by the instance `Get(b)` on the caller's
arguments. -/
theorem C14_set_available_dispatch {T V P : Type} (s : BatchedLinAlg T V P) (b : Backend)
    (h : s.IsAvailable b = true) (cs : List (Call T V P))
    (hcs : ∀ b', Call.SetPreferredBackend b' ∈ cs → b' = b ∨ s.IsAvailable b' = false)
    (A : T) (piv : P) (x y : V) :
    (s.SetPreferredBackend b).1 = Except.ok ()
    ∧ (s.SetPreferredBackend b).2.GetPreferredBackend = b
    ∧ ((s.SetPreferredBackend b).2.calls cs).GetPreferredBackend = b
    ∧ ∃ inst, s.Get b = Except.ok inst
        ∧ ((s.SetPreferredBackend b).2.calls cs).Get b = Except.ok inst
        ∧ ((s.SetPreferredBackend b).2.calls cs).Mult A x y = Except.ok (inst.Mult A x y)
        ∧ ((s.SetPreferredBackend b).2.calls cs).Invert A = Except.ok (inst.Invert A)
        ∧ ((s.SetPreferredBackend b).2.calls cs).LUFactor A piv
            = Except.ok (inst.LUFactor A piv)
        ∧ ((s.SetPreferredBackend b).2.calls cs).LUSolve A piv x
            = Except.ok (inst.LUSolve A piv x) := by
  have hs : s.SetPreferredBackend b = (Except.ok (), { s with preferred_backend := b }) := by
    unfold BatchedLinAlg.SetPreferredBackend
    rw [h]
    rfl
  obtain ⟨inst, hinst⟩ := BatchedLinAlg.backends_of_IsAvailable s b h
  have hget : BatchedLinAlg.Get { s with preferred_backend := b } b = Except.ok inst :=
    BatchedLinAlg.Get_of_backends _ b inst hinst
  rw [hs]
  dsimp only
  rw [BatchedLinAlg.calls_of_keep _ cs hcs]
  refine ⟨rfl, rfl, rfl, inst, BatchedLinAlg.Get_of_backends s b inst hinst, hget, ?_, ?_, ?_, ?_⟩
  · unfold BatchedLinAlg.Mult
    dsimp only
    rw [hget]
  · unfold BatchedLinAlg.Invert
    dsimp only
    rw [hget]
  · unfold BatchedLinAlg.LUFactor
    dsimp only
    rw [hget]
  · unfold BatchedLinAlg.LUSolve
    dsimp only
    rw [hget]

theorem C14_set_available_dispatch_witness :
    exampleRegistry.IsAvailable Backend.NATIVE = true
    ∧ (∀ b', (Call.SetPreferredBackend b' : Call Nat Nat Nat)
          ∈ [Call.Mult 1 2 3, Call.SetPreferredBackend Backend.MAGMA,
              Call.SetPreferredBackend Backend.NATIVE, Call.Get Backend.MAGMA] →
        b' = Backend.NATIVE ∨ exampleRegistry.IsAvailable b' = false)
    ∧ ((exampleRegistry.SetPreferredBackend Backend.NATIVE).1 = Except.ok ()
      ∧ (exampleRegistry.SetPreferredBackend Backend.NATIVE).2.GetPreferredBackend
          = Backend.NATIVE
      ∧ ((exampleRegistry.SetPreferredBackend Backend.NATIVE).2.calls
            [Call.Mult 1 2 3, Call.SetPreferredBackend Backend.MAGMA,
              Call.SetPreferredBackend Backend.NATIVE, Call.Get Backend.MAGMA]
          ).GetPreferredBackend = Backend.NATIVE
      ∧ ∃ inst, exampleRegistry.Get Backend.NATIVE = Except.ok inst
          ∧ ((exampleRegistry.SetPreferredBackend Backend.NATIVE).2.calls
              [Call.Mult 1 2 3, Call.SetPreferredBackend Backend.MAGMA,
                Call.SetPreferredBackend Backend.NATIVE, Call.Get Backend.MAGMA]).Get
                Backend.NATIVE = Except.ok inst
          ∧ ((exampleRegistry.SetPreferredBackend Backend.NATIVE).2.calls
              [Call.Mult 1 2 3, Call.SetPreferredBackend Backend.MAGMA,
                Call.SetPreferredBackend Backend.NATIVE, Call.Get Backend.MAGMA]).Mult
                4 5 6 = Except.ok (inst.Mult 4 5 6)
          ∧ ((exampleRegistry.SetPreferredBackend Backend.NATIVE).2.calls
              [Call.Mult 1 2 3, Call.SetPreferredBackend Backend.MAGMA,
                Call.SetPreferredBackend Backend.NATIVE, Call.Get Backend.MAGMA]).Invert
                4 = Except.ok (inst.Invert 4)
          ∧ ((exampleRegistry.SetPreferredBackend Backend.NATIVE).2.calls
              [Call.Mult 1 2 3, Call.SetPreferredBackend Backend.MAGMA,
                Call.SetPreferredBackend Backend.NATIVE, Call.Get Backend.MAGMA]).LUFactor
                4 7 = Except.ok (inst.LUFactor 4 7)
          ∧ ((exampleRegistry.SetPreferredBackend Backend.NATIVE).2.calls
              [Call.Mult 1 2 3, Call.SetPreferredBackend Backend.MAGMA,
                Call.SetPreferredBackend Backend.NATIVE, Call.Get Backend.MAGMA]).LUSolve
                4 7 5 = Except.ok (inst.LUSolve 4 7 5)) :=
  ⟨by decide, by
      intro b' hb'
      cases b' <;> first | exact Or.inl rfl | exact Or.inr (by decide) | simp at hb',
    C14_set_available_dispatch exampleRegistry Backend.NATIVE (by decide)
      [Call.Mult 1 2 3, Call.SetPreferredBackend Backend.MAGMA,
        Call.SetPreferredBackend Backend.NATIVE, Call.Get Backend.MAGMA]
      (by
        intro b' hb'
        cases b' <;> first | exact Or.inl rfl | exact Or.inr (by decide) | simp at hb')
      4 7 5 6⟩
/-- C15: right after construction, in every configuration (device allows
accelerator backends or not, CUDA/HIP support compiled in or not, MAGMA compiled in
or not), the preferred backend is the highest-ranked available backend in the order
`NATIVE < GPU_BLAS < MAGMA`: `MAGMA` if it is available, otherwise `GPU_BLAS` if it
is available, otherwise `NATIVE`. -/
theorem C15_constructor_preference {T V P : Type} (cfg : BuildConfig)
    (native gpuBlas magma : BatchedLinAlgBase T V P) (b : Backend) :
    (BatchedLinAlg.construct cfg native gpuBlas magma).GetPreferredBackend
      = (if (BatchedLinAlg.construct cfg native gpuBlas magma).IsAvailable Backend.MAGMA
          then Backend.MAGMA
        else if (BatchedLinAlg.construct cfg native gpuBlas magma).IsAvailable Backend.GPU_BLAS
          then Backend.GPU_BLAS
        else Backend.NATIVE)
    ∧ (BatchedLinAlg.construct cfg native gpuBlas magma).IsAvailable
        (BatchedLinAlg.construct cfg native gpuBlas magma).GetPreferredBackend = true
    ∧ ((BatchedLinAlg.construct cfg native gpuBlas magma).IsAvailable b = true →
        b.rank ≤ (BatchedLinAlg.construct cfg native gpuBlas magma).GetPreferredBackend.rank) := by
  simp only [BatchedLinAlg.construct_IsAvailable, BatchedLinAlg.construct_GetPreferredBackend]
  obtain ⟨a, c, m⟩ := cfg
  cases a <;> cases c <;> cases m <;> cases b <;> decide

/-- C16: in every configuration, and after any sequence of calls, `IsAvailable(NATIVE)`
is true; `IsAvailable(GPU_BLAS)` is true if and only if the device allows
accelerator backends and CUDA/HIP support is compiled in; `IsAvailable(MAGMA)` is
true if and only if the device allows accelerator backends and MAGMA support is
compiled in.  When the device allows only CPU backends, `NATIVE` is the only
available backend. -/
theorem C16_availability {T V P : Type} (cfg : BuildConfig)
    (native gpuBlas magma : BatchedLinAlgBase T V P) (cs : List (Call T V P)) (b : Backend) :
    ((BatchedLinAlg.construct cfg native gpuBlas magma).calls cs).IsAvailable Backend.NATIVE
      = true
    ∧ (((BatchedLinAlg.construct cfg native gpuBlas magma).calls cs).IsAvailable
        Backend.GPU_BLAS = true
        ↔ cfg.deviceAllowsNonCPU = true ∧ cfg.useCudaOrHip = true)
    ∧ (((BatchedLinAlg.construct cfg native gpuBlas magma).calls cs).IsAvailable
        Backend.MAGMA = true
        ↔ cfg.deviceAllowsNonCPU = true ∧ cfg.useMagma = true)
    ∧ (cfg.deviceAllowsNonCPU = false →
        ((BatchedLinAlg.construct cfg native gpuBlas magma).calls cs).IsAvailable b = true →
        b = Backend.NATIVE) := by
  simp only [BatchedLinAlg.calls_IsAvailable, BatchedLinAlg.construct_IsAvailable]
  obtain ⟨a, c, m⟩ := cfg
  cases a <;> cases c <;> cases m <;> cases b <;> decide

/-- C17: for every backend kind `b`, `Get(b)` fails with
`Requested backend not supported.` if and only if `IsAvailable(b)` is false; when
`IsAvailable(b)` is true, `Get(b)` returns the registered instance of `b` and
changes no registry state. -/
theorem C17_get {T V P : Type} (s : BatchedLinAlg T V P) (b : Backend) :
    (s.Get b = Except.error notSupported ↔ s.IsAvailable b = false)
    ∧ (s.IsAvailable b = true →
        ∃ inst, s.backends b = some inst ∧ s.Get b = Except.ok inst)
    ∧ s.call (Call.Get b) = s := by
  refine ⟨?_, fun h => ?_, rfl⟩
  · unfold BatchedLinAlg.Get BatchedLinAlg.IsAvailable
    cases s.backends b <;> simp
  · obtain ⟨inst, hinst⟩ := BatchedLinAlg.backends_of_IsAvailable s b h
    exact ⟨inst, hinst, BatchedLinAlg.Get_of_backends s b inst hinst⟩

/-- C18: after initialization the registry changes only through a successful
`SetPreferredBackend`, which changes only the preferred backend.  For every call
`c` and every backend `b`, the registered instances and `IsAvailable(b)` are the
same before and after `c`; `GetPreferredBackend()` is unchanged by every call
other than a successful `SetPreferredBackend`, which sets it to its argument. -/
theorem C18_frame {T V P : Type} (s : BatchedLinAlg T V P) (c : Call T V P) (b : Backend) :
    (s.call c).backends = s.backends
    ∧ (s.call c).IsAvailable b = s.IsAvailable b
    ∧ ((∀ b', c = Call.SetPreferredBackend b' → s.IsAvailable b' = false) →
        s.call c = s ∧ (s.call c).GetPreferredBackend = s.GetPreferredBackend)
    ∧ (∀ b', c = Call.SetPreferredBackend b' → s.IsAvailable b' = true →
        (s.call c).GetPreferredBackend = b') := by
  refine ⟨BatchedLinAlg.call_backends s c, BatchedLinAlg.call_IsAvailable s c b, ?_, ?_⟩
  · intro h
    have hc : s.call c = s := by
      cases c <;> try rfl
      rename_i b'
      show (s.SetPreferredBackend b').2 = s
      unfold BatchedLinAlg.SetPreferredBackend
      rw [h b' rfl]
      rfl
    exact ⟨hc, by rw [hc]⟩
  · intro b' hc hb'
    subst hc
    show (s.SetPreferredBackend b').2.GetPreferredBackend = b'
    unfold BatchedLinAlg.SetPreferredBackend
    rw [hb']
    rfl

/-- C19: in every registry state reachable from construction by any sequence of
calls (failed `SetPreferredBackend` calls included), the preferred backend is
available; hence `Mult`, `Invert`, `LUFactor` and `LUSolve` do not fail with the
configuration error: they return what the preferred instance computes. -/
theorem C19_preferred_available {T V P : Type} (cfg : BuildConfig)
    (native gpuBlas magma : BatchedLinAlgBase T V P) (cs : List (Call T V P))
    (A : T) (piv : P) (x y : V) :
    ((BatchedLinAlg.construct cfg native gpuBlas magma).calls cs).IsAvailable
      ((BatchedLinAlg.construct cfg native gpuBlas magma).calls cs).GetPreferredBackend = true
    ∧ ∃ inst : BatchedLinAlgBase T V P,
        ((BatchedLinAlg.construct cfg native gpuBlas magma).calls cs).Mult A x y
          = Except.ok (inst.Mult A x y)
        ∧ ((BatchedLinAlg.construct cfg native gpuBlas magma).calls cs).Invert A
          = Except.ok (inst.Invert A)
        ∧ ((BatchedLinAlg.construct cfg native gpuBlas magma).calls cs).LUFactor A piv
          = Except.ok (inst.LUFactor A piv)
        ∧ ((BatchedLinAlg.construct cfg native gpuBlas magma).calls cs).LUSolve A piv x
          = Except.ok (inst.LUSolve A piv x) := by
  have hav := BatchedLinAlg.calls_preferred_available
    (BatchedLinAlg.construct cfg native gpuBlas magma) cs
    (BatchedLinAlg.construct_preferred_available cfg native gpuBlas magma)
  generalize (BatchedLinAlg.construct cfg native gpuBlas magma).calls cs = s at hav ⊢
  obtain ⟨inst, hinst⟩ := BatchedLinAlg.backends_of_IsAvailable s _ hav
  have hget := BatchedLinAlg.Get_of_backends s _ inst hinst
  refine ⟨hav, inst, ?_, ?_, ?_, ?_⟩
  · unfold BatchedLinAlg.Mult
    rw [hget]
  · unfold BatchedLinAlg.Invert
    rw [hget]
  · unfold BatchedLinAlg.LUFactor
    rw [hget]
  · unfold BatchedLinAlg.LUSolve
    rw [hget]

/-- C20: for every `ArraysByName<int>` container `a`, copy construction, copy
assignment, move construction from a copy of `a` and move assignment from a copy of
`a` each yield a container equal to `a` under `operator==`; the conversion to
`ArraysByName<long>` (converting constructor and converting assignment) yields a
container with the same `Size()`, the same names, and for each name an array of the
same size whose elements equal the originals converted to `long`; so every
`REQUIRE` of the test `ArraysByName Copy Methods` holds for `a`. -/
theorem C20_copy_and_convert (a dst : ArraysByName Int) (name : String) (i : Nat) :
    a.operatorEq a.copy = true
    ∧ a.operatorEq (ArraysByName.copyAssign dst a) = true
    ∧ a.operatorEq a.copy.moveConstruct.1 = true
    ∧ a.operatorEq (ArraysByName.moveAssign dst a.copy).1 = true
    ∧ (ArraysByName.convert intToLong a).Size = a.Size
    ∧ (ArraysByName.convert intToLong a).names = a.names
    ∧ (ArraysByName.convert intToLong a).EntryExists name = a.EntryExists name
    ∧ ((ArraysByName.convert intToLong a).get name).length = (a.get name).length
    ∧ ((ArraysByName.convert intToLong a).get name).getD i 0
        = intToLong ((a.get name).getD i 0)
    ∧ ArraysByName.convertAssign intToLong dst a = ArraysByName.convert intToLong a
    ∧ CopyMethodsRequires a = true
    ∧ CopyMethodsRequires (FillArraysByName ⟨[]⟩) = true := by
  have hreq : ∀ abn : ArraysByName Int, CopyMethodsRequires abn = true := by
    intro abn
    unfold CopyMethodsRequires
    simp only [ArraysByName.copy, ArraysByName.copyAssign, ArraysByName.moveConstruct,
      ArraysByName.moveAssign, ArraysByName.convertAssign, ArraysByName.operatorEq_same,
      convertedEntries_require, Bool.and_self, Bool.true_and, Bool.and_true,
      decide_eq_true_eq]
    simp [ArraysByName.Size, ArraysByName.convert]
  refine ⟨ArraysByName.operatorEq_same a, ArraysByName.operatorEq_same a,
    ArraysByName.operatorEq_same a, ArraysByName.operatorEq_same a, ?_, ?_,
    ArraysByName.EntryExists_convert intToLong a name, ?_, ?_, rfl, hreq a, hreq _⟩
  · simp [ArraysByName.Size, ArraysByName.convert]
  · simp [ArraysByName.names, ArraysByName.convert, Function.comp_def]
  · rw [ArraysByName.get_convert, List.length_map]
  · rw [ArraysByName.get_convert, getD_map_intToLong]

/-- C23, as the claim states it, fails: the key is an `int`, and `ver << 8` wraps
for `ver >= 2^23`.  The triples `(2^24, 2, 3)` and `(0, 2, 3)` both give the key
`0x023`, which selects `NDK_SmemPAMassApply3D<2,3>`, and `id >> 8` is `0`, not
`2^24`. -/
theorem C23_key_wraps_counterexample :
    (16777216, 2, 3) ≠ ((0, 2, 3) : Nat × Nat × Nat)
    ∧ kernelId32 16777216 2 3 = 0x023
    ∧ kernelId32 0 2 3 = 0x023
    ∧ (kernelId32 16777216 2 3).toNat >>> 8 ≠ 16777216
    ∧ selectKernel (kernelId32 16777216 2 3).toNat = some (Kernel.Smem 2 3) := by
  decide

/-- C23, amended: for `ver < 2^23` (so that `ver << 8` fits an `int`) and
`D1D, Q1D <= 15` the key is computed without wrap-around and is a lossless packing:
`ver = id >> 8`, `D1D = (id >> 4) & 15`, `Q1D = id & 15`, and two triples of that
range with the same key are equal. -/
theorem C23_key_lossless (ver D1D Q1D : Nat) (hv : ver < 8388608) (hD : D1D ≤ 15)
    (hQ : Q1D ≤ 15) :
    kernelId32 ver D1D Q1D = (kernelId ver D1D Q1D : Int)
    ∧ fitsInt (kernelId32 ver D1D Q1D)
    ∧ kernelId ver D1D Q1D >>> 8 = ver
    ∧ (kernelId ver D1D Q1D >>> 4) &&& 15 = D1D
    ∧ kernelId ver D1D Q1D &&& 15 = Q1D
    ∧ ∀ ver' D1D' Q1D', ver' < 8388608 → D1D' ≤ 15 → Q1D' ≤ 15 →
        kernelId32 ver' D1D' Q1D' = kernelId32 ver D1D Q1D →
        ver' = ver ∧ D1D' = D1D ∧ Q1D' = Q1D := by
  have hw : ∀ v d q : Nat, v < 8388608 → d ≤ 15 → q ≤ 15 →
      kernelId32 v d q = ((256 * v + 16 * d + q : Nat) : Int) := by
    intro v d q h1 h2 h3
    unfold kernelId32 wrapInt
    rw [kernelId_eq_add v d q h2 h3]
    omega
  have h15 : ∀ x : Nat, x &&& 15 = x % 16 := fun x => Nat.and_pow_two_sub_one_eq_mod x 4
  refine ⟨?_, ?_, ?_, ?_, ?_, ?_⟩
  · rw [hw ver D1D Q1D hv hD hQ, kernelId_eq_add ver D1D Q1D hD hQ]
  · rw [hw ver D1D Q1D hv hD hQ]
    unfold fitsInt INT_MIN INT_MAX
    omega
  · rw [kernelId_eq_add ver D1D Q1D hD hQ, Nat.shiftRight_eq_div_pow]
    omega
  · rw [kernelId_eq_add ver D1D Q1D hD hQ, h15, Nat.shiftRight_eq_div_pow]
    omega
  · rw [kernelId_eq_add ver D1D Q1D hD hQ, h15]
    omega
  · intro ver' D1D' Q1D' hv' hD' hQ' h
    rw [hw ver D1D Q1D hv hD hQ, hw ver' D1D' Q1D' hv' hD' hQ'] at h
    omega

theorem C23_key_lossless_witness :
    (1 : Nat) < 8388608 ∧ (7 : Nat) ≤ 15 ∧ (8 : Nat) ≤ 15
    ∧ (kernelId32 1 7 8 = (kernelId 1 7 8 : Int)
      ∧ fitsInt (kernelId32 1 7 8)
      ∧ kernelId 1 7 8 >>> 8 = 1
      ∧ (kernelId 1 7 8 >>> 4) &&& 15 = 7
      ∧ kernelId 1 7 8 &&& 15 = 8
      ∧ ∀ ver' D1D' Q1D', ver' < 8388608 → D1D' ≤ 15 → Q1D' ≤ 15 →
          kernelId32 ver' D1D' Q1D' = kernelId32 1 7 8 →
          ver' = 1 ∧ D1D' = 7 ∧ Q1D' = 8) :=
  ⟨by decide, by decide, by decide, C23_key_lossless 1 7 8 (by decide) (by decide) (by decide)⟩

/-- C25: for every 32-bit signed integer `gid` (`INT_MIN` and `INT_MAX` included)
the decode `gid >= 0 ? gid : -1 - gid` is computed without signed overflow, its
value `idx` is an `int` with `idx >= 0`, decoding `idx` again returns `idx`, and
both `k` and `-1 - k` decode to `k` for every `0 <= k <= INT_MAX`; the two encodings
of a slot are exactly the two preimages of that slot. -/
theorem C25_decode_int (gid : Int) (hg : fitsInt gid) :
    decode32 gid = some (decode gid)
    ∧ 0 ≤ decode gid ∧ fitsInt (decode gid)
    ∧ decode32 (decode gid) = some (decode gid)
    ∧ ∀ k : Int, 0 ≤ k → k ≤ INT_MAX →
        fitsInt (-1 - k) ∧ decode32 k = some k ∧ decode32 (-1 - k) = some k
        ∧ (decode32 gid = some k ↔ gid = k ∨ gid = -1 - k) := by
  unfold fitsInt INT_MIN INT_MAX at hg
  have key : ∀ g : Int, -2147483648 ≤ g → g ≤ 2147483647 → decode32 g = some (decode g) := by
    intro g h1 h2
    unfold decode32 decode fitsInt INT_MIN INT_MAX
    by_cases h : g ≥ 0
    · simp [h]
    · simp only [h, if_false]
      rw [if_pos (by omega)]
  have hdec : 0 ≤ decode gid ∧ decode gid ≤ 2147483647 := by
    unfold decode
    split <;> omega
  refine ⟨key gid hg.1 hg.2, hdec.1, ?_, ?_, ?_⟩
  · unfold fitsInt INT_MIN INT_MAX
    omega
  · rw [key _ (by omega) hdec.2, decode_nonneg _ hdec.1]
  · intro k hk0 hk1
    unfold INT_MAX at hk1
    refine ⟨?_, ?_, ?_, ?_⟩
    · unfold fitsInt INT_MIN INT_MAX
      omega
    · rw [key k (by omega) hk1, decode_nonneg k hk0]
    · rw [key (-1 - k) (by omega) (by omega), decode_flip k hk0]
    · rw [key gid hg.1 hg.2, Option.some.injEq]
      unfold decode
      split <;> omega

theorem C25_decode_int_witness :
    fitsInt INT_MIN
    ∧ (decode32 INT_MIN = some (decode INT_MIN)
      ∧ 0 ≤ decode INT_MIN ∧ fitsInt (decode INT_MIN)
      ∧ decode32 (decode INT_MIN) = some (decode INT_MIN)
      ∧ ∀ k : Int, 0 ≤ k → k ≤ INT_MAX →
          fitsInt (-1 - k) ∧ decode32 k = some k ∧ decode32 (-1 - k) = some k
          ∧ (decode32 INT_MIN = some k ↔ INT_MIN = k ∨ INT_MIN = -1 - k)) :=
  ⟨by decide, C25_decode_int INT_MIN (by decide)⟩

/-- C22: every `(D1D, Q1D)` pair of the dispatch table satisfies
`2 <= D1D < Q1D <= 8`; consequently, for every instantiation the `switch` can
dispatch, every reference to the scratch arrays of the staged variant (`sDQ` viewed
as `B` and `Bt`; `sm0` and `sm1` viewed as `DDQ`, `DQQ`, `QQQ`, `QQD`, `QDD`) and of
the register-blocked variant (`s_B`, `s_q`, `r_wk`) is within the bounds of the
underlying array (the last entry of `sm1` and the entry `s_q[D1D-1][Q1D-1][Q1D-1]` are
among the references). -/
theorem C22_scratch_in_bounds :
    (∀ D1D Q1D, (D1D, Q1D) ∈ supportedPairs → 2 ≤ D1D ∧ D1D < Q1D ∧ Q1D ≤ 8)
    ∧ (∀ D1D Q1D, (D1D, Q1D) ∈ supportedPairs →
        (∀ a, a ∈ SmemAccesses D1D Q1D → a.inBounds D1D Q1D = true)
        ∧ (∀ a, a ∈ RegsAccesses D1D Q1D → a.inBounds D1D Q1D = true))
    ∧ (∀ D1D Q1D, (D1D, Q1D) ∈ supportedPairs →
        Access.QQQ (Q1D - 1) (Q1D - 1) (Q1D - 1) ∈ SmemAccesses D1D Q1D
        ∧ Access.s_q (D1D - 1) (Q1D - 1) (Q1D - 1) ∈ RegsAccesses D1D Q1D)
    ∧ (∀ id k, selectKernel id = some k → k.inBounds = true)
    ∧ (∀ ver dim D1D Q1D k, NDK_PAMassApply_kernel ver dim D1D Q1D = Except.ok k →
        k.inBounds = true) := by
  have hsel : ∀ id k, selectKernel id = some k → k.inBounds = true := by
    intro id k h
    obtain ⟨D1D, Q1D, hsup, hk⟩ := selectKernel_supported id k h
    have := supportedPairs_le D1D Q1D hsup
    exact Kernel_inBounds_of_le D1D Q1D (by omega) k hk
  refine ⟨supportedPairs_le, fun D1D Q1D hsup => ?_, fun D1D Q1D hsup => ?_, hsel, ?_⟩
  · have := supportedPairs_le D1D Q1D hsup
    exact ⟨SmemAccesses_inBounds D1D Q1D (by omega), RegsAccesses_inBounds D1D Q1D (by omega)⟩
  · have := supportedPairs_le D1D Q1D hsup
    exact ⟨SmemAccesses_last D1D Q1D (by omega), RegsAccesses_last D1D Q1D (by omega) (by omega)⟩
  · intro ver dim D1D Q1D k h
    unfold NDK_PAMassApply_kernel at h
    split at h
    · split at h
      · rename_i k' hk'
        cases h
        exact hsel _ _ hk'
      · cases h
    · cases h

/-- C24, as the claim states it, fails for the staged variant.  For `D1D = 2`,
`Q1D = 3`, `B` and `X` all ones and the coefficient `1, -1, 0` for `qz = 0, 1, 2`,
the intermediate after the fourth stage holds `24` in `QQD[0][0][0]`, while the
contraction over the `z` quadrature index is `0` at every `(qx, qy, dz)`. -/
theorem C24_staged_backward_counterexample :
    SmemAfterStage4 2 3 none exampleOnes exampleZProfile exampleOnes exampleZeros 0
        (view3 3 2 0 0 0) = 24
    ∧ ∀ qx, qx < 3 → ∀ qy, qy < 3 → ∀ dz, dz < 2 →
        claimedFourthContraction 3 exampleOnes
          (SmemAfterStage3 2 3 none exampleOnes exampleZProfile exampleOnes exampleZeros 0)
          qx qy dz = 0 := by
  decide

/-- C24, amended: both variants contract forward along `x`, then `y`, then `z`.
The register-blocked variant applies the backward contractions in the reverse
order `z`, `y`, `x`: its fourth contraction sums over the `z` quadrature index `k`
and yields the entries `(dz, qy, qx) = (c, j, i)`.  The staged variant applies them
in the order `x`, `y`, `z`: its fourth contraction stage sums over the `x`
quadrature index and yields the `Q1D x Q1D x D1D` intermediate `QQD[qz][qy][dx]`,
its fifth sums over `qy`, its sixth over `qz`. -/
theorem C24_contraction_order (D1D Q1D : Nat) (hDQ : D1D ≤ Q1D) (map : Option (Nat → Int))
    (b_ d_ x_ junk sDQ sm0 sm1 y : Nat → R) (e : Nat) (s : RegsState R)
    (hz : ∀ tx ty i, tx < Q1D → ty < Q1D → i < Q1D → s.r_wk (Exec.device.lane tx ty, i) = 0) :
    (∀ qz, qz < Q1D → ∀ qy, qy < Q1D → ∀ qx, qx < Q1D →
      SmemAfterStage3 D1D Q1D map b_ d_ x_ junk e (view3 Q1D Q1D qz qy qx)
        = forwardValue D1D (Bmat Q1D b_) (Dcoef Q1D d_ e) (Xloc D1D map x_ e) qx qy qz)
    ∧ (∀ qz, qz < Q1D → ∀ qy, qy < Q1D → ∀ dx, dx < D1D →
      SmemAfterStage4 D1D Q1D map b_ d_ x_ junk e (view3 Q1D D1D qz qy dx)
        = ∑ qx in range Q1D,
            forwardValue D1D (Bmat Q1D b_) (Dcoef Q1D d_ e) (Xloc D1D map x_ e) qx qy qz
              * Bmat Q1D b_ qx dx)
    ∧ (∀ qz, qz < Q1D → ∀ qy, qy < Q1D → ∀ dx, dx < D1D →
      SmemStage4 D1D Q1D junk sDQ sm1 sm0 (view3 Q1D D1D qz qy dx)
        = ∑ qx in range Q1D, sm1 (view3 Q1D Q1D qz qy qx) * sDQ (view2 Q1D dx qx))
    ∧ (∀ qz, qz < Q1D → ∀ dy, dy < D1D → ∀ dx, dx < D1D →
      SmemStage5 D1D Q1D junk sDQ sm0 sm1 (view3 D1D D1D qz dy dx)
        = ∑ qy in range Q1D, sm0 (view3 Q1D D1D qz qy dx) * sDQ (view2 Q1D dy qy))
    ∧ (∀ g, SmemStage6 D1D Q1D map e junk sDQ sm1 y g
        = y g + scatterSum D1D (fun dx dy dz => dofSlot D1D map dx dy dz e)
            (fun dx dy dz =>
              ∑ qz in range Q1D, sm1 (view3 D1D D1D qz dy dx) * sDQ (view2 Q1D dz qz)) g)
    ∧ (∀ c, c < D1D → ∀ b, b < D1D → ∀ i, i < Q1D →
      (forLoop Q1D (fun c t => forLoop Q1D (fun b t =>
        RegsStage1Thread Exec.device D1D Q1D b c t) t) s).s_q (c, b, i)
        = ∑ a in range D1D, s.s_B (i, a) * s.s_q (c, b, a))
    ∧ (∀ c, c < D1D → ∀ j, j < Q1D → ∀ i, i < Q1D →
      (forLoop D1D (fun c t => forLoop Q1D (fun i t =>
        RegsStage2Thread Exec.device D1D Q1D i c t) t) s).s_q (c, j, i)
        = ∑ b in range D1D, s.s_B (j, b) * s.s_q (c, b, i))
    ∧ (∀ c, c < D1D → ∀ j, j < Q1D → ∀ i, i < Q1D →
      (forLoop Q1D (fun j t => forLoop Q1D (fun i t =>
        RegsStage4Thread Exec.device D1D Q1D d_ e i j t) t) s).s_q (c, j, i)
        = ∑ k in range Q1D, s.s_B (k, c) *
            ((∑ c' in range D1D, s.s_B (k, c') * s.s_q (c', j, i))
              * d_ (Reshape4 Q1D Q1D Q1D i j k e)))
    ∧ (∀ c, c < D1D → ∀ b, b < D1D → ∀ i, i < Q1D →
      (forLoop D1D (fun c t => forLoop Q1D (fun i t =>
        RegsStage5Thread Exec.device D1D Q1D i c t) t) s).s_q (c, b, i)
        = ∑ j in range Q1D, s.s_B (j, b) * s.s_q (c, j, i))
    ∧ (∀ c, c < D1D → ∀ b, b < D1D → ∀ a, a < D1D →
      (forLoop D1D (fun c t => forLoop D1D (fun b t =>
        RegsStage6Thread Exec.device D1D Q1D b c t) t) s).s_q (c, b, a)
        = ∑ i in range Q1D, s.s_B (i, a) * s.s_q (c, b, i)) := by
  refine ⟨?_, ?_, ?_, ?_, ?_, ?_, ?_, ?_, ?_, ?_⟩
  · intro qz hqz qy hqy qx hqx
    exact SmemAfterStage3_at D1D Q1D map b_ d_ x_ junk e qz qy qx hqz hqy hqx
  · intro qz hqz qy hqy dx hdx
    rw [SmemAfterStage4_at D1D Q1D map b_ d_ x_ junk e qz qy dx hqz hqy hdx]
    refine Finset.sum_congr rfl (fun qx hqx => ?_)
    rw [SmemAfterStage3_at D1D Q1D map b_ d_ x_ junk e qz qy qx hqz hqy (mem_range.1 hqx)]
  · intro qz hqz qy hqy dx hdx
    exact SmemStage4_at D1D Q1D junk sDQ sm1 sm0 qz qy dx hqz hqy hdx
  · intro qz hqz dy hdy dx hdx
    exact SmemStage5_at D1D Q1D junk sDQ sm0 sm1 qz dy dx hqz hdy hdx
  · intro g
    exact SmemStage6_apply D1D Q1D map e junk sDQ sm1 y g
  · intro c hc b hb i hi
    exact RegsStage1_s_q Exec.device D1D Q1D hDQ s hz c b i hc hb hi
  · intro c hc j hj i hi
    exact RegsStage2_s_q Exec.device D1D Q1D hDQ s hz c j i hc hj hi
  · intro c hc j hj i hi
    exact RegsStage4_s_q D1D Q1D d_ e s hz c j i hc hj hi
  · intro c hc b hb i hi
    exact RegsStage5_s_q Exec.device D1D Q1D s c b i hc hb hi
  · intro c hc b hb a ha
    exact RegsStage6_s_q Exec.device D1D Q1D s c b a hc hb ha

theorem C24_contraction_order_witness :
    2 ≤ 3
    ∧ (∀ tx ty i, tx < 3 → ty < 3 → i < 3 →
        exampleJunk.regs.r_wk (Exec.device.lane tx ty, i) = 0)
    ∧ (
    (∀ qz, qz < 3 → ∀ qy, qy < 3 → ∀ qx, qx < 3 →
        SmemAfterStage3 2 3 none exampleOnes exampleZProfile exampleOnes exampleZeros 0 (view3 3 3 qz qy qx)
          = forwardValue 2 (Bmat 3 exampleOnes) (Dcoef 3 exampleZProfile 0) (Xloc 2 none exampleOnes 0) qx qy qz)
      ∧ (∀ qz, qz < 3 → ∀ qy, qy < 3 → ∀ dx, dx < 2 →
        SmemAfterStage4 2 3 none exampleOnes exampleZProfile exampleOnes exampleZeros 0 (view3 3 2 qz qy dx)
          = ∑ qx in range 3,
              forwardValue 2 (Bmat 3 exampleOnes) (Dcoef 3 exampleZProfile 0) (Xloc 2 none exampleOnes 0) qx qy qz
                * Bmat 3 exampleOnes qx dx)
      ∧ (∀ qz, qz < 3 → ∀ qy, qy < 3 → ∀ dx, dx < 2 →
        SmemStage4 2 3 exampleZeros exampleOnes exampleZProfile exampleZeros (view3 3 2 qz qy dx)
          = ∑ qx in range 3, exampleZProfile (view3 3 3 qz qy qx) * exampleOnes (view2 3 dx qx))
      ∧ (∀ qz, qz < 3 → ∀ dy, dy < 2 → ∀ dx, dx < 2 →
        SmemStage5 2 3 exampleZeros exampleOnes exampleZeros exampleZProfile (view3 2 2 qz dy dx)
          = ∑ qy in range 3, exampleZeros (view3 3 2 qz qy dx) * exampleOnes (view2 3 dy qy))
      ∧ (∀ g, SmemStage6 2 3 none 0 exampleZeros exampleOnes exampleZProfile exampleZeros g
          = exampleZeros g + scatterSum 2 (fun dx dy dz => dofSlot 2 none dx dy dz 0)
              (fun dx dy dz =>
                ∑ qz in range 3, exampleZProfile (view3 2 2 qz dy dx) * exampleOnes (view2 3 dz qz)) g)
      ∧ (∀ c, c < 2 → ∀ b, b < 2 → ∀ i, i < 3 →
        (forLoop 3 (fun c t => forLoop 3 (fun b t =>
          RegsStage1Thread Exec.device 2 3 b c t) t) exampleJunk.regs).s_q (c, b, i)
          = ∑ a in range 2, exampleJunk.regs.s_B (i, a) * exampleJunk.regs.s_q (c, b, a))
      ∧ (∀ c, c < 2 → ∀ j, j < 3 → ∀ i, i < 3 →
        (forLoop 2 (fun c t => forLoop 3 (fun i t =>
          RegsStage2Thread Exec.device 2 3 i c t) t) exampleJunk.regs).s_q (c, j, i)
          = ∑ b in range 2, exampleJunk.regs.s_B (j, b) * exampleJunk.regs.s_q (c, b, i))
      ∧ (∀ c, c < 2 → ∀ j, j < 3 → ∀ i, i < 3 →
        (forLoop 3 (fun j t => forLoop 3 (fun i t =>
          RegsStage4Thread Exec.device 2 3 exampleZProfile 0 i j t) t) exampleJunk.regs).s_q (c, j, i)
          = ∑ k in range 3, exampleJunk.regs.s_B (k, c) *
              ((∑ c' in range 2, exampleJunk.regs.s_B (k, c') * exampleJunk.regs.s_q (c', j, i))
                * exampleZProfile (Reshape4 3 3 3 i j k 0)))
      ∧ (∀ c, c < 2 → ∀ b, b < 2 → ∀ i, i < 3 →
        (forLoop 2 (fun c t => forLoop 3 (fun i t =>
          RegsStage5Thread Exec.device 2 3 i c t) t) exampleJunk.regs).s_q (c, b, i)
          = ∑ j in range 3, exampleJunk.regs.s_B (j, b) * exampleJunk.regs.s_q (c, j, i))
      ∧ (∀ c, c < 2 → ∀ b, b < 2 → ∀ a, a < 2 →
        (forLoop 2 (fun c t => forLoop 2 (fun b t =>
          RegsStage6Thread Exec.device 2 3 b c t) t) exampleJunk.regs).s_q (c, b, a)
          = ∑ i in range 3, exampleJunk.regs.s_B (i, a) * exampleJunk.regs.s_q (c, b, i))) :=
  ⟨by decide, fun _ _ _ _ _ _ => rfl,
    C24_contraction_order 2 3 (by decide) none exampleOnes exampleZProfile exampleOnes
      exampleZeros exampleOnes exampleZeros exampleZProfile exampleZeros 0 exampleJunk.regs
      (fun _ _ _ _ _ _ => rfl)⟩

/-- C30: the map-less operator `A(X)` (the kernel output from `Y_in = 0`) is
symmetric.  For every supported `(D1D, Q1D)`, every `B`, `D` and every two local
vectors `X` and `Z`, the sum over all entries of `Z * A(X)` equals the sum over all
entries of `X * A(Z)`. -/
theorem C30_operator_symmetric (D1D Q1D : Nat) (hsup : (D1D, Q1D) ∈ supportedPairs)
    (k : Kernel) (hk : k = Kernel.Smem D1D Q1D ∨ k = Kernel.Regs D1D Q1D)
    (ndofs NE : Nat) (b_ d_ x_ z_ : Nat → R) (junk junk' : Junk R) :
    innerProduct D1D NE z_ (k.run Exec.device ndofs NE none b_ d_ x_ (fun _ => 0) junk)
      = innerProduct D1D NE x_
          (k.run Exec.device ndofs NE none b_ d_ z_ (fun _ => 0) junk') := by
  have hDQ : D1D ≤ Q1D := by have := supportedPairs_le D1D Q1D hsup; omega
  rw [innerProduct_run D1D Q1D hDQ k hk, innerProduct_run D1D Q1D hDQ k hk]
  exact Finset.sum_congr rfl (fun e _ => massAction_symm D1D Q1D _ _ _ _)

theorem C30_operator_symmetric_witness :
    (2, 3) ∈ supportedPairs
    ∧ (Kernel.Smem 2 3 = Kernel.Smem 2 3 ∨ Kernel.Smem 2 3 = Kernel.Regs 2 3)
    ∧ innerProduct 2 2 exampleRamp
          ((Kernel.Smem 2 3).run Exec.device 16 2 none exampleRamp exampleCoef exampleCoef
            (fun _ => 0) exampleJunk)
        = innerProduct 2 2 exampleCoef
          ((Kernel.Smem 2 3).run Exec.device 16 2 none exampleRamp exampleCoef exampleRamp
            (fun _ => 0) exampleJunk) :=
  ⟨by decide, by decide,
    C30_operator_symmetric 2 3 (by decide) (Kernel.Smem 2 3) (by decide) 16 2 exampleRamp
      exampleCoef exampleCoef exampleRamp exampleJunk exampleJunk⟩

/-- C26: the constructors of `Static1dThreadLayout` check `DimX < MFEM_THREAD_SIZE(x)`,
so a layout whose first dimension equals the number of `x` threads is rejected, with
the message that the first dimension exceeds the number of `x` threads: for
`Static1dThreadLayout<1, 4>` in a block of `4` threads in `x` and `1` in `z` both the
default constructor and the constructor from the run-time size `4` stop with that
message.  In general the constructors accept exactly when `DimX` is strictly below
the number of `x` threads (and the other two conditions of the claim hold). -/
theorem C26_equal_first_dimension_rejected :
    Static1dThreadLayout.construct ⟨4, 1⟩ 1 4 [] = Except.error msgExceeds
    ∧ Static1dThreadLayout.constructSized ⟨4, 1⟩ 1 4 [] 4 = Except.error msgExceeds
    ∧ Static1dThreadLayout.construct ⟨4, 1⟩ 1 4 [3] = Except.error msgExceeds
    ∧ Static1dThreadLayout.constructSized ⟨4, 1⟩ 1 4 [3] 4 = Except.error msgExceeds
    ∧ (∀ tb BatchSize DimX Dims, DimX = tb.sizeX → BatchSize = tb.sizeZ →
        Static1dThreadLayout.construct tb BatchSize DimX Dims = Except.error msgExceeds
        ∧ Static1dThreadLayout.constructSized tb BatchSize DimX Dims DimX
            = Except.error msgExceeds)
    ∧ (∀ tb BatchSize DimX Dims size0,
        (Static1dThreadLayout.construct tb BatchSize DimX Dims = Except.ok ()
          ↔ DimX < tb.sizeX ∧ BatchSize = tb.sizeZ)
        ∧ (Static1dThreadLayout.constructSized tb BatchSize DimX Dims size0 = Except.ok ()
          ↔ size0 = DimX ∧ DimX < tb.sizeX ∧ BatchSize = tb.sizeZ)) := by
  refine ⟨rfl, rfl, rfl, rfl, ?_, ?_⟩
  · intro tb BatchSize DimX Dims h1 h2
    subst h1 h2
    unfold Static1dThreadLayout.construct Static1dThreadLayout.constructSized assertKernel
    simp [bind, Except.bind]
  · intro tb BatchSize DimX Dims size0
    exact ⟨Static1dThreadLayout.construct_ok_iff tb BatchSize DimX Dims,
      Static1dThreadLayout.constructSized_ok_iff tb BatchSize DimX Dims size0⟩

/-- C27: the converting constructor of the class of higher rank checks
`1 == get_layout_rank<Layout>` instead of comparing with its own rank.  For the
destination `Static1dThreadLayout<BatchSize, 4, 3>` (rank two) a source of rank two
with `Size<0>() = 4` is rejected with the message that a layout of different rank
cannot be copy-constructed, and a source of rank one with `Size<0>() = 4` is
accepted.  In general the constructor accepts exactly the sources of rank one with
`Size<0>() = DimX`, whatever the rank of the destination. -/
theorem C27_same_rank_source_rejected :
    Static1dThreadLayout.rank 4 [3] = 2
    ∧ Static1dThreadLayout.constructFrom 4 [3] 2 4 = Except.error msgRank
    ∧ Static1dThreadLayout.constructFrom 4 [3] 1 4 = Except.ok ()
    ∧ Static1dThreadLayout.constructFrom 4 [] 1 4 = Except.ok ()
    ∧ (∀ DimX Dims rhsSize0, Dims ≠ [] →
        Static1dThreadLayout.constructFrom DimX Dims (Static1dThreadLayout.rank DimX Dims)
          rhsSize0 = Except.error msgRank)
    ∧ (∀ DimX Dims rhsRank rhsSize0,
        Static1dThreadLayout.constructFrom DimX Dims rhsRank rhsSize0 = Except.ok ()
          ↔ rhsRank = 1 ∧ rhsSize0 = DimX) := by
  refine ⟨rfl, rfl, rfl, rfl, ?_, ?_⟩
  · intro DimX Dims rhsSize0 hD
    have h : ¬ (1 = Static1dThreadLayout.rank DimX Dims) := by
      unfold Static1dThreadLayout.rank
      cases Dims with
      | nil => exact absurd rfl hD
      | cons d ds => simp
    unfold Static1dThreadLayout.constructFrom assertKernel
    simp [h, bind, Except.bind]
  · intro DimX Dims rhsRank rhsSize0
    exact Static1dThreadLayout.constructFrom_ok_iff DimX Dims rhsRank rhsSize0

/-- C28: `CalcCurlTensor` stores the value of `(ip, d, id)` at offset
`ip + nip * (d + dim * id)`, with `dim` where the `nip x dimc x dof` layout has
`dimc`.  For `dim = 3` the two agree and every write is below `nip * dimc * dof`.
For `dim = 2` (`dimc = 1`), `nip = 4`, `dof = 4`, no map: offset `12`, where the
layout has the value of `(ip, d, id) = (0, 0, 3)`, is never written, and the value
of `(3, 0, 3)` is written at offset `27`, beyond the `16` entries of the array. -/
theorem C28_curl_stride_uses_dim :
    (∀ (dim nip dof : Nat) (curlShape : Nat → Nat → Nat → Int) (dof_map : Option (Nat → Int))
        (C : Nat → Int) (ip id d : Nat), curlDim dim ≤ dim → ip < nip → id < dof →
        d < curlDim dim →
        CalcCurlTensor dim nip dof curlShape dof_map C (ip + nip * (d + dim * id))
          = curlShape ip (curlOrigId dof_map id) d)
    ∧ (∀ (nip dof : Nat) (curlShape : Nat → Nat → Nat → Int) (dof_map : Option (Nat → Int))
        (C : Nat → Int) (ip id d : Nat), ip < nip → id < dof → d < curlDim 3 →
        CalcCurlTensor 3 nip dof curlShape dof_map C (curlOffset 3 nip ip d id)
          = curlShape ip (curlOrigId dof_map id) d
        ∧ curlOffset 3 nip ip d id < nip * curlDim 3 * dof)
    ∧ curlDim 2 = 1
    ∧ curlOffset 2 4 0 0 3 = 12
    ∧ exampleCurlShape 0 (curlOrigId none 3) 0 = 4
    ∧ CalcCurlTensor 2 4 4 exampleCurlShape none exampleZeros 12 = 0
    ∧ (∀ C : Nat → Int, CalcCurlTensor 2 4 4 exampleCurlShape none C 12 = C 12)
    ∧ 4 * curlDim 2 * 4 = 16
    ∧ CalcCurlTensor 2 4 4 exampleCurlShape none exampleZeros 27 = 4 := by
  refine ⟨?_, ?_, by decide, by decide, by decide, by decide, ?_, by decide, by decide⟩
  · intro dim nip dof curlShape dof_map C ip id d hdim hip hid hd
    exact CalcCurlTensor_at dim nip dof hdim curlShape dof_map C ip id d hip hid hd
  · intro nip dof curlShape dof_map C ip id d hip hid hd
    refine ⟨CalcCurlTensor_at 3 nip dof (by decide) curlShape dof_map C ip id d hip hid hd, ?_⟩
    have h3 : curlDim 3 = 3 := by decide
    rw [h3] at hd ⊢
    unfold curlOffset
    rw [h3]
    have h1 : d + 3 * id + 1 ≤ 3 * dof := by omega
    have h2 : nip * (d + 3 * id + 1) ≤ nip * (3 * dof) := Nat.mul_le_mul_left _ h1
    have h4 : nip * (d + 3 * id + 1) = nip * (d + 3 * id) + nip := by ring
    have h5 : nip * 3 * dof = nip * (3 * dof) := by ring
    omega
  · intro C
    refine CalcCurlTensor_off 2 4 4 exampleCurlShape none C 12 (fun ip id d hip hid hd => ?_)
    have h1 : curlDim 2 = 1 := by decide
    rw [h1] at hd
    omega

/-- C29, as the claim states it, fails: the asserted precondition `height >= 0`
admits `height = 0`.  For the dry state at rest `U = 0` (two space dimensions,
`g = 981/100`, normal `(1, 1)`) the assertion of `ShallowWaterFlux::ComputeFlux` and
of `ShallowWaterFlux::ComputeFluxDotN` passes and the division by `height` has a
zero divisor. -/
theorem C29_zero_height_counterexample :
    (fun _ => 0 : Nat → ℝ) 0 ≥ 0
    ∧ (∃ i, i < 2 ∧ (fun _ => 1 : Nat → ℝ) i ≠ 0)
    ∧ ShallowWaterFlux.ComputeFlux Real.sqrt 2 (981 / 100) (fun _ => 0) (fun _ => 0)
        = Except.error FluxError.zeroDivisor
    ∧ ShallowWaterFlux.ComputeFluxDotN Real.sqrt 2 (981 / 100) (fun _ => 0) (fun _ => 1)
        (fun _ => 0) = Except.error FluxError.zeroDivisor :=
  ⟨le_refl _, ⟨0, by decide, one_ne_zero⟩,
    ShallowWaterFlux.ComputeFlux_zero_height _ _ _ _ _ rfl,
    ShallowWaterFlux.ComputeFluxDotN_zero_height _ _ _ _ _ _ rfl⟩

/-- C29, amended: in exact arithmetic, for every state `U` with height `U(0) > 0`
no division of `ShallowWaterFlux::ComputeFlux` has a zero divisor, nor, for every
non-zero normal, of `ShallowWaterFlux::ComputeFluxDotN`; likewise for
`EulerFlux::ComputeFlux` for every state with density `U(0) > 0`, pressure `>= 0`
and energy `>= 0`: the calls pass their assertions and return.  With `U(0) = 0` the
first division by the height or the density has a zero divisor. -/
theorem C29_no_zero_divisor {K : Type} [LinearOrderedField K] (sqrt : K → K)
    (hsqrt : ∀ x, 0 < x → sqrt x ≠ 0) (dim : Nat) (g specific_heat_ratio : K)
    (U normal : Nat → K) (FU : Nat × Nat → K) (FUdotN : Nat → K) (hU : 0 < U 0)
    (hn : ∃ i, i < dim ∧ normal i ≠ 0) :
    (∃ r, ShallowWaterFlux.ComputeFlux sqrt dim g U FU = Except.ok r)
    ∧ (∃ r, ShallowWaterFlux.ComputeFluxDotN sqrt dim g U normal FUdotN = Except.ok r)
    ∧ (0 ≤ EulerFlux.pressure dim specific_heat_ratio U → 0 ≤ U (1 + dim) →
        ∃ r, EulerFlux.ComputeFlux sqrt dim specific_heat_ratio U FU = Except.ok r)
    ∧ (∀ U0 : Nat → K, U0 0 = 0 →
        ShallowWaterFlux.ComputeFlux sqrt dim g U0 FU = Except.error FluxError.zeroDivisor
        ∧ ShallowWaterFlux.ComputeFluxDotN sqrt dim g U0 normal FUdotN
            = Except.error FluxError.zeroDivisor
        ∧ EulerFlux.ComputeFlux sqrt dim specific_heat_ratio U0 FU
            = Except.error FluxError.zeroDivisor) :=
  ⟨ShallowWaterFlux.ComputeFlux_ok sqrt dim g U FU hU,
    ShallowWaterFlux.ComputeFluxDotN_ok sqrt hsqrt dim g U normal FUdotN hU hn,
    fun hp he => EulerFlux.ComputeFlux_returns sqrt dim specific_heat_ratio U FU hU hp he,
    fun U0 h0 => ⟨ShallowWaterFlux.ComputeFlux_zero_height sqrt dim g U0 FU h0,
      ShallowWaterFlux.ComputeFluxDotN_zero_height sqrt dim g U0 normal FUdotN h0,
      EulerFlux.ComputeFlux_zero_density sqrt dim specific_heat_ratio U0 FU h0⟩⟩

theorem C29_no_zero_divisor_witness :
    (∀ x : ℝ, 0 < x → Real.sqrt x ≠ 0)
    ∧ (0 : ℝ) < (fun _ => 1 : Nat → ℝ) 0
    ∧ (∃ i, i < 2 ∧ (fun _ => 1 : Nat → ℝ) i ≠ 0)
    ∧ ((∃ r, ShallowWaterFlux.ComputeFlux Real.sqrt 2 (981 / 100) (fun _ => 1) (fun _ => 0)
          = Except.ok r)
      ∧ (∃ r, ShallowWaterFlux.ComputeFluxDotN Real.sqrt 2 (981 / 100) (fun _ => 1)
          (fun _ => 1) (fun _ => 0) = Except.ok r)
      ∧ (0 ≤ EulerFlux.pressure 2 (7 / 5) (fun _ => (1 : ℝ)) → 0 ≤ (fun _ => (1 : ℝ)) (1 + 2) →
          ∃ r, EulerFlux.ComputeFlux Real.sqrt 2 (7 / 5) (fun _ => 1) (fun _ => 0)
            = Except.ok r)
      ∧ (∀ U0 : Nat → ℝ, U0 0 = 0 →
          ShallowWaterFlux.ComputeFlux Real.sqrt 2 (981 / 100) U0 (fun _ => 0)
            = Except.error FluxError.zeroDivisor
          ∧ ShallowWaterFlux.ComputeFluxDotN Real.sqrt 2 (981 / 100) U0 (fun _ => 1)
              (fun _ => 0) = Except.error FluxError.zeroDivisor
          ∧ EulerFlux.ComputeFlux Real.sqrt 2 (7 / 5) U0 (fun _ => 0)
              = Except.error FluxError.zeroDivisor)) :=
  ⟨fun _ hx => (Real.sqrt_pos.2 hx).ne', one_pos, ⟨0, by decide, one_ne_zero⟩,
    C29_no_zero_divisor Real.sqrt (fun _ hx => (Real.sqrt_pos.2 hx).ne') 2 (981 / 100)
      (7 / 5) (fun _ => 1) (fun _ => 1) (fun _ => 0) (fun _ => 0) one_pos
      ⟨0, by decide, one_ne_zero⟩⟩

/-- C21: for every `ArraysByName` container and every name `n`: after
`CreateArray(n)` with `n` not yet present, `EntryExists(n)` is true (and the entries
that existed still exist); after `DeleteArray(n)`, `EntryExists(n)` is false and
every other entry still exists; after `DeleteAll()`, `Size()` is `0` and
`EntryExists` is false for every name; both `GetNames` overloads return the same
set, which has `Size()` elements and contains exactly the names for which
`EntryExists` is true; the three operations keep the names distinct, and every
`REQUIRE` of the test `ArraysByName Various Methods` holds. -/
theorem C21_names_and_entries {T : Type} (a : ArraysByName T) (h : a.WellFormed)
    (n m : String) (names : List String) :
    (a.EntryExists n = false →
      (a.CreateArray n).EntryExists n = true
      ∧ (a.EntryExists m = true → (a.CreateArray n).EntryExists m = true)
      ∧ (a.CreateArray n).Size = a.Size + 1
      ∧ (a.CreateArray n).WellFormed)
    ∧ (a.DeleteArray n).EntryExists n = false
    ∧ (m ≠ n → (a.DeleteArray n).EntryExists m = a.EntryExists m)
    ∧ (a.DeleteArray n).WellFormed
    ∧ a.DeleteAll.Size = 0
    ∧ a.DeleteAll.EntryExists m = false
    ∧ a.DeleteAll.WellFormed
    ∧ a.GetNamesInto names = a.GetNames
    ∧ a.GetNames.length = a.Size
    ∧ (m ∈ a.GetNames ↔ a.EntryExists m = true)
    ∧ (ArraysByName.WellFormed (⟨[]⟩ : ArraysByName Int)
      ∧ (FillArraysByName ⟨[]⟩).WellFormed
      ∧ VariousMethodsRequires (FillArraysByName ⟨[]⟩) = true) := by
  refine ⟨fun hn => ⟨?_, fun hm => ?_, ?_, ?_⟩, ?_, fun hne => ?_, ?_, rfl, rfl,
    List.nodup_nil, rfl, ArraysByName.length_GetNames a h, ArraysByName.mem_GetNames a m,
    by decide, by decide, by decide⟩
  · exact (ArraysByName.EntryExists_CreateArray a n n).2 (Or.inl rfl)
  · exact (ArraysByName.EntryExists_CreateArray a n m).2 (Or.inr hm)
  · exact (ArraysByName.WellFormed_CreateArray a n h hn).2
  · exact (ArraysByName.WellFormed_CreateArray a n h hn).1
  · rw [← Bool.not_eq_true]
    exact fun hc => ((ArraysByName.EntryExists_DeleteArray a n n).1 hc).1 rfl
  · rw [Bool.eq_iff_iff, ArraysByName.EntryExists_DeleteArray]
    exact ⟨fun hc => hc.2, fun hc => ⟨hne, hc⟩⟩
  · exact ArraysByName.WellFormed_DeleteArray a n h

theorem C21_names_and_entries_witness :
    (FillArraysByName ⟨[]⟩).WellFormed
    ∧ (((FillArraysByName ⟨[]⟩).EntryExists "5 potato" = false →
        ((FillArraysByName ⟨[]⟩).CreateArray "5 potato").EntryExists "5 potato" = true
        ∧ ((FillArraysByName ⟨[]⟩).EntryExists "four" = true →
            ((FillArraysByName ⟨[]⟩).CreateArray "5 potato").EntryExists "four" = true)
        ∧ ((FillArraysByName ⟨[]⟩).CreateArray "5 potato").Size
            = (FillArraysByName ⟨[]⟩).Size + 1
        ∧ ((FillArraysByName ⟨[]⟩).CreateArray "5 potato").WellFormed)
      ∧ ((FillArraysByName ⟨[]⟩).DeleteArray "5 potato").EntryExists "5 potato" = false
      ∧ ("four" ≠ "5 potato" →
          ((FillArraysByName ⟨[]⟩).DeleteArray "5 potato").EntryExists "four"
            = (FillArraysByName ⟨[]⟩).EntryExists "four")
      ∧ ((FillArraysByName ⟨[]⟩).DeleteArray "5 potato").WellFormed
      ∧ (FillArraysByName ⟨[]⟩).DeleteAll.Size = 0
      ∧ (FillArraysByName ⟨[]⟩).DeleteAll.EntryExists "four" = false
      ∧ (FillArraysByName ⟨[]⟩).DeleteAll.WellFormed
      ∧ (FillArraysByName ⟨[]⟩).GetNamesInto ["zero"] = (FillArraysByName ⟨[]⟩).GetNames
      ∧ (FillArraysByName ⟨[]⟩).GetNames.length = (FillArraysByName ⟨[]⟩).Size
      ∧ ("four" ∈ (FillArraysByName ⟨[]⟩).GetNames
          ↔ (FillArraysByName ⟨[]⟩).EntryExists "four" = true)
      ∧ (ArraysByName.WellFormed (⟨[]⟩ : ArraysByName Int)
        ∧ (FillArraysByName ⟨[]⟩).WellFormed
        ∧ VariousMethodsRequires (FillArraysByName ⟨[]⟩) = true)) :=
  ⟨by decide, C21_names_and_entries (FillArraysByName ⟨[]⟩) (by decide) "5 potato" "four"
    ["zero"]⟩

/-- Executed on the device (a private `r_wk` per thread), each kernel is linear in
the input vector and in the coefficient tensor.  For every supported `(D1D, Q1D)`,
every map, `B`, `D`, `D'`, `X`, `X'` and scalars `s`, `t`, the increment `Y_out - Y_in` for the input `s X + t X'` is `s` times the
increment for `X` plus `t` times the increment for `X'`, and the increment with the
coefficient `s D + t D'` is `s` times the increment with `D` plus `t` times the
increment with `D'`. -/
theorem massApply_linear_device (D1D Q1D : Nat) (hsup : (D1D, Q1D) ∈ supportedPairs)
    (k : Kernel) (hk : k = Kernel.Smem D1D Q1D ∨ k = Kernel.Regs D1D Q1D)
    (ndofs NE : Nat) (map : Option (Nat → Int)) (b_ d_ d_' x_ x_' y_ : Nat → R)
    (junk : Junk R) (s t : R) (g : Nat) :
    k.run Exec.device ndofs NE map b_ d_ (fun i => s * x_ i + t * x_' i) y_ junk g - y_ g
        = s * (k.run Exec.device ndofs NE map b_ d_ x_ y_ junk g - y_ g)
          + t * (k.run Exec.device ndofs NE map b_ d_ x_' y_ junk g - y_ g)
    ∧ k.run Exec.device ndofs NE map b_ (fun i => s * d_ i + t * d_' i) x_ y_ junk g - y_ g
        = s * (k.run Exec.device ndofs NE map b_ d_ x_ y_ junk g - y_ g)
          + t * (k.run Exec.device ndofs NE map b_ d_' x_ y_ junk g - y_ g) := by
  have hDQ : D1D ≤ Q1D := by have := supportedPairs_le D1D Q1D hsup; omega
  simp only [Kernel_run_eq_spec D1D Q1D hDQ k hk, massApplySpec, add_sub_cancel_left]
  exact ⟨massOperator_linear_X D1D Q1D NE map b_ d_ x_ x_' s t g,
    massOperator_linear_D D1D Q1D NE map b_ d_ d_' x_ s t g⟩

theorem massApply_linear_device_example :
    (2, 3) ∈ supportedPairs
    ∧ (Kernel.Regs 2 3 = Kernel.Smem 2 3 ∨ Kernel.Regs 2 3 = Kernel.Regs 2 3)
    ∧ ((Kernel.Regs 2 3).run Exec.device 12 2 (some exampleSharedMap) exampleOnes exampleCoef
          (fun i => 2 * exampleRamp i + (-3) * exampleOnes i) exampleZeros exampleJunk 5
          - exampleZeros 5
        = 2 * ((Kernel.Regs 2 3).run Exec.device 12 2 (some exampleSharedMap) exampleOnes
            exampleCoef exampleRamp exampleZeros exampleJunk 5 - exampleZeros 5)
          + (-3) * ((Kernel.Regs 2 3).run Exec.device 12 2 (some exampleSharedMap) exampleOnes
            exampleCoef exampleOnes exampleZeros exampleJunk 5 - exampleZeros 5)
      ∧ (Kernel.Regs 2 3).run Exec.device 12 2 (some exampleSharedMap) exampleOnes
          (fun i => 2 * exampleCoef i + (-3) * exampleFirstOnly i) exampleRamp exampleZeros
          exampleJunk 5 - exampleZeros 5
        = 2 * ((Kernel.Regs 2 3).run Exec.device 12 2 (some exampleSharedMap) exampleOnes
            exampleCoef exampleRamp exampleZeros exampleJunk 5 - exampleZeros 5)
          + (-3) * ((Kernel.Regs 2 3).run Exec.device 12 2 (some exampleSharedMap) exampleOnes
            exampleFirstOnly exampleRamp exampleZeros exampleJunk 5 - exampleZeros 5)) :=
  ⟨by decide, by decide,
    massApply_linear_device 2 3 (by decide) (Kernel.Regs 2 3) (by decide) 12 2
      (some exampleSharedMap) exampleOnes exampleCoef exampleFirstOnly exampleRamp exampleOnes
      exampleZeros exampleJunk 2 (-3) 5⟩

/-- C33: executed on the host, the register-blocked kernel is not linear in the
coefficient tensor.  For `(D1D, Q1D) = (2, 3)`, one element, no map, `B` and `X`
identically one and `Y_in = 0`, the increment in slot `0` with the coefficient
`2 D + 1 D'` (`D` identically one, `D'` identically zero) is `48624`, whereas `2`
times the increment with `D` plus `1` times the increment with `D'` is
`2 * 1080 + 1 * 0 = 2160`; on the device the two are `432`. -/
theorem C33_host_not_linear_in_coefficient :
    (Kernel.Regs 2 3).run Exec.host 8 1 none exampleOnes
        (fun i => 2 * exampleOnes i + 1 * exampleZeros i) exampleOnes exampleZeros exampleJunk 0
        - exampleZeros 0 = 48624
    ∧ 2 * ((Kernel.Regs 2 3).run Exec.host 8 1 none exampleOnes exampleOnes exampleOnes
          exampleZeros exampleJunk 0 - exampleZeros 0)
        + 1 * ((Kernel.Regs 2 3).run Exec.host 8 1 none exampleOnes exampleZeros exampleOnes
          exampleZeros exampleJunk 0 - exampleZeros 0) = 2160
    ∧ (Kernel.Regs 2 3).run Exec.device 8 1 none exampleOnes
        (fun i => 2 * exampleOnes i + 1 * exampleZeros i) exampleOnes exampleZeros exampleJunk 0
        - exampleZeros 0 = 432
    ∧ 2 * ((Kernel.Regs 2 3).run Exec.device 8 1 none exampleOnes exampleOnes exampleOnes
          exampleZeros exampleJunk 0 - exampleZeros 0)
        + 1 * ((Kernel.Regs 2 3).run Exec.device 8 1 none exampleOnes exampleZeros
          exampleOnes exampleZeros exampleJunk 0 - exampleZeros 0) = 432 := by
  refine ⟨?_, ?_, ?_, ?_⟩ <;> decide

/-- C32: the dispatch table supports exactly the same eleven `(D1D, Q1D)` pairs for
the staged variant (`ver = 0`) as for the register-blocked variant (`ver = 1`), and
every `D1D` from `2` to `7` occurs with at least one `Q1D` in it. -/
theorem C32_same_pairs_both_variants :
    supportedPairs.length = 11
    ∧ supportedPairs.Nodup
    ∧ (∀ D1D Q1D, (∃ id, selectKernel id = some (Kernel.Smem D1D Q1D))
        ↔ (D1D, Q1D) ∈ supportedPairs)
    ∧ (∀ D1D Q1D, (∃ id, selectKernel id = some (Kernel.Regs D1D Q1D))
        ↔ (D1D, Q1D) ∈ supportedPairs)
    ∧ (∀ D1D Q1D, (∃ id, selectKernel id = some (Kernel.Smem D1D Q1D))
        ↔ ∃ id, selectKernel id = some (Kernel.Regs D1D Q1D))
    ∧ (∀ id D1D Q1D, selectKernel id = some (Kernel.Smem D1D Q1D)
        ↔ (D1D, Q1D) ∈ supportedPairs ∧ id = kernelId 0 D1D Q1D)
    ∧ (∀ id D1D Q1D, selectKernel id = some (Kernel.Regs D1D Q1D)
        ↔ (D1D, Q1D) ∈ supportedPairs ∧ id = kernelId 1 D1D Q1D)
    ∧ (∀ D1D, 2 ≤ D1D → D1D ≤ 7 → ∃ Q1D, (D1D, Q1D) ∈ supportedPairs) := by
  have hS : ∀ id D1D Q1D, selectKernel id = some (Kernel.Smem D1D Q1D)
      ↔ (D1D, Q1D) ∈ supportedPairs ∧ id = kernelId 0 D1D Q1D := by
    intro id D1D Q1D
    rw [selectKernel_eq_some_iff]
    constructor
    · rintro ⟨D, Q, hsup, ⟨hk, hid⟩ | ⟨hk, _⟩⟩
      · cases hk
        exact ⟨hsup, hid⟩
      · cases hk
    · rintro ⟨hsup, hid⟩
      exact ⟨D1D, Q1D, hsup, Or.inl ⟨rfl, hid⟩⟩
  have hR : ∀ id D1D Q1D, selectKernel id = some (Kernel.Regs D1D Q1D)
      ↔ (D1D, Q1D) ∈ supportedPairs ∧ id = kernelId 1 D1D Q1D := by
    intro id D1D Q1D
    rw [selectKernel_eq_some_iff]
    constructor
    · rintro ⟨D, Q, hsup, ⟨hk, _⟩ | ⟨hk, hid⟩⟩
      · cases hk
      · cases hk
        exact ⟨hsup, hid⟩
    · rintro ⟨hsup, hid⟩
      exact ⟨D1D, Q1D, hsup, Or.inr ⟨rfl, hid⟩⟩
  have hS' : ∀ D1D Q1D, (∃ id, selectKernel id = some (Kernel.Smem D1D Q1D))
      ↔ (D1D, Q1D) ∈ supportedPairs := fun D1D Q1D =>
    ⟨fun ⟨id, h⟩ => ((hS id D1D Q1D).1 h).1, fun h => ⟨_, (hS _ D1D Q1D).2 ⟨h, rfl⟩⟩⟩
  have hR' : ∀ D1D Q1D, (∃ id, selectKernel id = some (Kernel.Regs D1D Q1D))
      ↔ (D1D, Q1D) ∈ supportedPairs := fun D1D Q1D =>
    ⟨fun ⟨id, h⟩ => ((hR id D1D Q1D).1 h).1, fun h => ⟨_, (hR _ D1D Q1D).2 ⟨h, rfl⟩⟩⟩
  refine ⟨by decide, by decide, hS', hR', fun D1D Q1D => (hS' D1D Q1D).trans (hR' D1D Q1D).symm,
    hS, hR, ?_⟩
  intro D1D h2 h7
  have h : D1D = 2 ∨ D1D = 3 ∨ D1D = 4 ∨ D1D = 5 ∨ D1D = 6 ∨ D1D = 7 := by omega
  rcases h with rfl | rfl | rfl | rfl | rfl | rfl
  · exact ⟨3, by decide⟩
  · exact ⟨4, by decide⟩
  · exact ⟨5, by decide⟩
  · exact ⟨6, by decide⟩
  · exact ⟨7, by decide⟩
  · exact ⟨8, by decide⟩

/-- C31: the map-less operator `A(X)` (the kernel output from `Y_in = 0`) pairs with
`X` to the sum over the elements `e` and the quadrature points `(qx, qy, qz)` of
`D(qx,qy,qz,e)` times the square of the interpolated value of `X` at that point;
when every entry of `D` is non-negative the operator is positive semi-definite, the
sum over all entries of `X * A(X)` being `>= 0`. -/
theorem C31_positive_semidefinite {S : Type} [LinearOrderedCommRing S] (D1D Q1D : Nat)
    (hsup : (D1D, Q1D) ∈ supportedPairs) (k : Kernel)
    (hk : k = Kernel.Smem D1D Q1D ∨ k = Kernel.Regs D1D Q1D) (ndofs NE : Nat)
    (b_ d_ x_ : Nat → S) (junk : Junk S)
    (hD : ∀ e, e < NE → ∀ qx, qx < Q1D → ∀ qy, qy < Q1D → ∀ qz, qz < Q1D →
      0 ≤ d_ (Reshape4 Q1D Q1D Q1D qx qy qz e)) :
    innerProduct D1D NE x_ (k.run Exec.device ndofs NE none b_ d_ x_ (fun _ => 0) junk)
        = ∑ e in range NE, ∑ qx in range Q1D, ∑ qy in range Q1D, ∑ qz in range Q1D,
            Dcoef Q1D d_ e qx qy qz
              * interpolate D1D (Bmat Q1D b_) (Xloc D1D none x_ e) qx qy qz ^ 2
    ∧ 0 ≤ innerProduct D1D NE x_
        (k.run Exec.device ndofs NE none b_ d_ x_ (fun _ => 0) junk) := by
  have hDQ : D1D ≤ Q1D := by have := supportedPairs_le D1D Q1D hsup; omega
  have heq : innerProduct D1D NE x_
      (k.run Exec.device ndofs NE none b_ d_ x_ (fun _ => 0) junk)
        = ∑ e in range NE, ∑ qx in range Q1D, ∑ qy in range Q1D, ∑ qz in range Q1D,
            Dcoef Q1D d_ e qx qy qz
              * interpolate D1D (Bmat Q1D b_) (Xloc D1D none x_ e) qx qy qz ^ 2 := by
    rw [innerProduct_run D1D Q1D hDQ k hk]
    refine Finset.sum_congr rfl (fun e _ => ?_)
    rw [massAction_pairing]
    refine Finset.sum_congr rfl (fun qx _ => Finset.sum_congr rfl (fun qy _ =>
      Finset.sum_congr rfl (fun qz _ => ?_)))
    ring
  refine ⟨heq, ?_⟩
  rw [heq]
  refine Finset.sum_nonneg (fun e he => Finset.sum_nonneg (fun qx hqx =>
    Finset.sum_nonneg (fun qy hqy => Finset.sum_nonneg (fun qz hqz => ?_))))
  exact mul_nonneg (hD e (mem_range.1 he) qx (mem_range.1 hqx) qy (mem_range.1 hqy) qz
    (mem_range.1 hqz)) (sq_nonneg _)

theorem C31_positive_semidefinite_witness :
    (2, 3) ∈ supportedPairs
    ∧ (Kernel.Smem 2 3 = Kernel.Smem 2 3 ∨ Kernel.Smem 2 3 = Kernel.Regs 2 3)
    ∧ (∀ e, e < 2 → ∀ qx, qx < 3 → ∀ qy, qy < 3 → ∀ qz, qz < 3 →
        0 ≤ exampleCoef (Reshape4 3 3 3 qx qy qz e))
    ∧ (innerProduct 2 2 exampleRamp
          ((Kernel.Smem 2 3).run Exec.device 16 2 none exampleOnes exampleCoef exampleRamp
            (fun _ => 0) exampleJunk)
        = ∑ e in range 2, ∑ qx in range 3, ∑ qy in range 3, ∑ qz in range 3,
            Dcoef 3 exampleCoef e qx qy qz
              * interpolate 2 (Bmat 3 exampleOnes) (Xloc 2 none exampleRamp e) qx qy qz ^ 2
      ∧ 0 ≤ innerProduct 2 2 exampleRamp
          ((Kernel.Smem 2 3).run Exec.device 16 2 none exampleOnes exampleCoef exampleRamp
            (fun _ => 0) exampleJunk)) :=
  ⟨by decide, by decide, by decide,
    C31_positive_semidefinite 2 3 (by decide) (Kernel.Smem 2 3) (by decide) 16 2 exampleOnes
      exampleCoef exampleRamp exampleJunk (by decide)⟩

/-- C36: `BurgersFlux::ComputeAvgFlux` fills the flux with
`(u1^2 + u1 u2 + u2^2) / 6` for `u1 = U1(0)`, `u2 = U2(0)`; this is
`(u2^3 - u1^3) / (6 (u2 - u1))` whenever `u1 != u2`, the mean over the segment
between `u1` and `u2` of the Burgers flux `u^2 / 2` (over the reals, the integral
divided by `u2 - u1`), and it is the value `u^2 / 2` of `BurgersFlux::ComputeFlux`
when `u1 = u2 = u`; `ComputeAvgFluxDotN` writes that value times the sum of the
components of the normal. -/
theorem C36_burgers_average {K : Type} [LinearOrderedField K] (dim : Nat)
    (U1 U2 normal FDotN : Nat → K) (FU : Nat × Nat → K) :
    (∀ d, d < dim → (BurgersFlux.ComputeAvgFlux dim U1 U2 FU).2 (0, d)
        = (U1 0 ^ 2 + U1 0 * U2 0 + U2 0 ^ 2) / 6)
    ∧ (U1 0 ≠ U2 0 → (U1 0 ^ 2 + U1 0 * U2 0 + U2 0 ^ 2) / 6
        = (U2 0 ^ 3 - U1 0 ^ 3) / (6 * (U2 0 - U1 0)))
    ∧ (∀ d, d < dim → (BurgersFlux.ComputeFlux dim U1 FU).2 (0, d) = U1 0 ^ 2 / 2)
    ∧ (U1 0 = U2 0 → ∀ d, d < dim → (BurgersFlux.ComputeAvgFlux dim U1 U2 FU).2 (0, d)
        = (BurgersFlux.ComputeFlux dim U1 FU).2 (0, d))
    ∧ (BurgersFlux.ComputeAvgFluxDotN dim U1 U2 normal FDotN).2 0
        = (U1 0 ^ 2 + U1 0 * U2 0 + U2 0 ^ 2) / 6 * vectorSum dim normal
    ∧ (∀ u1 u2 : ℝ, u1 ≠ u2 → ∀ (V1 V2 : Nat → ℝ) (F : Nat × Nat → ℝ), V1 0 = u1 →
        V2 0 = u2 → ∀ d, d < dim →
        (BurgersFlux.ComputeAvgFlux dim V1 V2 F).2 (0, d)
          = (∫ u in u1..u2, u ^ 2 / 2) / (u2 - u1)) := by
  have h05 : (0.5 : K) = 1 / 2 := by norm_num
  have hassign : ∀ (c : K) (d : Nat), d < dim → DenseMatrix.assign 1 dim c FU (0, d) = c := by
    intro c d hd
    unfold DenseMatrix.assign
    rw [if_pos ⟨Nat.zero_lt_one, hd⟩]
  have hmean : ∀ a b : K, a ≠ b →
      (a ^ 2 + a * b + b ^ 2) / 6 = (b ^ 3 - a ^ 3) / (6 * (b - a)) := by
    intro a b hab
    have hne : b - a ≠ 0 := sub_ne_zero.2 (Ne.symm hab)
    field_simp
    ring
  refine ⟨fun d hd => ?_, hmean _ _, fun d hd => ?_, fun h d hd => ?_, ?_, ?_⟩
  · unfold BurgersFlux.ComputeAvgFlux
    dsimp only
    rw [hassign _ d hd]
    ring
  · unfold BurgersFlux.ComputeFlux
    dsimp only
    rw [hassign _ d hd, h05]
    ring
  · unfold BurgersFlux.ComputeAvgFlux BurgersFlux.ComputeFlux
    dsimp only
    rw [hassign _ d hd, hassign _ d hd, h05, h]
    ring
  · unfold BurgersFlux.ComputeAvgFluxDotN
    dsimp only
    rw [Function.update_same]
    ring
  · intro u1 u2 hne V1 V2 F h1 h2 d hd
    have hne' : u2 - u1 ≠ 0 := sub_ne_zero.2 (Ne.symm hne)
    unfold BurgersFlux.ComputeAvgFlux DenseMatrix.assign
    dsimp only
    rw [if_pos ⟨Nat.zero_lt_one, hd⟩, h1, h2, intervalIntegral.integral_div, integral_pow]
    field_simp
    ring

/-- C35: `RusanovFlux::Eval` writes, for every equation `i`,
`flux[i] = 1/2 (F1n[i] + F2n[i]) + 1/2 max(s1, s2) |n| (state1[i] - state2[i])`,
where `F1n`, `F2n`, `s1`, `s2` are the normal fluxes and speeds returned by
`ComputeFluxDotN` for `state1` and `state2`, and returns `max(s1, s2)`; the other
entries of `flux` are kept.  The numerical flux is consistent: when the two states
agree (and with them their normal fluxes) the result is that normal flux. -/
theorem C35_rusanov_flux {K : Type} [LinearOrderedField K] (sqrt : K → K)
    (num_equations dim : Nat)
    (ComputeFluxDotN : (Nat → K) → (Nat → K) → (Nat → K) → Except FluxError (K × (Nat → K)))
    (state1 state2 nor fluxN1 fluxN2 flux : Nat → K) (s1 s2 : K) (F1n F2n : Nat → K)
    (h1 : ComputeFluxDotN state1 nor fluxN1 = Except.ok (s1, F1n))
    (h2 : ComputeFluxDotN state2 nor fluxN2 = Except.ok (s2, F2n)) :
    ∃ out : Nat → K,
      RusanovFlux.Eval sqrt num_equations dim ComputeFluxDotN state1 state2 nor fluxN1 fluxN2
          flux = Except.ok (max s1 s2, out)
      ∧ (∀ i, i < num_equations → out i
          = 1 / 2 * (F1n i + F2n i)
            + 1 / 2 * max s1 s2 * Norml2 sqrt dim nor * (state1 i - state2 i))
      ∧ (∀ i, num_equations ≤ i → out i = flux i)
      ∧ ((∀ i, i < num_equations → state1 i = state2 i) →
          (∀ i, i < num_equations → F1n i = F2n i) →
          ∀ i, i < num_equations → out i = F1n i) := by
  have h05 : (0.5 : K) = 1 / 2 := by norm_num
  refine ⟨_, RusanovFlux.Eval_eq sqrt num_equations dim ComputeFluxDotN state1 state2 nor
    fluxN1 fluxN2 flux s1 s2 F1n F2n h1 h2, fun i hi => ?_, fun i hi => ?_,
    fun hs hF i hi => ?_⟩
  · rw [if_pos hi, h05]
    ring
  · rw [if_neg (Nat.not_lt.2 hi)]
  · rw [if_pos hi, h05, hs i hi, hF i hi]
    ring

theorem C35_rusanov_flux_witness :
    (fun U n F => Except.ok (BurgersFlux.ComputeFluxDotN 2 U n F) :
        (Nat → ℝ) → (Nat → ℝ) → (Nat → ℝ) → Except FluxError (ℝ × (Nat → ℝ)))
        (fun _ => 2) (fun _ => 1) (fun _ => 0)
      = Except.ok ((BurgersFlux.ComputeFluxDotN 2 (fun _ => (2 : ℝ)) (fun _ => 1) (fun _ => 0)).1,
          (BurgersFlux.ComputeFluxDotN 2 (fun _ => (2 : ℝ)) (fun _ => 1) (fun _ => 0)).2)
    ∧ (fun U n F => Except.ok (BurgersFlux.ComputeFluxDotN 2 U n F) :
        (Nat → ℝ) → (Nat → ℝ) → (Nat → ℝ) → Except FluxError (ℝ × (Nat → ℝ)))
        (fun _ => 1) (fun _ => 1) (fun _ => 0)
      = Except.ok ((BurgersFlux.ComputeFluxDotN 2 (fun _ => (1 : ℝ)) (fun _ => 1) (fun _ => 0)).1,
          (BurgersFlux.ComputeFluxDotN 2 (fun _ => (1 : ℝ)) (fun _ => 1) (fun _ => 0)).2)
    ∧ ∃ out : Nat → ℝ,
      RusanovFlux.Eval Real.sqrt 1 2
          (fun U n F => Except.ok (BurgersFlux.ComputeFluxDotN 2 U n F))
          (fun _ => 2) (fun _ => 1) (fun _ => 1) (fun _ => 0) (fun _ => 0) (fun _ => 0)
        = Except.ok
          (max (BurgersFlux.ComputeFluxDotN 2 (fun _ => (2 : ℝ)) (fun _ => 1) (fun _ => 0)).1
            (BurgersFlux.ComputeFluxDotN 2 (fun _ => (1 : ℝ)) (fun _ => 1) (fun _ => 0)).1, out)
      ∧ (∀ i, i < 1 → out i
          = 1 / 2 * ((BurgersFlux.ComputeFluxDotN 2 (fun _ => (2 : ℝ)) (fun _ => 1)
                (fun _ => 0)).2 i
              + (BurgersFlux.ComputeFluxDotN 2 (fun _ => (1 : ℝ)) (fun _ => 1) (fun _ => 0)).2 i)
            + 1 / 2
              * max (BurgersFlux.ComputeFluxDotN 2 (fun _ => (2 : ℝ)) (fun _ => 1)
                  (fun _ => 0)).1
                (BurgersFlux.ComputeFluxDotN 2 (fun _ => (1 : ℝ)) (fun _ => 1) (fun _ => 0)).1
              * Norml2 Real.sqrt 2 (fun _ => (1 : ℝ))
              * ((fun _ => (2 : ℝ)) i - (fun _ => (1 : ℝ)) i))
      ∧ (∀ i, 1 ≤ i → out i = (fun _ => (0 : ℝ)) i)
      ∧ ((∀ i, i < 1 → (fun _ => (2 : ℝ)) i = (fun _ => (1 : ℝ)) i) →
          (∀ i, i < 1 →
            (BurgersFlux.ComputeFluxDotN 2 (fun _ => (2 : ℝ)) (fun _ => 1) (fun _ => 0)).2 i
              = (BurgersFlux.ComputeFluxDotN 2 (fun _ => (1 : ℝ)) (fun _ => 1)
                  (fun _ => 0)).2 i) →
          ∀ i, i < 1 → out i
            = (BurgersFlux.ComputeFluxDotN 2 (fun _ => (2 : ℝ)) (fun _ => 1)
                (fun _ => 0)).2 i) :=
  ⟨rfl, rfl,
    C35_rusanov_flux Real.sqrt 1 2 (fun U n F => Except.ok (BurgersFlux.ComputeFluxDotN 2 U n F))
      (fun _ => 2) (fun _ => 1) (fun _ => 1) (fun _ => 0) (fun _ => 0) (fun _ => 0) _ _ _ _
      rfl rfl⟩

/-- C34: for a state `U` of non-zero density and a normal `n`, the vector that the
specialised `EulerFlux::ComputeFluxDotN` leaves in `FUdotN` is the one that the
generic `FluxFunction::ComputeFluxDotN` leaves there, i.e. the flux matrix written by
`EulerFlux::ComputeFlux` times `n` (in either build, and also when an assertion of a
debug build stops both calls before they write).  When the assertions let the state
through, `EulerFlux::ComputeFlux` returns its matrix and the vector has the entries
`m . n`, `m_i (m . n) / rho + p n_i` and `(m . n) (E + p) / rho`, with the pressure
`p = (gamma - 1) (E - |m|^2 / (2 rho))`. -/
theorem C34_normal_flux_agrees {K : Type} [LinearOrderedField K] (debug : Bool)
    (sqrt : K → K) (dim : Nat) (γ : K) (U normal FUdotN : Nat → K) (flux : Nat × Nat → K)
    (hρ : U 0 ≠ 0) :
    (EulerFlux.ComputeFluxDotN debug sqrt dim γ U normal FUdotN).1
        = (FluxFunction.ComputeFluxDotN (dim + 2) dim (EulerFlux.ComputeFluxIn debug sqrt dim γ)
            U normal FUdotN flux).1
    ∧ (EulerFlux.admits debug dim γ U →
      (∃ (val : K) (out : Nat × Nat → K),
        EulerFlux.ComputeFluxIn debug sqrt dim γ U flux = Except.ok (val, out)
        ∧ (EulerFlux.ComputeFluxDotN debug sqrt dim γ U normal FUdotN).1
          = DenseMatrix.Mult (dim + 2) dim out normal FUdotN)
      ∧ (EulerFlux.ComputeFluxDotN debug sqrt dim γ U normal FUdotN).1 0
        = dot dim (fun d => U (1 + d)) normal
      ∧ (∀ i, i < dim →
        (EulerFlux.ComputeFluxDotN debug sqrt dim γ U normal FUdotN).1 (1 + i)
          = U (1 + i) * dot dim (fun d => U (1 + d)) normal / U 0
            + EulerFlux.pressure dim γ U * normal i)
      ∧ (EulerFlux.ComputeFluxDotN debug sqrt dim γ U normal FUdotN).1 (1 + dim)
        = dot dim (fun d => U (1 + d)) normal * (U (1 + dim) + EulerFlux.pressure dim γ U)
          / U 0
      ∧ (∀ r, dim + 2 ≤ r →
        (EulerFlux.ComputeFluxDotN debug sqrt dim γ U normal FUdotN).1 r = FUdotN r)
      ∧ EulerFlux.pressure dim γ U
        = (γ - 1) * (U (1 + dim)
          - dot dim (fun d => U (1 + d)) (fun d => U (1 + d)) / (2 * U 0))) := by
  rcases eulerFlux_checks debug (U 0) (EulerFlux.pressure dim γ U) (U (1 + dim))
    with ⟨h1, h2, h3⟩ | ⟨hd, hnot, err, herr⟩
  · obtain ⟨val, out, hout, hent⟩ :=
      EulerFlux.ComputeFluxIn_written debug sqrt dim γ U flux hρ h1 h2 h3
    have hw := EulerFlux.ComputeFluxDotN_written debug sqrt dim γ U normal FUdotN hρ h1 h2 h3
    have key : (EulerFlux.ComputeFluxDotN debug sqrt dim γ U normal FUdotN).1
        = DenseMatrix.Mult (dim + 2) dim out normal FUdotN := by
      funext r
      rw [hw r, eulerFlux_mult dim U normal FUdotN _ flux out hent r]
    refine ⟨?_, fun _ => ⟨⟨val, out, hout, key⟩, ?_, fun i hi => ?_, ?_, fun r hr => ?_, ?_⟩⟩
    · unfold FluxFunction.ComputeFluxDotN
      rw [hout]
      exact key
    · rw [hw 0, if_pos rfl]
    · rw [hw (1 + i), if_neg (by omega), if_pos (by omega), Nat.add_sub_cancel_left]
      ring
    · rw [hw (1 + dim), if_neg (by omega), if_neg (by omega), if_pos rfl]
      ring
    · rw [hw r, if_neg (by omega), if_neg (by omega), if_neg (by omega)]
    · unfold EulerFlux.pressure
      have h05 : (0.5 : K) = 1 / 2 := by norm_num
      have h10 : (1.0 : K) = 1 := by norm_num
      rw [h05, h10]
      field_simp
  · refine ⟨?_, fun hadm => absurd (hadm hd) hnot⟩
    rw [EulerFlux.ComputeFluxDotN_stopped debug sqrt dim γ U normal FUdotN hρ err herr]
    unfold FluxFunction.ComputeFluxDotN
    rw [EulerFlux.ComputeFluxIn_stopped debug sqrt dim γ U flux hρ err herr]

theorem C34_normal_flux_agrees_witness :
    (exampleEulerState 0 : ℝ) ≠ 0
    ∧ EulerFlux.admits true 2 (2 : ℝ) exampleEulerState
    ∧ ((EulerFlux.ComputeFluxDotN true Real.sqrt 2 (2 : ℝ) exampleEulerState (fun _ => 1) (fun _ => 0)).1
          = (FluxFunction.ComputeFluxDotN (2 + 2) 2 (EulerFlux.ComputeFluxIn true Real.sqrt 2 (2 : ℝ))
              exampleEulerState (fun _ => 1) (fun _ => 0) (fun _ => 0)).1
      ∧ (EulerFlux.admits true 2 (2 : ℝ) exampleEulerState →
        (∃ (val : ℝ) (out : Nat × Nat → ℝ),
          EulerFlux.ComputeFluxIn true Real.sqrt 2 (2 : ℝ) exampleEulerState (fun _ => 0) = Except.ok (val, out)
          ∧ (EulerFlux.ComputeFluxDotN true Real.sqrt 2 (2 : ℝ) exampleEulerState (fun _ => 1) (fun _ => 0)).1
            = DenseMatrix.Mult (2 + 2) 2 out (fun _ => (1 : ℝ)) (fun _ => 0))
        ∧ (EulerFlux.ComputeFluxDotN true Real.sqrt 2 (2 : ℝ) exampleEulerState (fun _ => 1) (fun _ => 0)).1 0
          = dot 2 (fun d => (exampleEulerState (1 + d) : ℝ)) (fun _ => 1)
        ∧ (∀ i, i < 2 →
          (EulerFlux.ComputeFluxDotN true Real.sqrt 2 (2 : ℝ) exampleEulerState (fun _ => 1) (fun _ => 0)).1 (1 + i)
            = (exampleEulerState (1 + i) : ℝ) * dot 2 (fun d => (exampleEulerState (1 + d) : ℝ)) (fun _ => 1) / (exampleEulerState 0 : ℝ)
              + EulerFlux.pressure 2 (2 : ℝ) exampleEulerState * 1)
        ∧ (EulerFlux.ComputeFluxDotN true Real.sqrt 2 (2 : ℝ) exampleEulerState (fun _ => 1) (fun _ => 0)).1 (1 + 2)
          = dot 2 (fun d => (exampleEulerState (1 + d) : ℝ)) (fun _ => 1) * ((exampleEulerState (1 + 2) : ℝ) + EulerFlux.pressure 2 (2 : ℝ) exampleEulerState)
            / (exampleEulerState 0 : ℝ)
        ∧ (∀ r, 2 + 2 ≤ r →
          (EulerFlux.ComputeFluxDotN true Real.sqrt 2 (2 : ℝ) exampleEulerState (fun _ => 1) (fun _ => 0)).1 r = 0)
        ∧ EulerFlux.pressure 2 (2 : ℝ) exampleEulerState
          = ((2 : ℝ) - 1) * ((exampleEulerState (1 + 2) : ℝ)
            - dot 2 (fun d => (exampleEulerState (1 + d) : ℝ)) (fun d => exampleEulerState (1 + d)) / (2 * (exampleEulerState 0 : ℝ))))) :=
  ⟨by norm_num [exampleEulerState],
    fun _ => by
      norm_num [EulerFlux.pressure, dot, exampleEulerState, Finset.sum_range_succ],
    C34_normal_flux_agrees true Real.sqrt 2 2 exampleEulerState (fun _ => 1) (fun _ => 0)
      (fun _ => 0) (by norm_num [exampleEulerState])⟩

/-- C38: in `Static1dThreadLayout<BatchSize, DimX, Dims...>` the first dimension is
the threaded one and the others are serial.  Called with the x index of the calling
thread as first index, `index` returns `0` in the class of rank one and
`StaticLayout<Dims...>::index(idx...)` in the class of higher rank, so the result
does not depend on the first index; with another first index the assertion stops
the call.  `Size<N>()` is the entry `N` of `(DimX, Dims...)`, and is rejected for `N`
out of range.  The capacity is `BatchSize` for rank one and `BatchSize` times the
product of `Dims...` (without `DimX`) otherwise, whatever `DimX` is. -/
theorem C38_threaded_first_dimension (threadIdX BatchSize DimX : Int) (Dims : List Int)
    (layoutIndex : List Int → Except String Int) (idx : List Int) :
    Static1dThreadLayout.index threadIdX [] layoutIndex threadIdX idx = Except.ok 0
    ∧ (Dims ≠ [] →
      Static1dThreadLayout.index threadIdX Dims layoutIndex threadIdX idx = layoutIndex idx)
    ∧ (∀ t : Int, Static1dThreadLayout.index t Dims layoutIndex t idx
        = Static1dThreadLayout.index threadIdX Dims layoutIndex threadIdX idx)
    ∧ (∀ idx0, idx0 ≠ threadIdX →
      Static1dThreadLayout.index threadIdX Dims layoutIndex idx0 idx
        = Except.error msgFirstIndex)
    ∧ (∀ (N : Nat) (h : N < (DimX :: Dims).length),
      Static1dThreadLayout.Size DimX Dims N = Except.ok ((DimX :: Dims).get ⟨N, h⟩))
    ∧ (∀ N : Int, (N < 0 ∨ ((DimX :: Dims).length : Int) ≤ N) →
      Static1dThreadLayout.Size DimX Dims N = Except.error msgAccessed)
    ∧ Static1dThreadLayout.get_layout_capacity BatchSize DimX [] = constInt BatchSize
    ∧ (Dims ≠ [] → fitsInt BatchSize → fitsInt Dims.prod →
      Static1dThreadLayout.get_layout_capacity BatchSize DimX Dims
        = constInt (BatchSize * Dims.prod))
    ∧ (∀ DimX2 : Int, Static1dThreadLayout.get_layout_capacity BatchSize DimX2 Dims
        = Static1dThreadLayout.get_layout_capacity BatchSize DimX Dims) := by
  have hidx : ∀ t : Int, Static1dThreadLayout.index t Dims layoutIndex t idx
      = match Dims with
        | [] => Except.ok 0
        | _ :: _ => layoutIndex idx := by
    intro t
    cases Dims <;> simp [Static1dThreadLayout.index, assertKernel, bind, Except.bind, pure,
      Except.pure]
  refine ⟨?_, fun hD => ?_, fun t => ?_, fun idx0 h0 => ?_, fun N h => ?_, fun N hN => ?_, rfl,
    fun hD hB hP => ?_, fun DimX2 => ?_⟩
  · simp [Static1dThreadLayout.index, assertKernel, bind, Except.bind, pure, Except.pure]
  · rw [hidx]
    cases Dims with
    | nil => exact absurd rfl hD
    | cons d ds => rfl
  · rw [hidx, hidx]
  · cases Dims <;> simp [Static1dThreadLayout.index, assertKernel, h0, bind, Except.bind]
  · cases Dims with
    | nil =>
      have hN0 : N = 0 := by simpa using h
      subst hN0
      rfl
    | cons d ds =>
      have hc : (decide ((N : Int) ≥ 0 ∧ (N : Int) < packRank (DimX :: d :: ds))) = true := by
        rw [decide_eq_true_iff]
        unfold packRank
        exact ⟨Int.natCast_nonneg N, by exact_mod_cast h⟩
      unfold Static1dThreadLayout.Size
      simp only [hc, assertKernel, bind, Except.bind, pure, Except.pure, if_true]
      unfold get_value
      rw [Int.toNat_natCast, List.getD_eq_getElem _ _ h]
      rfl
  · have hlen : ((DimX :: Dims).length : Int) = 1 + Dims.length := by
      rw [List.length_cons]
      push_cast
      ring
    cases Dims with
    | nil =>
      have hc : decide (N = 0) = false := by
        rw [decide_eq_false_iff_not]
        rcases hN with h | h
        · omega
        · simp at h
          omega
      unfold Static1dThreadLayout.Size
      simp only [hc, assertKernel, bind, Except.bind]
      rfl
    | cons d ds =>
      have hc : (decide (N ≥ 0 ∧ N < packRank (DimX :: d :: ds))) = false := by
        rw [decide_eq_false_iff_not]
        unfold packRank
        rcases hN with h | h
        · exact fun hh => absurd hh.1 (by omega)
        · exact fun hh => absurd hh.2 (not_lt.2 h)
      unfold Static1dThreadLayout.Size
      simp only [hc, assertKernel, bind, Except.bind]
      rfl
  · cases Dims with
    | nil => exact absurd rfl hD
    | cons d ds =>
      unfold Static1dThreadLayout.get_layout_capacity constInt
      simp only [if_pos hB, packProd, if_pos hP]
      rfl
  · cases Dims <;> rfl

end Claims

end Mfem
